import Mathlib

/-!
# SCLOX: scanner, single-pass compiler and bytecode VM

A shallow embedding of `scanner.c`, `compiler.c`, `chunk.c`, `value.c` and `vm.c`.

Conventions of the embedding.

* C `char` buffers are lists of byte codes (`List Nat`); a pointer into a
  NUL-terminated buffer is the list of bytes from the pointer up to the
  terminator.
* The process-wide singletons (`scanner`, `parser`, `current`, `currentClass`,
  `vm`) are the fields of one state record `St`, threaded through every call.
* Heap objects live in `VM.heap`; an object pointer is its index.  Objects are
  only ever allocated (the collector is a collaborator outside this model).
* `exit(..)` and memory-unsafe steps end the computation with `Res.exit` and
  `Res.undefinedBehaviour`.  Recursion is bounded by a fuel argument; running
  out of it is `Res.outOfFuel`.
* The tracing `printf` calls are not modelled.  The modelled output is the
  event log `St.log`: values printed by `OP_PRINT`, the `Error: ..` line of
  `error`, the `[line n] Error` header of `errorAt` and the message of
  `runtimeError` with the line-table lookups of its backtrace.
-/

namespace Sclox

/-! ## Tokens (scanner.h) -/

/-- The token kinds named by `scanner.c` and the rule table of `compiler.c`.
`UNINITIALIZED` stands for the indeterminate `type` field of a token built by
`syntheticToken`, which never assigns it. -/
inductive TokenType where
  | TOKEN_LEFT_PAREN | TOKEN_RIGHT_PAREN | TOKEN_LEFT_BRACE | TOKEN_RIGHT_BRACE
  | TOKEN_COMMA | TOKEN_DOT | TOKEN_MINUS | TOKEN_PLUS | TOKEN_SEMICOLON | TOKEN_COLON
  | TOKEN_SLASH | TOKEN_STAR
  | TOKEN_BANG | TOKEN_BANG_EQUAL | TOKEN_EQUAL | TOKEN_EQUAL_EQUAL
  | TOKEN_GREATER | TOKEN_GREATER_EQUAL | TOKEN_LESS | TOKEN_LESS_EQUAL
  | TOKEN_IDENTIFIER | TOKEN_STRING | TOKEN_INT | TOKEN_FLOAT
  | TOKEN_STRING_LITERAL | TOKEN_INT_LITERAL | TOKEN_FLOAT_LITERAL
  | TOKEN_AND | TOKEN_CLASS | TOKEN_ELSE | TOKEN_FALSE | TOKEN_FOR | TOKEN_FUN | TOKEN_IF
  | TOKEN_NIL | TOKEN_OR | TOKEN_PRINT | TOKEN_RETURN | TOKEN_SUPER | TOKEN_THIS
  | TOKEN_TRUE | TOKEN_WHILE | TOKEN_ERROR | TOKEN_EOF
  | UNINITIALIZED
  deriving DecidableEq, Repr

/-- Modelled from the spec: the declaration of `enum TokenType` (scanner.h) is
not among the sources.  The numbering follows the order in which the rule
table of `compiler.c` lists the kinds (punctuation first, then the one- and
two-character operators, identifiers and literals, keywords, `ERROR`, `EOF`).
It is read only where the C code uses a token kind as an integer: the
`switch` of `namedVariable` and `exit(TOKEN_ERROR)`.  An indeterminate kind
has no number. -/
def TokenType.code : TokenType → Option Nat
  | .TOKEN_LEFT_PAREN => some 0 | .TOKEN_RIGHT_PAREN => some 1
  | .TOKEN_LEFT_BRACE => some 2 | .TOKEN_RIGHT_BRACE => some 3
  | .TOKEN_COMMA => some 4 | .TOKEN_DOT => some 5 | .TOKEN_MINUS => some 6
  | .TOKEN_PLUS => some 7 | .TOKEN_SEMICOLON => some 8 | .TOKEN_COLON => some 9
  | .TOKEN_SLASH => some 10 | .TOKEN_STAR => some 11 | .TOKEN_BANG => some 12
  | .TOKEN_BANG_EQUAL => some 13 | .TOKEN_EQUAL => some 14 | .TOKEN_EQUAL_EQUAL => some 15
  | .TOKEN_GREATER => some 16 | .TOKEN_GREATER_EQUAL => some 17 | .TOKEN_LESS => some 18
  | .TOKEN_LESS_EQUAL => some 19 | .TOKEN_IDENTIFIER => some 20 | .TOKEN_STRING => some 21
  | .TOKEN_INT => some 22 | .TOKEN_FLOAT => some 23 | .TOKEN_STRING_LITERAL => some 24
  | .TOKEN_INT_LITERAL => some 25 | .TOKEN_FLOAT_LITERAL => some 26 | .TOKEN_AND => some 27
  | .TOKEN_CLASS => some 28 | .TOKEN_ELSE => some 29 | .TOKEN_FALSE => some 30
  | .TOKEN_FOR => some 31 | .TOKEN_FUN => some 32 | .TOKEN_IF => some 33
  | .TOKEN_NIL => some 34 | .TOKEN_OR => some 35 | .TOKEN_PRINT => some 36
  | .TOKEN_RETURN => some 37 | .TOKEN_SUPER => some 38 | .TOKEN_THIS => some 39
  | .TOKEN_TRUE => some 40 | .TOKEN_WHILE => some 41 | .TOKEN_ERROR => some 42
  | .TOKEN_EOF => some 43
  | .UNINITIALIZED => none

/-- A token: `start` is the buffer from the token's first byte on (the rest of
the source for a scanned token, the text itself for a message or a synthetic
token). -/
structure Token where
  type : TokenType
  start : List Nat
  length : Nat
  line : Nat
  deriving DecidableEq, Repr

/-- The bytes of a token: `length` bytes from `start`. -/
def Token.lexeme (t : Token) : List Nat := t.start.take t.length

/-- The byte codes of a text. -/
def bytes (s : String) : List Nat := s.toList.map Char.toNat

/-! ## Scanner (scanner.c) -/

structure Scanner where
  source : List Nat
  start : Nat
  current : Nat
  line : Nat
  deriving DecidableEq, Repr

def initScanner (source : List Nat) : Scanner :=
  { source := source, start := 0, current := 0, line := 1 }

def isAlpha (c : Nat) : Bool :=
  (97 ≤ c && c ≤ 122) || (65 ≤ c && c ≤ 90) || c == 95

def isDigit (c : Nat) : Bool := 48 ≤ c && c ≤ 57

/-- The byte at offset `i`; the terminator and everything behind it read 0. -/
def Scanner.at (sc : Scanner) (i : Nat) : Nat := sc.source.getD i 0

def Scanner.peek (sc : Scanner) : Nat := sc.at sc.current

def Scanner.isAtEnd (sc : Scanner) : Bool := sc.peek == 0

/-- The scanner after `advance()`; the byte it returns is `sc.peek`. -/
def Scanner.advance (sc : Scanner) : Scanner := { sc with current := sc.current + 1 }

def Scanner.peekNext (sc : Scanner) : Nat :=
  if sc.isAtEnd then 0 else sc.at (sc.current + 1)

/-- The scanner's own `match(expected)`: whether it matched, and the scanner. -/
def Scanner.matchChar (sc : Scanner) (expected : Nat) : Bool × Scanner :=
  if sc.isAtEnd then (false, sc)
  else if sc.peek ≠ expected then (false, sc)
  else (true, sc.advance)

def makeToken (sc : Scanner) (type : TokenType) : Token :=
  { type := type, start := sc.source.drop sc.start,
    length := sc.current - sc.start, line := sc.line }

def errorToken (sc : Scanner) (message : String) : Token :=
  { type := .TOKEN_ERROR, start := bytes message, length := (bytes message).length,
    line := sc.line }

/-- The inner loop of a `//` comment: `while (peek() != '\n' && !isAtEnd()) advance();`. -/
def skipComment : Nat → Scanner → Scanner
  | 0, sc => sc
  | n + 1, sc =>
    if sc.peek ≠ 10 && !sc.isAtEnd then skipComment n sc.advance else sc

/-- The `for (;;)` of `skipWhitespace`, at most `n` rounds. -/
def skipWhitespaceLoop : Nat → Scanner → Scanner
  | 0, sc => sc
  | n + 1, sc =>
    let c := sc.peek
    if c = 32 ∨ c = 13 ∨ c = 9 then skipWhitespaceLoop n sc.advance
    else if c = 10 then skipWhitespaceLoop n { sc.advance with line := sc.line + 1 }
    else if c = 47 then
      if sc.peekNext = 47 then
        skipWhitespaceLoop n (skipComment (sc.source.length + 1 - sc.current) sc)
      else sc
    else sc

def skipWhitespace (sc : Scanner) : Scanner :=
  skipWhitespaceLoop (sc.source.length + 1 - sc.current) sc

def checkKeyword (sc : Scanner) (start length : Nat) (rest : String) (type : TokenType) :
    TokenType :=
  if sc.current - sc.start = start + length
      ∧ (sc.source.drop (sc.start + start)).take length = bytes rest then type
  else .TOKEN_IDENTIFIER

def identifierType (sc : Scanner) : TokenType :=
  let c0 := sc.at sc.start
  let c1 := sc.at (sc.start + 1)
  let long := decide (sc.current - sc.start > 1)
  if c0 = 97 then checkKeyword sc 1 2 "nd" .TOKEN_AND
  else if c0 = 99 then checkKeyword sc 1 4 "lass" .TOKEN_CLASS
  else if c0 = 101 then checkKeyword sc 1 3 "lse" .TOKEN_ELSE
  else if c0 = 102 then
    if long then
      if c1 = 97 then checkKeyword sc 2 3 "lse" .TOKEN_FALSE
      else if c1 = 111 then checkKeyword sc 2 1 "r" .TOKEN_FOR
      else if c1 = 117 then checkKeyword sc 2 1 "n" .TOKEN_FUN
      else if c1 = 108 then checkKeyword sc 2 3 "oat" .TOKEN_FLOAT
      else .TOKEN_IDENTIFIER
    else .TOKEN_IDENTIFIER
  else if c0 = 105 then
    if long then
      if c1 = 102 then checkKeyword sc 2 0 "" .TOKEN_IF
      else if c1 = 110 then checkKeyword sc 2 1 "t" .TOKEN_INT
      else .TOKEN_IDENTIFIER
    else .TOKEN_IDENTIFIER
  else if c0 = 110 then checkKeyword sc 1 2 "il" .TOKEN_NIL
  else if c0 = 111 then checkKeyword sc 1 1 "r" .TOKEN_OR
  else if c0 = 112 then checkKeyword sc 1 4 "rint" .TOKEN_PRINT
  else if c0 = 114 then checkKeyword sc 1 5 "eturn" .TOKEN_RETURN
  else if c0 = 115 then
    if long then
      if c1 = 117 then checkKeyword sc 2 3 "per" .TOKEN_SUPER
      else if c1 = 116 then checkKeyword sc 2 4 "ring" .TOKEN_STRING
      else .TOKEN_IDENTIFIER
    else .TOKEN_IDENTIFIER
  else if c0 = 116 then
    if long then
      if c1 = 104 then checkKeyword sc 2 2 "is" .TOKEN_THIS
      else if c1 = 114 then checkKeyword sc 2 2 "ue" .TOKEN_TRUE
      else .TOKEN_IDENTIFIER
    else .TOKEN_IDENTIFIER
  else if c0 = 119 then checkKeyword sc 1 4 "hile" .TOKEN_WHILE
  else .TOKEN_IDENTIFIER

/-- The loop `while (isAlpha(peek()) || isDigit(peek())) advance();`. -/
def identifierLoop : Nat → Scanner → Scanner
  | 0, sc => sc
  | n + 1, sc =>
    if isAlpha sc.peek || isDigit sc.peek then identifierLoop n sc.advance else sc

def identifier (sc : Scanner) : Token × Scanner :=
  let sc1 := identifierLoop (sc.source.length + 1 - sc.current) sc
  (makeToken sc1 (identifierType sc1), sc1)

/-- The loop `while (isDigit(peek())) advance();`. -/
def digitLoop : Nat → Scanner → Scanner
  | 0, sc => sc
  | n + 1, sc => if isDigit sc.peek then digitLoop n sc.advance else sc

def number (sc : Scanner) : Token × Scanner :=
  let sc1 := digitLoop (sc.source.length + 1 - sc.current) sc
  if sc1.peek = 46 ∧ isDigit sc1.peekNext then
    let sc2 := digitLoop (sc1.source.length + 1 - sc1.current) sc1.advance
    (makeToken sc2 .TOKEN_FLOAT_LITERAL, sc2)
  else (makeToken sc1 .TOKEN_INT_LITERAL, sc1)

/-- The loop of `string`: `while (peek() != '"' && !isAtEnd()) {..; advance();}`. -/
def stringLoop : Nat → Scanner → Scanner
  | 0, sc => sc
  | n + 1, sc =>
    if sc.peek ≠ 34 && !sc.isAtEnd then
      let sc1 := if sc.peek = 10 then { sc with line := sc.line + 1 } else sc
      stringLoop n sc1.advance
    else sc

/-- The scanner's `string()`.  It starts with an `advance()` of its own, after
the opening quote was already consumed by `scanToken`.  The heap copy stored in
`token.value.string_value` is read by nobody and is left out. -/
def string (sc : Scanner) : Token × Scanner :=
  let sc1 := sc.advance
  let sc2 := stringLoop (sc1.source.length + 1 - sc1.current) sc1
  if sc2.isAtEnd then (errorToken sc2 "Unterminated string.", sc2)
  else
    let sc3 := sc2.advance
    (makeToken sc3 .TOKEN_STRING_LITERAL, sc3)

def scanToken (sc0 : Scanner) : Token × Scanner :=
  let sc1 := skipWhitespace sc0
  let sc := { sc1 with start := sc1.current }
  if sc.isAtEnd then (makeToken sc .TOKEN_EOF, sc)
  else
    let c := sc.peek
    let sc := sc.advance
    if isAlpha c then identifier sc
    else if isDigit c then number sc
    else if c = 40 then (makeToken sc .TOKEN_LEFT_PAREN, sc)
    else if c = 41 then (makeToken sc .TOKEN_RIGHT_PAREN, sc)
    else if c = 123 then (makeToken sc .TOKEN_LEFT_BRACE, sc)
    else if c = 125 then (makeToken sc .TOKEN_RIGHT_BRACE, sc)
    else if c = 58 then (makeToken sc .TOKEN_COLON, sc)
    else if c = 59 then (makeToken sc .TOKEN_SEMICOLON, sc)
    else if c = 44 then (makeToken sc .TOKEN_COMMA, sc)
    else if c = 46 then (makeToken sc .TOKEN_DOT, sc)
    else if c = 45 then (makeToken sc .TOKEN_MINUS, sc)
    else if c = 43 then (makeToken sc .TOKEN_PLUS, sc)
    else if c = 47 then (makeToken sc .TOKEN_SLASH, sc)
    else if c = 42 then (makeToken sc .TOKEN_STAR, sc)
    else if c = 33 then
      let r := sc.matchChar 61
      (makeToken r.2 (if r.1 then .TOKEN_BANG_EQUAL else .TOKEN_BANG), r.2)
    else if c = 61 then
      let r := sc.matchChar 61
      (makeToken r.2 (if r.1 then .TOKEN_EQUAL_EQUAL else .TOKEN_EQUAL), r.2)
    else if c = 60 then
      let r := sc.matchChar 61
      (makeToken r.2 (if r.1 then .TOKEN_LESS_EQUAL else .TOKEN_LESS), r.2)
    else if c = 62 then
      let r := sc.matchChar 61
      (makeToken r.2 (if r.1 then .TOKEN_GREATER_EQUAL else .TOKEN_GREATER), r.2)
    else if c = 34 then string sc
    else (errorToken sc "Unexpected character.", sc)

/-! ## Values and chunks (value.h, value.c, chunk.h, chunk.c) -/

inductive ValueType where
  | VAL_BOOL | VAL_NIL | VAL_INT | VAL_FLOAT | VAL_OBJ
  deriving DecidableEq, Repr

/-- The integer value of a `ValueType` enumerator (value.h). -/
def ValueType.code : ValueType → Nat
  | .VAL_BOOL => 0 | .VAL_NIL => 1 | .VAL_INT => 2 | .VAL_FLOAT => 3 | .VAL_OBJ => 4

/-- A C floating-point payload, kept symbolic: the result of `strtod` on a
buffer, the float whose bytes are all zero, and the arithmetic done on such
values. -/
inductive FloatVal where
  | strtod (buffer : List Nat)
  | zero
  | add (a b : FloatVal)
  | sub (a b : FloatVal)
  | mul (a b : FloatVal)
  | div (a b : FloatVal)
  | neg (a : FloatVal)
  deriving DecidableEq, Repr

/-- A tagged value; `obj r` points at heap object `r`. -/
inductive Value where
  | bool (b : Bool)
  | nil
  | int (i : Int)
  | float (f : FloatVal)
  | obj (r : Nat)
  deriving DecidableEq, Repr

def Value.type : Value → ValueType
  | .bool _ => .VAL_BOOL | .nil => .VAL_NIL | .int _ => .VAL_INT
  | .float _ => .VAL_FLOAT | .obj _ => .VAL_OBJ

def IS_BOOL (v : Value) : Bool := v.type == .VAL_BOOL
def IS_NIL (v : Value) : Bool := v.type == .VAL_NIL
def IS_INT (v : Value) : Bool := v.type == .VAL_INT
def IS_FLOAT (v : Value) : Bool := v.type == .VAL_FLOAT
def IS_OBJ (v : Value) : Bool := v.type == .VAL_OBJ

def UINT8_MAX : Nat := 255
def UINT8_COUNT : Nat := UINT8_MAX + 1
def UINT16_MAX : Nat := 65535
def INT_MAX : Int := 2147483647
def INT_MIN : Int := -2147483648

/-- Modelled from the spec: `FRAMES_MAX` is defined in vm.h, which is not among
the sources; the spec only calls it the configured maximum of the frame
count.  The value is the customary one and no proof depends on it. -/
def FRAMES_MAX : Nat := 64

/-- Modelled from the spec: `STACK_MAX` (vm.h), the number of slots of the
evaluation stack. -/
def STACK_MAX : Nat := FRAMES_MAX * UINT8_COUNT


/-- A chunk.  `count` is the length of `code`; `lines` is the line table. -/
structure Chunk where
  code : List Nat
  lines : List Nat
  constants : List Value
  deriving DecidableEq, Repr

def Chunk.count (c : Chunk) : Nat := c.code.length

def initChunk : Chunk := { code := [], lines := [], constants := [] }

/-- `writeChunk`: grows `code` when needed and stores the byte.  The function
neither grows nor writes `lines`, and does not use its `line` argument. -/
def writeChunk (chunk : Chunk) (byte : Nat) (_line : Nat) : Chunk :=
  { chunk with code := chunk.code ++ [byte] }

/-- `writeValueArray` on the constant pool. -/
def writeValueArray (chunk : Chunk) (value : Value) : Chunk :=
  { chunk with constants := chunk.constants ++ [value] }

/-! ## Opcodes (chunk.h) -/

inductive OpCode where
  | OP_CONSTANT | OP_CONSTANT_INT | OP_CONSTANT_FLOAT | OP_CONSTANT_STRING
  | OP_NIL | OP_TRUE | OP_FALSE | OP_POP | OP_GET_LOCAL | OP_SET_LOCAL
  | OP_SET_GLOBAL | OP_GET_GLOBAL
  | OP_DEFINE_GLOBAL_INT | OP_DEFINE_GLOBAL_FLOAT | OP_DEFINE_GLOBAL_STRING | OP_DEFINE_GLOBAL
  | OP_GET_GLOBAL_INT | OP_GET_GLOBAL_FLOAT | OP_GET_GLOBAL_STRING
  | OP_SET_GLOBAL_INT | OP_SET_GLOBAL_FLOAT | OP_SET_GLOBAL_STRING
  | OP_GET_UPVALUE | OP_SET_UPVALUE | OP_GET_PROPERTY | OP_SET_PROPERTY | OP_GET_SUPER
  | OP_EQUAL | OP_GREATER | OP_LESS
  | OP_ADD | OP_SUBTRACT | OP_MULTIPLY | OP_DIVIDE
  | OP_ADD_INT | OP_SUBTRACT_INT | OP_MULTIPLY_INT | OP_DIVIDE_INT
  | OP_ADD_FLOAT | OP_SUBTRACT_FLOAT | OP_MULTIPLY_FLOAT | OP_DIVIDE_FLOAT
  | OP_NOT | OP_NEGATE_INT | OP_NEGATE_FLOAT | OP_PRINT
  | OP_JUMP | OP_JUMP_IF_FALSE | OP_LOOP | OP_CALL | OP_INVOKE | OP_SUPER_INVOKE
  | OP_CLOSURE | OP_CLOSE_UPVALUE | OP_RETURN | OP_CLASS | OP_INHERIT | OP_METHOD
  | OP_TYPE_ERROR | OP_CHECK_INT | OP_CHECK_FLOAT | OP_CHECK_STRING | OP_RUNTIME_ERROR
  deriving DecidableEq, Repr

/-- The opcodes in the order of the enumeration. -/
def OpCode.all : List OpCode :=
  [.OP_CONSTANT, .OP_CONSTANT_INT, .OP_CONSTANT_FLOAT, .OP_CONSTANT_STRING,
   .OP_NIL, .OP_TRUE, .OP_FALSE, .OP_POP, .OP_GET_LOCAL, .OP_SET_LOCAL,
   .OP_SET_GLOBAL, .OP_GET_GLOBAL,
   .OP_DEFINE_GLOBAL_INT, .OP_DEFINE_GLOBAL_FLOAT, .OP_DEFINE_GLOBAL_STRING, .OP_DEFINE_GLOBAL,
   .OP_GET_GLOBAL_INT, .OP_GET_GLOBAL_FLOAT, .OP_GET_GLOBAL_STRING,
   .OP_SET_GLOBAL_INT, .OP_SET_GLOBAL_FLOAT, .OP_SET_GLOBAL_STRING,
   .OP_GET_UPVALUE, .OP_SET_UPVALUE, .OP_GET_PROPERTY, .OP_SET_PROPERTY, .OP_GET_SUPER,
   .OP_EQUAL, .OP_GREATER, .OP_LESS,
   .OP_ADD, .OP_SUBTRACT, .OP_MULTIPLY, .OP_DIVIDE,
   .OP_ADD_INT, .OP_SUBTRACT_INT, .OP_MULTIPLY_INT, .OP_DIVIDE_INT,
   .OP_ADD_FLOAT, .OP_SUBTRACT_FLOAT, .OP_MULTIPLY_FLOAT, .OP_DIVIDE_FLOAT,
   .OP_NOT, .OP_NEGATE_INT, .OP_NEGATE_FLOAT, .OP_PRINT,
   .OP_JUMP, .OP_JUMP_IF_FALSE, .OP_LOOP, .OP_CALL, .OP_INVOKE, .OP_SUPER_INVOKE,
   .OP_CLOSURE, .OP_CLOSE_UPVALUE, .OP_RETURN, .OP_CLASS, .OP_INHERIT, .OP_METHOD,
   .OP_TYPE_ERROR, .OP_CHECK_INT, .OP_CHECK_FLOAT, .OP_CHECK_STRING, .OP_RUNTIME_ERROR]

/-- The byte of an opcode: its position in the enumeration. -/
def OpCode.byte (op : OpCode) : Nat := OpCode.all.indexOf op

/-- The opcode a byte decodes to, if any. -/
def OpCode.ofByte (b : Nat) : Option OpCode := OpCode.all.get? b

/-! ## Heap objects (object.h) and tables (table.h) -/

/-- Modelled from the spec: table.c is not among the sources.  A table maps an
interned string (its heap index) to a value. -/
abbrev Table := List (Nat × Value)

/-- Modelled from the spec: `tableGet`, the value bound to a key, if any. -/
def tableGet (t : Table) (key : Nat) : Option Value :=
  match t with
  | [] => none
  | (k, v) :: rest => if k = key then some v else tableGet rest key

/-- Modelled from the spec: `tableSet`, which binds the key (overwriting an
earlier binding). -/
def tableSet (t : Table) (key : Nat) (value : Value) : Table :=
  match t with
  | [] => [(key, value)]
  | (k, v) :: rest => if k = key then (k, value) :: rest else (k, v) :: tableSet rest key value

/-- Modelled from the spec: `tableAddAll(from, to)` copies every binding. -/
def tableAddAll (src dst : Table) : Table :=
  src.foldl (fun acc kv => tableSet acc kv.1 kv.2) dst

structure ObjFunction where
  arity : Nat
  upvalueCount : Nat
  chunk : Chunk
  name : Option Nat
  deriving DecidableEq, Repr

/-- Where an upvalue's `location` points: a stack slot, or its own `closed` cell. -/
inductive UpvalueLocation where
  | stack (slot : Nat)
  | closed
  deriving DecidableEq, Repr

/-- Modelled from the spec: the heap object variants of object.h (not among
the sources), following section 3 of the spec. -/
inductive Obj where
  | string (chars : List Nat)
  | function (f : ObjFunction)
  | native (name : String)
  | closure (function : Nat) (upvalues : List (Option Nat))
  | upvalue (location : UpvalueLocation) (closed : Value) (next : Option Nat)
  | klass (name : Nat) (methods : Table)
  | inst (klass : Nat) (fields : Table)
  | boundMethod (receiver : Value) (method : Nat)
  deriving DecidableEq, Repr

/-- What the model takes as given: the clock read by the native `clock`, the
comparisons of C floating-point numbers (the payloads are symbolic), and the
test `string->type == VAL_OBJ` that `OP_CONSTANT_STRING` makes on the object
it loads (the layout of the object header is declared in object.h, which is
not among the sources). -/
structure Host where
  clock : Int
  floatEq : FloatVal → FloatVal → Bool
  floatGreater : FloatVal → FloatVal → Bool
  floatLess : FloatVal → FloatVal → Bool
  typeFieldIsValObj : Obj → Bool

/-- `valuesEqual` of value.c. -/
def valuesEqual (host : Host) (a b : Value) : Bool :=
  if a.type ≠ b.type then false
  else match a, b with
    | .bool x, .bool y => x == y
    | .nil, _ => true
    | .int x, .int y => x == y
    | .float x, .float y => host.floatEq x y
    | .obj x, .obj y => x == y
    | _, _ => false

structure CallFrame where
  closure : Nat
  ip : Nat
  slots : Nat
  deriving DecidableEq, Repr

/-- The VM singleton.  `stack` holds the slots written so far (every other slot
is still the `NIL_VAL` stored by `initVM`), `frames` the frame records written
so far; `stackTop` and `frameCount` are the live extents. -/
structure VM where
  stack : List Value
  stackTop : Nat
  frames : List CallFrame
  frameCount : Nat
  openUpvalues : Option Nat
  globals : Table
  heap : List Obj
  initString : Nat
  deriving DecidableEq, Repr

/-! ## Compiler records (compiler.c) -/

structure Parser where
  current : Token
  previous : Token
  hadError : Bool
  panicMode : Bool
  currentType : ValueType
  deriving DecidableEq, Repr

inductive Precedence where
  | PREC_NONE | PREC_ASSIGNMENT | PREC_OR | PREC_AND | PREC_EQUALITY | PREC_COMPARISON
  | PREC_TERM | PREC_FACTOR | PREC_UNARY | PREC_CALL | PREC_PRIMARY
  deriving DecidableEq, Repr

def Precedence.code : Precedence → Nat
  | .PREC_NONE => 0 | .PREC_ASSIGNMENT => 1 | .PREC_OR => 2 | .PREC_AND => 3
  | .PREC_EQUALITY => 4 | .PREC_COMPARISON => 5 | .PREC_TERM => 6 | .PREC_FACTOR => 7
  | .PREC_UNARY => 8 | .PREC_CALL => 9 | .PREC_PRIMARY => 10

/-- The cast `(Precedence)(rule->precedence + 1)`; one past `PREC_PRIMARY` is
kept as `PREC_PRIMARY` (no rule has that precedence). -/
def Precedence.next : Precedence → Precedence
  | .PREC_NONE => .PREC_ASSIGNMENT | .PREC_ASSIGNMENT => .PREC_OR | .PREC_OR => .PREC_AND
  | .PREC_AND => .PREC_EQUALITY | .PREC_EQUALITY => .PREC_COMPARISON
  | .PREC_COMPARISON => .PREC_TERM | .PREC_TERM => .PREC_FACTOR | .PREC_FACTOR => .PREC_UNARY
  | .PREC_UNARY => .PREC_CALL | .PREC_CALL => .PREC_PRIMARY | .PREC_PRIMARY => .PREC_PRIMARY

structure Local where
  type : TokenType
  name : Token
  depth : Int
  isCaptured : Bool
  deriving DecidableEq, Repr

structure Upvalue where
  index : Nat
  isLocal : Bool
  deriving DecidableEq, Repr

inductive FunctionType where
  | TYPE_FUNCTION | TYPE_INITIALIZER | TYPE_METHOD | TYPE_SCRIPT
  deriving DecidableEq, Repr

/-- One compiler frame.  `locals` holds the entries `[0, localCount)` of the C
array and `upvalues` the entries `[0, function.upvalueCount)`.  `functionRef`
is the pointer `compiler->function`, the heap object made by `newFunction()`;
the contents of that object while it is under construction are kept in
`function` and stored into the heap object when `endCompiler` hands it over.
The `enclosing` frame is the next one in `St.compilers`. -/
structure Compiler where
  functionRef : Nat
  function : ObjFunction
  type : FunctionType
  locals : List Local
  upvalues : List Upvalue
  scopeDepth : Int
  deriving DecidableEq, Repr

def Compiler.localCount (c : Compiler) : Nat := c.locals.length

structure ClassCompiler where
  hasSuperclass : Bool
  deriving DecidableEq, Repr

/-! ## Output events and the global state -/

/-- An argument of a `printf`-style format. -/
inductive Arg where
  | str (chars : List Nat)
  | int (i : Int)
  deriving DecidableEq, Repr

/-- What `printValue` writes: text, the `%g` rendering of a float (symbolic),
or an object other than a string (object.c is not among the sources). -/
inductive Printed where
  | text (chars : List Nat)
  | float (f : FloatVal)
  | object (o : Obj)
  | dangling
  deriving DecidableEq, Repr

inductive Event where
  /-- `printValue(v); printf("\n")` of `OP_PRINT` -/
  | print (p : Printed)
  /-- the line `Error: <message>` written by `error` -/
  | error (message : String)
  /-- the header `[line n] Error ..` written by `errorAt` for a token -/
  | errorAt (line : Nat) (token : TokenType) (lexeme : List Nat)
  /-- the message of `runtimeError` and the lines of its backtrace that were
  written: per frame, the entry read from the line table and the name of the
  function -/
  | runtimeError (format : String) (args : List Arg)
      (trace : List (Nat × Option (List Nat)))
  deriving DecidableEq, Repr

/-- The process state: the singletons of scanner.c, compiler.c and vm.c.
`compilers` is the chain `current, current->enclosing, ..` and
`classCompilers` the chain from `currentClass`; an empty list is `NULL`. -/
structure St where
  scanner : Scanner
  parser : Parser
  compilers : List Compiler
  classCompilers : List ClassCompiler
  vm : VM
  log : List Event
  deriving DecidableEq, Repr

/-- How a computation ends: normally with a result, by `exit(code)`, by a step
with undefined behaviour (`what` names it), or by running out of fuel. -/
inductive Res (α : Type) where
  | ok (a : α) (s : St)
  | exit (code : Option Nat) (s : St)
  | undefinedBehaviour (what : String) (s : St)
  | outOfFuel
  deriving DecidableEq, Repr

/-- A computation over the process state. -/
def M (α : Type) : Type := St → Res α

def M.pure {α : Type} (a : α) : M α := fun s => .ok a s

def M.bind {α β : Type} (m : M α) (f : α → M β) : M β := fun s =>
  match m s with
  | .ok a s1 => f a s1
  | .exit c s1 => .exit c s1
  | .undefinedBehaviour w s1 => .undefinedBehaviour w s1
  | .outOfFuel => .outOfFuel

instance : Monad M where
  pure := M.pure
  bind := M.bind

def getSt : M St := fun s => .ok s s
def modifySt (f : St → St) : M Unit := fun s => .ok () (f s)
def exitWith (code : Option Nat) : M Unit := fun s => .exit code s
def undefinedBehaviour {α : Type} (what : String) : M α := fun s => .undefinedBehaviour what s
def outOfFuel {α : Type} : M α := fun _ => .outOfFuel
def logEvent (e : Event) : M Unit := modifySt fun s => { s with log := s.log ++ [e] }

/-! ## The VM stack and the heap, as far as the compiler uses them (vm.c, object.c) -/

/-- The value in stack slot `i`. -/
def VM.slot (vm : VM) (i : Nat) : Value := vm.stack.getD i .nil

/-- Stack memory after a store to slot `i`. -/
def storeSlot (stack : List Value) (i : Nat) (v : Value) : List Value :=
  if i < stack.length then stack.set i v
  else stack ++ List.replicate (i - stack.length) .nil ++ [v]

/-- `push`: `*vm.stackTop = value; vm.stackTop++;`. -/
def push (value : Value) : M Unit := fun s =>
  if s.vm.stackTop < STACK_MAX then
    .ok () { s with vm := { s.vm with stack := storeSlot s.vm.stack s.vm.stackTop value,
                                      stackTop := s.vm.stackTop + 1 } }
  else .undefinedBehaviour "push beyond the last stack slot" s

/-- `pop`: `vm.stackTop--; return *vm.stackTop;`. -/
def pop : M Value := fun s =>
  if s.vm.stackTop = 0 then .undefinedBehaviour "pop below the first stack slot" s
  else .ok (s.vm.slot (s.vm.stackTop - 1)) { s with vm := { s.vm with stackTop := s.vm.stackTop - 1 } }

/-- A new heap object; its address is the next free index. -/
def allocate (o : Obj) : M Nat := fun s =>
  .ok s.vm.heap.length { s with vm := { s.vm with heap := s.vm.heap ++ [o] } }

/-- The address of the interned string with these bytes, searching from `i`. -/
def findString (heap : List Obj) (chars : List Nat) (i : Nat) : Option Nat :=
  match heap with
  | [] => none
  | o :: rest => if o = .string chars then some i else findString rest chars (i + 1)

/-- Modelled from the spec: `copyString(ptr, len)` of object.c (not among the
sources) returns the interned string with the given bytes, allocating it when
there is none yet. -/
def copyString (chars : List Nat) : M Nat := fun s =>
  match findString s.vm.heap chars 0 with
  | some r => .ok r s
  | none => allocate (.string chars) s

/-- Modelled from the spec: `newFunction()` of object.c: no name, arity 0, no
upvalues, an empty chunk. -/
def newFunction : ObjFunction :=
  { arity := 0, upvalueCount := 0, chunk := initChunk, name := none }

/-! ## Error reporting (compiler.c) -/

/-- `errorAt`: silent in panic mode; otherwise it sets panic mode, writes the
header for the token and, in each of its three branches, calls
`exit(TOKEN_ERROR)`.  The message and `parser.hadError = true` come after the
`exit` calls and are never reached. -/
def errorAt (token : Token) (_message : List Nat) : M Unit := do
  let s ← getSt
  if s.parser.panicMode then pure ()
  else do
    modifySt fun s => { s with parser := { s.parser with panicMode := true } }
    logEvent (.errorAt token.line token.type token.lexeme)
    exitWith TokenType.TOKEN_ERROR.code

/-- `error`: prints `Error: <message>` and reports at the previous token. -/
def error (message : String) : M Unit := do
  logEvent (.error message)
  let s ← getSt
  errorAt s.parser.previous (bytes message)

def errorAtCurrent (message : List Nat) : M Unit := do
  let s ← getSt
  errorAt s.parser.current message

/-! ## Token stream (compiler.c) -/

/-- The `for (;;)` of the compiler's `advance`. -/
def advanceLoop : Nat → M Unit
  | 0 => outOfFuel
  | n + 1 => do
    let s ← getSt
    let r := scanToken s.scanner
    modifySt fun s => { s with scanner := r.2, parser := { s.parser with current := r.1 } }
    if r.1.type ≠ .TOKEN_ERROR then pure ()
    else do
      errorAtCurrent r.1.start
      advanceLoop n

/-- The compiler's `advance`.  Every round of its loop but the last consumes at
least one byte, which bounds the number of rounds. -/
def advance : M Unit := do
  modifySt fun s => { s with parser := { s.parser with previous := s.parser.current } }
  let s ← getSt
  advanceLoop (s.scanner.source.length + 2 - s.scanner.current)

def consume (type : TokenType) (message : String) : M Unit := do
  let s ← getSt
  if s.parser.current.type = type then advance
  else errorAtCurrent (bytes message)

def check (type : TokenType) : M Bool := do
  let s ← getSt
  pure (s.parser.current.type == type)

/-- The compiler's `match`. -/
def matchToken (type : TokenType) : M Bool := do
  if !(← check type) then pure false
  else do
    advance
    pure true

/-! ## Emission (compiler.c) -/

/-- The frame `current` points to. -/
def currentCompiler : M Compiler := fun s =>
  match s.compilers with
  | c :: _ => .ok c s
  | [] => .undefinedBehaviour "current is NULL" s

def modifyCurrent (f : Compiler → Compiler) : M Unit := fun s =>
  match s.compilers with
  | c :: rest => .ok () { s with compilers := f c :: rest }
  | [] => .undefinedBehaviour "current is NULL" s

def currentChunk : M Chunk := do
  pure (← currentCompiler).function.chunk

def modifyChunk (f : Chunk → Chunk) : M Unit :=
  modifyCurrent fun c => { c with function := { c.function with chunk := f c.function.chunk } }

def emitByte (byte : Nat) : M Unit := do
  let s ← getSt
  modifyChunk fun ch => writeChunk ch byte s.parser.previous.line

def emitBytes (byte1 byte2 : Nat) : M Unit := do
  emitByte byte1
  emitByte byte2

def emitOp (op : OpCode) : M Unit := emitByte op.byte

def emitLoop (loopStart : Nat) : M Unit := do
  emitOp .OP_LOOP
  let offset : Int := ((← currentChunk).count : Int) - loopStart + 2
  if offset > UINT16_MAX then error "Loop body too large."
  emitByte ((offset / 256) % 256).toNat
  emitByte (offset % 256).toNat

/-- `emitJump`: the offset it returns is taken from the count before the three
bytes are written (`count - 2`). -/
def emitJump (instruction : OpCode) : M Int := do
  let offset : Int := ((← currentChunk).count : Int) - 2
  emitOp instruction
  emitByte 255
  emitByte 255
  pure offset

def emitReturn : M Unit := do
  if (← currentCompiler).type = .TYPE_INITIALIZER then
    emitBytes OpCode.OP_GET_LOCAL.byte 0
  else
    emitOp .OP_NIL
  emitOp .OP_RETURN

/-- `addConstant` of chunk.c on the current chunk. -/
def addConstant (value : Value) : M Nat := do
  push value
  modifyChunk fun ch => writeValueArray ch value
  let _ ← pop
  pure ((← currentChunk).constants.length - 1)

def makeConstant (value : Value) : M Nat := do
  let constant ← addConstant value
  if constant > UINT8_MAX then do
    error "Too many constants in one chunk."
    pure 0
  else pure constant

def makeConstantInt (value : Value) : M Nat := do
  let constant ← addConstant value
  if constant > UINT8_MAX then do
    error "Too many constants in one chunk."
    pure 0
  else pure constant

/-- `makeConstantFloat`: parses the buffer at the previous token again. -/
def makeConstantFloat : M Nat := do
  let s ← getSt
  makeConstant (.float (.strtod s.parser.previous.start))

/-- `makeConstantString`: the bytes between the first and the last byte of the
previous token. -/
def makeConstantString : M Nat := do
  let s ← getSt
  let r ← copyString ((s.parser.previous.start.drop 1).take (s.parser.previous.length - 2))
  makeConstant (.obj r)

def emitConstant (value : Value) : M Unit := do
  match value with
  | .int _ => do
    let c ← makeConstantInt value
    emitBytes OpCode.OP_CONSTANT_INT.byte c
  | .float _ => do
    let c ← makeConstantFloat
    emitBytes OpCode.OP_CONSTANT_FLOAT.byte c
  | .obj r => do
    let s ← getSt
    match s.vm.heap.get? r with
    | some (.string _) => do
      let c ← makeConstantString
      emitBytes OpCode.OP_CONSTANT_STRING.byte c
    | some _ => error "Unsupported object type for constant"
    | none => undefinedBehaviour "dangling object pointer"
  | _ => error "Unsupported value type for constant"

/-- `patchJump`: stores the distance at `code[offset]` and `code[offset + 1]`. -/
def patchJump (offset : Int) : M Unit := do
  let chunk ← currentChunk
  let jump : Int := (chunk.count : Int) - offset - 2
  if jump > UINT16_MAX then error "Too much code to jump over."
  if offset < 0 ∨ offset + 1 ≥ chunk.count then
    undefinedBehaviour "patchJump writes outside the code array"
  else
    modifyChunk fun ch =>
      { ch with code := (ch.code.set offset.toNat ((jump / 256) % 256).toNat).set
                          (offset.toNat + 1) (jump % 256).toNat }

/-! ## Compiler frames, scopes and variables (compiler.c) -/

/-- `syntheticToken`: only `start` and `length` are assigned. -/
def syntheticToken (text : String) : Token :=
  { type := .UNINITIALIZED, start := bytes text, length := (bytes text).length, line := 0 }

/-- `initCompiler`: a new frame whose slot 0 is named `this` unless the frame is
of type `TYPE_FUNCTION`; the function is named after the previous token unless
the frame is the script. -/
def initCompiler (type : FunctionType) : M Unit := do
  let s ← getSt
  let fn ← allocate (.function newFunction)
  let name ← if type ≠ .TYPE_SCRIPT then do
      let r ← copyString s.parser.previous.lexeme
      pure (some r)
    else pure none
  let slot0 : Local :=
    { type := .UNINITIALIZED,
      name := syntheticToken (if type ≠ .TYPE_FUNCTION then "this" else ""),
      depth := 0, isCaptured := false }
  modifySt fun s => { s with compilers :=
    { functionRef := fn, function := { newFunction with name := name }, type := type,
      locals := [slot0],
      upvalues := [], scopeDepth := 0 } :: s.compilers }

/-- `endCompiler`: emits the implicit return and makes the enclosing frame
current.  The result is the finished frame (the pointer to its function and
the upvalue descriptors `function` reads afterwards). -/
def endCompiler : M Compiler := do
  emitReturn
  let c ← currentCompiler
  modifySt fun s => { s with vm := { s.vm with heap := s.vm.heap.set c.functionRef (.function c.function) },
                             compilers := s.compilers.tail }
  pure c

def beginScope : M Unit :=
  modifyCurrent fun c => { c with scopeDepth := c.scopeDepth + 1 }

/-- The `while` of `endScope`. -/
def endScopeLoop : Nat → M Unit
  | 0 => pure ()
  | n + 1 => do
    let c ← currentCompiler
    match c.locals.getLast? with
    | none => pure ()
    | some l =>
      if l.depth > c.scopeDepth then do
        if l.isCaptured then emitOp .OP_CLOSE_UPVALUE else emitOp .OP_POP
        modifyCurrent fun c => { c with locals := c.locals.dropLast }
        endScopeLoop n
      else pure ()

def endScope : M Unit := do
  modifyCurrent fun c => { c with scopeDepth := c.scopeDepth - 1 }
  endScopeLoop (← currentCompiler).locals.length

def identifierConstant (name : Token) : M Nat := do
  let r ← copyString name.lexeme
  makeConstant (.obj r)

def identifiersEqual (a b : Token) : Bool :=
  if a.length ≠ b.length then false
  else a.start.take a.length == b.start.take a.length

/-- The loop of `resolveLocal` over the first `i` locals, from index `i - 1`
down: the index of the first local with the name, or -1.  The body of the
check for depth -1 is commented out in the source. -/
def resolveLocalFrom (locals : List Local) (name : Token) : Nat → Int
  | 0 => -1
  | i + 1 =>
    match locals.get? i with
    | some l => if identifiersEqual name l.name then (i : Int) else resolveLocalFrom locals name i
    | none => resolveLocalFrom locals name i

def resolveLocal (compiler : Compiler) (name : Token) : Int :=
  resolveLocalFrom compiler.locals name compiler.localCount

/-- The search loop of `addUpvalue` from index `i`. -/
def findUpvalue (upvalues : List Upvalue) (index : Nat) (isLocal : Bool) (i : Nat) : Option Nat :=
  match upvalues with
  | [] => none
  | u :: rest =>
    if u.index = index ∧ u.isLocal = isLocal then some i else findUpvalue rest index isLocal (i + 1)

/-- `addUpvalue` on the frame `k` links up the chain from `current`. -/
def addUpvalue (k : Nat) (index : Nat) (isLocal : Bool) : M Int := do
  let s ← getSt
  match s.compilers.get? k with
  | none => undefinedBehaviour "compiler is NULL"
  | some c =>
    match findUpvalue (c.upvalues.take c.function.upvalueCount) index isLocal 0 with
    | some i => pure (i : Int)
    | none =>
      if c.function.upvalueCount = UINT8_COUNT then do
        error "Too many closure variables in function."
        pure 0
      else do
        let c1 : Compiler :=
          { c with upvalues := c.upvalues.take c.function.upvalueCount ++ [{ index := index, isLocal := isLocal }],
                   function := { c.function with upvalueCount := c.function.upvalueCount + 1 } }
        modifySt fun s => { s with compilers := s.compilers.set k c1 }
        pure (c.function.upvalueCount : Int)

/-- `resolveUpvalue` on the frame `k` links up the chain; `n` bounds the
recursion along the chain. -/
def resolveUpvalue : Nat → Nat → Token → M Int
  | 0, _, _ => outOfFuel
  | n + 1, k, name => do
    let s ← getSt
    match s.compilers.get? (k + 1) with
    | none => pure (-1)
    | some enclosing =>
      let loc := resolveLocal enclosing name
      if loc ≠ -1 then do
        let captured : Compiler :=
          { enclosing with
            locals := enclosing.locals.modify (fun l => { l with isCaptured := true }) loc.toNat }
        modifySt fun s => { s with compilers := s.compilers.set (k + 1) captured }
        addUpvalue k (loc.toNat % 256) true
      else do
        let upvalue ← resolveUpvalue n (k + 1) name
        if upvalue ≠ -1 then addUpvalue k (upvalue.toNat % 256) false
        else pure (-1)

def addLocal (name : Token) : M Unit := do
  let c ← currentCompiler
  if c.localCount = UINT8_COUNT then error "Too many local variables in function."
  else do
    let s ← getSt
    modifyCurrent fun c => { c with locals := c.locals ++
      [{ type := s.parser.previous.type, name := name, depth := -1, isCaptured := false }] }

/-- The loop of `declareVariable` over the first `i` locals, from index `i - 1` down. -/
def declareVariableLoop (scopeDepth : Int) (locals : List Local) (name : Token) : Nat → M Unit
  | 0 => pure ()
  | i + 1 =>
    match locals.get? i with
    | none => declareVariableLoop scopeDepth locals name i
    | some l =>
      if l.depth ≠ -1 ∧ l.depth < scopeDepth then pure ()
      else do
        if identifiersEqual name l.name then
          error "Already a variable with this name in this scope."
        declareVariableLoop scopeDepth locals name i

def declareVariable : M Unit := do
  let c ← currentCompiler
  if c.scopeDepth = 0 then pure ()
  else do
    let s ← getSt
    declareVariableLoop c.scopeDepth c.locals s.parser.previous c.localCount
    addLocal s.parser.previous

/-- `parseVariable`: consumes the identifier and adds its name to the constant
pool.  It does not call `declareVariable`. -/
def parseVariable (errorMessage : String) : M Nat := do
  consume .TOKEN_IDENTIFIER errorMessage
  let s ← getSt
  identifierConstant s.parser.previous

/-- `markInitialized`: sets the depth of `locals[localCount - 1]`. -/
def markInitialized : M Unit := do
  let c ← currentCompiler
  if c.scopeDepth = 0 then pure ()
  else if c.localCount = 0 then undefinedBehaviour "markInitialized writes locals[-1]"
  else
    modifyCurrent fun c =>
      { c with
        locals := c.locals.modify (fun l => { l with depth := c.scopeDepth }) (c.localCount - 1) }

/-- `defineVariable`: every branch on the current token's kind emits the same
`OP_DEFINE_GLOBAL`. -/
def defineVariable (global : Nat) : M Unit := do
  let c ← currentCompiler
  if c.scopeDepth > 0 then markInitialized
  else emitBytes OpCode.OP_DEFINE_GLOBAL.byte global

/-! ## The Pratt parser (compiler.c) -/

/-- The parse functions the rule table points to. -/
inductive ParseFn where
  | grouping | call_ | dot | unary | binary | variable_ | string | integer_ | floating_
  | and_ | literal | or_ | super_ | this_
  deriving DecidableEq, Repr

structure ParseRule where
  prefixRule : Option ParseFn
  infixRule : Option ParseFn
  precedence : Precedence
  deriving DecidableEq, Repr

/-- The table `rules[]`; a kind it does not list has no rule. -/
def getRule : TokenType → ParseRule
  | .TOKEN_LEFT_PAREN => ⟨some .grouping, some .call_, .PREC_CALL⟩
  | .TOKEN_DOT => ⟨none, some .dot, .PREC_CALL⟩
  | .TOKEN_MINUS => ⟨some .unary, some .binary, .PREC_TERM⟩
  | .TOKEN_PLUS => ⟨none, some .binary, .PREC_TERM⟩
  | .TOKEN_SLASH => ⟨none, some .binary, .PREC_FACTOR⟩
  | .TOKEN_STAR => ⟨none, some .binary, .PREC_FACTOR⟩
  | .TOKEN_BANG => ⟨some .unary, none, .PREC_NONE⟩
  | .TOKEN_BANG_EQUAL => ⟨none, some .binary, .PREC_EQUALITY⟩
  | .TOKEN_EQUAL_EQUAL => ⟨none, some .binary, .PREC_EQUALITY⟩
  | .TOKEN_GREATER => ⟨none, some .binary, .PREC_COMPARISON⟩
  | .TOKEN_GREATER_EQUAL => ⟨none, some .binary, .PREC_COMPARISON⟩
  | .TOKEN_LESS => ⟨none, some .binary, .PREC_COMPARISON⟩
  | .TOKEN_LESS_EQUAL => ⟨none, some .binary, .PREC_COMPARISON⟩
  | .TOKEN_IDENTIFIER => ⟨some .variable_, none, .PREC_NONE⟩
  | .TOKEN_STRING => ⟨some .string, none, .PREC_NONE⟩
  | .TOKEN_INT => ⟨some .integer_, none, .PREC_NONE⟩
  | .TOKEN_FLOAT => ⟨some .floating_, none, .PREC_NONE⟩
  | .TOKEN_STRING_LITERAL => ⟨some .string, none, .PREC_NONE⟩
  | .TOKEN_INT_LITERAL => ⟨some .integer_, none, .PREC_NONE⟩
  | .TOKEN_FLOAT_LITERAL => ⟨some .floating_, none, .PREC_NONE⟩
  | .TOKEN_AND => ⟨none, some .and_, .PREC_AND⟩
  | .TOKEN_FALSE => ⟨some .literal, none, .PREC_NONE⟩
  | .TOKEN_NIL => ⟨some .literal, none, .PREC_NONE⟩
  | .TOKEN_OR => ⟨none, some .or_, .PREC_OR⟩
  | .TOKEN_SUPER => ⟨some .super_, none, .PREC_NONE⟩
  | .TOKEN_THIS => ⟨some .this_, none, .PREC_NONE⟩
  | .TOKEN_TRUE => ⟨some .literal, none, .PREC_NONE⟩
  | _ => ⟨none, none, .PREC_NONE⟩

def setCurrentType (t : ValueType) : M Unit :=
  modifySt fun s => { s with parser := { s.parser with currentType := t } }

/-- The digits `strtol` reads, accumulated in base 10. -/
def strtolDigits : List Nat → Int → Int
  | [], acc => acc
  | c :: rest, acc => if isDigit c then strtolDigits rest (acc * 10 + (c - 48 : Nat)) else acc

def isSpace (c : Nat) : Bool := c == 32 || (9 ≤ c && c ≤ 13)

def skipSpaces : List Nat → List Nat
  | [] => []
  | c :: rest => if isSpace c then skipSpaces rest else c :: rest

/-- `strtol(buffer, NULL, 10)`: blanks, an optional sign, digits.  The value is
the exact one; `long` is taken to be wide enough for the comparison with
`INT_MAX` that follows in `integer_`. -/
def strtol (buffer : List Nat) : Int :=
  match skipSpaces buffer with
  | 45 :: rest => - strtolDigits rest 0
  | 43 :: rest => strtolDigits rest 0
  | rest => strtolDigits rest 0

/-- The part of `binary` after the right operand has been parsed: the check of
the two operand types and the `switch` on the operator. -/
def binaryOperator (operatorType : TokenType) (leftType : ValueType) : M Unit := do
  let s ← getSt
  let rightType := s.parser.currentType
  if leftType ≠ rightType then error "Operands must be of compatible types."
  else do
    let arith (floatOp intOp : OpCode) : M Bool := do
      if leftType = .VAL_FLOAT ∧ rightType = .VAL_FLOAT then do
        emitOp floatOp
        pure true
      else if leftType = .VAL_INT ∧ rightType = .VAL_INT then do
        emitOp intOp
        pure true
      else do
        exitWith (some 1)
        pure false
    let reachesEnd ← match operatorType with
      | .TOKEN_BANG_EQUAL => do
        emitBytes OpCode.OP_EQUAL.byte OpCode.OP_NOT.byte
        pure true
      | .TOKEN_EQUAL_EQUAL => do
        emitOp .OP_EQUAL
        pure true
      | .TOKEN_GREATER => do
        emitOp .OP_GREATER
        pure true
      | .TOKEN_GREATER_EQUAL => do
        emitBytes OpCode.OP_LESS.byte OpCode.OP_NOT.byte
        pure true
      | .TOKEN_LESS => do
        emitOp .OP_LESS
        pure true
      | .TOKEN_LESS_EQUAL => do
        emitBytes OpCode.OP_GREATER.byte OpCode.OP_NOT.byte
        pure true
      | .TOKEN_PLUS =>
        if leftType = .VAL_FLOAT ∧ rightType = .VAL_FLOAT then do
          emitOp .OP_ADD_FLOAT
          pure true
        else if leftType = .VAL_INT ∧ rightType = .VAL_INT then do
          emitOp .OP_ADD_INT
          pure true
        else if leftType = .VAL_OBJ ∧ rightType = .VAL_OBJ then do
          emitOp .OP_ADD
          pure true
        else do
          emitOp .OP_TYPE_ERROR
          pure false
      | .TOKEN_MINUS => arith .OP_SUBTRACT_FLOAT .OP_SUBTRACT_INT
      | .TOKEN_STAR => arith .OP_MULTIPLY_FLOAT .OP_MULTIPLY_INT
      | .TOKEN_SLASH => arith .OP_DIVIDE_FLOAT .OP_DIVIDE_INT
      | _ => pure false
    if reachesEnd then setCurrentType leftType else pure ()

def literal (_canAssign : Bool) : M Unit := do
  let s ← getSt
  match s.parser.previous.type with
  | .TOKEN_FALSE => emitOp .OP_FALSE
  | .TOKEN_NIL => emitOp .OP_NIL
  | .TOKEN_TRUE => emitOp .OP_TRUE
  | _ => pure ()

def integer_ (_canAssign : Bool) : M Unit := do
  let s ← getSt
  let value := strtol s.parser.previous.start
  if value > INT_MAX ∨ value < INT_MIN then error "Integer literal is too large."
  else do
    setCurrentType .VAL_INT
    emitConstant (.int value)

/-- `floating_`: `strchr` searches the whole buffer from the token on for a dot. -/
def floating_ (_canAssign : Bool) : M Unit := do
  let s ← getSt
  if s.parser.previous.start.contains 46 then do
    setCurrentType .VAL_FLOAT
    emitConstant (.float (.strtod s.parser.previous.start))
  else pure ()

/-- The parse function `string` of compiler.c. -/
def stringLiteral (_canAssign : Bool) : M Unit := do
  let s ← getSt
  let r ← copyString ((s.parser.previous.start.drop 1).take (s.parser.previous.length - 2))
  emitConstant (.obj r)
  setCurrentType .VAL_OBJ

/-- The opcodes `namedVariable` picks for a global: the `switch` compares the
token kind of the name with `VAL_INT`, `VAL_FLOAT` and `VAL_OBJ`. -/
def globalOps (type : TokenType) : Option (OpCode × OpCode) :=
  match type.code with
  | none => none
  | some t =>
    if t = ValueType.VAL_INT.code then some (.OP_GET_GLOBAL_INT, .OP_SET_GLOBAL_INT)
    else if t = ValueType.VAL_FLOAT.code then some (.OP_GET_GLOBAL_FLOAT, .OP_SET_GLOBAL_FLOAT)
    else if t = ValueType.VAL_OBJ.code then some (.OP_GET_GLOBAL_STRING, .OP_SET_GLOBAL_STRING)
    else some (.OP_GET_GLOBAL, .OP_SET_GLOBAL)

/-- The first half of `namedVariable`: the get and set opcodes and the operand. -/
def resolveVariable (name : Token) : M (OpCode × OpCode × Nat) := do
  let c ← currentCompiler
  let s ← getSt
  let arg := resolveLocal c name
  if arg ≠ -1 then pure (.OP_GET_LOCAL, .OP_SET_LOCAL, arg.toNat % 256)
  else do
    let arg ← resolveUpvalue s.compilers.length 0 name
    if arg ≠ -1 then pure (.OP_GET_UPVALUE, .OP_SET_UPVALUE, arg.toNat % 256)
    else do
      let arg ← identifierConstant name
      match globalOps name.type with
      | some (getOp, setOp) => pure (getOp, setOp, arg)
      | none => undefinedBehaviour "switch on an indeterminate token type"

/-- The loop of `function` that writes the upvalue descriptors. -/
def emitUpvalues : List Upvalue → M Unit
  | [] => pure ()
  | u :: rest => do
    emitByte (if u.isLocal then 1 else 0)
    emitByte u.index
    emitUpvalues rest

/-- The `while` of `synchronize`. -/
def synchronizeLoop : Nat → M Unit
  | 0 => outOfFuel
  | n + 1 => do
    let s ← getSt
    if s.parser.current.type = .TOKEN_EOF then pure ()
    else if s.parser.previous.type = .TOKEN_SEMICOLON then pure ()
    else
      match s.parser.current.type with
      | .TOKEN_CLASS | .TOKEN_FUN | .TOKEN_INT | .TOKEN_FLOAT | .TOKEN_STRING
      | .TOKEN_INT_LITERAL | .TOKEN_FLOAT_LITERAL | .TOKEN_STRING_LITERAL
      | .TOKEN_FOR | .TOKEN_IF | .TOKEN_WHILE | .TOKEN_PRINT | .TOKEN_RETURN => pure ()
      | _ => do
        advance
        synchronizeLoop n

def synchronize : M Unit := do
  modifySt fun s => { s with parser := { s.parser with panicMode := false } }
  let s ← getSt
  synchronizeLoop (s.scanner.source.length + 2 - s.scanner.current)

def returnsInitializer (c : Compiler) : Bool := c.type == .TYPE_INITIALIZER

mutual

def parsePrecedence : Nat → Precedence → M Unit
  | 0, _ => outOfFuel
  | n + 1, precedence => do
    advance
    let s ← getSt
    match (getRule s.parser.previous.type).prefixRule with
    | none => error "Expect expression."
    | some prefixRule => do
      let canAssign := decide (precedence.code ≤ Precedence.PREC_ASSIGNMENT.code)
      applyRule n prefixRule canAssign
      infixLoop n precedence canAssign
      if canAssign then do
        if (← matchToken .TOKEN_EQUAL) then error "Invalid assignment target."
        else pure ()
      else pure ()

/-- The `while` of `parsePrecedence`. -/
def infixLoop : Nat → Precedence → Bool → M Unit
  | 0, _, _ => outOfFuel
  | n + 1, precedence, canAssign => do
    let s ← getSt
    if precedence.code ≤ (getRule s.parser.current.type).precedence.code then do
      advance
      let s ← getSt
      match (getRule s.parser.previous.type).infixRule with
      | none => undefinedBehaviour "call through a NULL infix rule"
      | some infixRule => do
        applyRule n infixRule canAssign
        infixLoop n precedence canAssign
    else pure ()

/-- The call through a `ParseFn` pointer. -/
def applyRule : Nat → ParseFn → Bool → M Unit
  | 0, _, _ => outOfFuel
  | n + 1, fn, canAssign =>
    match fn with
    | .grouping => grouping n canAssign
    | .call_ => call_ n canAssign
    | .dot => dot n canAssign
    | .unary => unary n canAssign
    | .binary => binary n canAssign
    | .variable_ => variable_ n canAssign
    | .string => stringLiteral canAssign
    | .integer_ => integer_ canAssign
    | .floating_ => floating_ canAssign
    | .and_ => and_ n canAssign
    | .literal => literal canAssign
    | .or_ => or_ n canAssign
    | .super_ => super_ n canAssign
    | .this_ => this_ n canAssign

def expression : Nat → M Unit
  | 0 => outOfFuel
  | n + 1 => parsePrecedence n .PREC_ASSIGNMENT

/-- The `do .. while (match(TOKEN_COMMA))` of `argumentList`. -/
def argumentLoop : Nat → Nat → M Nat
  | 0, _ => outOfFuel
  | n + 1, argCount => do
    expression n
    if argCount = 255 then error "Can't have more than 255 arguments."
    let argCount := (argCount + 1) % 256
    if (← matchToken .TOKEN_COMMA) then argumentLoop n argCount else pure argCount

def argumentList : Nat → M Nat
  | 0 => outOfFuel
  | n + 1 => do
    let argCount ← if !(← check .TOKEN_RIGHT_PAREN) then argumentLoop n 0 else pure 0
    consume .TOKEN_RIGHT_PAREN "Expect ')' after arguments."
    pure argCount

def and_ : Nat → Bool → M Unit
  | 0, _ => outOfFuel
  | n + 1, _ => do
    let endJump ← emitJump .OP_JUMP_IF_FALSE
    emitOp .OP_POP
    parsePrecedence n .PREC_AND
    patchJump endJump

def or_ : Nat → Bool → M Unit
  | 0, _ => outOfFuel
  | n + 1, _ => do
    let elseJump ← emitJump .OP_JUMP_IF_FALSE
    let endJump ← emitJump .OP_JUMP
    patchJump elseJump
    emitOp .OP_POP
    parsePrecedence n .PREC_OR
    patchJump endJump

def binary : Nat → Bool → M Unit
  | 0, _ => outOfFuel
  | n + 1, _ => do
    let s ← getSt
    let operatorType := s.parser.previous.type
    let rule := getRule operatorType
    let leftType := s.parser.currentType
    parsePrecedence n rule.precedence.next
    binaryOperator operatorType leftType

/-- The parse function `call` of compiler.c. -/
def call_ : Nat → Bool → M Unit
  | 0, _ => outOfFuel
  | n + 1, _ => do
    let argCount ← argumentList n
    emitBytes OpCode.OP_CALL.byte argCount

def dot : Nat → Bool → M Unit
  | 0, _ => outOfFuel
  | n + 1, canAssign => do
    consume .TOKEN_IDENTIFIER "Expect property name after '.'."
    let s ← getSt
    let name ← identifierConstant s.parser.previous
    let assign ← if canAssign then matchToken .TOKEN_EQUAL else pure false
    if assign then do
      expression n
      emitBytes OpCode.OP_SET_PROPERTY.byte name
    else if (← matchToken .TOKEN_LEFT_PAREN) then do
      let argCount ← argumentList n
      emitBytes OpCode.OP_INVOKE.byte name
      emitByte argCount
    else emitBytes OpCode.OP_GET_PROPERTY.byte name

def grouping : Nat → Bool → M Unit
  | 0, _ => outOfFuel
  | n + 1, _ => do
    expression n
    consume .TOKEN_RIGHT_PAREN "Expect ')' after expression."

def namedVariable : Nat → Token → Bool → M Unit
  | 0, _, _ => outOfFuel
  | n + 1, name, canAssign => do
    let (getOp, setOp, arg) ← resolveVariable name
    let assign ← if canAssign then matchToken .TOKEN_EQUAL else pure false
    if assign then do
      expression n
      emitBytes setOp.byte arg
    else emitBytes getOp.byte arg

/-- The parse function `variable` of compiler.c. -/
def variable_ : Nat → Bool → M Unit
  | 0, _ => outOfFuel
  | n + 1, canAssign => do
    let s ← getSt
    namedVariable n s.parser.previous canAssign

def super_ : Nat → Bool → M Unit
  | 0, _ => outOfFuel
  | n + 1, _ => do
    let s ← getSt
    match s.classCompilers with
    | [] => error "Can't use 'super' outside of a class."
    | cc :: _ =>
      if !cc.hasSuperclass then error "Can't use 'super' in a class with no superclass."
      else pure ()
    consume .TOKEN_DOT "Expect '.' after 'super'."
    consume .TOKEN_IDENTIFIER "Expect superclass method name."
    let s ← getSt
    let name ← identifierConstant s.parser.previous
    namedVariable n (syntheticToken "this") false
    if (← matchToken .TOKEN_LEFT_PAREN) then do
      let argCount ← argumentList n
      namedVariable n (syntheticToken "super") false
      emitBytes OpCode.OP_SUPER_INVOKE.byte name
      emitByte argCount
    else do
      namedVariable n (syntheticToken "super") false
      emitBytes OpCode.OP_GET_SUPER.byte name

def this_ : Nat → Bool → M Unit
  | 0, _ => outOfFuel
  | n + 1, _ => do
    let s ← getSt
    match s.classCompilers with
    | [] => error "Can't use 'this' outside of a class."
    | _ :: _ => variable_ n false

def unary : Nat → Bool → M Unit
  | 0, _ => outOfFuel
  | n + 1, _ => do
    let s ← getSt
    let operatorType := s.parser.previous.type
    parsePrecedence n .PREC_UNARY
    match operatorType with
    | .TOKEN_BANG => emitOp .OP_NOT
    | .TOKEN_MINUS => emitOp .OP_NEGATE_INT
    | _ => pure ()

/-- The `while` of `block`. -/
def blockLoop : Nat → M Unit
  | 0 => outOfFuel
  | n + 1 => do
    if !(← check .TOKEN_RIGHT_BRACE) then
      if !(← check .TOKEN_EOF) then do
        declaration n
        blockLoop n
      else pure ()
    else pure ()

def block : Nat → M Unit
  | 0 => outOfFuel
  | n + 1 => do
    beginScope
    blockLoop n
    consume .TOKEN_RIGHT_BRACE "Expect '\x7d' after block."
    endScope

/-- The `do .. while (match(TOKEN_COMMA))` of `function`. -/
def parameterLoop : Nat → M Unit
  | 0 => outOfFuel
  | n + 1 => do
    modifyCurrent fun c => { c with function := { c.function with arity := c.function.arity + 1 } }
    if (← currentCompiler).function.arity > 255 then
      errorAtCurrent (bytes "Can't have more than 255 parameters.")
    let constant ← parseVariable "Expect parameter name."
    defineVariable constant
    if (← matchToken .TOKEN_COMMA) then parameterLoop n else pure ()

def function : Nat → FunctionType → M Unit
  | 0, _ => outOfFuel
  | n + 1, type => do
    initCompiler type
    beginScope
    consume .TOKEN_LEFT_PAREN "Expect '(' after function name."
    if !(← check .TOKEN_RIGHT_PAREN) then parameterLoop n else pure ()
    consume .TOKEN_RIGHT_PAREN "Expect ')' after parameters."
    consume .TOKEN_LEFT_BRACE "Expect '\x7b' before function body."
    block n
    let compiler ← endCompiler
    let constant ← makeConstant (.obj compiler.functionRef)
    emitBytes OpCode.OP_CLOSURE.byte constant
    emitUpvalues (compiler.upvalues.take compiler.function.upvalueCount)

def method : Nat → M Unit
  | 0 => outOfFuel
  | n + 1 => do
    consume .TOKEN_IDENTIFIER "Expect method name."
    let s ← getSt
    let constant ← identifierConstant s.parser.previous
    let type : FunctionType :=
      if s.parser.previous.length = 4 ∧ s.parser.previous.start.take 4 = bytes "init"
      then .TYPE_INITIALIZER else .TYPE_METHOD
    function n type
    emitBytes OpCode.OP_METHOD.byte constant

/-- The `while` over the methods of a class body. -/
def methodLoop : Nat → M Unit
  | 0 => outOfFuel
  | n + 1 => do
    if !(← check .TOKEN_RIGHT_BRACE) then
      if !(← check .TOKEN_EOF) then do
        method n
        methodLoop n
      else pure ()
    else pure ()

def classDeclaration : Nat → M Unit
  | 0 => outOfFuel
  | n + 1 => do
    consume .TOKEN_IDENTIFIER "Expect class name."
    let s ← getSt
    let className := s.parser.previous
    let nameConstant ← identifierConstant s.parser.previous
    declareVariable
    emitBytes OpCode.OP_CLASS.byte nameConstant
    defineVariable nameConstant
    modifySt fun s => { s with classCompilers := { hasSuperclass := false } :: s.classCompilers }
    if (← matchToken .TOKEN_LESS) then do
      consume .TOKEN_IDENTIFIER "Expect superclass name."
      variable_ n false
      let s ← getSt
      if identifiersEqual className s.parser.previous then
        error "A class can't inherit from itself."
      beginScope
      addLocal (syntheticToken "super")
      defineVariable 0
      namedVariable n className false
      emitOp .OP_INHERIT
      modifySt fun s => { s with classCompilers := { hasSuperclass := true } :: s.classCompilers.tail }
    else pure ()
    namedVariable n className false
    consume .TOKEN_LEFT_BRACE "Expect '\x7b' before class body."
    methodLoop n
    consume .TOKEN_RIGHT_BRACE "Expect '\x7d' after class body."
    emitOp .OP_POP
    let s ← getSt
    match s.classCompilers with
    | [] => undefinedBehaviour "currentClass is NULL"
    | cc :: _ =>
      if cc.hasSuperclass then endScope else pure ()
    modifySt fun s => { s with classCompilers := s.classCompilers.tail }

def funDeclaration : Nat → M Unit
  | 0 => outOfFuel
  | n + 1 => do
    let global ← parseVariable "Expect function name."
    markInitialized
    function n .TYPE_FUNCTION
    defineVariable global

/-- `varDeclaration`.  The symbol table it appends to (`addSymbol`) is read only
by `printSymbolTable` and is left out. -/
def varDeclaration : Nat → M Unit
  | 0 => outOfFuel
  | n + 1 => do
    if !(← check .TOKEN_IDENTIFIER) then error "Expect variable name."
    else do
      let global ← parseVariable "Expect variable name"
      if (← matchToken .TOKEN_EQUAL) then expression n else emitOp .OP_NIL
      consume .TOKEN_SEMICOLON "Expect ';' after variable declaration."
      defineVariable global

def expressionStatement : Nat → M Unit
  | 0 => outOfFuel
  | n + 1 => do
    expression n
    consume .TOKEN_SEMICOLON "Expect ';' after expression."
    emitOp .OP_POP

def forStatement : Nat → M Unit
  | 0 => outOfFuel
  | n + 1 => do
    beginScope
    consume .TOKEN_LEFT_PAREN "Expect '(' after 'for'."
    if (← matchToken .TOKEN_SEMICOLON) then pure ()
    else if (← matchToken .TOKEN_INT) then varDeclaration n
    else if (← matchToken .TOKEN_FLOAT) then varDeclaration n
    else if (← matchToken .TOKEN_STRING) then varDeclaration n
    else expressionStatement n
    let loopStart := (← currentChunk).count
    let exitJump : Option Int ←
      if !(← matchToken .TOKEN_SEMICOLON) then do
        expression n
        consume .TOKEN_SEMICOLON "Expect ';' after loop condition."
        let j ← emitJump .OP_JUMP_IF_FALSE
        emitOp .OP_POP
        pure (some j)
      else pure none
    let loopStart ←
      if !(← matchToken .TOKEN_RIGHT_PAREN) then do
        let bodyJump ← emitJump .OP_JUMP
        let incrementStart := (← currentChunk).count
        expression n
        emitOp .OP_POP
        consume .TOKEN_RIGHT_PAREN "Expect ')' after for clauses."
        emitLoop loopStart
        patchJump bodyJump
        pure incrementStart
      else pure loopStart
    statement n
    emitLoop loopStart
    match exitJump with
    | some j =>
      if j ≠ -1 then do
        patchJump j
        emitOp .OP_POP
      else pure ()
    | none => pure ()
    endScope

def ifStatement : Nat → M Unit
  | 0 => outOfFuel
  | n + 1 => do
    consume .TOKEN_LEFT_PAREN "Expect '(' after 'if'."
    expression n
    consume .TOKEN_RIGHT_PAREN "Expect ')' after condition."
    let thenJump ← emitJump .OP_JUMP_IF_FALSE
    emitOp .OP_POP
    statement n
    let elseJump ← emitJump .OP_JUMP
    patchJump thenJump
    emitOp .OP_POP
    if (← matchToken .TOKEN_ELSE) then statement n else pure ()
    patchJump elseJump

def printStatement : Nat → M Unit
  | 0 => outOfFuel
  | n + 1 => do
    expression n
    consume .TOKEN_SEMICOLON "Expect ';' after value."
    emitOp .OP_PRINT

def returnStatement : Nat → M Unit
  | 0 => outOfFuel
  | n + 1 => do
    if (← currentCompiler).type = .TYPE_SCRIPT then error "Can't return from top-level code."
    if (← matchToken .TOKEN_SEMICOLON) then emitReturn
    else do
      if (← currentCompiler).type = .TYPE_INITIALIZER then
        error "Can't return a value from an initializer."
      expression n
      consume .TOKEN_SEMICOLON "Expect ';' after return value."
      emitOp .OP_RETURN

def whileStatement : Nat → M Unit
  | 0 => outOfFuel
  | n + 1 => do
    let loopStart := (← currentChunk).count
    consume .TOKEN_LEFT_PAREN "Expect '(' after 'while'."
    expression n
    consume .TOKEN_RIGHT_PAREN "Expect ')' after condition."
    let exitJump ← emitJump .OP_JUMP_IF_FALSE
    emitOp .OP_POP
    statement n
    emitLoop loopStart
    patchJump exitJump
    emitOp .OP_POP

def declaration : Nat → M Unit
  | 0 => outOfFuel
  | n + 1 => do
    if (← matchToken .TOKEN_CLASS) then classDeclaration n
    else if (← matchToken .TOKEN_FUN) then funDeclaration n
    else if (← matchToken .TOKEN_INT) then varDeclaration n
    else if (← matchToken .TOKEN_FLOAT) then varDeclaration n
    else if (← matchToken .TOKEN_STRING) then varDeclaration n
    else statement n
    if (← getSt).parser.panicMode then synchronize else pure ()

def statement : Nat → M Unit
  | 0 => outOfFuel
  | n + 1 => do
    if (← matchToken .TOKEN_PRINT) then printStatement n
    else if (← matchToken .TOKEN_FOR) then forStatement n
    else if (← matchToken .TOKEN_IF) then ifStatement n
    else if (← matchToken .TOKEN_RETURN) then returnStatement n
    else if (← matchToken .TOKEN_WHILE) then whileStatement n
    else if (← matchToken .TOKEN_LEFT_BRACE) then do
      beginScope
      block n
      endScope
    else expressionStatement n

end

/-- The `while (!match(TOKEN_EOF)) declaration();` of `compile`. -/
def compileLoop : Nat → M Unit
  | 0 => outOfFuel
  | n + 1 => do
    if (← matchToken .TOKEN_EOF) then pure ()
    else do
      declaration n
      compileLoop n

/-- `compile`: the pointer to the finished script function, or none (`NULL`)
when `parser.hadError` is set. -/
def compile (fuel : Nat) (source : List Nat) : M (Option Nat) := do
  modifySt fun s => { s with scanner := initScanner source }
  initCompiler .TYPE_SCRIPT
  modifySt fun s => { s with parser := { s.parser with hadError := false, panicMode := false } }
  advance
  compileLoop fuel
  let compiler ← endCompiler
  let s ← getSt
  pure (if s.parser.hadError then none else some compiler.functionRef)

/-! ## The virtual machine (vm.c) -/

inductive InterpretResult where
  | INTERPRET_OK | INTERPRET_COMPILE_ERROR | INTERPRET_RUNTIME_ERROR
  deriving DecidableEq, Repr

def modifyVM (f : VM → VM) : M Unit := modifySt fun s => { s with vm := f s.vm }

def resetStack : M Unit :=
  modifyVM fun vm => { vm with stackTop := 0, frameCount := 0, openUpvalues := none }

/-- The object a pointer designates. -/
def getObj (r : Nat) : M Obj := fun s =>
  match s.vm.heap.get? r with
  | some o => .ok o s
  | none => .undefinedBehaviour "dangling object pointer" s

def setObj (r : Nat) (o : Obj) : M Unit :=
  modifyVM fun vm => { vm with heap := vm.heap.set r o }

/-- `AS_STRING`: the address of a string object. -/
def asString (v : Value) : M Nat := do
  match v with
  | .obj r =>
    match ← getObj r with
    | .string _ => pure r
    | _ => undefinedBehaviour "AS_STRING of an object that is not a string"
  | _ => undefinedBehaviour "AS_STRING of a value that is not an object"

def stringChars (r : Nat) : M (List Nat) := do
  match ← getObj r with
  | .string chars => pure chars
  | _ => undefinedBehaviour "AS_STRING of an object that is not a string"

/-- The function of a closure object. -/
def closureFunction (closure : Nat) : M ObjFunction := do
  match ← getObj closure with
  | .closure fn _ =>
    match ← getObj fn with
    | .function f => pure f
    | _ => undefinedBehaviour "closure->function is not a function"
  | _ => undefinedBehaviour "AS_CLOSURE of an object that is not a closure"

/-- One line of the backtrace of `runtimeError`: the entry of the line table at
the frame's last instruction, and the function's name.  There is none when the
read `function->chunk.lines[instruction]` leaves the line array, which is the
case in every chunk `writeChunk` has built (it never allocates `lines`), or
when the frame does not hold a closure of a function. -/
def traceEntry (vm : VM) (frame : CallFrame) : Option (Nat × Option (List Nat)) :=
  match vm.heap.get? frame.closure with
  | some (.closure fn _) =>
    match vm.heap.get? fn with
    | some (.function f) =>
      match (if frame.ip = 0 then none else f.chunk.lines.get? (frame.ip - 1)) with
      | some line =>
        some (line,
          match f.name with
          | some r =>
            match vm.heap.get? r with
            | some (.string chars) => some chars
            | _ => none
          | none => none)
      | none => none
    | _ => none
  | _ => none

/-- The loop of `runtimeError` over the frames, innermost first: the lines
written, and whether the loop came to its end (it does not when a read of the
line table leaves the array). -/
def backtrace (vm : VM) : List CallFrame → List (Nat × Option (List Nat)) × Bool
  | [] => ([], true)
  | frame :: rest =>
    match traceEntry vm frame with
    | some entry => (entry :: (backtrace vm rest).1, (backtrace vm rest).2)
    | none => ([], false)

/-- The frames the loop of `runtimeError` visits, innermost first. -/
def VM.liveFrames (vm : VM) : List CallFrame := (vm.frames.take vm.frameCount).reverse

/-- `runtimeError`: the message, the backtrace from the innermost frame out,
then `resetStack`.  The backtrace reads the line table, which `writeChunk`
never fills: where that read leaves the array, what follows is undefined. -/
def runtimeError (format : String) (args : List Arg) : M Unit := do
  let s ← getSt
  logEvent (.runtimeError format args (backtrace s.vm s.vm.liveFrames).1)
  if (backtrace s.vm s.vm.liveFrames).2 then resetStack
  else undefinedBehaviour "read outside chunk.lines"

/-- `peek(distance)`: `vm.stackTop[-1 - distance]`. -/
def peek (distance : Nat) : M Value := fun s =>
  if s.vm.stackTop < distance + 1 then .undefinedBehaviour "peek below the first stack slot" s
  else .ok (s.vm.slot (s.vm.stackTop - 1 - distance)) s

/-- A store to `vm.stackTop[-1 - distance]`. -/
def pokeBelowTop (distance : Nat) (v : Value) : M Unit := fun s =>
  if s.vm.stackTop < distance + 1 then .undefinedBehaviour "store below the first stack slot" s
  else .ok () { s with vm := { s.vm with
    stack := storeSlot s.vm.stack (s.vm.stackTop - 1 - distance) v } }

/-- Frame memory after a store to `frames[i]`. -/
def storeFrame (frames : List CallFrame) (i : Nat) (f : CallFrame) : List CallFrame :=
  if i < frames.length then frames.set i f
  else frames ++ List.replicate (i - frames.length) ⟨0, 0, 0⟩ ++ [f]

def call (closure : Nat) (argCount : Nat) : M Bool := do
  let fn ← closureFunction closure
  if argCount ≠ fn.arity then do
    runtimeError "Expected %d arguments but got %d." [.int fn.arity, .int argCount]
    pure false
  else do
    let s ← getSt
    if s.vm.frameCount = FRAMES_MAX then do
      runtimeError "Stack overflow." []
      pure false
    else if s.vm.stackTop < argCount + 1 then
      undefinedBehaviour "frame base below the first stack slot"
    else do
      modifyVM fun vm => { vm with
        frames := storeFrame vm.frames vm.frameCount
          { closure := closure, ip := 0, slots := vm.stackTop - argCount - 1 },
        frameCount := vm.frameCount + 1 }
      pure true

/-- Modelled from the spec: `newClosure(function)` of object.c: one empty
upvalue cell per declared upvalue. -/
def newClosure (function : Nat) : M Nat := do
  match ← getObj function with
  | .function f => allocate (.closure function (List.replicate f.upvalueCount none))
  | _ => undefinedBehaviour "newClosure of an object that is not a function"

def callValue (host : Host) (callee : Value) (argCount : Nat) : M Bool := do
  let notCallable : M Bool := do
    runtimeError "Can only call functions and classes." []
    pure false
  match callee with
  | .obj r =>
    match ← getObj r with
    | .boundMethod receiver method => do
      pokeBelowTop argCount receiver
      call method argCount
    | .klass _ methods => do
      let inst ← allocate (.inst r [])
      pokeBelowTop argCount (.obj inst)
      let s ← getSt
      match tableGet methods s.vm.initString with
      | some (.obj initializer) => call initializer argCount
      | some _ => undefinedBehaviour "AS_CLOSURE of a value that is not an object"
      | none =>
        if argCount ≠ 0 then do
          runtimeError "Expected 0 arguments but got %d." [.int argCount]
          pure false
        else pure true
    | .closure _ _ => call r argCount
    | .native _ => do
      let s ← getSt
      if s.vm.stackTop < argCount + 1 then
        undefinedBehaviour "stack top moved below the first stack slot"
      else do
        modifyVM fun vm => { vm with stackTop := vm.stackTop - (argCount + 1) }
        push (.int host.clock)
        pure true
    | _ => notCallable
  | _ => notCallable

def invokeFromClass (klass : Nat) (name : Nat) (argCount : Nat) : M Bool := do
  match ← getObj klass with
  | .klass _ methods =>
    match tableGet methods name with
    | none => do
      runtimeError "Undefined property '%s'." [.str (← stringChars name)]
      pure false
    | some (.obj method) => call method argCount
    | some _ => undefinedBehaviour "AS_CLOSURE of a value that is not an object"
  | _ => undefinedBehaviour "use of an object that is not a class as a class"

def invoke (host : Host) (name : Nat) (argCount : Nat) : M Bool := do
  let receiver ← peek argCount
  let notInstance : M Bool := do
    runtimeError "Only instances have methods." []
    pure false
  match receiver with
  | .obj r =>
    match ← getObj r with
    | .inst klass fields =>
      match tableGet fields name with
      | some value => do
        pokeBelowTop argCount value
        callValue host value argCount
      | none => invokeFromClass klass name argCount
    | _ => notInstance
  | _ => notInstance

def bindMethod (klass : Nat) (name : Nat) : M Bool := do
  match ← getObj klass with
  | .klass _ methods =>
    match tableGet methods name with
    | none => do
      runtimeError "Undefined property '%s'." [.str (← stringChars name)]
      pure false
    | some (.obj method) => do
      let bound ← allocate (.boundMethod (← peek 0) method)
      let _ ← pop
      push (.obj bound)
      pure true
    | some _ => undefinedBehaviour "AS_CLOSURE of a value that is not an object"
  | _ => undefinedBehaviour "use of an object that is not a class as a class"

/-- The stack slot an open upvalue points to. -/
def openSlot (r : Nat) : M (Nat × Option Nat) := do
  match ← getObj r with
  | .upvalue (.stack slot) _ next => pure (slot, next)
  | .upvalue .closed _ _ => undefinedBehaviour "closed upvalue in the open list"
  | _ => undefinedBehaviour "open list entry is not an upvalue"

/-- The `while` of `captureUpvalue`: the last entry passed (`prevUpvalue`) and
the entry the walk stops at. -/
def captureWalk : Nat → Option Nat → Option Nat → Nat → M (Option Nat × Option Nat)
  | 0, _, _, _ => outOfFuel
  | n + 1, prevUpvalue, upvalue, slot => do
    match upvalue with
    | none => pure (prevUpvalue, none)
    | some u =>
      let (loc, next) ← openSlot u
      if loc > slot then captureWalk n (some u) next slot
      else pure (prevUpvalue, some u)

def captureUpvalue (slot : Nat) : M Nat := do
  let s ← getSt
  let (prevUpvalue, upvalue) ← captureWalk (s.vm.heap.length + 1) none s.vm.openUpvalues slot
  let found ← match upvalue with
    | some u => do
      let (loc, _) ← openSlot u
      pure (if loc = slot then some u else none)
    | none => pure none
  match found with
  | some u => pure u
  | none => do
    let createdUpvalue ← allocate (.upvalue (.stack slot) .nil upvalue)
    match prevUpvalue with
    | none => modifyVM fun vm => { vm with openUpvalues := some createdUpvalue }
    | some p =>
      match ← getObj p with
      | .upvalue loc closed _ => setObj p (.upvalue loc closed (some createdUpvalue))
      | _ => undefinedBehaviour "open list entry is not an upvalue"
    pure createdUpvalue

/-- The `while` of `closeUpvalues`. -/
def closeUpvaluesLoop : Nat → Nat → M Unit
  | 0, _ => outOfFuel
  | n + 1, last => do
    let s ← getSt
    match s.vm.openUpvalues with
    | none => pure ()
    | some u =>
      let (loc, next) ← openSlot u
      if loc ≥ last then do
        setObj u (.upvalue .closed (s.vm.slot loc) next)
        modifyVM fun vm => { vm with openUpvalues := next }
        closeUpvaluesLoop n last
      else pure ()

def closeUpvalues (last : Nat) : M Unit := do
  let s ← getSt
  closeUpvaluesLoop (s.vm.heap.length + 1) last

def defineMethod (name : Nat) : M Unit := do
  let method ← peek 0
  match ← peek 1 with
  | .obj k =>
    match ← getObj k with
    | .klass cname methods => do
      setObj k (.klass cname (tableSet methods name method))
      let _ ← pop
      pure ()
    | _ => undefinedBehaviour "AS_CLASS of an object that is not a class"
  | _ => undefinedBehaviour "AS_CLASS of a value that is not an object"

def isFalsey (value : Value) : Bool :=
  IS_NIL value || (IS_BOOL value && match value with
    | .bool b => !b
    | _ => false)

def concatenate : M Unit := do
  let b ← stringChars (← asString (← peek 0))
  let a ← stringChars (← asString (← peek 1))
  let result ← copyString (a ++ b)
  let _ ← pop
  let _ ← pop
  push (.obj result)

/-- The decimal digits of a natural number, as bytes. -/
def decimal (n : Nat) : List Nat := (Nat.toDigits 10 n).map Char.toNat

/-- What `printValue` writes for a value. -/
def printValue (vm : VM) (value : Value) : Printed :=
  match value with
  | .bool b => .text (bytes (if b then "true" else "false"))
  | .nil => .text (bytes "nil")
  | .int i => .text (if i < 0 then 45 :: decimal i.natAbs else decimal i.natAbs)
  | .float f => .float f
  | .obj r =>
    match vm.heap.get? r with
    | some (.string chars) => .text chars
    | some o => .object o
    | none => .dangling

/-! ### The dispatch loop -/

def getFrame (frame : Nat) : M CallFrame := fun s =>
  match s.vm.frames.get? frame with
  | some f => .ok f s
  | none => .undefinedBehaviour "frame pointer outside the written frames" s

def setFrame (frame : Nat) (f : CallFrame) : M Unit :=
  modifyVM fun vm => { vm with frames := vm.frames.set frame f }

/-- `READ_BYTE()` through the frame pointer of `run`. -/
def readByte (frame : Nat) : M Nat := do
  let f ← getFrame frame
  let fn ← closureFunction f.closure
  match fn.chunk.code.get? f.ip with
  | some b => do
    setFrame frame { f with ip := f.ip + 1 }
    pure b
  | none => undefinedBehaviour "instruction pointer outside the code array"

/-- `READ_SHORT()`: two bytes, big-endian. -/
def readShort (frame : Nat) : M Nat := do
  let hi ← readByte frame
  let lo ← readByte frame
  pure (hi * 256 + lo)

/-- `READ_CONSTANT()`. -/
def readConstant (frame : Nat) : M Value := do
  let index ← readByte frame
  let f ← getFrame frame
  let fn ← closureFunction f.closure
  match fn.chunk.constants.get? index with
  | some v => pure v
  | none => undefinedBehaviour "constant index outside the constant pool"

/-- `READ_STRING()`. -/
def readString (frame : Nat) : M Nat := do
  asString (← readConstant frame)

/-- `INT_VAL(x)` for a `double` x with an integral part `i`: the conversion to
`int` is undefined outside the range of `int`. -/
def intOfDouble (i : Int) : M Value :=
  if INT_MIN ≤ i ∧ i ≤ INT_MAX then pure (.int i)
  else undefinedBehaviour "conversion of a double outside the range of int"

/-- The macro `BINARY_OP_INT`; `op` computes the value pushed from `a` and `b`.
A result other than none is what `run` returns. -/
def binaryOpInt (op : Int → Int → M Value) : M (Option InterpretResult) := do
  let bothInt ← if !(IS_INT (← peek 0)) then pure false else pure (IS_INT (← peek 1))
  if !bothInt then do
    runtimeError "From BINARY_OP_INT. Operands must be numbers." []
    pure (some .INTERPRET_RUNTIME_ERROR)
  else do
    let b ← pop
    let a ← pop
    match a, b with
    | .int a, .int b => do
      push (← op a b)
      pure none
    | _, _ => undefinedBehaviour "unreachable"

/-- The macro `BINARY_OP_FLOAT`. -/
def binaryOpFloat (op : FloatVal → FloatVal → Value) : M (Option InterpretResult) := do
  let bothFloat ← if !(IS_FLOAT (← peek 0)) then pure false else pure (IS_FLOAT (← peek 1))
  if !bothFloat then do
    runtimeError "From BINARY_OP_FLOAT. Operands must be numbers." []
    pure (some .INTERPRET_RUNTIME_ERROR)
  else do
    let b ← pop
    let a ← pop
    match a, b with
    | .float a, .float b => do
      push (op a b)
      pure none
    | _, _ => undefinedBehaviour "unreachable"

/-- `a / b` on the doubles of two ints, converted back to `int`. -/
def divideInt (a b : Int) : M Value :=
  if b = 0 then undefinedBehaviour "conversion of an infinite or NaN double to int"
  else intOfDouble (Int.tdiv a b)

/-- The cases `OP_ADD_FLOAT` .. `OP_DIVIDE_FLOAT`, none of which ends in
`break`: control runs on through the cases that follow, down to the `break`
of `OP_NOT`. -/
def floatCases : List (FloatVal → FloatVal → FloatVal) → M (Option InterpretResult)
  | [] => do
    push (.bool (isFalsey (← pop)))
    pure none
  | op :: rest => do
    match ← binaryOpFloat fun a b => .float (op a b) with
    | some r => pure (some r)
    | none => floatCases rest

/-- The typed global reads `OP_GET_GLOBAL_INT/FLOAT/STRING`; both error paths
end in `break`. -/
def getGlobalTyped (frame : Nat) (isType : Value → M Bool) (format : String) :
    M (Option InterpretResult) := do
  let name ← readString frame
  let s ← getSt
  match tableGet s.vm.globals name with
  | none => do
    runtimeError "Undefined variable '%s'." [.str (← stringChars name)]
    pure none
  | some value => do
    if !(← isType value) then do
      runtimeError format [.str (← stringChars name)]
      pure none
    else do
      push value
      pure none

/-- `IS_STRING(value)`. -/
def isString (value : Value) : M Bool := do
  match value with
  | .obj r =>
    match ← getObj r with
    | .string _ => pure true
    | _ => pure false
  | _ => pure false

/-- The typed global writes `OP_SET_GLOBAL_INT/FLOAT/STRING`; the error path
ends in `break`. -/
def setGlobalTyped (frame : Nat) (isType : Value → M Bool) (format : String) :
    M (Option InterpretResult) := do
  let name ← readString frame
  let value ← pop
  if !(← isType value) then do
    runtimeError format [.str (← stringChars name)]
    pure none
  else do
    modifyVM fun vm => { vm with globals := tableSet vm.globals name value }
    pure none

/-- The typed definitions `OP_DEFINE_GLOBAL_FLOAT/STRING`; the error path returns. -/
def defineGlobalTyped (frame : Nat) (isType : Value → M Bool) (format : String) :
    M (Option InterpretResult) := do
  let name ← readString frame
  let value ← pop
  if !(← isType value) then do
    runtimeError format []
    pure (some .INTERPRET_RUNTIME_ERROR)
  else do
    modifyVM fun vm => { vm with globals := tableSet vm.globals name value }
    pure none

/-- The location an upvalue cell of the frame's closure points to. -/
def frameUpvalue (frame : Nat) (slot : Nat) : M Nat := do
  let f ← getFrame frame
  match ← getObj f.closure with
  | .closure _ upvalues =>
    match upvalues.get? slot with
    | some (some u) => pure u
    | _ => undefinedBehaviour "use of an upvalue pointer that was never set"
  | _ => undefinedBehaviour "AS_CLOSURE of an object that is not a closure"

/-- The capture loop of `OP_CLOSURE` for the cells `i, i + 1, ..`. -/
def closureLoop (frame : Nat) (closure : Nat) : Nat → Nat → M Unit
  | 0, _ => pure ()
  | n + 1, i => do
    let isLocal ← readByte frame
    let index ← readByte frame
    let cell ← if isLocal ≠ 0 then do
        let f ← getFrame frame
        captureUpvalue (f.slots + index)
      else frameUpvalue frame index
    match ← getObj closure with
    | .closure fn upvalues => setObj closure (.closure fn (upvalues.set i (some cell)))
    | _ => undefinedBehaviour "AS_CLOSURE of an object that is not a closure"
    closureLoop frame closure n (i + 1)

/-- The class a popped value is used as by `AS_CLASS`, with no check. -/
def asClass (v : Value) : M Nat := do
  match v with
  | .obj r => pure r
  | _ => undefinedBehaviour "AS_CLASS of a value that is not an object"

/-- The `case` of the `switch` of `run` for an opcode, the opcode byte already
read.  The result is the frame pointer for the next round of the loop, or the
value `run` returns.  The opcodes without a `case` do nothing. -/
def execute (host : Host) (frame : Nat) (op : OpCode) : M (Nat ⊕ InterpretResult) := do
  let continueWith (r : Option InterpretResult) : M (Nat ⊕ InterpretResult) :=
    match r with
    | none => pure (.inl frame)
    | some res => pure (.inr res)
  let reloadFrame (ok : Bool) : M (Nat ⊕ InterpretResult) := do
    if !ok then pure (.inr .INTERPRET_RUNTIME_ERROR)
    else do
      let s ← getSt
      if s.vm.frameCount = 0 then undefinedBehaviour "frame pointer before the frame array"
      else pure (.inl (s.vm.frameCount - 1))
  match op with
  | .OP_CONSTANT => do
    push (← readConstant frame)
    pure (.inl frame)
  | .OP_CONSTANT_INT => do
    -- no test of the tag; `NIL_VAL` stores the integer 0 in the union
    match ← readConstant frame with
    | .int i => do
      push (.int i)
      pure (.inl frame)
    | .nil => do
      push (.int 0)
      pure (.inl frame)
    | _ => undefinedBehaviour "AS_INT of a value that is not an int"
  | .OP_CONSTANT_FLOAT => do
    match ← readConstant frame with
    | .float f => do
      push (.float f)
      pure (.inl frame)
    | .nil => do
      push (.float .zero)
      pure (.inl frame)
    | _ => undefinedBehaviour "AS_FLOAT of a value that is not a float"
  | .OP_CONSTANT_STRING => do
    match ← readConstant frame with
    | .obj r => do
      push (.obj r)
      if host.typeFieldIsValObj (← getObj r) then do
        runtimeError "Expected a string" []
        pure (.inl frame)
      else pure (.inl frame)
    | _ => undefinedBehaviour "AS_STRING of a value that is not an object"
  | .OP_NIL => do
    push .nil
    pure (.inl frame)
  | .OP_TRUE => do
    push (.bool true)
    pure (.inl frame)
  | .OP_FALSE => do
    push (.bool false)
    pure (.inl frame)
  | .OP_POP => do
    let _ ← pop
    pure (.inl frame)
  | .OP_GET_LOCAL => do
    let slot ← readByte frame
    let f ← getFrame frame
    let s ← getSt
    push (s.vm.slot (f.slots + slot))
    pure (.inl frame)
  | .OP_SET_LOCAL => do
    let slot ← readByte frame
    let f ← getFrame frame
    let v ← peek 0
    modifyVM fun vm => { vm with stack := storeSlot vm.stack (f.slots + slot) v }
    pure (.inl frame)
  | .OP_GET_GLOBAL => do
    let name ← readString frame
    let s ← getSt
    match tableGet s.vm.globals name with
    | none => do
      runtimeError "Undefined variable '%s'." [.str (← stringChars name)]
      pure (.inr .INTERPRET_RUNTIME_ERROR)
    | some value => do
      push value
      pure (.inl frame)
  | .OP_SET_GLOBAL => pure (.inl frame)
  | .OP_DEFINE_GLOBAL => do
    let name ← readString frame
    let v ← peek 0
    modifyVM fun vm => { vm with globals := tableSet vm.globals name v }
    let _ ← pop
    pure (.inl frame)
  | .OP_GET_GLOBAL_INT =>
    getGlobalTyped frame (fun v => pure (IS_INT v)) "Expected int value for variable '%s'."
      >>= continueWith
  | .OP_GET_GLOBAL_FLOAT =>
    getGlobalTyped frame (fun v => pure (IS_FLOAT v)) "Expected float value for variable '%s'."
      >>= continueWith
  | .OP_GET_GLOBAL_STRING =>
    getGlobalTyped frame isString "Expected string value for variable '%s'." >>= continueWith
  | .OP_DEFINE_GLOBAL_INT => do
    let name ← readString frame
    let value ← pop
    modifyVM fun vm => { vm with globals := tableSet vm.globals name value }
    pure (.inl frame)
  | .OP_DEFINE_GLOBAL_FLOAT =>
    defineGlobalTyped frame (fun v => pure (IS_FLOAT v))
      "Cannot assign non-float value to float variable." >>= continueWith
  | .OP_DEFINE_GLOBAL_STRING =>
    defineGlobalTyped frame isString
      "Cannot assign non-string value to string variable." >>= continueWith
  | .OP_SET_GLOBAL_INT =>
    setGlobalTyped frame (fun v => pure (IS_INT v)) "Expected int value for variable '%s'."
      >>= continueWith
  | .OP_SET_GLOBAL_FLOAT =>
    setGlobalTyped frame (fun v => pure (IS_FLOAT v)) "Expected float value for variable '%s'."
      >>= continueWith
  | .OP_SET_GLOBAL_STRING =>
    setGlobalTyped frame isString "Expected string value for variable '%s'." >>= continueWith
  | .OP_GET_UPVALUE => do
    let slot ← readByte frame
    let u ← frameUpvalue frame slot
    let s ← getSt
    match ← getObj u with
    | .upvalue (.stack i) _ _ => push (s.vm.slot i)
    | .upvalue .closed v _ => push v
    | _ => undefinedBehaviour "upvalue pointer to an object that is not an upvalue"
    pure (.inl frame)
  | .OP_SET_UPVALUE => do
    let slot ← readByte frame
    let u ← frameUpvalue frame slot
    let v ← peek 0
    match ← getObj u with
    | .upvalue (.stack i) _ _ => modifyVM fun vm => { vm with stack := storeSlot vm.stack i v }
    | .upvalue .closed _ next => setObj u (.upvalue .closed v next)
    | _ => undefinedBehaviour "upvalue pointer to an object that is not an upvalue"
    pure (.inl frame)
  | .OP_GET_PROPERTY => do
    let notInstance : M (Nat ⊕ InterpretResult) := do
      runtimeError "Only instances have properties." []
      pure (.inr .INTERPRET_RUNTIME_ERROR)
    match ← peek 0 with
    | .obj r =>
      match ← getObj r with
      | .inst klass fields => do
        let name ← readString frame
        match tableGet fields name with
        | some value => do
          let _ ← pop
          push value
          pure (.inl frame)
        | none =>
          if !(← bindMethod klass name) then pure (.inr .INTERPRET_RUNTIME_ERROR)
          else pure (.inl frame)
      | _ => notInstance
    | _ => notInstance
  | .OP_SET_PROPERTY => do
    let notInstance : M (Nat ⊕ InterpretResult) := do
      runtimeError "Only instances have fields." []
      pure (.inr .INTERPRET_RUNTIME_ERROR)
    match ← peek 1 with
    | .obj r =>
      match ← getObj r with
      | .inst klass fields => do
        let name ← readString frame
        setObj r (.inst klass (tableSet fields name (← peek 0)))
        let value ← pop
        let _ ← pop
        push value
        pure (.inl frame)
      | _ => notInstance
    | _ => notInstance
  | .OP_GET_SUPER => do
    let name ← readString frame
    let superclass ← asClass (← pop)
    if !(← bindMethod superclass name) then pure (.inr .INTERPRET_RUNTIME_ERROR)
    else pure (.inl frame)
  | .OP_EQUAL => do
    let b ← pop
    let a ← pop
    push (.bool (valuesEqual host a b))
    pure (.inl frame)
  | .OP_GREATER => do
    if IS_INT (← peek 0) then
      binaryOpInt (fun a b => pure (.bool (decide (a > b)))) >>= continueWith
    else if IS_FLOAT (← peek 0) then
      binaryOpFloat (fun a b => .bool (host.floatGreater a b)) >>= continueWith
    else do
      concatenate
      pure (.inl frame)
  | .OP_LESS => do
    if IS_INT (← peek 0) then
      binaryOpInt (fun a b => pure (.bool (decide (a < b)))) >>= continueWith
    else if IS_FLOAT (← peek 0) then
      binaryOpFloat (fun a b => .bool (host.floatLess a b)) >>= continueWith
    else do
      concatenate
      pure (.inl frame)
  | .OP_ADD => do
    concatenate
    pure (.inl frame)
  | .OP_ADD_INT => binaryOpInt (fun a b => intOfDouble (a + b)) >>= continueWith
  | .OP_SUBTRACT_INT => binaryOpInt (fun a b => intOfDouble (a - b)) >>= continueWith
  | .OP_MULTIPLY_INT => binaryOpInt (fun a b => intOfDouble (a * b)) >>= continueWith
  | .OP_DIVIDE_INT => binaryOpInt divideInt >>= continueWith
  | .OP_ADD_FLOAT => floatCases [.add, .sub, .mul, .div] >>= continueWith
  | .OP_SUBTRACT_FLOAT => floatCases [.sub, .mul, .div] >>= continueWith
  | .OP_MULTIPLY_FLOAT => floatCases [.mul, .div] >>= continueWith
  | .OP_DIVIDE_FLOAT => floatCases [.div] >>= continueWith
  | .OP_NOT => floatCases [] >>= continueWith
  | .OP_NEGATE_INT => do
    match ← peek 0 with
    | .int _ => do
      match ← pop with
      | .int i =>
        if i = INT_MIN then undefinedBehaviour "negation of INT_MIN"
        else do
          push (.int (-i))
          pure (.inl frame)
      | _ => undefinedBehaviour "unreachable"
    | _ => do
      runtimeError "Operand must be a number." []
      pure (.inr .INTERPRET_RUNTIME_ERROR)
  | .OP_NEGATE_FLOAT => do
    match ← peek 0 with
    | .float _ => do
      match ← pop with
      | .float f => do
        push (.float (.neg f))
        pure (.inl frame)
      | _ => undefinedBehaviour "unreachable"
    | _ => do
      runtimeError "Operand must be a number." []
      pure (.inr .INTERPRET_RUNTIME_ERROR)
  | .OP_PRINT => do
    let value ← pop
    let s ← getSt
    logEvent (.print (printValue s.vm value))
    pure (.inl frame)
  | .OP_JUMP => do
    let offset ← readShort frame
    let f ← getFrame frame
    setFrame frame { f with ip := f.ip + offset }
    pure (.inl frame)
  | .OP_JUMP_IF_FALSE => do
    let offset ← readShort frame
    if isFalsey (← peek 0) then do
      let f ← getFrame frame
      setFrame frame { f with ip := f.ip + offset }
    pure (.inl frame)
  | .OP_LOOP => do
    let offset ← readShort frame
    let f ← getFrame frame
    if f.ip < offset then undefinedBehaviour "instruction pointer before the code array"
    else do
      setFrame frame { f with ip := f.ip - offset }
      pure (.inl frame)
  | .OP_CALL => do
    let argCount ← readByte frame
    callValue host (← peek argCount) argCount >>= reloadFrame
  | .OP_INVOKE => do
    let method ← readString frame
    let argCount ← readByte frame
    invoke host method argCount >>= reloadFrame
  | .OP_SUPER_INVOKE => do
    let method ← readString frame
    let argCount ← readByte frame
    let superclass ← asClass (← pop)
    invokeFromClass superclass method argCount >>= reloadFrame
  | .OP_CLOSURE => do
    match ← readConstant frame with
    | .obj function => do
      let closure ← newClosure function
      push (.obj closure)
      match ← getObj closure with
      | .closure _ upvalues => closureLoop frame closure upvalues.length 0
      | _ => undefinedBehaviour "unreachable"
      pure (.inl frame)
    | _ => undefinedBehaviour "AS_FUNCTION of a value that is not an object"
  | .OP_CLOSE_UPVALUE => do
    let s ← getSt
    if s.vm.stackTop = 0 then undefinedBehaviour "pop below the first stack slot"
    else do
      closeUpvalues (s.vm.stackTop - 1)
      let _ ← pop
      pure (.inl frame)
  | .OP_RETURN => pure (.inr .INTERPRET_OK)
  | .OP_CLASS => do
    let name ← readString frame
    let k ← allocate (.klass name [])
    push (.obj k)
    pure (.inl frame)
  | .OP_INHERIT => do
    let notClass : M (Nat ⊕ InterpretResult) := do
      runtimeError "Superclass must be a class." []
      pure (.inr .INTERPRET_RUNTIME_ERROR)
    match ← peek 1 with
    | .obj sup =>
      match ← getObj sup with
      | .klass _ superMethods => do
        match ← peek 0 with
        | .obj sub =>
          match ← getObj sub with
          | .klass subName subMethods => do
            setObj sub (.klass subName (tableAddAll superMethods subMethods))
            let _ ← pop
            pure (.inl frame)
          | _ => undefinedBehaviour "AS_CLASS of an object that is not a class"
        | _ => undefinedBehaviour "AS_CLASS of a value that is not an object"
      | _ => notClass
    | _ => notClass
  | .OP_METHOD => do
    defineMethod (← readString frame)
    pure (.inl frame)
  | .OP_TYPE_ERROR => do
    runtimeError "Type mismatch" []
    pure (.inr .INTERPRET_RUNTIME_ERROR)
  | .OP_RUNTIME_ERROR => do
    runtimeError "An error occurred" []
    pure (.inr .INTERPRET_RUNTIME_ERROR)
  | .OP_SUBTRACT | .OP_MULTIPLY | .OP_DIVIDE | .OP_CHECK_INT | .OP_CHECK_FLOAT
  | .OP_CHECK_STRING => pure (.inl frame)

/-- One round of the `for (;;)` of `run`: reads the byte at the frame's
instruction pointer and executes its `case`; a byte that is no opcode has
none. -/
def step (host : Host) (frame : Nat) : M (Nat ⊕ InterpretResult) := do
  let instruction ← readByte frame
  match OpCode.ofByte instruction with
  | some op => execute host frame op
  | none => pure (.inl frame)

/-- The `for (;;)` of `run`, at most `fuel` rounds, with `frame` the local
frame pointer. -/
def runLoop (host : Host) : Nat → Nat → M InterpretResult
  | 0, _ => outOfFuel
  | n + 1, frame => do
    match ← step host frame with
    | .inl frame1 => runLoop host n frame1
    | .inr result => pure result

/-- `run`: the frame pointer starts at `&vm.frames[vm.frameCount - 1]`. -/
def run (host : Host) (fuel : Nat) : M InterpretResult := do
  let s ← getSt
  if s.vm.frameCount = 0 then undefinedBehaviour "frame pointer before the frame array"
  else runLoop host fuel (s.vm.frameCount - 1)

/-- `interpret`. -/
def interpret (host : Host) (fuel : Nat) (source : List Nat) : M InterpretResult := do
  match ← compile fuel source with
  | none => pure .INTERPRET_COMPILE_ERROR
  | some function => do
    push (.obj function)
    let closure ← newClosure function
    let _ ← pop
    push (.obj closure)
    let _ ← call closure 0
    run host fuel

/-! ### Initial state -/

/-- The zero-initialised token of the static `parser`; it is assigned before
it is read. -/
def zeroToken : Token := { type := .UNINITIALIZED, start := [], length := 0, line := 0 }

/-- The process state at start-up, before `initVM`. -/
def startState : St :=
  { scanner := initScanner [],
    parser := { current := zeroToken, previous := zeroToken, hadError := false,
                panicMode := false, currentType := .VAL_BOOL },
    compilers := [],
    classCompilers := [],
    vm := { stack := [], stackTop := 0, frames := [], frameCount := 0, openUpvalues := none,
            globals := [], heap := [], initString := 0 },
    log := [] }

/-- `defineNative`. -/
def defineNative (name : String) : M Unit := do
  push (.obj (← copyString (bytes name)))
  push (.obj (← allocate (.native name)))
  let s ← getSt
  let key ← asString (s.vm.slot 0)
  modifyVM fun vm => { vm with globals := tableSet vm.globals key (s.vm.slot 1) }
  let _ ← pop
  let _ ← pop
  pure ()

/-- `initVM`. -/
def initVM : M Unit := do
  resetStack
  modifyVM fun vm => { vm with globals := [], heap := [], stack := [] }
  let r ← copyString (bytes "init")
  modifyVM fun vm => { vm with initString := r }
  defineNative "clock"

/-- The state after `initVM()` in a fresh process, if it succeeds. -/
def freshState : Option St :=
  match initVM startState with
  | .ok _ s => some s
  | _ => none

/-- The state a computation ends in, when it ends normally, by `exit` or in
undefined behaviour. -/
def Res.state? {α : Type} : Res α → Option St
  | .ok _ s => some s
  | .exit _ s => some s
  | .undefinedBehaviour _ s => some s
  | .outOfFuel => none

/-- The result of a computation that ends normally. -/
def Res.value? {α : Type} : Res α → Option α
  | .ok a _ => some a
  | _ => none

/-- The event log a computation ends with. -/
def Res.log {α : Type} (r : Res α) : List Event :=
  match r.state? with
  | some s => s.log
  | none => []

/-! ## Vocabulary for the statements below -/

/-- The state in which the chunk under construction has received further bytes. -/
def St.emit (s : St) (code : List Nat) : St :=
  match s.compilers with
  | c :: rest =>
    { s with compilers :=
        { c with function := { c.function with
            chunk := { c.function.chunk with code := c.function.chunk.code ++ code } } } :: rest }
  | [] => s

/-- The state in which `parser.currentType` has been assigned. -/
def St.withCurrentType (s : St) (t : ValueType) : St :=
  { s with parser := { s.parser with currentType := t } }

/-- The code of the chunk under construction. -/
def St.code (s : St) : List Nat :=
  match s.compilers with
  | c :: _ => c.function.chunk.code
  | [] => []

/-- The locals of the frame `current` points to. -/
def St.locals (s : St) : List Local :=
  match s.compilers with
  | c :: _ => c.locals
  | [] => []

/-- A host for closed evaluations: the clock reads 0, floating-point payloads
compare as terms, and no loaded string fails the test of `OP_CONSTANT_STRING`.
A run that never consults the host (`hostFreeInterpret`) is the same on every
other host. -/
def plainHost : Host :=
  { clock := 0, floatEq := fun a b => a == b, floatGreater := fun _ _ => false,
    floatLess := fun _ _ => false, typeFieldIsValObj := fun _ => false }

/-- The process state after `initVM()` at start-up. -/
def freshVM : St :=
  match freshState with
  | some s => s
  | none => startState

/-- The compiler at the first declaration inside a block statement: what
`compile`, `declaration`, `statement` and `block` have done when the `{` that
opens `source` has been consumed (two calls of `beginScope`). -/
def enterBlock (source : List Nat) : M Unit := do
  modifySt fun s => { s with scanner := initScanner source }
  initCompiler .TYPE_SCRIPT
  modifySt fun s => { s with parser := { s.parser with hadError := false, panicMode := false } }
  advance
  let _ ← matchToken .TOKEN_LEFT_BRACE
  beginScope
  beginScope

/-- The compiler at the end of a parameter list: what `compile`,
`declaration`, `funDeclaration` and `function` have done when the parameters
of the function declaration that opens `source` have been parsed and the `)`
is the current token. -/
def enterFunction (source : List Nat) : M Unit := do
  modifySt fun s => { s with scanner := initScanner source }
  initCompiler .TYPE_SCRIPT
  modifySt fun s => { s with parser := { s.parser with hadError := false, panicMode := false } }
  advance
  let _ ← matchToken .TOKEN_FUN
  let _ ← parseVariable "Expect function name."
  markInitialized
  initCompiler .TYPE_FUNCTION
  beginScope
  consume .TOKEN_LEFT_PAREN "Expect '(' after function name."
  if !(← check .TOKEN_RIGHT_PAREN) then parameterLoop 300 else pure ()

/-- `enterBlock`, then the first declaration of the block. -/
def declareInBlock (source : List Nat) : M Unit := do
  enterBlock source
  declaration 100

/-- Name and depth of each local. -/
def namesAndDepths (locals : List Local) : List (List Nat × Int) :=
  locals.map fun l => (l.name.lexeme, l.depth)

/-- Whether `compile` returned a function. -/
def compiled (r : Res (Option Nat)) : Bool :=
  match r with
  | .ok (some _) _ => true
  | _ => false

/-- The function object at a heap address, if there is one. -/
def functionAt (s : St) (r : Nat) : Option ObjFunction :=
  match s.vm.heap.get? r with
  | some (.function f) => some f
  | _ => none

/-- The code of the chunk of the function `compile` returned. -/
def compiledCode (r : Res (Option Nat)) : List Nat :=
  match r with
  | .ok (some f) s => ((functionAt s f).map fun fn => fn.chunk.code).getD []
  | _ => []

/-- The compiler where `parsePrecedence` calls an infix rule: the prefix
expression that opens `source` has been compiled and the operator after it
has been consumed. -/
def atInfixOperator (source : List Nat) : M Unit := do
  modifySt fun s => { s with scanner := initScanner source }
  initCompiler .TYPE_SCRIPT
  modifySt fun s => { s with parser := { s.parser with hadError := false, panicMode := false } }
  advance
  advance
  let s ← getSt
  match (getRule s.parser.previous.type).prefixRule with
  | some prefixRule => applyRule 20 prefixRule false
  | none => pure ()
  advance

/-- The state a computation ends in, or the start-up state when there is none. -/
def Res.stateOr {α : Type} (r : Res α) : St := r.state?.getD startState

/-- The state in which `binary` is called for the `+` of `1 + 2;`. -/
def atPlus : St := (atInfixOperator (bytes "1 + 2;") freshVM).stateOr

/-- The state after the right operand of the `+` of `1 + 2;` has been compiled. -/
def afterRightOperand : St := (parsePrecedence 10 .PREC_FACTOR atPlus).stateOr

/-- The state in which `binary` is called for the `+` of `true + false;`. -/
def atBoolPlus : St := (atInfixOperator (bytes "true + false;") freshVM).stateOr

/-- The state after the right operand of the `+` of `true + false;` has been
compiled (no type has been recorded for either operand; `parser.currentType`
is still the `VAL_BOOL` of the zero-initialised parser). -/
def afterBoolOperand : St := (parsePrecedence 10 .PREC_FACTOR atBoolPlus).stateOr

/-- The state after the right operand of the `+` of `1 + "hi";` has been
compiled (left operand int, right operand string). -/
def afterMixedOperand : St :=
  (parsePrecedence 10 .PREC_FACTOR (atInfixOperator (bytes "1 + \"hi\";") freshVM).stateOr).stateOr

/-- Following the words of the specification: the opcode prescribed for an
arithmetic operator whose two operands have the same inferred type (both int:
the `*_INT` variant; both float: the `*_FLOAT` variant; both string and the
operator is `+`: the untyped `OP_ADD`). -/
def arithmeticOp : TokenType → ValueType → Option OpCode
  | .TOKEN_PLUS, .VAL_INT => some .OP_ADD_INT
  | .TOKEN_MINUS, .VAL_INT => some .OP_SUBTRACT_INT
  | .TOKEN_STAR, .VAL_INT => some .OP_MULTIPLY_INT
  | .TOKEN_SLASH, .VAL_INT => some .OP_DIVIDE_INT
  | .TOKEN_PLUS, .VAL_FLOAT => some .OP_ADD_FLOAT
  | .TOKEN_MINUS, .VAL_FLOAT => some .OP_SUBTRACT_FLOAT
  | .TOKEN_STAR, .VAL_FLOAT => some .OP_MULTIPLY_FLOAT
  | .TOKEN_SLASH, .VAL_FLOAT => some .OP_DIVIDE_FLOAT
  | .TOKEN_PLUS, .VAL_OBJ => some .OP_ADD
  | _, _ => none

/-! ### Runs that do not consult the host -/

/-- The opcodes whose `case` reads nothing of the host. -/
def hostFreeOp : OpCode → Bool
  | .OP_CONSTANT_STRING | .OP_EQUAL | .OP_GREATER | .OP_LESS | .OP_CALL | .OP_INVOKE => false
  | _ => true

/-- Whether the `case` of an opcode, entered in this state, reads nothing of
the host: so for every opcode but the six listed in `hostFreeOp`, for
`OP_CALL` when the callee is not a native function, and for `OP_GREATER` and
`OP_LESS` when the top of the stack is not a float. -/
def hostFreeCase (frame : Nat) (op : OpCode) (s : St) : Bool :=
  match op with
  | .OP_GREATER | .OP_LESS =>
    match peek 0 s with
    | .ok (.float _) _ => false
    | _ => true
  | .OP_CALL =>
    match (do
      let argCount ← readByte frame
      peek argCount : M Value) s with
    | .ok (.obj r) s1 =>
      match s1.vm.heap.get? r with
      | some (.native _) => false
      | _ => true
    | _ => true
  | op => hostFreeOp op

/-- Whether the next round of the dispatch loop reads nothing of the host. -/
def hostFreeStep (frame : Nat) (s : St) : Bool :=
  match readByte frame s with
  | .ok instruction s1 =>
    match OpCode.ofByte instruction with
    | some op => hostFreeCase frame op s1
    | none => true
  | _ => true

/-- Whether `n` rounds of the dispatch loop, followed with the plain host,
read nothing of the host. -/
def hostFreeRun : Nat → Nat → St → Bool
  | 0, _, _ => true
  | n + 1, frame, s =>
    hostFreeStep frame s &&
      match step plainHost frame s with
      | .ok (.inl frame1) s1 => hostFreeRun n frame1 s1
      | _ => true

/-- The part of `interpret` in front of `run`; the result tells whether `run`
is reached. -/
def prepare (fuel : Nat) (source : List Nat) : M Bool := do
  match ← compile fuel source with
  | none => pure false
  | some function => do
    push (.obj function)
    let closure ← newClosure function
    let _ ← pop
    push (.obj closure)
    let _ ← call closure 0
    pure true

/-- Whether `interpret` on this source, followed with the plain host, reads
nothing of the host. -/
def hostFreeInterpret (fuel : Nat) (source : List Nat) (s : St) : Bool :=
  match prepare fuel source s with
  | .ok true s1 => s1.vm.frameCount = 0 || hostFreeRun fuel (s1.vm.frameCount - 1) s1
  | _ => true

/-- A chunk written by hand: its code, and its constant pool, in which a byte
list stands for the interned string with those bytes. -/
def assemble (code : List Nat) (constants : List (Value ⊕ List Nat)) : M Nat := do
  let pool ← constants.mapM fun c =>
    match c with
    | .inl v => pure v
    | .inr chars => do
      let r ← copyString chars
      pure (Value.obj r)
  allocate (.function { newFunction with chunk := { code := code, lines := [], constants := pool } })

/-- What `interpret` does once `compile` has returned, for a function obtained
by `load`. -/
def launch (host : Host) (fuel : Nat) (load : M (Option Nat)) : M InterpretResult := do
  match ← load with
  | none => pure .INTERPRET_COMPILE_ERROR
  | some function => do
    push (.obj function)
    let closure ← newClosure function
    let _ ← pop
    push (.obj closure)
    let _ ← call closure 0
    run host fuel

/-- The part of `launch` in front of `run`. -/
def prepareLaunch (load : M (Option Nat)) : M Bool := do
  match ← load with
  | none => pure false
  | some function => do
    push (.obj function)
    let closure ← newClosure function
    let _ ← pop
    push (.obj closure)
    let _ ← call closure 0
    pure true

/-- Whether `launch`, followed with the plain host, reads nothing of the host. -/
def hostFreeLaunch (fuel : Nat) (load : M (Option Nat)) (s : St) : Bool :=
  match prepareLaunch load s with
  | .ok true s1 => s1.vm.frameCount = 0 || hostFreeRun fuel (s1.vm.frameCount - 1) s1
  | _ => true

/-- Running a hand-written chunk as the script: `launch` on the assembled
function. -/
def runChunk (host : Host) (fuel : Nat) (code : List Nat)
    (constants : List (Value ⊕ List Nat)) : M InterpretResult :=
  launch host fuel (do
    let fn ← assemble code constants
    pure (some fn))

/-- Whether `runChunk`, followed with the plain host, reads nothing of the host. -/
def hostFreeChunk (fuel : Nat) (code : List Nat) (constants : List (Value ⊕ List Nat))
    (s : St) : Bool :=
  hostFreeLaunch fuel (do
    let fn ← assemble code constants
    pure (some fn)) s

/-- The exit status of a computation ended by `exit`. -/
def Res.exitCode? {α : Type} : Res α → Option (Option Nat)
  | .exit c _ => some c
  | _ => none

/-- The evaluation stack height and the frame count a computation ends with. -/
def Res.extents {α : Type} (r : Res α) : Option (Nat × Nat) :=
  r.state?.map fun s => (s.vm.stackTop, s.vm.frameCount)

/-! ### States and sequences for the statements on constants, locals and `return` -/

/-- A sequence of `makeConstant` calls on the current chunk, with the index
each call returned. -/
def makeConstants : List Value → M (List Nat)
  | [] => pure []
  | v :: rest => do
    let i ← makeConstant v
    let is ← makeConstants rest
    pure (i :: is)

/-- The constant pool of the chunk under construction. -/
def St.constants (s : St) : List Value :=
  match s.compilers with
  | c :: _ => c.function.chunk.constants
  | [] => []

/-- The state `addConstant` leaves: the value written to the free stack slot
and appended to the constant pool. -/
def St.withConstant (s : St) (value : Value) : St :=
  match s.compilers with
  | c :: rest =>
    { s with
      vm := { s.vm with stack := storeSlot s.vm.stack s.vm.stackTop value },
      compilers :=
        { c with function := { c.function with chunk := writeValueArray c.function.chunk value } }
          :: rest }
  | [] => s

/-- Whether an opcode reads or writes a global. -/
def OpCode.globalAccess : OpCode → Bool
  | .OP_GET_GLOBAL | .OP_GET_GLOBAL_INT | .OP_GET_GLOBAL_FLOAT | .OP_GET_GLOBAL_STRING
  | .OP_SET_GLOBAL | .OP_SET_GLOBAL_INT | .OP_SET_GLOBAL_FLOAT | .OP_SET_GLOBAL_STRING => true
  | _ => false

/-- The frame `current` points to; a frame without locals when there is none. -/
def St.frame (s : St) : Compiler :=
  match s.compilers with
  | c :: _ => c
  | [] => { functionRef := 0, function := newFunction, type := .TYPE_SCRIPT, locals := [],
            upvalues := [], scopeDepth := 0 }

/-- A sequence of `addLocal` calls. -/
def addLocals : List Token → M Unit
  | [] => pure ()
  | name :: rest => do
    addLocal name
    addLocals rest

/-- The compiler at the first token of `source`: what `compile` has done when
it enters its loop. -/
def enterScript (source : List Nat) : M Unit := do
  modifySt fun s => { s with scanner := initScanner source }
  initCompiler .TYPE_SCRIPT
  modifySt fun s => { s with parser := { s.parser with hadError := false, panicMode := false } }
  advance

/-- The script compiler before the first token of an empty source. -/
def emptyScript : St := (enterScript [] freshVM).stateOr

/-- The compiler inside the block `\x7b a; \x7d` after `addLocal` has been called
for the names `a`, `b` and `a`, where `variable` is called for the `a` of the
source: the frame holds the reserved slot 0 and the three locals. -/
def shadowing : St :=
  ((do
    enterBlock (bytes "\x7b a; \x7d")
    addLocals [syntheticToken "a", syntheticToken "b", syntheticToken "a"]
    advance : M Unit) freshVM).stateOr

/-- The compiler in a frame whose 256 locals are all in use, at the declaration
`int x = 1;` inside a block: the reserved slot 0 and 255 calls of `addLocal`. -/
def fullFrame : St :=
  ((do
    enterBlock (bytes "\x7b int x = 1; \x7d")
    addLocals (List.replicate 255 (syntheticToken "v")) : M Unit) freshVM).stateOr

/-- The compiler of a function of the given type where `statement` calls
`returnStatement`: the `return` that opens `source` has been consumed. -/
def enterReturn (type : FunctionType) (source : List Nat) : M Unit := do
  enterScript source
  initCompiler type
  beginScope
  let _ ← matchToken .TOKEN_RETURN

/-! ### States of the VM and of the scanner for the statements on single instructions -/

/-- What made the behaviour undefined, when a computation ends that way. -/
def Res.undefined? {α : Type} : Res α → Option String
  | .undefinedBehaviour what _ => some what
  | _ => none

/-- The state in which the instruction pointer of a frame has been assigned. -/
def St.withIp (s : St) (frame ip : Nat) : St :=
  match s.vm.frames.get? frame with
  | some f => { s with vm := { s.vm with frames := s.vm.frames.set frame { f with ip := ip } } }
  | none => s

/-- Whether the backtrace of `runtimeError` can be written in this state: every
live frame has an entry in the line table of its function. -/
def St.tracesBack (s : St) : Bool := (backtrace s.vm s.vm.liveFrames).2

/-- The state `runtimeError` leaves when it returns: the message and the
backtrace written, the stack and the frames reset. -/
def St.afterRuntimeError (s : St) (format : String) (args : List Arg) : St :=
  { s with vm := { s.vm with stackTop := 0, frameCount := 0, openUpvalues := none },
           log := s.log ++ [.runtimeError format args (backtrace s.vm s.vm.liveFrames).1] }

/-- The state in which `runtimeError` has written its message and the lines of
the backtrace in front of the read that leaves the line table. -/
def St.afterMessage (s : St) (format : String) (args : List Arg) : St :=
  { s with log := s.log ++ [.runtimeError format args (backtrace s.vm s.vm.liveFrames).1] }

/-- The state in which the chunk of the function object `fn` has the line table
`lines`: a chunk as `writeChunk` is specified to build it, with an entry per
code byte.  No chunk the code builds has one. -/
def St.withLines (s : St) (fn : Nat) (lines : List Nat) : St :=
  match s.vm.heap.get? fn with
  | some (.function f) =>
    { s with vm := { s.vm with
        heap := s.vm.heap.set fn (.function { f with chunk := { f.chunk with lines := lines } }) } }
  | _ => s

/-- What `runtimeError(format, ..); return a;` comes to in the state `s`: the
value `a` in the state `runtimeError` leaves when the backtrace can be
written, and otherwise undefined behaviour after the message. -/
def St.raise {α : Type} (s : St) (format : String) (args : List Arg) (a : α) : Res α :=
  if s.tracesBack then .ok a (s.afterRuntimeError format args)
  else .undefinedBehaviour "read outside chunk.lines" (s.afterMessage format args)

/-- The VM where `run` starts on a hand-written chunk: the chunk's function
wrapped in a closure, the closure in stack slot 0 and in frame 0. -/
def loaded (code : List Nat) (constants : List (Value ⊕ List Nat)) : St :=
  (prepareLaunch (do
    let fn ← assemble code constants
    pure (some fn)) freshVM).stateOr

/-- The state after `n` rounds of the loop of `run` in frame 0, as far as they
go on to a next round. -/
def afterSteps : Nat → St → St
  | 0, s => s
  | n + 1, s =>
    match step plainHost 0 s with
    | .ok (.inl _) s1 => afterSteps n s1
    | _ => s

/-- The function object `assemble` makes of a chunk whose constants are plain values. -/
def chunkFunction (code : List Nat) (constants : List Value) : ObjFunction :=
  { newFunction with chunk := { code := code, lines := [], constants := constants } }

/-- The compiler where `parsePrecedence` calls a prefix rule for the first token
of `source`: that token has been consumed. -/
def atPrefixOperator (source : List Nat) : St :=
  ((do
    enterScript source
    advance : M Unit) freshVM).stateOr

/-- Whether `callValue` has a case for the object: a bound method, a class, a
closure or a native function. -/
def Obj.callable : Obj → Bool
  | .boundMethod _ _ | .klass _ _ | .closure _ _ | .native _ => true
  | _ => false

/-- The state in which `callValue` has put a fresh instance of the class `r`
into the slot of the callee, below `k` arguments. -/
def St.withInstance (s : St) (r k : Nat) : St :=
  { s with vm := { s.vm with
      heap := s.vm.heap ++ [.inst r []],
      stack := storeSlot s.vm.stack (s.vm.stackTop - 1 - k) (.obj s.vm.heap.length) } }

/-- The token kind the specification gives a word: the kind of the keyword
that has exactly these bytes, `IDENTIFIER` for every other word. -/
def specKeywordType (lexeme : List Nat) : TokenType :=
  if lexeme = bytes "class" then .TOKEN_CLASS
  else if lexeme = bytes "else" then .TOKEN_ELSE
  else if lexeme = bytes "false" then .TOKEN_FALSE
  else if lexeme = bytes "for" then .TOKEN_FOR
  else if lexeme = bytes "fun" then .TOKEN_FUN
  else if lexeme = bytes "if" then .TOKEN_IF
  else if lexeme = bytes "nil" then .TOKEN_NIL
  else if lexeme = bytes "or" then .TOKEN_OR
  else if lexeme = bytes "and" then .TOKEN_AND
  else if lexeme = bytes "print" then .TOKEN_PRINT
  else if lexeme = bytes "return" then .TOKEN_RETURN
  else if lexeme = bytes "super" then .TOKEN_SUPER
  else if lexeme = bytes "this" then .TOKEN_THIS
  else if lexeme = bytes "true" then .TOKEN_TRUE
  else if lexeme = bytes "while" then .TOKEN_WHILE
  else if lexeme = bytes "int" then .TOKEN_INT
  else if lexeme = bytes "float" then .TOKEN_FLOAT
  else if lexeme = bytes "string" then .TOKEN_STRING
  else .TOKEN_IDENTIFIER

/-- A scanner that has read the word `lexeme` behind `before`: `start` at the
first byte of the word, `current` behind its last byte. -/
def atWordEnd (before lexeme rest : List Nat) (line : Nat) : Scanner :=
  { source := before ++ lexeme ++ rest, start := before.length,
    current := before.length + lexeme.length, line := line }

/-! ### Upvalues, the open-upvalue list and expressions of three literals -/

/-- The state in which the two topmost stack values have been replaced by one. -/
def St.withResult (s : St) (v : Value) : St :=
  { s with vm := { s.vm with stack := storeSlot s.vm.stack (s.vm.stackTop - 2) v,
                             stackTop := s.vm.stackTop - 1 } }

/-- The upvalue descriptors of a frame that are in use: the first `upvalueCount`
entries of its array. -/
def Compiler.descriptors (c : Compiler) : List Upvalue :=
  c.upvalues.take c.function.upvalueCount

/-- The frame after `addUpvalue` has appended a descriptor. -/
def Compiler.withUpvalue (c : Compiler) (u : Upvalue) : Compiler :=
  { c with upvalues := c.descriptors ++ [u],
           function := { c.function with upvalueCount := c.function.upvalueCount + 1 } }

/-- The frame in which local `i` has been marked as captured. -/
def Compiler.withCaptured (c : Compiler) (i : Nat) : Compiler :=
  { c with locals := c.locals.modify (fun l => { l with isCaptured := true }) i }

/-- The state in which frame `k` of the chain of compilers has been replaced. -/
def St.withFrame (s : St) (k : Nat) (c : Compiler) : St :=
  { s with compilers := s.compilers.set k c }

/-- Frame `k` of the chain of compilers, counted from `current`; the current
frame when there is no such frame. -/
def St.frameAt (s : St) (k : Nat) : Compiler := s.compilers.getD k s.frame

/-- The state inside the body of a function declared at top level: the chain
of compilers holds the frame of the function and the frame of the script. -/
def insideFunction : St :=
  (enterFunction (bytes "fun f(a, b) \x7b return a; \x7d") freshVM).stateOr

/-- The open upvalues reached from `head` through the `next` fields, as pairs
(address, stack slot), in list order; `none` when an entry is not an open
upvalue or the walk does not end within `n` entries. -/
def openList : Nat → List Obj → Option Nat → Option (List (Nat × Nat))
  | 0, _, _ => none
  | _ + 1, _, none => some []
  | n + 1, heap, some u =>
    match heap.get? u with
    | some (.upvalue (.stack slot) _ next) =>
      match openList n heap next with
      | some rest => some ((u, slot) :: rest)
      | none => none
    | _ => none

/-- The list `vm.openUpvalues`, as pairs (address, stack slot). -/
def St.openUpvalues (s : St) : Option (List (Nat × Nat)) :=
  openList (s.vm.heap.length + 1) s.vm.heap s.vm.openUpvalues

/-- Strictly decreasing by stack slot. -/
def decreasingSlots (l : List (Nat × Nat)) : Prop :=
  l.Pairwise (fun a b => b.2 < a.2)

instance (l : List (Nat × Nat)) : Decidable (decreasingSlots l) := by
  unfold decreasingSlots
  infer_instance

/-- The entries `l` lead from `head` to `e` through the `next` fields of the
heap, every one an open upvalue. -/
def IsSeg (heap : List Obj) : Option Nat → List (Nat × Nat) → Option Nat → Prop
  | head, [], e => head = e
  | head, (r, slot) :: rest, e =>
    head = some r ∧ ∃ closed next,
      heap.get? r = some (.upvalue (.stack slot) closed next) ∧ IsSeg heap next rest e

/-- The `prevUpvalue` of `captureUpvalue` after the walk has passed `before`. -/
def lastRef (prev : Option Nat) : List (Nat × Nat) → Option Nat
  | [] => prev
  | e :: rest => lastRef (some e.1) rest

/-- The state after `captureUpvalue` has been called for each of `slots` in
turn. -/
def capturing (slots : List Nat) (s : St) : St :=
  slots.foldl (fun s slot => (captureUpvalue slot s).stateOr) s

/-- A run of `k` blanks. -/
def blanks (k : Nat) : List Nat := List.replicate k 32

/-- The state after the compiler's `advance` has scanned the token `token` and
left the scanner as `sc`. -/
def St.shift (s : St) (token : Token) (sc : Scanner) : St :=
  { s with scanner := sc,
           parser := { s.parser with previous := s.parser.current, current := token } }

/-- What a stretch of compilation has added to the chunk under construction:
`code` to the code array and `constants` to the constant pool, with the stack
pointer and the output as before. -/
def Appended (s s1 : St) (code : List Nat) (constants : List Value) : Prop :=
  s1.compilers ≠ [] ∧ s1.vm.stackTop = s.vm.stackTop ∧ s1.code = s.code ++ code ∧
  s1.constants = s.constants ++ constants ∧ s1.log = s.log

/-- The text `a op1 b op2 c;`: three literals and two operator bytes, with
`gaps i` blanks in gap `i` and `rest` behind the semicolon. -/
def infixText (gaps : Nat → Nat) (a : List Nat) (op1 : Nat) (b : List Nat) (op2 : Nat)
    (c rest : List Nat) : List Nat :=
  a ++ (blanks (gaps 0) ++ op1 :: (blanks (gaps 1) ++ (b ++ (blanks (gaps 2) ++ op2 ::
    (blanks (gaps 3) ++ (c ++ (blanks (gaps 4) ++ 59 :: rest)))))))

/-- An integer literal: digits, at least one, whose value fits an `int`. -/
def intLiteral (d : List Nat) : Bool :=
  !d.isEmpty && d.all isDigit && decide (strtolDigits d 0 ≤ INT_MAX)

/-- The compiler where `expression` is called for an expression that starts
with the literal `a`: the literal is the current token, just scanned from
`text`, and the chunk has room for three more constants. -/
def atLiteral (s : St) (a text : List Nat) : Prop :=
  s.compilers ≠ [] ∧ s.vm.stackTop < STACK_MAX ∧ s.constants.length + 3 ≤ UINT8_COUNT ∧
  s.parser.current = makeToken s.scanner .TOKEN_INT_LITERAL ∧
  s.scanner.source.drop s.scanner.start = text ∧
  s.scanner.current = s.scanner.start + a.length

instance (s : St) (a text : List Nat) : Decidable (atLiteral s a text) := by
  unfold atLiteral
  infer_instance

/-- The code `integer_` emits for the `i`-th literal compiled from the state
`s` on: `OP_CONSTANT_INT` and the index of the next free constant. -/
def St.constantInt (s : St) (i : Nat) : List Nat :=
  [OpCode.OP_CONSTANT_INT.byte, s.constants.length + i]

/-! ## Theorems -/

/-! ### The initial state -/

/-- `initVM()` succeeds at start-up, and `freshVM` is the state it leaves. -/
theorem initVM_fresh : initVM startState = .ok () freshVM := by
  decide!

/-! ### Lemmas on emission -/

theorem emitOp_ok (op : OpCode) (s : St) (h : s.compilers ≠ []) :
    emitOp op s = .ok () (s.emit [op.byte]) := by
  cases hc : s.compilers with
  | nil => exact absurd hc h
  | cons c rest =>
    simp [emitOp, emitByte, modifyChunk, modifyCurrent, getSt, bind, M.bind, hc, St.emit,
      writeChunk]

theorem emit_code (s : St) (code : List Nat) (h : s.compilers ≠ []) :
    (s.emit code).code = s.code ++ code := by
  cases hc : s.compilers with
  | nil => exact absurd hc h
  | cons c rest => simp [St.emit, St.code, hc]

theorem binary_after_operand (n : Nat) (canAssign : Bool) (s s1 : St)
    (h : parsePrecedence n (getRule s.parser.previous.type).precedence.next s = .ok () s1) :
    binary (n + 1) canAssign s
      = binaryOperator s.parser.previous.type s.parser.currentType s1 := by
  rw [binary]
  simp only [bind, M.bind, getSt, h]

theorem binaryOperator_arithmetic (s : St) (op : TokenType) (t : ValueType) (code : OpCode)
    (h : s.compilers ≠ []) (hr : s.parser.currentType = t)
    (hop : arithmeticOp op t = some code) :
    binaryOperator op t s = .ok () ((s.emit [code.byte]).withCurrentType t) := by
  cases op <;> cases t <;> simp [arithmeticOp] at hop <;> subst hop <;>
    simp [binaryOperator, getSt, bind, M.bind, hr, emitOp_ok _ _ h, setCurrentType, modifySt,
      pure, M.pure, St.withCurrentType]

/-- The state `error` leaves when it ends the process: panic mode set, the
`Error:` line and the header for the previous token written. -/
theorem error_exits (message : String) (s : St) (hpanic : s.parser.panicMode = false) :
    error message s = .exit TokenType.TOKEN_ERROR.code
      { s with parser := { s.parser with panicMode := true },
               log := s.log ++ [.error message,
                 .errorAt s.parser.previous.line s.parser.previous.type
                   s.parser.previous.lexeme] } := by
  simp [error, errorAt, logEvent, modifySt, getSt, exitWith, bind, M.bind, hpanic, pure, M.pure]

/-! ### Independence of the host -/

theorem getObj_eq (r : Nat) (s : St) :
    getObj r s = match s.vm.heap.get? r with
      | some o => .ok o s
      | none => .undefinedBehaviour "dangling object pointer" s := rfl

theorem callValue_host (h1 h2 : Host) (callee : Value) (argCount : Nat) (s : St)
    (hn : ∀ r name, callee = .obj r → s.vm.heap.get? r ≠ some (.native name)) :
    callValue h1 callee argCount s = callValue h2 callee argCount s := by
  cases callee with
  | obj r =>
    have hg := getObj_eq r s
    cases ho : s.vm.heap.get? r with
    | none =>
      rw [ho] at hg
      simp only [callValue, bind, M.bind, hg]
    | some o =>
      rw [ho] at hg
      cases o with
      | native name => exact absurd ho (hn r name rfl)
      | _ => simp only [callValue, bind, M.bind, hg]
  | _ => rfl

theorem peek_state (d : Nat) (s s1 : St) (v : Value) (h : peek d s = .ok v s1) : s1 = s := by
  unfold peek at h
  split at h
  · exact Res.noConfusion h
  · injection h with _ h2
    exact h2.symm

theorem execute_host (h1 h2 : Host) (frame : Nat) (op : OpCode) (s : St)
    (h : hostFreeCase frame op s = true) :
    execute h1 frame op s = execute h2 frame op s := by
  cases op
  case OP_CALL =>
    simp only [hostFreeCase, bind, M.bind] at h
    simp only [execute, bind, M.bind]
    cases hb : readByte frame s with
    | ok argCount s1 =>
      simp only [hb] at h ⊢
      cases hp : peek argCount s1 with
      | ok callee s2 =>
        simp only [hp] at h ⊢
        rw [callValue_host h1 h2 callee argCount s2]
        intro r name hc hget
        subst hc
        simp only [hget] at h
        exact Bool.noConfusion h
      | _ => rfl
    | _ => rfl
  case OP_GREATER =>
    simp only [hostFreeCase] at h
    simp only [execute, bind, M.bind]
    cases hp : peek 0 s with
    | ok v s1 =>
      have hs := peek_state 0 s s1 v hp
      subst hs
      simp only [hp] at h ⊢
      cases v with
      | float f => exact Bool.noConfusion h
      | _ => simp [IS_INT, IS_FLOAT, Value.type, M.bind, hp]
    | _ => rfl
  case OP_LESS =>
    simp only [hostFreeCase] at h
    simp only [execute, bind, M.bind]
    cases hp : peek 0 s with
    | ok v s1 =>
      have hs := peek_state 0 s s1 v hp
      subst hs
      simp only [hp] at h ⊢
      cases v with
      | float f => exact Bool.noConfusion h
      | _ => simp [IS_INT, IS_FLOAT, Value.type, M.bind, hp]
    | _ => rfl
  all_goals first
    | exact Bool.noConfusion h
    | rfl

theorem step_host (h1 h2 : Host) (frame : Nat) (s : St) (h : hostFreeStep frame s = true) :
    step h1 frame s = step h2 frame s := by
  simp only [hostFreeStep] at h
  simp only [step, bind, M.bind]
  cases hb : readByte frame s with
  | ok instruction s1 =>
    simp only [hb] at h ⊢
    cases ho : OpCode.ofByte instruction with
    | none => rfl
    | some op =>
      simp only [ho] at h ⊢
      exact execute_host h1 h2 frame op s1 h
  | _ => rfl

theorem runLoop_host (host : Host) (n : Nat) :
    ∀ (frame : Nat) (s : St), hostFreeRun n frame s = true →
      runLoop host n frame s = runLoop plainHost n frame s := by
  induction n with
  | zero => intro frame s _; rfl
  | succ n ih =>
    intro frame s h
    simp only [hostFreeRun, Bool.and_eq_true] at h
    obtain ⟨hs, hr⟩ := h
    simp only [runLoop, bind, M.bind]
    rw [step_host host plainHost frame s hs]
    cases hstep : step plainHost frame s with
    | ok a s1 =>
      cases a with
      | inl frame1 =>
        simp only [hstep] at hr
        exact ih frame1 s1 hr
      | inr r => rfl
    | _ => rfl

theorem interpret_prepare (host : Host) (fuel : Nat) (source : List Nat) (s : St) :
    interpret host fuel source s =
      match prepare fuel source s with
      | .ok true s1 => run host fuel s1
      | .ok false s1 => .ok .INTERPRET_COMPILE_ERROR s1
      | .exit c s1 => .exit c s1
      | .undefinedBehaviour w s1 => .undefinedBehaviour w s1
      | .outOfFuel => .outOfFuel := by
  simp only [interpret, prepare, bind, M.bind]
  cases compile fuel source s with
  | ok f s1 =>
    cases f with
    | none => rfl
    | some function =>
      simp only [M.bind]
      cases push (.obj function) s1 with
      | ok _ s2 =>
        simp only [M.bind]
        cases newClosure function s2 with
        | ok closure s3 =>
          simp only [M.bind]
          cases pop s3 with
          | ok _ s4 =>
            simp only [M.bind]
            cases push (.obj closure) s4 with
            | ok _ s5 =>
              simp only [M.bind]
              cases call closure 0 s5 with
              | ok _ s6 => rfl
              | _ => rfl
            | _ => rfl
          | _ => rfl
        | _ => rfl
      | _ => rfl
  | _ => rfl

/-- A run of `interpret` that reads nothing of the host is the same run on
every host. -/
theorem interpret_host (host : Host) (fuel : Nat) (source : List Nat) (s : St)
    (h : hostFreeInterpret fuel source s = true) :
    interpret host fuel source s = interpret plainHost fuel source s := by
  rw [interpret_prepare host, interpret_prepare plainHost]
  simp only [hostFreeInterpret] at h
  cases hp : prepare fuel source s with
  | ok b s1 =>
    cases b with
    | false => rfl
    | true =>
      simp only [hp, Bool.or_eq_true, decide_eq_true_eq] at h
      simp only [run, bind, M.bind, getSt]
      by_cases hz : s1.vm.frameCount = 0
      · simp only [hz, if_true]
      · simp only [hz, if_false]
        rcases h with h | h
        · exact absurd h hz
        · exact runLoop_host host fuel _ s1 h
  | _ => rfl

theorem launch_prepare (host : Host) (fuel : Nat) (load : M (Option Nat)) (s : St) :
    launch host fuel load s =
      match prepareLaunch load s with
      | .ok true s1 => run host fuel s1
      | .ok false s1 => .ok .INTERPRET_COMPILE_ERROR s1
      | .exit c s1 => .exit c s1
      | .undefinedBehaviour w s1 => .undefinedBehaviour w s1
      | .outOfFuel => .outOfFuel := by
  simp only [launch, prepareLaunch, bind, M.bind]
  cases load s with
  | ok f s1 =>
    cases f with
    | none => rfl
    | some function =>
      simp only [M.bind]
      cases push (.obj function) s1 with
      | ok _ s2 =>
        simp only [M.bind]
        cases newClosure function s2 with
        | ok closure s3 =>
          simp only [M.bind]
          cases pop s3 with
          | ok _ s4 =>
            simp only [M.bind]
            cases push (.obj closure) s4 with
            | ok _ s5 =>
              simp only [M.bind]
              cases call closure 0 s5 with
              | ok _ s6 => rfl
              | _ => rfl
            | _ => rfl
          | _ => rfl
        | _ => rfl
      | _ => rfl
  | _ => rfl

/-- A launch that reads nothing of the host is the same on every host. -/
theorem launch_host (host : Host) (fuel : Nat) (load : M (Option Nat)) (s : St)
    (h : hostFreeLaunch fuel load s = true) :
    launch host fuel load s = launch plainHost fuel load s := by
  rw [launch_prepare host, launch_prepare plainHost]
  simp only [hostFreeLaunch] at h
  cases hp : prepareLaunch load s with
  | ok b s1 =>
    cases b with
    | false => rfl
    | true =>
      simp only [hp, Bool.or_eq_true, decide_eq_true_eq] at h
      simp only [run, bind, M.bind, getSt]
      by_cases hz : s1.vm.frameCount = 0
      · simp only [hz, if_true]
      · simp only [hz, if_false]
        rcases h with h | h
        · exact absurd h hz
        · exact runLoop_host host fuel _ s1 h

  | _ => rfl

/-- A hand-written chunk whose run reads nothing of the host runs the same on
every host. -/
theorem runChunk_host (host : Host) (fuel : Nat) (code : List Nat)
    (constants : List (Value ⊕ List Nat)) (s : St)
    (h : hostFreeChunk fuel code constants s = true) :
    runChunk host fuel code constants s = runChunk plainHost fuel code constants s :=
  launch_host host fuel _ s h

/-! ### Lemmas on the token stream, constants and variable resolution -/

theorem errorAt_ok (token : Token) (message : List Nat) (s s1 : St)
    (h : errorAt token message s = .ok () s1) : s1 = s := by
  unfold errorAt at h
  simp only [bind, M.bind, getSt] at h
  by_cases hp : s.parser.panicMode = true
  · simp only [hp, if_true, pure, M.pure] at h
    injection h with _ h
    exact h.symm
  · simp only [hp, modifySt, logEvent, exitWith] at h
    exact Res.noConfusion h

theorem advanceLoop_ok (n : Nat) (s s1 : St) (h : advanceLoop n s = .ok () s1) :
    s1.compilers = s.compilers ∧ s1.log = s.log ∧ s1.vm = s.vm ∧
    s1.classCompilers = s.classCompilers ∧ s1.parser.panicMode = s.parser.panicMode ∧
    s1.parser.previous = s.parser.previous := by
  induction n generalizing s with
  | zero => exact Res.noConfusion h
  | succ n ih =>
    unfold advanceLoop at h
    simp only [bind, M.bind, getSt, modifySt] at h
    by_cases ht : (scanToken s.scanner).1.type ≠ .TOKEN_ERROR
    · rw [if_pos ht] at h
      simp only [pure, M.pure] at h
      injection h with _ h
      subst h
      exact ⟨rfl, rfl, rfl, rfl, rfl, rfl⟩
    · rw [if_neg ht] at h
      simp only [errorAtCurrent, bind, M.bind, getSt] at h
      cases he : errorAt (scanToken s.scanner).1 (scanToken s.scanner).1.start
          { s with scanner := (scanToken s.scanner).2,
                   parser := { s.parser with current := (scanToken s.scanner).1 } } with
      | ok u s2 =>
        have hs2 := errorAt_ok _ _ _ _ he
        rw [he] at h
        simp only [] at h
        rw [hs2] at h
        have hi := ih _ h
        exact hi
      | exit c s2 =>
        rw [he] at h
        exact Res.noConfusion h
      | undefinedBehaviour w s2 =>
        rw [he] at h
        exact Res.noConfusion h
      | outOfFuel =>
        rw [he] at h
        exact Res.noConfusion h

theorem advance_ok (s s1 : St) (h : advance s = .ok () s1) :
    s1.compilers = s.compilers ∧ s1.log = s.log ∧ s1.vm = s.vm ∧
    s1.classCompilers = s.classCompilers ∧ s1.parser.panicMode = s.parser.panicMode ∧
    s1.parser.previous = s.parser.current := by
  unfold advance at h
  simp only [bind, M.bind, getSt, modifySt] at h
  have hi := advanceLoop_ok _ _ _ h
  exact hi

theorem emit_append (s : St) (a b : List Nat) : (s.emit a).emit b = s.emit (a ++ b) := by
  cases hc : s.compilers with
  | nil => simp [St.emit, hc]
  | cons c rest => simp [St.emit, hc]

theorem emit_compilers (s : St) (a : List Nat) (h : s.compilers ≠ []) :
    (s.emit a).compilers ≠ [] := by
  cases hc : s.compilers with
  | nil => exact absurd hc h
  | cons c rest => simp [St.emit, hc]

theorem emit_log (s : St) (a : List Nat) : (s.emit a).log = s.log := by
  cases hc : s.compilers with
  | nil => simp [St.emit, hc]
  | cons c rest => simp [St.emit, hc]

theorem emitByte_ok (byte : Nat) (s : St) (h : s.compilers ≠ []) :
    emitByte byte s = .ok () (s.emit [byte]) := by
  cases hc : s.compilers with
  | nil => exact absurd hc h
  | cons c rest =>
    simp [emitByte, modifyChunk, modifyCurrent, getSt, bind, M.bind, hc, St.emit, writeChunk]

theorem emitBytes_ok (byte1 byte2 : Nat) (s : St) (h : s.compilers ≠ []) :
    emitBytes byte1 byte2 s = .ok () (s.emit [byte1, byte2]) := by
  simp only [emitBytes, bind, M.bind, emitByte_ok byte1 s h,
    emitByte_ok byte2 _ (emit_compilers s [byte1] h), emit_append]
  rfl

theorem matchToken_true (type : TokenType) (s s1 : St) (h : s.parser.current.type = type)
    (ha : advance s = .ok () s1) : matchToken type s = .ok true s1 := by
  simp [matchToken, check, getSt, bind, M.bind, pure, M.pure, h, ha]

theorem matchToken_false (type : TokenType) (s : St) (h : s.parser.current.type ≠ type) :
    matchToken type s = .ok false s := by
  simp [matchToken, check, getSt, bind, M.bind, pure, M.pure, h]

theorem addConstant_ok (value : Value) (s : St) (hcur : s.compilers ≠ [])
    (hstack : s.vm.stackTop < STACK_MAX) :
    addConstant value s = .ok s.constants.length (s.withConstant value) := by
  cases hc : s.compilers with
  | nil => exact absurd hc hcur
  | cons c rest =>
    simp [addConstant, push, pop, modifyChunk, modifyCurrent, currentChunk, currentCompiler,
      bind, M.bind, pure, M.pure, hc, hstack, St.constants, St.withConstant, writeValueArray]

theorem withConstant_constants (s : St) (value : Value) (hcur : s.compilers ≠ []) :
    (s.withConstant value).constants = s.constants ++ [value] := by
  cases hc : s.compilers with
  | nil => exact absurd hc hcur
  | cons c rest => simp [St.withConstant, St.constants, hc, writeValueArray]

theorem withConstant_compilers (s : St) (value : Value) (hcur : s.compilers ≠ []) :
    (s.withConstant value).compilers ≠ [] := by
  cases hc : s.compilers with
  | nil => exact absurd hc hcur
  | cons c rest => simp [St.withConstant, hc]

theorem withConstant_rest (s : St) (value : Value) :
    (s.withConstant value).vm.stackTop = s.vm.stackTop ∧
    (s.withConstant value).parser = s.parser ∧ (s.withConstant value).log = s.log := by
  cases hc : s.compilers with
  | nil => simp [St.withConstant, hc]
  | cons c rest => simp [St.withConstant, hc]

theorem makeConstant_ok (value : Value) (s : St) (hcur : s.compilers ≠ [])
    (hstack : s.vm.stackTop < STACK_MAX) (hroom : s.constants.length < UINT8_COUNT) :
    makeConstant value s = .ok s.constants.length (s.withConstant value) := by
  have hle : ¬ s.constants.length > UINT8_MAX := by
    simp only [UINT8_COUNT] at hroom
    omega
  simp [makeConstant, bind, M.bind, addConstant_ok value s hcur hstack, hle, pure, M.pure]

theorem makeConstant_full (value : Value) (s : St) (hcur : s.compilers ≠ [])
    (hstack : s.vm.stackTop < STACK_MAX) (hfull : UINT8_COUNT ≤ s.constants.length)
    (hpanic : s.parser.panicMode = false) :
    makeConstant value s = .exit TokenType.TOKEN_ERROR.code
      { s.withConstant value with
        parser := { s.parser with panicMode := true },
        log := s.log ++ [.error "Too many constants in one chunk.",
          .errorAt s.parser.previous.line s.parser.previous.type s.parser.previous.lexeme] } := by
  have hgt : s.constants.length > UINT8_MAX := by
    simp only [UINT8_COUNT] at hfull
    omega
  have hp : (s.withConstant value).parser.panicMode = false := by
    rw [(withConstant_rest s value).2.1]
    exact hpanic
  simp [makeConstant, bind, M.bind, addConstant_ok value s hcur hstack, hgt,
    error_exits _ _ hp, (withConstant_rest s value).2.1, (withConstant_rest s value).2.2]

theorem makeConstants_ok (values : List Value) (s : St) (hcur : s.compilers ≠ [])
    (hstack : s.vm.stackTop < STACK_MAX)
    (hroom : s.constants.length + values.length ≤ UINT8_COUNT) :
    ∃ s1, makeConstants values s = .ok (List.range' s.constants.length values.length) s1 ∧
      s1.constants = s.constants ++ values ∧ s1.compilers ≠ [] ∧
      s1.vm.stackTop = s.vm.stackTop ∧ s1.parser = s.parser ∧ s1.log = s.log := by
  induction values generalizing s with
  | nil => exact ⟨s, by simp [makeConstants, pure, M.pure], by simp, hcur, rfl, rfl, rfl⟩
  | cons v rest ih =>
    have hlen : s.constants.length < UINT8_COUNT := by
      simp only [List.length_cons] at hroom
      omega
    have h1 := makeConstant_ok v s hcur hstack hlen
    have hc1 := withConstant_constants s v hcur
    have hr := withConstant_rest s v
    obtain ⟨s1, hrun, hcs, hne, htop, hpar, hlog⟩ :=
      ih (s.withConstant v) (withConstant_compilers s v hcur) (by rw [hr.1]; exact hstack)
        (by rw [hc1]; simp only [List.length_append, List.length_cons, List.length_nil] at hroom ⊢; omega)
    refine ⟨s1, ?_, ?_, hne, ?_, ?_, ?_⟩
    · rw [hc1] at hrun
      simp only [List.length_append, List.length_cons, List.length_nil] at hrun
      simp [makeConstants, bind, M.bind, h1, hrun, pure, M.pure, List.range']
    · rw [hcs, hc1]
      simp
    · rw [htop, hr.1]
    · rw [hpar, hr.2.1]
    · rw [hlog, hr.2.2]

theorem identifiersEqual_iff (a b : Token) :
    identifiersEqual a b = true ↔ b.length = a.length ∧ b.lexeme = a.lexeme := by
  unfold identifiersEqual Token.lexeme
  by_cases h : a.length = b.length
  · simp [h]
    exact eq_comm
  · simp [h]
    intro h2
    exact absurd h2.symm h

theorem resolveLocalFrom_none (locals : List Local) (name : Token) (k : Nat) :
    resolveLocalFrom locals name k = -1 ↔
      ∀ j l, j < k → locals.get? j = some l → identifiersEqual name l.name = false := by
  induction k with
  | zero => simp [resolveLocalFrom]
  | succ k ih =>
    unfold resolveLocalFrom
    cases hg : locals.get? k with
    | none =>
      simp only [ih]
      constructor
      · intro h j l hj hl
        rcases Nat.lt_succ_iff_lt_or_eq.mp hj with h1 | h1
        · exact h j l h1 hl
        · subst h1
          rw [hg] at hl
          exact Option.noConfusion hl
      · intro h j l hj hl
        exact h j l (Nat.lt_succ_of_lt hj) hl
    | some l0 =>
      by_cases he : identifiersEqual name l0.name = true
      · simp only [he, if_true]
        constructor
        · intro h
          omega
        · intro h
          have := h k l0 (Nat.lt_succ_self k) hg
          rw [he] at this
          exact Bool.noConfusion this
      · simp only [he]
        simp only [Bool.not_eq_true] at he
        simp only [Bool.false_eq_true, if_false, ih]
        constructor
        · intro h j l hj hl
          rcases Nat.lt_succ_iff_lt_or_eq.mp hj with h1 | h1
          · exact h j l h1 hl
          · subst h1
            rw [hg] at hl
            injection hl with hl
            subst hl
            exact he
        · intro h j l hj hl
          exact h j l (Nat.lt_succ_of_lt hj) hl

theorem resolveLocalFrom_some (locals : List Local) (name : Token) (k i : Nat) :
    resolveLocalFrom locals name k = (i : Int) ↔
      i < k ∧ (∃ l, locals.get? i = some l ∧ identifiersEqual name l.name = true) ∧
      ∀ j l, i < j → j < k → locals.get? j = some l → identifiersEqual name l.name = false := by
  induction k with
  | zero =>
    simp only [resolveLocalFrom]
    constructor
    · intro h
      omega
    · intro h
      exact absurd h.1 (Nat.not_lt_zero i)
  | succ k ih =>
    unfold resolveLocalFrom
    cases hg : locals.get? k with
    | none =>
      simp only [ih]
      constructor
      · rintro ⟨h1, h2, h3⟩
        refine ⟨Nat.lt_succ_of_lt h1, h2, ?_⟩
        intro j l hij hj hl
        rcases Nat.lt_succ_iff_lt_or_eq.mp hj with h4 | h4
        · exact h3 j l hij h4 hl
        · subst h4
          rw [hg] at hl
          exact Option.noConfusion hl
      · rintro ⟨h1, ⟨l, h2, h2b⟩, h3⟩
        have hik : i ≠ k := by
          intro h
          subst h
          rw [hg] at h2
          exact Option.noConfusion h2
        have hlt : i < k := by omega
        exact ⟨hlt, ⟨l, h2, h2b⟩, fun j l hij hj hl => h3 j l hij (Nat.lt_succ_of_lt hj) hl⟩
    | some l0 =>
      by_cases he : identifiersEqual name l0.name = true
      · simp only [he, if_true]
        constructor
        · intro h
          have hki : k = i := by exact_mod_cast h
          subst hki
          refine ⟨Nat.lt_succ_self k, ⟨l0, hg, he⟩, ?_⟩
          intro j l hij hj _
          omega
        · rintro ⟨h1, _, h3⟩
          by_cases hik : i = k
          · subst hik
            rfl
          · have hlt : i < k := by omega
            have := h3 k l0 hlt (Nat.lt_succ_self k) hg
            rw [he] at this
            exact Bool.noConfusion this
      · simp only [he]
        simp only [Bool.not_eq_true] at he
        simp only [Bool.false_eq_true, if_false, ih]
        constructor
        · rintro ⟨h1, h2, h3⟩
          refine ⟨Nat.lt_succ_of_lt h1, h2, ?_⟩
          intro j l hij hj hl
          rcases Nat.lt_succ_iff_lt_or_eq.mp hj with h4 | h4
          · exact h3 j l hij h4 hl
          · subst h4
            rw [hg] at hl
            injection hl with hl
            subst hl
            exact he
        · rintro ⟨h1, ⟨l, h2, h2b⟩, h3⟩
          have hik : i ≠ k := by
            intro h
            subst h
            rw [hg] at h2
            injection h2 with h2
            subst h2
            rw [he] at h2b
            exact Bool.noConfusion h2b
          have hlt : i < k := by omega
          exact ⟨hlt, ⟨l, h2, h2b⟩, fun j l hij hj hl => h3 j l hij (Nat.lt_succ_of_lt hj) hl⟩

theorem resolveLocalFrom_range (locals : List Local) (name : Token) (k : Nat) :
    resolveLocalFrom locals name k = -1 ∨
      ∃ i : Nat, i < k ∧ resolveLocalFrom locals name k = (i : Int) := by
  induction k with
  | zero => left; rfl
  | succ k ih =>
    unfold resolveLocalFrom
    cases hg : locals.get? k with
    | none =>
      rcases ih with h | ⟨i, hi, h⟩
      · left; exact h
      · right; exact ⟨i, Nat.lt_succ_of_lt hi, h⟩
    | some l0 =>
      by_cases he : identifiersEqual name l0.name = true
      · right
        exact ⟨k, Nat.lt_succ_self k, by simp [he]⟩
      · simp only [he]
        rcases ih with h | ⟨i, hi, h⟩
        · left; simpa using h
        · right; exact ⟨i, Nat.lt_succ_of_lt hi, by simpa using h⟩

theorem resolveVariable_local (name : Token) (s : St) (c : Compiler) (rest : List Compiler)
    (hs : s.compilers = c :: rest) (i : Nat) (hcount : c.localCount ≤ UINT8_COUNT)
    (h : resolveLocal c name = (i : Int)) :
    resolveVariable name s = .ok (.OP_GET_LOCAL, .OP_SET_LOCAL, i) s := by
  have hlt : i < 256 := by
    have := (resolveLocalFrom_some c.locals name c.localCount i).mp h
    simp only [UINT8_COUNT, UINT8_MAX] at hcount
    omega
  have hne : (i : Int) ≠ -1 := by omega
  simp [resolveVariable, currentCompiler, getSt, bind, M.bind, hs, h, hne, pure, M.pure,
    Nat.mod_eq_of_lt hlt]

theorem resolveVariable_unfold (name : Token) (s : St) (c : Compiler) (rest : List Compiler)
    (hs : s.compilers = c :: rest) (h : resolveLocal c name = -1) :
    resolveVariable name s =
      match resolveUpvalue s.compilers.length 0 name s with
      | .ok u s1 =>
        if u ≠ -1 then .ok (.OP_GET_UPVALUE, .OP_SET_UPVALUE, u.toNat % 256) s1
        else
          match identifierConstant name s1 with
          | .ok arg s2 =>
            match globalOps name.type with
            | some (getOp, setOp) => .ok (getOp, setOp, arg) s2
            | none => .undefinedBehaviour "switch on an indeterminate token type" s2
          | .exit code s2 => .exit code s2
          | .undefinedBehaviour what s2 => .undefinedBehaviour what s2
          | .outOfFuel => .outOfFuel
      | .exit code s1 => .exit code s1
      | .undefinedBehaviour what s1 => .undefinedBehaviour what s1
      | .outOfFuel => .outOfFuel := by
  simp only [resolveVariable, currentCompiler, getSt, bind, M.bind, hs, h, ne_eq,
    not_true_eq_false, if_false]
  cases resolveUpvalue (c :: rest).length 0 name s with
  | ok u s1 =>
    simp only []
    by_cases hu : u = -1
    · simp only [hu, not_true_eq_false, if_false, M.bind]
      cases identifierConstant name s1 with
      | ok arg s2 =>
        simp only []
        cases globalOps name.type with
        | none => rfl
        | some p => rfl
      | _ => rfl
    · simp only [hu, not_false_eq_true, if_true]
      rfl
  | _ => rfl

theorem resolveVariable_upvalue (name : Token) (s s1 : St) (c : Compiler) (rest : List Compiler)
    (hs : s.compilers = c :: rest) (u : Nat) (h : resolveLocal c name = -1)
    (hu : resolveUpvalue s.compilers.length 0 name s = .ok (u : Int) s1) :
    resolveVariable name s = .ok (.OP_GET_UPVALUE, .OP_SET_UPVALUE, u % 256) s1 := by
  have hne : (u : Int) ≠ -1 := by omega
  rw [resolveVariable_unfold name s c rest hs h, hu]
  simp only [hne, ne_eq, not_false_eq_true, if_true, Int.toNat_ofNat]

theorem resolveVariable_global (name : Token) (s s1 : St) (c : Compiler) (rest : List Compiler)
    (hs : s.compilers = c :: rest) (h : resolveLocal c name = -1)
    (hu : resolveUpvalue s.compilers.length 0 name s = .ok (-1) s1) :
    resolveVariable name s =
      match identifierConstant name s1 with
      | .ok arg s2 =>
        match globalOps name.type with
        | some (getOp, setOp) => .ok (getOp, setOp, arg) s2
        | none => .undefinedBehaviour "switch on an indeterminate token type" s2
      | .exit code s2 => .exit code s2
      | .undefinedBehaviour what s2 => .undefinedBehaviour what s2
      | .outOfFuel => .outOfFuel := by
  rw [resolveVariable_unfold name s c rest hs h, hu]
  simp only [ne_eq, not_true_eq_false, if_false]

theorem globalOps_globalAccess (type : TokenType) (getOp setOp : OpCode)
    (h : globalOps type = some (getOp, setOp)) :
    getOp.globalAccess = true ∧ setOp.globalAccess = true := by
  unfold globalOps at h
  cases hc : type.code with
  | none =>
    rw [hc] at h
    exact Option.noConfusion h
  | some t =>
    rw [hc] at h
    simp only [] at h
    split at h
    · injection h with h
      injection h with h1 h2
      subst h1
      subst h2
      exact ⟨rfl, rfl⟩
    · split at h
      · injection h with h
        injection h with h1 h2
        subst h1
        subst h2
        exact ⟨rfl, rfl⟩
      · split at h
        · injection h with h
          injection h with h1 h2
          subst h1
          subst h2
          exact ⟨rfl, rfl⟩
        · injection h with h
          injection h with h1 h2
          subst h1
          subst h2
          exact ⟨rfl, rfl⟩

theorem resolveVariable_globalAccess (name : Token) (s s2 : St) (c : Compiler)
    (rest : List Compiler) (hs : s.compilers = c :: rest) (hcount : c.localCount ≤ UINT8_COUNT)
    (getOp setOp : OpCode) (arg : Nat)
    (h : resolveVariable name s = .ok (getOp, setOp, arg) s2)
    (hg : getOp.globalAccess = true ∨ setOp.globalAccess = true) :
    resolveLocal c name = -1 ∧
    ∃ s1, resolveUpvalue s.compilers.length 0 name s = .ok (-1) s1 ∧
      identifierConstant name s1 = .ok arg s2 ∧ globalOps name.type = some (getOp, setOp) := by
  rcases resolveLocalFrom_range c.locals name c.localCount with hl | ⟨i, _, hl⟩
  · refine ⟨hl, ?_⟩
    rw [resolveVariable_unfold name s c rest hs hl] at h
    cases hu : resolveUpvalue s.compilers.length 0 name s with
    | ok u s1 =>
      rw [hu] at h
      simp only [] at h
      by_cases hneg : u = -1
      · subst hneg
        simp only [ne_eq, not_true_eq_false, if_false] at h
        refine ⟨s1, rfl, ?_⟩
        cases hi : identifierConstant name s1 with
        | ok a s3 =>
          rw [hi] at h
          simp only [] at h
          cases ho : globalOps name.type with
          | none =>
            rw [ho] at h
            exact Res.noConfusion h
          | some p =>
            rw [ho] at h
            obtain ⟨g, st⟩ := p
            simp only [] at h
            injection h with h1 h2
            injection h1 with h3 h4
            injection h4 with h5 h6
            subst h3
            subst h5
            subst h6
            subst h2
            exact ⟨rfl, rfl⟩
        | exit code s3 =>
          rw [hi] at h
          exact Res.noConfusion h
        | undefinedBehaviour w s3 =>
          rw [hi] at h
          exact Res.noConfusion h
        | outOfFuel =>
          rw [hi] at h
          exact Res.noConfusion h
      · simp only [ne_eq, hneg, not_false_eq_true, if_true] at h
        injection h with h1 _
        injection h1 with h3 h4
        injection h4 with h5 _
        subst h3
        subst h5
        rcases hg with hg | hg <;> exact Bool.noConfusion hg
    | exit code s1 =>
      rw [hu] at h
      exact Res.noConfusion h
    | undefinedBehaviour w s1 =>
      rw [hu] at h
      exact Res.noConfusion h
    | outOfFuel =>
      rw [hu] at h
      exact Res.noConfusion h
  · rw [resolveVariable_local name s c rest hs i hcount hl] at h
    injection h with h1 _
    injection h1 with h3 h4
    injection h4 with h5 _
    subst h3
    subst h5
    rcases hg with hg | hg <;> exact Bool.noConfusion hg

theorem namedVariable_get (n : Nat) (name : Token) (s s1 : St) (getOp setOp : OpCode)
    (arg : Nat) (h : resolveVariable name s = .ok (getOp, setOp, arg) s1) :
    namedVariable (n + 1) name false s = emitBytes getOp.byte arg s1 := by
  rw [namedVariable]
  simp [bind, M.bind, h, pure, M.pure]

theorem namedVariable_get_assignable (n : Nat) (name : Token) (s s1 s2 : St)
    (getOp setOp : OpCode) (arg : Nat)
    (h : resolveVariable name s = .ok (getOp, setOp, arg) s1)
    (hm : matchToken .TOKEN_EQUAL s1 = .ok false s2) :
    namedVariable (n + 1) name true s = emitBytes getOp.byte arg s2 := by
  rw [namedVariable]
  simp [bind, M.bind, h, hm]

theorem namedVariable_set (n : Nat) (name : Token) (s s1 s2 s3 : St)
    (getOp setOp : OpCode) (arg : Nat)
    (h : resolveVariable name s = .ok (getOp, setOp, arg) s1)
    (hm : matchToken .TOKEN_EQUAL s1 = .ok true s2) (he : expression n s2 = .ok () s3) :
    namedVariable (n + 1) name true s = emitBytes setOp.byte arg s3 := by
  rw [namedVariable]
  simp [bind, M.bind, h, hm, he]

/-! ### Lemmas on the dispatch loop, calls, jumps and keywords -/

theorem runtimeError_eq (format : String) (args : List Arg) (s : St)
    (h : s.tracesBack = true) :
    runtimeError format args s = .ok () (s.afterRuntimeError format args) := by
  simp only [St.tracesBack] at h
  simp [runtimeError, logEvent, resetStack, modifyVM, modifySt, getSt, bind, M.bind,
    St.afterRuntimeError, h]

theorem runtimeError_undefined (format : String) (args : List Arg) (s : St)
    (h : s.tracesBack = false) :
    runtimeError format args s
      = .undefinedBehaviour "read outside chunk.lines" (s.afterMessage format args) := by
  simp only [St.tracesBack] at h
  simp [runtimeError, logEvent, modifySt, getSt, bind, M.bind, undefinedBehaviour,
    St.afterMessage, h]

theorem runtimeError_raise (format : String) (args : List Arg) (s : St) :
    runtimeError format args s = s.raise format args () := by
  by_cases h : s.tracesBack = true
  · rw [runtimeError_eq _ _ _ h, St.raise, if_pos h]
  · have h2 : s.tracesBack = false := by simpa using h
    rw [runtimeError_undefined _ _ _ h2, St.raise, if_neg h]

theorem runtimeError_then {α : Type} (format : String) (args : List Arg) (a : α) (s : St) :
    M.bind (runtimeError format args) (fun _ => M.pure a) s = s.raise format args a := by
  by_cases h : s.tracesBack = true
  · simp only [M.bind, runtimeError_eq _ _ _ h, St.raise, if_pos h, M.pure]
  · have h2 : s.tracesBack = false := by simpa using h
    simp only [M.bind, runtimeError_undefined _ _ _ h2, St.raise, if_neg h]

theorem raise_log {α : Type} (format : String) (args : List Arg) (a : α) (s : St) :
    (s.raise format args a).log
      = s.log ++ [.runtimeError format args (backtrace s.vm s.vm.liveFrames).1] := by
  by_cases h : s.tracesBack = true
  · simp only [St.raise, if_pos h]
    rfl
  · simp only [St.raise, if_neg h]
    rfl

theorem raise_cases {α : Type} (format : String) (args : List Arg) (a : α) (s : St) :
    (s.tracesBack = true → s.raise format args a = .ok a (s.afterRuntimeError format args)) ∧
    (s.tracesBack = false →
      s.raise format args a
        = .undefinedBehaviour "read outside chunk.lines" (s.afterMessage format args)) := by
  constructor
  · intro h
    simp only [St.raise, if_pos h]
  · intro h
    simp only [St.raise, h, Bool.false_eq_true, if_false]

theorem raise_ok {α : Type} (format : String) (args : List Arg) (a r : α) (s s1 : St)
    (h : s.raise format args a = .ok r s1) : r = a ∧ s1 = s.afterRuntimeError format args := by
  by_cases ht : s.tracesBack = true
  · simp only [St.raise, if_pos ht] at h
    injection h with h3 h4
    exact ⟨h3.symm, h4.symm⟩
  · simp only [St.raise, if_neg ht] at h
    exact Res.noConfusion h

theorem closureFunction_ok (closure fnRef : Nat) (ups : List (Option Nat)) (fn : ObjFunction)
    (s : St) (h1 : s.vm.heap.get? closure = some (.closure fnRef ups))
    (h2 : s.vm.heap.get? fnRef = some (.function fn)) :
    closureFunction closure s = .ok fn s := by
  simp only [closureFunction, getObj_eq, bind, M.bind, h1, h2, pure, M.pure]

theorem withIp_heap (s : St) (frame ip : Nat) : (s.withIp frame ip).vm.heap = s.vm.heap := by
  unfold St.withIp
  cases s.vm.frames.get? frame <;> rfl

theorem withIp_frame (s : St) (frame ip : Nat) (f : CallFrame)
    (hf : s.vm.frames.get? frame = some f) :
    (s.withIp frame ip).vm.frames.get? frame = some { f with ip := ip } := by
  have hlt : frame < s.vm.frames.length := (List.get?_eq_some.mp hf).1
  simp only [St.withIp, hf]
  rw [List.get?_eq_getElem?, List.getElem?_set_self hlt]

theorem withIp_withIp (s : St) (frame ip1 ip2 : Nat) :
    (s.withIp frame ip1).withIp frame ip2 = s.withIp frame ip2 := by
  cases hf : s.vm.frames.get? frame with
  | none =>
    have h1 : s.withIp frame ip1 = s := by simp only [St.withIp, hf]
    rw [h1]
  | some f =>
    have h1 := withIp_frame s frame ip1 f hf
    have h2 : s.withIp frame ip1
        = { s with vm := { s.vm with
              frames := s.vm.frames.set frame { f with ip := ip1 } } } := by
      simp only [St.withIp, hf]
    rw [h2] at h1 ⊢
    simp only [St.withIp, h1, hf, List.set_set]

theorem readByte_ok (frame : Nat) (s : St) (f : CallFrame) (fnRef : Nat)
    (ups : List (Option Nat)) (fn : ObjFunction) (b : Nat)
    (hf : s.vm.frames.get? frame = some f)
    (h1 : s.vm.heap.get? f.closure = some (.closure fnRef ups))
    (h2 : s.vm.heap.get? fnRef = some (.function fn))
    (hb : fn.chunk.code.get? f.ip = some b) :
    readByte frame s = .ok b (s.withIp frame (f.ip + 1)) := by
  have hc := closureFunction_ok f.closure fnRef ups fn s h1 h2
  simp only [readByte, getFrame, setFrame, modifyVM, modifySt, bind, M.bind, hf, hc, hb, pure,
    M.pure, St.withIp]

theorem readShort_ok (frame : Nat) (s : St) (f : CallFrame) (fnRef : Nat)
    (ups : List (Option Nat)) (fn : ObjFunction) (hi lo : Nat)
    (hf : s.vm.frames.get? frame = some f)
    (h1 : s.vm.heap.get? f.closure = some (.closure fnRef ups))
    (h2 : s.vm.heap.get? fnRef = some (.function fn))
    (hhi : fn.chunk.code.get? f.ip = some hi) (hlo : fn.chunk.code.get? (f.ip + 1) = some lo) :
    readShort frame s = .ok (hi * 256 + lo) (s.withIp frame (f.ip + 2)) := by
  have hr1 := readByte_ok frame s f fnRef ups fn hi hf h1 h2 hhi
  have hf1 := withIp_frame s frame (f.ip + 1) f hf
  have hh := withIp_heap s frame (f.ip + 1)
  have hr2 := readByte_ok frame (s.withIp frame (f.ip + 1)) { f with ip := f.ip + 1 } fnRef ups
    fn lo hf1 (by rw [hh]; exact h1) (by rw [hh]; exact h2) hlo
  simp only [readShort, bind, M.bind, hr1, hr2, pure, M.pure, withIp_withIp]

theorem step_execute (host : Host) (frame : Nat) (s : St) (f : CallFrame) (fnRef : Nat)
    (ups : List (Option Nat)) (fn : ObjFunction) (op : OpCode)
    (hf : s.vm.frames.get? frame = some f)
    (h1 : s.vm.heap.get? f.closure = some (.closure fnRef ups))
    (h2 : s.vm.heap.get? fnRef = some (.function fn))
    (hb : fn.chunk.code.get? f.ip = some op.byte) :
    step host frame s = execute host frame op (s.withIp frame (f.ip + 1)) := by
  have hof : OpCode.ofByte op.byte = some op := by cases op <;> rfl
  simp only [step, bind, M.bind, readByte_ok frame s f fnRef ups fn op.byte hf h1 h2 hb, hof]

theorem withIp_rest (s : St) (frame ip : Nat) :
    (s.withIp frame ip).vm.stack = s.vm.stack ∧
    (s.withIp frame ip).vm.stackTop = s.vm.stackTop ∧
    (s.withIp frame ip).vm.frameCount = s.vm.frameCount ∧
    (s.withIp frame ip).vm.globals = s.vm.globals ∧
    (s.withIp frame ip).log = s.log := by
  unfold St.withIp
  cases s.vm.frames.get? frame <;> exact ⟨rfl, rfl, rfl, rfl, rfl⟩

theorem execute_divide_by_zero (host : Host) (frame : Nat) (s : St) (a : Int)
    (htop : 2 ≤ s.vm.stackTop)
    (hb : s.vm.slot (s.vm.stackTop - 1) = .int 0)
    (ha : s.vm.slot (s.vm.stackTop - 2) = .int a) :
    execute host frame .OP_DIVIDE_INT s
      = .undefinedBehaviour "conversion of an infinite or NaN double to int"
          { s with vm := { s.vm with stackTop := s.vm.stackTop - 2 } } := by
  have h1 : ¬ s.vm.stackTop < 0 + 1 := by omega
  have h2 : ¬ s.vm.stackTop < 1 + 1 := by omega
  have h3 : s.vm.stackTop ≠ 0 := by omega
  have h4 : s.vm.stackTop - 1 ≠ 0 := by omega
  have h5 : s.vm.stackTop - 1 - 1 = s.vm.stackTop - 2 := by omega
  have ha2 : VM.slot { s.vm with stackTop := s.vm.stackTop - 1 } (s.vm.stackTop - 2)
      = .int a := ha
  simp [execute, binaryOpInt, peek, pop, bind, M.bind, pure, M.pure, h1, h2, h3, h4, h5, hb, ha,
    ha2, IS_INT, Value.type, divideInt, undefinedBehaviour]

theorem storeFrame_get (frames : List CallFrame) (i : Nat) (f : CallFrame) :
    (storeFrame frames i f).get? i = some f := by
  unfold storeFrame
  by_cases h : i < frames.length
  · rw [if_pos h, List.get?_eq_getElem?, List.getElem?_set_self h]
  · rw [if_neg h, List.get?_eq_getElem?]
    have hlen : (frames ++ List.replicate (i - frames.length) (⟨0, 0, 0⟩ : CallFrame)).length = i := by
      simp only [List.length_append, List.length_replicate]
      omega
    rw [List.getElem?_append_right (by omega), hlen]
    simp

theorem call_eq (closure k fnRef : Nat) (ups : List (Option Nat)) (fn : ObjFunction) (s : St)
    (h1 : s.vm.heap.get? closure = some (.closure fnRef ups))
    (h2 : s.vm.heap.get? fnRef = some (.function fn)) :
    call closure k s =
      if k ≠ fn.arity then
        s.raise "Expected %d arguments but got %d." [.int fn.arity, .int k] false
      else if s.vm.frameCount = FRAMES_MAX then
        s.raise "Stack overflow." [] false
      else if s.vm.stackTop < k + 1 then
        .undefinedBehaviour "frame base below the first stack slot" s
      else
        .ok true { s with vm := { s.vm with
          frames := storeFrame s.vm.frames s.vm.frameCount
            { closure := closure, ip := 0, slots := s.vm.stackTop - k - 1 },
          frameCount := s.vm.frameCount + 1 } } := by
  have hc := closureFunction_ok closure fnRef ups fn s h1 h2
  simp only [call, bind, M.bind, hc]
  by_cases ha : k ≠ fn.arity
  · simp only [ha, ne_eq, not_false_eq_true, if_true, pure]
    exact runtimeError_then _ _ false s
  · simp only [ha, if_false, getSt, M.bind]
    by_cases hm : s.vm.frameCount = FRAMES_MAX
    · simp only [hm, if_true, pure]
      exact runtimeError_then _ _ false s
    · simp only [hm, if_false]
      by_cases hs : s.vm.stackTop < k + 1
      · simp only [hs, if_true, undefinedBehaviour]
      · simp only [hs, if_false, modifyVM, modifySt, M.bind, pure, M.pure]

theorem callValue_not_callable (host : Host) (v : Value) (k : Nat) (s : St)
    (h : ∀ q, v = .obj q → ∃ o, s.vm.heap.get? q = some o ∧ o.callable = false) :
    callValue host v k s = s.raise "Can only call functions and classes." [] false := by
  cases v with
  | obj q =>
    obtain ⟨o, ho, hc⟩ := h q rfl
    cases o <;> first
      | exact Bool.noConfusion hc
      | (simp only [callValue, getObj_eq, ho, bind, M.bind, pure]
         exact runtimeError_then _ _ false s)
  | _ =>
    simp only [callValue, bind, pure]
    exact runtimeError_then _ _ false s

theorem callValue_class (host : Host) (r k name : Nat) (methods : Table) (s : St)
    (hk : s.vm.heap.get? r = some (.klass name methods)) (hargs : k + 1 ≤ s.vm.stackTop) :
    callValue host (.obj r) k s =
      match tableGet methods s.vm.initString with
      | some (.obj initializer) => call initializer k (s.withInstance r k)
      | some _ =>
        .undefinedBehaviour "AS_CLOSURE of a value that is not an object" (s.withInstance r k)
      | none =>
        if k ≠ 0 then
          (s.withInstance r k).raise "Expected 0 arguments but got %d." [.int k] false
        else .ok true (s.withInstance r k) := by
  have hs : ¬ s.vm.stackTop < k + 1 := by omega
  simp only [callValue, getObj_eq, hk, bind, M.bind, allocate, pokeBelowTop, hs, if_false, getSt]
  cases hi : tableGet methods s.vm.initString with
  | none =>
    simp only []
    by_cases h0 : k = 0
    · simp only [h0, ne_eq, not_true_eq_false, if_false, pure, M.pure, St.withInstance]
    · simp only [h0, ne_eq, not_false_eq_true, if_true, pure]
      exact runtimeError_then _ _ false _
  | some v =>
    cases v <;> simp only [St.withInstance, undefinedBehaviour]

theorem storeSlot_get (stack : List Value) (i : Nat) (v : Value) :
    (storeSlot stack i v).getD i .nil = v := by
  unfold storeSlot
  by_cases h : i < stack.length
  · rw [if_pos h, List.getD_eq_getElem?_getD, List.getElem?_set_self h]
    rfl
  · rw [if_neg h, List.getD_eq_getElem?_getD]
    have hlen : (stack ++ List.replicate (i - stack.length) Value.nil).length = i := by
      simp only [List.length_append, List.length_replicate]
      omega
    rw [List.getElem?_append_right (by omega), hlen]
    simp

theorem getFrame_ok (frame : Nat) (s : St) (f : CallFrame)
    (hf : s.vm.frames.get? frame = some f) : getFrame frame s = .ok f s := by
  simp only [getFrame, hf]

theorem setFrame_withIp (frame ip : Nat) (s : St) (f : CallFrame)
    (hf : s.vm.frames.get? frame = some f) :
    setFrame frame { f with ip := ip } s = .ok () (s.withIp frame ip) := by
  simp only [setFrame, modifyVM, modifySt, St.withIp, hf]

theorem isFalsey_iff (v : Value) : isFalsey v = true ↔ v = .nil ∨ v = .bool false := by
  cases v with
  | bool b => cases b <;> simp [isFalsey, IS_NIL, IS_BOOL, Value.type]
  | _ => simp [isFalsey, IS_NIL, IS_BOOL, Value.type]

theorem step_jump_if_false (host : Host) (frame : Nat) (s : St) (f : CallFrame) (fnRef : Nat)
    (ups : List (Option Nat)) (fn : ObjFunction) (hi lo : Nat)
    (hf : s.vm.frames.get? frame = some f)
    (h1 : s.vm.heap.get? f.closure = some (.closure fnRef ups))
    (h2 : s.vm.heap.get? fnRef = some (.function fn))
    (hop : fn.chunk.code.get? f.ip = some OpCode.OP_JUMP_IF_FALSE.byte)
    (hhi : fn.chunk.code.get? (f.ip + 1) = some hi)
    (hlo : fn.chunk.code.get? (f.ip + 2) = some lo)
    (htop : 1 ≤ s.vm.stackTop) :
    step host frame s = .ok (.inl frame)
      (s.withIp frame
        (f.ip + 3 + if isFalsey (s.vm.slot (s.vm.stackTop - 1)) then hi * 256 + lo else 0)) := by
  have hh := withIp_heap s frame (f.ip + 1)
  have hf1 := withIp_frame s frame (f.ip + 1) f hf
  have hrs := readShort_ok frame (s.withIp frame (f.ip + 1)) { f with ip := f.ip + 1 } fnRef ups
    fn hi lo hf1 (by rw [hh]; exact h1) (by rw [hh]; exact h2) hhi hlo
  rw [withIp_withIp] at hrs
  have hr := withIp_rest s frame (f.ip + 1 + 2)
  have hf3 := withIp_frame s frame (f.ip + 1 + 2) f hf
  have hp : peek 0 (s.withIp frame (f.ip + 1 + 2))
      = .ok (s.vm.slot (s.vm.stackTop - 1)) (s.withIp frame (f.ip + 1 + 2)) := by
    have hlt : ¬ s.vm.stackTop < 0 + 1 := by omega
    simp only [peek, VM.slot, hr.1, hr.2.1, Nat.sub_zero, hlt, if_false]
  rw [step_execute host frame s f fnRef ups fn .OP_JUMP_IF_FALSE hf h1 h2 hop]
  simp only [execute, bind, M.bind, hrs, hp]
  by_cases hv : isFalsey (s.vm.slot (s.vm.stackTop - 1)) = true
  · simp only [hv, if_true, getFrame_ok _ _ _ hf3, M.bind]
    have := setFrame_withIp frame (f.ip + 1 + 2 + (hi * 256 + lo))
      (s.withIp frame (f.ip + 1 + 2)) _ hf3
    simp only [] at this
    simp only [this, withIp_withIp, pure, M.pure]
  · simp only [hv, if_false, pure, M.pure, Bool.false_eq_true]
    rfl

theorem set_two (front tail : List Nat) (x y a b : Nat) :
    ((front ++ x :: y :: tail).set front.length a).set (front.length + 1) b
      = front ++ a :: b :: tail := by
  induction front with
  | nil => rfl
  | cons z front ih =>
    simp only [List.cons_append, List.length_cons, List.set_cons_succ, ih]

theorem emitJump_eq (op : OpCode) (s : St) (c : Compiler) (rest : List Compiler)
    (hs : s.compilers = c :: rest) :
    emitJump op s = .ok ((c.function.chunk.count : Int) - 2) (s.emit [op.byte, 255, 255]) := by
  have hcur : s.compilers ≠ [] := by simp [hs]
  have h1 := emitOp_ok op s hcur
  have hc1 := emit_compilers s [op.byte] hcur
  have h2 := emitByte_ok 255 _ hc1
  rw [emit_append] at h2
  have hc2 := emit_compilers s ([op.byte] ++ [255]) hcur
  have h3 := emitByte_ok 255 _ hc2
  rw [emit_append] at h3
  simp only [emitJump, currentChunk, currentCompiler, bind, M.bind, hs, pure, M.pure]
  simp only [h1, h2, h3]
  rfl

theorem patchJump_front (s : St) (c : Compiler) (rest : List Compiler)
    (front tail : List Nat) (x y : Nat) (hs : s.compilers = c :: rest)
    (hcode : c.function.chunk.code = front ++ x :: y :: tail)
    (hn : tail.length ≤ UINT16_MAX) :
    patchJump (front.length : Int) s = .ok ()
      { s with compilers :=
          { c with function := { c.function with chunk := { c.function.chunk with
              code := front ++ (tail.length / 256) :: (tail.length % 256) :: tail } } }
          :: rest } := by
  have hcount : c.function.chunk.count = front.length + 2 + tail.length := by
    simp only [Chunk.count, hcode, List.length_append, List.length_cons]
    omega
  have hjump : ((c.function.chunk.count : Int) - (front.length : Int) - 2) = (tail.length : Int) := by
    rw [hcount]
    push_cast
    omega
  have hnot : ¬ ((tail.length : Int) > (UINT16_MAX : Int)) := by
    have : (tail.length : Int) ≤ (UINT16_MAX : Int) := by exact_mod_cast hn
    omega
  have hin : ¬ ((front.length : Int) < 0 ∨ (front.length : Int) + 1 ≥ (c.function.chunk.count : Int)) := by
    rw [hcount]
    push_cast
    omega
  have hhi : (((tail.length : Int) / 256) % 256).toNat = tail.length / 256 := by
    have h256 : tail.length / 256 < 256 := by
      simp only [UINT16_MAX] at hn
      omega
    have : ((tail.length : Int) / 256) % 256 = ((tail.length / 256 % 256 : Nat) : Int) := by
      norm_cast
    rw [this, Int.toNat_ofNat, Nat.mod_eq_of_lt h256]
  have hlo : ((tail.length : Int) % 256).toNat = tail.length % 256 := by
    have : (tail.length : Int) % 256 = ((tail.length % 256 : Nat) : Int) := by norm_cast
    rw [this, Int.toNat_ofNat]
  simp only [patchJump, currentChunk, currentCompiler, bind, M.bind, hs, pure, M.pure, hjump,
    hnot, hin, if_false, modifyChunk, modifyCurrent, Int.toNat_ofNat, hhi, hlo, hcode, set_two]

theorem patchJump_before_array (s : St) (c : Compiler) (rest : List Compiler) (offset : Int)
    (hs : s.compilers = c :: rest) (hneg : offset < 0)
    (hn : (c.function.chunk.count : Int) - offset - 2 ≤ (UINT16_MAX : Int)) :
    patchJump offset s = .undefinedBehaviour "patchJump writes outside the code array" s := by
  have hnot : ¬ ((c.function.chunk.count : Int) - offset - 2 > (UINT16_MAX : Int)) := by omega
  simp only [patchJump, currentChunk, currentCompiler, bind, M.bind, hs, pure, M.pure, hnot,
    if_false, hneg, true_or, if_true, undefinedBehaviour]

theorem emitLoop_eq (loopStart : Nat) (s : St) (c : Compiler) (rest : List Compiler)
    (hs : s.compilers = c :: rest) (hle : loopStart ≤ c.function.chunk.count)
    (hfit : c.function.chunk.count - loopStart + 3 ≤ UINT16_MAX) :
    emitLoop loopStart s = .ok ()
      (s.emit [OpCode.OP_LOOP.byte, (c.function.chunk.count - loopStart + 3) / 256,
        (c.function.chunk.count - loopStart + 3) % 256]) := by
  have hcur : s.compilers ≠ [] := by simp [hs]
  have h1 := emitOp_ok .OP_LOOP s hcur
  have hc1 := emit_compilers s [OpCode.OP_LOOP.byte] hcur
  have hcount : ((s.emit [OpCode.OP_LOOP.byte]).frame.function.chunk.count : Int)
      - (loopStart : Int) + 2 = ((c.function.chunk.count - loopStart + 3 : Nat) : Int) := by
    simp only [St.emit, St.frame, hs, Chunk.count, List.length_append, List.length_cons,
      List.length_nil]
    simp only [Chunk.count] at hle
    push_cast
    omega
  have hcc : currentChunk (s.emit [OpCode.OP_LOOP.byte])
      = .ok (s.emit [OpCode.OP_LOOP.byte]).frame.function.chunk (s.emit [OpCode.OP_LOOP.byte]) := by
    simp only [currentChunk, currentCompiler, bind, M.bind, St.emit, St.frame, hs, pure, M.pure]
  have hnot : ¬ (((c.function.chunk.count - loopStart + 3 : Nat) : Int) > (UINT16_MAX : Int)) := by
    have : ((c.function.chunk.count - loopStart + 3 : Nat) : Int) ≤ (UINT16_MAX : Int) := by
      exact_mod_cast hfit
    omega
  have h256 : (c.function.chunk.count - loopStart + 3) / 256 < 256 := by
    simp only [UINT16_MAX] at hfit
    omega
  have hhi : ((((c.function.chunk.count - loopStart + 3 : Nat) : Int) / 256) % 256).toNat
      = (c.function.chunk.count - loopStart + 3) / 256 := by
    have : (((c.function.chunk.count - loopStart + 3 : Nat) : Int) / 256) % 256
        = (((c.function.chunk.count - loopStart + 3) / 256 % 256 : Nat) : Int) := by
      norm_cast
    rw [this, Int.toNat_ofNat, Nat.mod_eq_of_lt h256]
  have hlo : (((c.function.chunk.count - loopStart + 3 : Nat) : Int) % 256).toNat
      = (c.function.chunk.count - loopStart + 3) % 256 := by
    have : ((c.function.chunk.count - loopStart + 3 : Nat) : Int) % 256
        = (((c.function.chunk.count - loopStart + 3) % 256 : Nat) : Int) := by norm_cast
    rw [this, Int.toNat_ofNat]
  have h2 := emitByte_ok ((c.function.chunk.count - loopStart + 3) / 256) _ hc1
  rw [emit_append] at h2
  have hc2 := emit_compilers s ([OpCode.OP_LOOP.byte]
    ++ [(c.function.chunk.count - loopStart + 3) / 256]) hcur
  have h3 := emitByte_ok ((c.function.chunk.count - loopStart + 3) % 256) _ hc2
  rw [emit_append] at h3
  simp only [emitLoop, bind, M.bind, h1, hcc, hcount, hnot, if_false, pure, M.pure, hhi, hlo,
    h2, h3]
  rfl

theorem emitLoop_too_large (loopStart : Nat) (s : St) (c : Compiler) (rest : List Compiler)
    (hs : s.compilers = c :: rest) (hle : loopStart ≤ c.function.chunk.count)
    (hbig : c.function.chunk.count - loopStart + 3 > UINT16_MAX)
    (hpanic : s.parser.panicMode = false) :
    emitLoop loopStart s = .exit TokenType.TOKEN_ERROR.code
      { s.emit [OpCode.OP_LOOP.byte] with
        parser := { s.parser with panicMode := true },
        log := s.log ++ [.error "Loop body too large.",
          .errorAt s.parser.previous.line s.parser.previous.type s.parser.previous.lexeme] } := by
  have hcur : s.compilers ≠ [] := by simp [hs]
  have h1 := emitOp_ok .OP_LOOP s hcur
  have hcount : ((s.emit [OpCode.OP_LOOP.byte]).frame.function.chunk.count : Int)
      - (loopStart : Int) + 2 = ((c.function.chunk.count - loopStart + 3 : Nat) : Int) := by
    simp only [St.emit, St.frame, hs, Chunk.count, List.length_append, List.length_cons,
      List.length_nil]
    simp only [Chunk.count] at hle
    push_cast
    omega
  have hcc : currentChunk (s.emit [OpCode.OP_LOOP.byte])
      = .ok (s.emit [OpCode.OP_LOOP.byte]).frame.function.chunk (s.emit [OpCode.OP_LOOP.byte]) := by
    simp only [currentChunk, currentCompiler, bind, M.bind, St.emit, St.frame, hs, pure, M.pure]
  have hgt : ((c.function.chunk.count - loopStart + 3 : Nat) : Int) > (UINT16_MAX : Int) := by
    exact_mod_cast hbig
  have hp : (s.emit [OpCode.OP_LOOP.byte]).parser.panicMode = false := by
    simp only [St.emit, hs]
    exact hpanic
  have he := error_exits "Loop body too large." _ hp
  simp only [emitLoop, bind, M.bind, h1, hcc, hcount, hgt, if_true, he]
  simp only [St.emit, hs]

theorem step_loop (host : Host) (frame : Nat) (s : St) (f : CallFrame) (fnRef : Nat)
    (ups : List (Option Nat)) (fn : ObjFunction) (hi lo : Nat)
    (hf : s.vm.frames.get? frame = some f)
    (h1 : s.vm.heap.get? f.closure = some (.closure fnRef ups))
    (h2 : s.vm.heap.get? fnRef = some (.function fn))
    (hop : fn.chunk.code.get? f.ip = some OpCode.OP_LOOP.byte)
    (hhi : fn.chunk.code.get? (f.ip + 1) = some hi)
    (hlo : fn.chunk.code.get? (f.ip + 2) = some lo)
    (hback : hi * 256 + lo ≤ f.ip + 3) :
    step host frame s = .ok (.inl frame) (s.withIp frame (f.ip + 3 - (hi * 256 + lo))) := by
  have hh := withIp_heap s frame (f.ip + 1)
  have hf1 := withIp_frame s frame (f.ip + 1) f hf
  have hrs := readShort_ok frame (s.withIp frame (f.ip + 1)) { f with ip := f.ip + 1 } fnRef ups
    fn hi lo hf1 (by rw [hh]; exact h1) (by rw [hh]; exact h2) hhi hlo
  rw [withIp_withIp] at hrs
  have hf3 := withIp_frame s frame (f.ip + 1 + 2) f hf
  have hnot : ¬ (f.ip + 1 + 2 < hi * 256 + lo) := by omega
  rw [step_execute host frame s f fnRef ups fn .OP_LOOP hf h1 h2 hop]
  simp only [execute, bind, M.bind, hrs, getFrame_ok _ _ _ hf3, hnot, if_false]
  have := setFrame_withIp frame (f.ip + 1 + 2 - (hi * 256 + lo))
    (s.withIp frame (f.ip + 1 + 2)) _ hf3
  simp only [] at this
  simp only [this, withIp_withIp, pure, M.pure]

theorem isAlpha_range (c : Nat) (h : isAlpha c = true) :
    (97 ≤ c ∧ c ≤ 122) ∨ (65 ≤ c ∧ c ≤ 90) ∨ c = 95 := by
  simp only [isAlpha, Bool.or_eq_true, Bool.and_eq_true, decide_eq_true_eq, beq_iff_eq] at h
  omega

theorem source_getD (before lexeme rest : List Nat) (k : Nat) :
    (before ++ lexeme ++ rest).getD (before.length + k) 0 = (lexeme ++ rest).getD k 0 := by
  rw [List.append_assoc, List.getD_eq_getElem?_getD, List.getD_eq_getElem?_getD,
    List.getElem?_append_right (by omega)]
  simp

theorem word_drop_take (before lexeme rest : List Nat) (s l : Nat)
    (hlen : lexeme.length = s + l) :
    ((before ++ lexeme ++ rest).drop (before.length + s)).take l = lexeme.drop s := by
  rw [List.append_assoc, List.drop_append_eq_append_drop]
  have h1 : before.length + s - before.length = s := by omega
  have h2 : List.drop (before.length + s) before = [] := by
    apply List.drop_eq_nil_of_le
    omega
  rw [h1, h2, List.nil_append, List.drop_append_eq_append_drop, List.take_append_eq_append_take]
  have h3 : (List.drop s lexeme).length = l := by
    rw [List.length_drop]
    omega
  rw [h3, Nat.sub_self, List.take_zero, List.append_nil, ← h3, List.take_length]

theorem word_of_check1 (before lexeme rest r : List Nat) (c l : Nat)
    (h0 : (lexeme ++ rest).getD 0 0 = c) (hlen : lexeme.length = 1 + l)
    (htake : ((before ++ lexeme ++ rest).drop (before.length + 1)).take l = r) :
    lexeme = c :: r := by
  rw [word_drop_take before lexeme rest 1 l hlen] at htake
  cases lexeme with
  | nil =>
    simp only [List.length_nil] at hlen
    omega
  | cons x t =>
    have hx : x = c := by simpa using h0
    simp only [List.drop_succ_cons, List.drop_zero] at htake
    rw [hx, htake]

theorem word_of_check2 (before lexeme rest r : List Nat) (c0 c1 l : Nat)
    (h0 : (lexeme ++ rest).getD 0 0 = c0) (h1 : (lexeme ++ rest).getD 1 0 = c1)
    (hlen : lexeme.length = 2 + l)
    (htake : ((before ++ lexeme ++ rest).drop (before.length + 2)).take l = r) :
    lexeme = c0 :: c1 :: r := by
  rw [word_drop_take before lexeme rest 2 l hlen] at htake
  cases lexeme with
  | nil =>
    simp only [List.length_nil] at hlen
    omega
  | cons x t =>
    cases t with
    | nil =>
      simp only [List.length_cons, List.length_nil] at hlen
      omega
    | cons y t =>
      have hx : x = c0 := by simpa using h0
      have hy : y = c1 := by simpa using h1
      simp only [List.drop_succ_cons, List.drop_zero] at htake
      rw [hx, hy, htake]

theorem identifierType_keyword (before rest : List Nat) (line : Nat) (kw : List Nat)
    (t : TokenType)
    (h : (kw, t) ∈ [(bytes "class", TokenType.TOKEN_CLASS), (bytes "else", .TOKEN_ELSE),
      (bytes "false", .TOKEN_FALSE), (bytes "for", .TOKEN_FOR), (bytes "fun", .TOKEN_FUN),
      (bytes "if", .TOKEN_IF), (bytes "nil", .TOKEN_NIL), (bytes "or", .TOKEN_OR),
      (bytes "and", .TOKEN_AND), (bytes "print", .TOKEN_PRINT), (bytes "return", .TOKEN_RETURN),
      (bytes "super", .TOKEN_SUPER), (bytes "this", .TOKEN_THIS), (bytes "true", .TOKEN_TRUE),
      (bytes "while", .TOKEN_WHILE), (bytes "int", .TOKEN_INT), (bytes "float", .TOKEN_FLOAT),
      (bytes "string", .TOKEN_STRING)]) :
    identifierType (atWordEnd before kw rest line) = t := by
  have h0 := source_getD before kw rest 0
  have h1 := source_getD before kw rest 1
  simp only [Nat.add_zero] at h0
  simp only [List.mem_cons, Prod.mk.injEq, List.mem_singleton, List.not_mem_nil, or_false] at h
  rcases h with h | h | h | h | h | h | h | h | h | h | h | h | h | h | h | h | h | h <;>
    obtain ⟨hk, ht⟩ := h <;> subst hk <;> subst ht <;>
    simp [bytes] at h0 h1 <;>
    simp [identifierType, checkKeyword, atWordEnd, Scanner.at, h0, h1, bytes]

theorem ite_identifier {c : Prop} [Decidable c] {x y : TokenType}
    (hx : c → x = .TOKEN_IDENTIFIER) (hy : ¬ c → y = .TOKEN_IDENTIFIER) :
    (if c then x else y) = .TOKEN_IDENTIFIER := by
  by_cases h : c
  · rw [if_pos h]
    exact hx h
  · rw [if_neg h]
    exact hy h

theorem identifierType_other (before lexeme rest : List Nat) (line : Nat)
    (h : specKeywordType lexeme = .TOKEN_IDENTIFIER) :
    identifierType (atWordEnd before lexeme rest line) = .TOKEN_IDENTIFIER := by
  have h0 := source_getD before lexeme rest 0
  have h1 := source_getD before lexeme rest 1
  simp only [Nat.add_zero] at h0
  have k0 : lexeme ≠ bytes "class" := by
    intro e
    rw [e] at h
    exact absurd h (by decide)
  have k1 : lexeme ≠ bytes "else" := by
    intro e
    rw [e] at h
    exact absurd h (by decide)
  have k2 : lexeme ≠ bytes "false" := by
    intro e
    rw [e] at h
    exact absurd h (by decide)
  have k3 : lexeme ≠ bytes "for" := by
    intro e
    rw [e] at h
    exact absurd h (by decide)
  have k4 : lexeme ≠ bytes "fun" := by
    intro e
    rw [e] at h
    exact absurd h (by decide)
  have k5 : lexeme ≠ bytes "if" := by
    intro e
    rw [e] at h
    exact absurd h (by decide)
  have k6 : lexeme ≠ bytes "nil" := by
    intro e
    rw [e] at h
    exact absurd h (by decide)
  have k7 : lexeme ≠ bytes "or" := by
    intro e
    rw [e] at h
    exact absurd h (by decide)
  have k8 : lexeme ≠ bytes "and" := by
    intro e
    rw [e] at h
    exact absurd h (by decide)
  have k9 : lexeme ≠ bytes "print" := by
    intro e
    rw [e] at h
    exact absurd h (by decide)
  have k10 : lexeme ≠ bytes "return" := by
    intro e
    rw [e] at h
    exact absurd h (by decide)
  have k11 : lexeme ≠ bytes "super" := by
    intro e
    rw [e] at h
    exact absurd h (by decide)
  have k12 : lexeme ≠ bytes "this" := by
    intro e
    rw [e] at h
    exact absurd h (by decide)
  have k13 : lexeme ≠ bytes "true" := by
    intro e
    rw [e] at h
    exact absurd h (by decide)
  have k14 : lexeme ≠ bytes "while" := by
    intro e
    rw [e] at h
    exact absurd h (by decide)
  have k15 : lexeme ≠ bytes "int" := by
    intro e
    rw [e] at h
    exact absurd h (by decide)
  have k16 : lexeme ≠ bytes "float" := by
    intro e
    rw [e] at h
    exact absurd h (by decide)
  have k17 : lexeme ≠ bytes "string" := by
    intro e
    rw [e] at h
    exact absurd h (by decide)
  have hlong : before.length + lexeme.length - before.length = lexeme.length := by omega
  unfold identifierType
  simp only [atWordEnd, Scanner.at]
  rw [h0, h1]
  clear h h0 h1
  repeat' first
    | with_reducible rfl
    | (with_reducible apply ite_identifier) <;> intro _
    | (unfold checkKeyword
       rw [if_neg]
       rintro ⟨hlen, htake⟩
       first
      | exact k0 ((word_of_check1 before lexeme rest _ _ _ (by assumption) (hlong.symm.trans hlen) htake).trans (by decide))
      | exact k1 ((word_of_check1 before lexeme rest _ _ _ (by assumption) (hlong.symm.trans hlen) htake).trans (by decide))
      | exact k2 ((word_of_check1 before lexeme rest _ _ _ (by assumption) (hlong.symm.trans hlen) htake).trans (by decide))
      | exact k3 ((word_of_check1 before lexeme rest _ _ _ (by assumption) (hlong.symm.trans hlen) htake).trans (by decide))
      | exact k4 ((word_of_check1 before lexeme rest _ _ _ (by assumption) (hlong.symm.trans hlen) htake).trans (by decide))
      | exact k5 ((word_of_check1 before lexeme rest _ _ _ (by assumption) (hlong.symm.trans hlen) htake).trans (by decide))
      | exact k6 ((word_of_check1 before lexeme rest _ _ _ (by assumption) (hlong.symm.trans hlen) htake).trans (by decide))
      | exact k7 ((word_of_check1 before lexeme rest _ _ _ (by assumption) (hlong.symm.trans hlen) htake).trans (by decide))
      | exact k8 ((word_of_check1 before lexeme rest _ _ _ (by assumption) (hlong.symm.trans hlen) htake).trans (by decide))
      | exact k9 ((word_of_check1 before lexeme rest _ _ _ (by assumption) (hlong.symm.trans hlen) htake).trans (by decide))
      | exact k10 ((word_of_check1 before lexeme rest _ _ _ (by assumption) (hlong.symm.trans hlen) htake).trans (by decide))
      | exact k11 ((word_of_check1 before lexeme rest _ _ _ (by assumption) (hlong.symm.trans hlen) htake).trans (by decide))
      | exact k12 ((word_of_check1 before lexeme rest _ _ _ (by assumption) (hlong.symm.trans hlen) htake).trans (by decide))
      | exact k13 ((word_of_check1 before lexeme rest _ _ _ (by assumption) (hlong.symm.trans hlen) htake).trans (by decide))
      | exact k14 ((word_of_check1 before lexeme rest _ _ _ (by assumption) (hlong.symm.trans hlen) htake).trans (by decide))
      | exact k15 ((word_of_check1 before lexeme rest _ _ _ (by assumption) (hlong.symm.trans hlen) htake).trans (by decide))
      | exact k16 ((word_of_check1 before lexeme rest _ _ _ (by assumption) (hlong.symm.trans hlen) htake).trans (by decide))
      | exact k17 ((word_of_check1 before lexeme rest _ _ _ (by assumption) (hlong.symm.trans hlen) htake).trans (by decide))
      | exact k0 ((word_of_check2 before lexeme rest _ _ _ _ (by assumption) (by assumption) (hlong.symm.trans hlen) htake).trans (by decide))
      | exact k1 ((word_of_check2 before lexeme rest _ _ _ _ (by assumption) (by assumption) (hlong.symm.trans hlen) htake).trans (by decide))
      | exact k2 ((word_of_check2 before lexeme rest _ _ _ _ (by assumption) (by assumption) (hlong.symm.trans hlen) htake).trans (by decide))
      | exact k3 ((word_of_check2 before lexeme rest _ _ _ _ (by assumption) (by assumption) (hlong.symm.trans hlen) htake).trans (by decide))
      | exact k4 ((word_of_check2 before lexeme rest _ _ _ _ (by assumption) (by assumption) (hlong.symm.trans hlen) htake).trans (by decide))
      | exact k5 ((word_of_check2 before lexeme rest _ _ _ _ (by assumption) (by assumption) (hlong.symm.trans hlen) htake).trans (by decide))
      | exact k6 ((word_of_check2 before lexeme rest _ _ _ _ (by assumption) (by assumption) (hlong.symm.trans hlen) htake).trans (by decide))
      | exact k7 ((word_of_check2 before lexeme rest _ _ _ _ (by assumption) (by assumption) (hlong.symm.trans hlen) htake).trans (by decide))
      | exact k8 ((word_of_check2 before lexeme rest _ _ _ _ (by assumption) (by assumption) (hlong.symm.trans hlen) htake).trans (by decide))
      | exact k9 ((word_of_check2 before lexeme rest _ _ _ _ (by assumption) (by assumption) (hlong.symm.trans hlen) htake).trans (by decide))
      | exact k10 ((word_of_check2 before lexeme rest _ _ _ _ (by assumption) (by assumption) (hlong.symm.trans hlen) htake).trans (by decide))
      | exact k11 ((word_of_check2 before lexeme rest _ _ _ _ (by assumption) (by assumption) (hlong.symm.trans hlen) htake).trans (by decide))
      | exact k12 ((word_of_check2 before lexeme rest _ _ _ _ (by assumption) (by assumption) (hlong.symm.trans hlen) htake).trans (by decide))
      | exact k13 ((word_of_check2 before lexeme rest _ _ _ _ (by assumption) (by assumption) (hlong.symm.trans hlen) htake).trans (by decide))
      | exact k14 ((word_of_check2 before lexeme rest _ _ _ _ (by assumption) (by assumption) (hlong.symm.trans hlen) htake).trans (by decide))
      | exact k15 ((word_of_check2 before lexeme rest _ _ _ _ (by assumption) (by assumption) (hlong.symm.trans hlen) htake).trans (by decide))
      | exact k16 ((word_of_check2 before lexeme rest _ _ _ _ (by assumption) (by assumption) (hlong.symm.trans hlen) htake).trans (by decide))
      | exact k17 ((word_of_check2 before lexeme rest _ _ _ _ (by assumption) (by assumption) (hlong.symm.trans hlen) htake).trans (by decide)))

theorem identifierType_spec (before lexeme rest : List Nat) (line : Nat) :
    identifierType (atWordEnd before lexeme rest line) = specKeywordType lexeme := by
  by_cases e0 : lexeme = bytes "class"
  · rw [e0]
    exact (identifierType_keyword before rest line (bytes "class") .TOKEN_CLASS (by decide)).trans
      (by decide)
  by_cases e1 : lexeme = bytes "else"
  · rw [e1]
    exact (identifierType_keyword before rest line (bytes "else") .TOKEN_ELSE (by decide)).trans
      (by decide)
  by_cases e2 : lexeme = bytes "false"
  · rw [e2]
    exact (identifierType_keyword before rest line (bytes "false") .TOKEN_FALSE (by decide)).trans
      (by decide)
  by_cases e3 : lexeme = bytes "for"
  · rw [e3]
    exact (identifierType_keyword before rest line (bytes "for") .TOKEN_FOR (by decide)).trans
      (by decide)
  by_cases e4 : lexeme = bytes "fun"
  · rw [e4]
    exact (identifierType_keyword before rest line (bytes "fun") .TOKEN_FUN (by decide)).trans
      (by decide)
  by_cases e5 : lexeme = bytes "if"
  · rw [e5]
    exact (identifierType_keyword before rest line (bytes "if") .TOKEN_IF (by decide)).trans
      (by decide)
  by_cases e6 : lexeme = bytes "nil"
  · rw [e6]
    exact (identifierType_keyword before rest line (bytes "nil") .TOKEN_NIL (by decide)).trans
      (by decide)
  by_cases e7 : lexeme = bytes "or"
  · rw [e7]
    exact (identifierType_keyword before rest line (bytes "or") .TOKEN_OR (by decide)).trans
      (by decide)
  by_cases e8 : lexeme = bytes "and"
  · rw [e8]
    exact (identifierType_keyword before rest line (bytes "and") .TOKEN_AND (by decide)).trans
      (by decide)
  by_cases e9 : lexeme = bytes "print"
  · rw [e9]
    exact (identifierType_keyword before rest line (bytes "print") .TOKEN_PRINT (by decide)).trans
      (by decide)
  by_cases e10 : lexeme = bytes "return"
  · rw [e10]
    exact (identifierType_keyword before rest line (bytes "return") .TOKEN_RETURN (by decide)).trans
      (by decide)
  by_cases e11 : lexeme = bytes "super"
  · rw [e11]
    exact (identifierType_keyword before rest line (bytes "super") .TOKEN_SUPER (by decide)).trans
      (by decide)
  by_cases e12 : lexeme = bytes "this"
  · rw [e12]
    exact (identifierType_keyword before rest line (bytes "this") .TOKEN_THIS (by decide)).trans
      (by decide)
  by_cases e13 : lexeme = bytes "true"
  · rw [e13]
    exact (identifierType_keyword before rest line (bytes "true") .TOKEN_TRUE (by decide)).trans
      (by decide)
  by_cases e14 : lexeme = bytes "while"
  · rw [e14]
    exact (identifierType_keyword before rest line (bytes "while") .TOKEN_WHILE (by decide)).trans
      (by decide)
  by_cases e15 : lexeme = bytes "int"
  · rw [e15]
    exact (identifierType_keyword before rest line (bytes "int") .TOKEN_INT (by decide)).trans
      (by decide)
  by_cases e16 : lexeme = bytes "float"
  · rw [e16]
    exact (identifierType_keyword before rest line (bytes "float") .TOKEN_FLOAT (by decide)).trans
      (by decide)
  by_cases e17 : lexeme = bytes "string"
  · rw [e17]
    exact (identifierType_keyword before rest line (bytes "string") .TOKEN_STRING (by decide)).trans
      (by decide)
  have hspec : specKeywordType lexeme = .TOKEN_IDENTIFIER := by
    simp only [specKeywordType, e0, e1, e2, e3, e4, e5, e6, e7, e8, e9, e10, e11, e12, e13, e14, e15, e16, e17, if_false]
  rw [hspec]
  exact identifierType_other before lexeme rest line hspec

theorem isAlpha_zero_false (c : Nat) (h : isAlpha c = true) :
    c ≠ 0 ∧ c ≠ 32 ∧ c ≠ 13 ∧ c ≠ 9 ∧ c ≠ 10 ∧ c ≠ 47 := by
  have := isAlpha_range c h
  omega

theorem identifierLoop_word (before lexeme rest : List Nat) (start line : Nat)
    (hall : ∀ c ∈ lexeme, (isAlpha c || isDigit c) = true)
    (hrest : (isAlpha (rest.getD 0 0) || isDigit (rest.getD 0 0)) = false)
    (n k : Nat) (hk : k ≤ lexeme.length) (hn : lexeme.length - k ≤ n) :
    identifierLoop n { source := before ++ lexeme ++ rest, start := start,
                       current := before.length + k, line := line }
      = { source := before ++ lexeme ++ rest, start := start,
          current := before.length + lexeme.length, line := line } := by
  induction n generalizing k with
  | zero =>
    have : k = lexeme.length := by omega
    rw [this]
    rfl
  | succ n ih =>
    unfold identifierLoop
    simp only [Scanner.peek, Scanner.at, source_getD, Scanner.advance]
    by_cases hlt : k < lexeme.length
    · have hget : (lexeme ++ rest).getD k 0 = lexeme[k] := by
        rw [List.getD_eq_getElem?_getD, List.getElem?_append_left hlt, List.getElem?_eq_getElem hlt]
        rfl
      have hal := hall lexeme[k] (List.getElem_mem hlt)
      rw [hget, if_pos hal]
      have := ih (k + 1) (by omega) (by omega)
      rw [← Nat.add_assoc] at this
      exact this
    · have hkl : k = lexeme.length := by omega
      have hget : (lexeme ++ rest).getD k 0 = rest.getD 0 0 := by
        rw [hkl, List.getD_eq_getElem?_getD, List.getD_eq_getElem?_getD,
          List.getElem?_append_right (Nat.le_refl _), Nat.sub_self]
      rw [hget, hrest, hkl]
      rfl

theorem skipWhitespace_alpha (sc : Scanner) (h : isAlpha sc.peek = true) :
    skipWhitespace sc = sc := by
  have hz := isAlpha_zero_false sc.peek h
  unfold skipWhitespace
  cases sc.source.length + 1 - sc.current with
  | zero => rfl
  | succ n =>
    unfold skipWhitespaceLoop
    simp only [hz.2.1, hz.2.2.1, hz.2.2.2.1, hz.2.2.2.2.1, hz.2.2.2.2.2, or_self, if_false]

theorem scanToken_word (before lexeme rest : List Nat) (start line c : Nat) (t : List Nat)
    (hlex : lexeme = c :: t) (hc : isAlpha c = true)
    (hall : ∀ c ∈ lexeme, (isAlpha c || isDigit c) = true)
    (hrest : (isAlpha (rest.getD 0 0) || isDigit (rest.getD 0 0)) = false) :
    scanToken (Scanner.mk (before ++ lexeme ++ rest) start before.length line)
      = (makeToken (atWordEnd before lexeme rest line) (specKeywordType lexeme),
         atWordEnd before lexeme rest line) := by
  have hpeek : ∀ st, Scanner.peek (Scanner.mk (before ++ lexeme ++ rest) st before.length line)
      = c := by
    intro st
    have := source_getD before lexeme rest 0
    simp only [Nat.add_zero] at this
    simp only [Scanner.peek, Scanner.at]
    rw [this, hlex]
    rfl
  have hz := isAlpha_zero_false c hc
  have hloop := identifierLoop_word before lexeme rest before.length line hall hrest
    ((before ++ lexeme ++ rest).length + 1 - (before.length + 1)) 1
    (by rw [hlex]; simp) (by simp only [List.length_append]; omega)
  unfold scanToken
  rw [skipWhitespace_alpha _ (by rw [hpeek]; exact hc)]
  simp only [Scanner.isAtEnd, hpeek, beq_iff_eq, hz.1, if_false, hc, if_true, identifier,
    Scanner.advance, hloop]
  rw [← identifierType_spec before lexeme rest line]
  rfl

/-! ### Lemmas on upvalues, the scanner on digits and the parse of infix operators -/

theorem binaryOpInt_ints (op : Int → Int → M Value) (s : St) (a b : Int) (v : Value)
    (htop : 2 ≤ s.vm.stackTop) (hmax : s.vm.stackTop ≤ STACK_MAX)
    (ha : s.vm.slot (s.vm.stackTop - 2) = .int a)
    (hb : s.vm.slot (s.vm.stackTop - 1) = .int b)
    (hop : ∀ s1, op a b s1 = .ok v s1) :
    binaryOpInt op s = .ok none (s.withResult v) := by
  have h1 : ¬ s.vm.stackTop < 0 + 1 := by omega
  have h2 : ¬ s.vm.stackTop < 1 + 1 := by omega
  have h3 : s.vm.stackTop ≠ 0 := by omega
  have h4 : s.vm.stackTop - 1 ≠ 0 := by omega
  have h5 : s.vm.stackTop - 1 - 1 = s.vm.stackTop - 2 := by omega
  have h6 : s.vm.stackTop - 2 < STACK_MAX := by omega
  have h7 : s.vm.stackTop - 2 + 1 = s.vm.stackTop - 1 := by omega
  have ha2 : VM.slot { s.vm with stackTop := s.vm.stackTop - 1 } (s.vm.stackTop - 2)
      = .int a := ha
  simp [binaryOpInt, peek, pop, push, bind, M.bind, pure, M.pure, h1, h2, h3, h4, h5, h6, h7,
    hb, ha, ha2, IS_INT, Value.type, hop, St.withResult]

theorem binaryOpInt_not_ints (op : Int → Int → M Value) (s : St)
    (htop : 2 ≤ s.vm.stackTop)
    (h : IS_INT (s.vm.slot (s.vm.stackTop - 1)) = false ∨
         IS_INT (s.vm.slot (s.vm.stackTop - 2)) = false) :
    binaryOpInt op s
      = s.raise "From BINARY_OP_INT. Operands must be numbers." []
          (some .INTERPRET_RUNTIME_ERROR) := by
  have h1 : ¬ s.vm.stackTop < 0 + 1 := by omega
  have h2 : ¬ s.vm.stackTop < 1 + 1 := by omega
  have h5 : s.vm.stackTop - 1 - 1 = s.vm.stackTop - 2 := by omega
  rw [← runtimeError_then]
  by_cases h0 : IS_INT (s.vm.slot (s.vm.stackTop - 1)) = true
  · have hh : IS_INT (s.vm.slot (s.vm.stackTop - 2)) = false := by
      rcases h with h | h
      · rw [h0] at h
        exact Bool.noConfusion h
      · exact h
    simp [binaryOpInt, peek, bind, M.bind, pure, M.pure, h1, h2, h5, h0, hh]
  · simp only [Bool.not_eq_true] at h0
    simp [binaryOpInt, peek, bind, M.bind, pure, M.pure, h1, h0]

theorem intOfDouble_ok (i : Int) (h : INT_MIN ≤ i ∧ i ≤ INT_MAX) (s : St) :
    intOfDouble i s = .ok (.int i) s := by
  simp [intOfDouble, h, pure, M.pure]

theorem findUpvalue_none (l : List Upvalue) (index : Nat) (isLocal : Bool) (i0 : Nat) :
    findUpvalue l index isLocal i0 = none ↔ (⟨index, isLocal⟩ : Upvalue) ∉ l := by
  induction l generalizing i0 with
  | nil => simp [findUpvalue]
  | cons u rest ih =>
    unfold findUpvalue
    by_cases h : u.index = index ∧ u.isLocal = isLocal
    · rw [if_pos h]
      have hu : u = ⟨index, isLocal⟩ := by
        cases u
        simp only [Upvalue.mk.injEq]
        exact h
      simp [hu]
    · rw [if_neg h, ih]
      have hu : (⟨index, isLocal⟩ : Upvalue) ≠ u := by
        intro e
        apply h
        rw [← e]
        exact ⟨rfl, rfl⟩
      simp [hu]

theorem findUpvalue_some (l : List Upvalue) (index : Nat) (isLocal : Bool) (i0 r : Nat) :
    findUpvalue l index isLocal i0 = some r ↔
      ∃ p, r = i0 + p ∧ l.get? p = some ⟨index, isLocal⟩ ∧
        ∀ q, q < p → l.get? q ≠ some ⟨index, isLocal⟩ := by
  induction l generalizing i0 with
  | nil => simp [findUpvalue]
  | cons u rest ih =>
    unfold findUpvalue
    by_cases h : u.index = index ∧ u.isLocal = isLocal
    · rw [if_pos h]
      have hu : u = ⟨index, isLocal⟩ := by
        cases u
        simp only [Upvalue.mk.injEq]
        exact h
      constructor
      · intro e
        injection e with e
        exact ⟨0, by omega, by rw [hu]; rfl, fun q hq => absurd hq (Nat.not_lt_zero q)⟩
      · rintro ⟨p, hr, hp, hq⟩
        cases p with
        | zero => rw [hr]; rfl
        | succ p =>
          exact absurd (by rw [hu]; rfl) (hq 0 (Nat.succ_pos p))
    · rw [if_neg h, ih]
      have hu : u ≠ (⟨index, isLocal⟩ : Upvalue) := by
        intro e
        apply h
        rw [e]
        exact ⟨rfl, rfl⟩
      constructor
      · rintro ⟨p, hr, hp, hq⟩
        refine ⟨p + 1, by omega, hp, ?_⟩
        intro q hlt
        cases q with
        | zero =>
          intro e
          injection e with e
          exact hu e
        | succ q => exact hq q (by omega)
      · rintro ⟨p, hr, hp, hq⟩
        cases p with
        | zero =>
          injection hp with e
          exact absurd e hu
        | succ p =>
          exact ⟨p, by omega, hp, fun q hlt => hq (q + 1) (by omega)⟩

theorem addUpvalue_eq (k index : Nat) (isLocal : Bool) (s : St) (c : Compiler)
    (hk : s.compilers.get? k = some c) :
    addUpvalue k index isLocal s =
      match findUpvalue c.descriptors index isLocal 0 with
      | some i => .ok (i : Int) s
      | none =>
        if c.function.upvalueCount = UINT8_COUNT then
          match error "Too many closure variables in function." s with
          | .ok _ s1 => .ok 0 s1
          | .exit code s1 => .exit code s1
          | .undefinedBehaviour w s1 => .undefinedBehaviour w s1
          | .outOfFuel => .outOfFuel
        else
          .ok (c.function.upvalueCount : Int)
            { s with compilers := s.compilers.set k (c.withUpvalue ⟨index, isLocal⟩) } := by
  simp only [addUpvalue, getSt, bind, M.bind, hk, Compiler.descriptors]
  cases findUpvalue (List.take c.function.upvalueCount c.upvalues) index isLocal 0 with
  | some i => rfl
  | none =>
    simp only []
    by_cases hfull : c.function.upvalueCount = UINT8_COUNT
    · simp only [hfull, if_true, M.bind]
      cases error "Too many closure variables in function." s <;> rfl
    · simp only [hfull, if_false, modifySt, M.bind, pure, M.pure, Compiler.withUpvalue,
        Compiler.descriptors]

theorem error_ok_compilers (message : String) (s s1 : St) (h : error message s = .ok () s1) :
    s1.compilers = s.compilers := by
  simp only [error, bind, M.bind, logEvent, modifySt, getSt] at h
  have := errorAt_ok _ _ _ _ h
  rw [this]

theorem withUpvalue_descriptors (c : Compiler) (u : Upvalue) :
    (c.withUpvalue u).descriptors = c.descriptors ++ [u] := by
  have hlen : c.descriptors.length ≤ c.function.upvalueCount := by
    simp only [Compiler.descriptors, List.length_take]
    omega
  simp only [Compiler.withUpvalue, Compiler.descriptors] at hlen ⊢
  apply List.take_of_length_le
  simp only [List.length_append, List.length_cons, List.length_nil]
  omega

theorem get?_set_self {α : Type} (l : List α) (k : Nat) (c : α) (h : k < l.length) :
    (l.set k c).get? k = some c := by
  rw [List.get?_eq_getElem?, List.getElem?_set_self h]

theorem get?_set_ne {α : Type} (l : List α) (k j : Nat) (c : α) (h : j ≠ k) :
    (l.set k c).get? j = l.get? j := by
  rw [List.get?_eq_getElem?, List.get?_eq_getElem?, List.getElem?_set_ne (Ne.symm h)]

theorem set_get?_self {α : Type} (l : List α) (k : Nat) (c : α) (h : l.get? k = some c) :
    l.set k c = l := by
  have hlt : k < l.length := (List.get?_eq_some.mp h).1
  apply List.ext_get?
  intro j
  by_cases hj : j = k
  · rw [hj, get?_set_self l k c hlt, h]
  · rw [get?_set_ne l k j c hj]

theorem get?_append_last {α : Type} (l : List α) (u : α) :
    (l ++ [u]).get? l.length = some u := by
  rw [List.get?_eq_getElem?, List.getElem?_append_right (Nat.le_refl _), Nat.sub_self]
  rfl

theorem addUpvalue_result (k index : Nat) (isLocal : Bool) (s : St) (c : Compiler)
    (hk : s.compilers.get? k = some c) (hroom : c.function.upvalueCount < UINT8_COUNT)
    (hwritten : c.function.upvalueCount ≤ c.upvalues.length) :
    ∃ (p : Nat) (c1 : Compiler),
      addUpvalue k index isLocal s = .ok (p : Int) (s.withFrame k c1) ∧
      c1.descriptors.get? p = some ⟨index, isLocal⟩ ∧ p < UINT8_COUNT ∧
      c1.locals = c.locals ∧ c1.function.upvalueCount < UINT8_COUNT + 1 := by
  have he := addUpvalue_eq k index isLocal s c hk
  have hlt : k < s.compilers.length := (List.get?_eq_some.mp hk).1
  cases hf : findUpvalue c.descriptors index isLocal 0 with
  | some r =>
    obtain ⟨p, hr, hp, _⟩ := (findUpvalue_some _ _ _ 0 r).mp hf
    have hpr : r = p := by omega
    subst hpr
    have hplt : r < c.descriptors.length := (List.get?_eq_some.mp hp).1
    have hlen : c.descriptors.length ≤ c.function.upvalueCount := by
      simp only [Compiler.descriptors, List.length_take]
      omega
    refine ⟨r, c, ?_, hp, by omega, rfl, by omega⟩
    rw [he, hf, St.withFrame, set_get?_self _ _ _ hk]
  | none =>
    have hne : c.function.upvalueCount ≠ UINT8_COUNT := by omega
    refine ⟨c.function.upvalueCount, c.withUpvalue ⟨index, isLocal⟩, ?_, ?_, hroom, rfl, ?_⟩
    · rw [he, hf]
      simp only [hne, if_false, St.withFrame]
    · rw [withUpvalue_descriptors]
      have hlen : c.descriptors.length = c.function.upvalueCount := by
        simp only [Compiler.descriptors, List.length_take]
        omega
      rw [← hlen]
      exact get?_append_last _ _
    · simp only [Compiler.withUpvalue]
      omega

theorem resolveUpvalue_succ (n k : Nat) (name : Token) (s : St) :
    resolveUpvalue (n + 1) k name s =
      match s.compilers.get? (k + 1) with
      | none => .ok (-1) s
      | some enclosing =>
        if resolveLocal enclosing name ≠ -1 then
          addUpvalue k ((resolveLocal enclosing name).toNat % 256) true
            (s.withFrame (k + 1) (enclosing.withCaptured (resolveLocal enclosing name).toNat))
        else
          match resolveUpvalue n (k + 1) name s with
          | .ok u s1 => if u ≠ -1 then addUpvalue k (u.toNat % 256) false s1 else .ok (-1) s1
          | .exit code s1 => .exit code s1
          | .undefinedBehaviour w s1 => .undefinedBehaviour w s1
          | .outOfFuel => .outOfFuel := by
  rw [resolveUpvalue]
  simp only [getSt, bind, M.bind]
  cases s.compilers.get? (k + 1) with
  | none => rfl
  | some enclosing =>
    simp only []
    by_cases hl : resolveLocal enclosing name = -1
    · simp only [hl, ne_eq, not_true_eq_false, if_false, M.bind]
      cases resolveUpvalue n (k + 1) name s with
      | ok u s1 =>
        simp only []
        by_cases hu : u = -1
        · simp only [hu, ne_eq, not_true_eq_false, if_false, pure, M.pure]
        · simp only [hu, ne_eq, not_false_eq_true, if_true]
      | _ => rfl
    · simp only [hl, ne_eq, not_false_eq_true, if_true, modifySt, M.bind, Compiler.withCaptured,
        St.withFrame]

theorem resolveUpvalue_none (name : Token) (n k : Nat) (s : St) (hn : 1 ≤ n)
    (hfuel : s.compilers.length ≤ n + k)
    (hall : ∀ j cj, k < j → s.compilers.get? j = some cj → resolveLocal cj name = -1) :
    resolveUpvalue n k name s = .ok (-1) s := by
  induction n generalizing k with
  | zero => omega
  | succ n ih =>
    rw [resolveUpvalue_succ]
    cases hg : s.compilers.get? (k + 1) with
    | none => rfl
    | some enclosing =>
      have hlt : k + 1 < s.compilers.length := (List.get?_eq_some.mp hg).1
      have hl := hall (k + 1) enclosing (Nat.lt_succ_self k) hg
      simp only [hl, ne_eq, not_true_eq_false, if_false]
      rw [ih (k + 1) (by omega) (by omega) (fun j cj hj hc => hall j cj (by omega) hc)]
      simp

theorem resolveUpvalue_found (name : Token) (i : Nat) (owner : Compiler) (d : Nat) :
    ∀ (n k : Nat) (s : St),
      s.compilers.get? (k + d + 1) = some owner →
      resolveLocal owner name = (i : Int) → owner.localCount ≤ UINT8_COUNT →
      (∀ j cj, k < j → j < k + d + 1 → s.compilers.get? j = some cj →
        resolveLocal cj name = -1) →
      (∀ j cj, k ≤ j → j < k + d + 1 → s.compilers.get? j = some cj →
        cj.function.upvalueCount < UINT8_COUNT ∧
        cj.function.upvalueCount ≤ cj.upvalues.length) →
      d + 1 ≤ n →
      ∃ (pos : Nat → Nat) (frames : List Compiler),
        resolveUpvalue n k name s = .ok (pos k : Int) { s with compilers := frames } ∧
        frames.length = s.compilers.length ∧
        (∀ j, j < k ∨ k + d + 1 < j → frames.get? j = s.compilers.get? j) ∧
        frames.get? (k + d + 1) = some (owner.withCaptured i) ∧
        ∀ j, k ≤ j → j < k + d + 1 →
          pos j < UINT8_COUNT ∧
          ∃ cj cj1, s.compilers.get? j = some cj ∧ frames.get? j = some cj1 ∧
            cj1.descriptors.get? (pos j)
              = some (if j + 1 = k + d + 1 then ⟨i, true⟩ else ⟨pos (j + 1), false⟩) ∧
            cj1.locals = cj.locals := by
  induction d with
  | zero =>
    intro n k s hm hloc hcount _ hroom hfuel
    obtain ⟨n, rfl⟩ : ∃ n1, n = n1 + 1 := ⟨n - 1, by omega⟩
    have hmlt : k + 0 + 1 < s.compilers.length := (List.get?_eq_some.mp hm).1
    have hklt : k < s.compilers.length := by omega
    have hi : i < 256 := by
      have := (resolveLocalFrom_some owner.locals name owner.localCount i).mp hloc
      simp only [UINT8_COUNT, UINT8_MAX] at hcount
      omega
    have hne : (i : Int) ≠ -1 := by omega
    obtain ⟨ck, hck⟩ : ∃ ck, s.compilers.get? k = some ck :=
      ⟨s.compilers.get ⟨k, hklt⟩, List.get?_eq_get hklt⟩
    have hck1 : (s.withFrame (k + 1) (owner.withCaptured i)).compilers.get? k = some ck := by
      simp only [St.withFrame]
      rw [get?_set_ne _ _ _ _ (by omega)]
      exact hck
    have hr := hroom k ck (Nat.le_refl k) (by omega) hck
    obtain ⟨p, c1, hadd, hdesc, hp, hlocals, _⟩ :=
      addUpvalue_result k i true _ ck hck1 hr.1 hr.2
    refine ⟨fun _ => p, ((s.compilers.set (k + 1) (owner.withCaptured i)).set k c1), ?_, ?_, ?_,
      ?_, ?_⟩
    · rw [resolveUpvalue_succ, hm]
      simp only [hloc, hne, ne_eq, not_false_eq_true, if_true, Int.toNat_ofNat,
        Nat.mod_eq_of_lt hi, hadd]
      rfl
    · simp only [List.length_set]
    · intro j hj
      rw [get?_set_ne _ _ _ _ (by omega), get?_set_ne _ _ _ _ (by omega)]
    · rw [get?_set_ne _ _ _ _ (by omega), get?_set_self _ _ _ (by omega)]
    · intro j hj1 hj2
      have hjk : j = k := by omega
      subst hjk
      refine ⟨hp, ck, c1, hck, ?_, ?_, hlocals⟩
      · rw [get?_set_self _ _ _ (by simp only [List.length_set]; omega)]
      · simp only [if_true]
        exact hdesc
  | succ d ih =>
    intro n k s hm hloc hcount hbetween hroom hfuel
    obtain ⟨n, rfl⟩ : ∃ n1, n = n1 + 1 := ⟨n - 1, by omega⟩
    have hmlt : k + (d + 1) + 1 < s.compilers.length := (List.get?_eq_some.mp hm).1
    have hklt : k < s.compilers.length := by omega
    have hk1lt : k + 1 < s.compilers.length := by omega
    obtain ⟨ck, hck⟩ : ∃ ck, s.compilers.get? k = some ck :=
      ⟨s.compilers.get ⟨k, hklt⟩, List.get?_eq_get hklt⟩
    obtain ⟨ck1, hck1⟩ : ∃ ck1, s.compilers.get? (k + 1) = some ck1 :=
      ⟨s.compilers.get ⟨k + 1, hk1lt⟩, List.get?_eq_get hk1lt⟩
    have hl1 := hbetween (k + 1) ck1 (by omega) (by omega) hck1
    have hm1 : s.compilers.get? (k + 1 + d + 1) = some owner := by
      rw [← hm]
      congr 1
      omega
    obtain ⟨pos1, frames1, hrun1, hlen1, hout1, hown1, hin1⟩ :=
      ih n (k + 1) s hm1 hloc hcount
        (fun j cj h1 h2 hc => hbetween j cj (by omega) (by omega) hc)
        (fun j cj h1 h2 hc => hroom j cj (by omega) (by omega) hc)
        (by omega)
    have hckf : ({ s with compilers := frames1 } : St).compilers.get? k = some ck := by
      show frames1.get? k = some ck
      rw [hout1 k (Or.inl (by omega))]
      exact hck
    have hr := hroom k ck (Nat.le_refl k) (by omega) hck
    have hp1 := (hin1 (k + 1) (Nat.le_refl _) (by omega)).1
    have hp1lt : pos1 (k + 1) < 256 := by
      simp only [UINT8_COUNT, UINT8_MAX] at hp1
      omega
    obtain ⟨p, c1, hadd, hdesc, hp, hlocals, _⟩ :=
      addUpvalue_result k (pos1 (k + 1)) false _ ck hckf hr.1 hr.2
    have hne : (pos1 (k + 1) : Int) ≠ -1 := by omega
    refine ⟨fun j => if j = k then p else pos1 j, frames1.set k c1, ?_, ?_, ?_, ?_, ?_⟩
    · rw [resolveUpvalue_succ, hck1]
      simp only [hl1, ne_eq, not_true_eq_false, if_false, hrun1, hne, not_false_eq_true, if_true,
        Int.toNat_ofNat, Nat.mod_eq_of_lt hp1lt, hadd]
      rfl
    · simp only [List.length_set, hlen1]
    · intro j hj
      rw [get?_set_ne _ _ _ _ (by omega)]
      exact hout1 j (by omega)
    · rw [get?_set_ne _ _ _ _ (by omega)]
      have : k + (d + 1) + 1 = k + 1 + d + 1 := by omega
      rw [this]
      exact hown1
    · intro j hj1 hj2
      by_cases hjk : j = k
      · subst hjk
        refine ⟨by simp only [if_true]; exact hp, ck, c1, hck, ?_, ?_, hlocals⟩
        · rw [get?_set_self _ _ _ (by omega)]
        · have h1 : ¬ (j + 1 = j + (d + 1) + 1) := by omega
          have h2 : ¬ (j + 1 = j) := by omega
          simp only [if_true, h1, h2, if_false]
          exact hdesc
      · obtain ⟨hpj, cj, cj1, hcj, hcj1, hd1, hl⟩ := hin1 j (by omega) (by omega)
        refine ⟨by simp only [hjk, if_false]; exact hpj, cj, cj1, hcj, ?_, ?_, hl⟩
        · rw [get?_set_ne _ _ _ _ hjk]
          exact hcj1
        · have hjk1 : ¬ (j + 1 = k) := by omega
          simp only [hjk, hjk1, if_false]
          rw [hd1]
          have : (j + 1 = k + 1 + d + 1) ↔ (j + 1 = k + (d + 1) + 1) := by omega
          simp only [this]

theorem openList_iff (heap : List Obj) (n : Nat) (head : Option Nat) (l : List (Nat × Nat)) :
    openList n heap head = some l ↔ l.length < n ∧ IsSeg heap head l none := by
  induction n generalizing head l with
  | zero => simp [openList]
  | succ n ih =>
    cases head with
    | none =>
      cases l with
      | nil => simp [openList, IsSeg]
      | cons e rest =>
        obtain ⟨r, sl⟩ := e
        simp [openList, IsSeg]
    | some u =>
      rw [openList]
      cases hg : heap.get? u with
      | none =>
        cases l with
        | nil => simp [IsSeg]
        | cons e rest =>
          obtain ⟨r, sl⟩ := e
          simp only [IsSeg, Option.some.injEq, false_iff, not_and, not_exists, reduceCtorEq]
          intro _ h closed next h2
          subst h
          rw [hg] at h2
          exact absurd h2 (by simp)
      | some o =>
        cases l with
        | nil =>
          simp only [IsSeg, reduceCtorEq, and_false, iff_false]
          cases o with
          | upvalue loc closed next =>
            cases loc with
            | stack slot =>
              simp only []
              cases openList n heap next <;> simp
            | closed => simp
          | _ => simp
        | cons e rest =>
          obtain ⟨r, sl⟩ := e
          simp only [IsSeg, Option.some.injEq, List.length_cons, Nat.add_lt_add_iff_right]
          cases o with
          | upvalue loc closed next =>
            cases loc with
            | stack slot =>
              simp only []
              cases ho : openList n heap next with
              | none =>
                simp only [reduceCtorEq, false_iff, not_and, not_exists]
                intro hlen h c2 n2 h2 hseg
                subst h
                rw [hg] at h2
                injection h2 with h2
                injection h2 with _ _ h3
                subst h3
                have := (ih next rest).mpr ⟨hlen, hseg⟩
                rw [ho] at this
                exact absurd this (by simp)
              | some rest2 =>
                have := ih next rest2
                simp only [Option.some.injEq, List.cons.injEq, Prod.mk.injEq]
                constructor
                · rintro ⟨⟨h1, h2⟩, h3⟩
                  subst h1 h2 h3
                  have h4 := (ih next rest2).mp ho
                  exact ⟨h4.1, rfl, closed, next, hg, h4.2⟩
                · rintro ⟨hlen, h, c2, n2, h2, hseg⟩
                  subst h
                  rw [hg] at h2
                  injection h2 with h2
                  injection h2 with h5 _ h3
                  injection h5 with h5
                  subst h3 h5
                  have := (ih _ rest).mpr ⟨hlen, hseg⟩
                  rw [ho] at this
                  injection this with this
                  exact ⟨⟨rfl, rfl⟩, this⟩
            | closed =>
              simp only [reduceCtorEq, false_iff, not_and, not_exists]
              intro _ h c2 n2 h2
              subst h
              rw [hg] at h2
              exact absurd h2 (by simp)
          | _ =>
            simp only [reduceCtorEq, false_iff, not_and, not_exists]
            intro _ h c2 n2 h2
            subst h
            rw [hg] at h2
            exact absurd h2 (by simp)

theorem seg_append (heap : List Obj) (l1 l2 : List (Nat × Nat)) (head e : Option Nat) :
    IsSeg heap head (l1 ++ l2) e ↔ ∃ mid, IsSeg heap head l1 mid ∧ IsSeg heap mid l2 e := by
  induction l1 generalizing head with
  | nil =>
    simp only [List.nil_append, IsSeg]
    constructor
    · intro h
      exact ⟨head, rfl, h⟩
    · rintro ⟨mid, h1, h2⟩
      subst h1
      exact h2
  | cons x rest ih =>
    obtain ⟨r, sl⟩ := x
    simp only [List.cons_append, IsSeg]
    constructor
    · rintro ⟨h1, closed, next, h2, h3⟩
      obtain ⟨mid, h4, h5⟩ := (ih next).mp h3
      exact ⟨mid, ⟨h1, closed, next, h2, h4⟩, h5⟩
    · rintro ⟨mid, ⟨h1, closed, next, h2, h4⟩, h5⟩
      exact ⟨h1, closed, next, h2, (ih next).mpr ⟨mid, h4, h5⟩⟩

theorem seg_mem_get (heap : List Obj) (l : List (Nat × Nat)) (head e : Option Nat)
    (h : IsSeg heap head l e) (r sl : Nat) (hmem : (r, sl) ∈ l) :
    ∃ closed next, heap.get? r = some (.upvalue (.stack sl) closed next) := by
  induction l generalizing head with
  | nil => exact absurd hmem (List.not_mem_nil _)
  | cons x rest ih =>
    obtain ⟨r1, sl1⟩ := x
    obtain ⟨_, closed, next, h2, h3⟩ := h
    rcases List.mem_cons.mp hmem with heq | hin
    · injection heq with h4 h5
      subst h4 h5
      exact ⟨closed, next, h2⟩
    · exact ih next h3 hin

theorem seg_head (heap : List Obj) (l : List (Nat × Nat)) (head : Option Nat)
    (h : IsSeg heap head l none) : head = l.head?.map Prod.fst := by
  cases l with
  | nil => exact h
  | cons x rest =>
    obtain ⟨r1, sl1⟩ := x
    exact h.1

theorem seg_nodup (heap : List Obj) (l : List (Nat × Nat)) (head e : Option Nat)
    (h : IsSeg heap head l e) (hs : decreasingSlots l) : (l.map Prod.fst).Nodup := by
  induction l generalizing head with
  | nil => exact List.nodup_nil
  | cons x rest ih =>
    obtain ⟨r1, sl1⟩ := x
    obtain ⟨_, closed, next, h2, h3⟩ := h
    have hs2 := List.pairwise_cons.mp hs
    rw [List.map_cons, List.nodup_cons]
    refine ⟨?_, ih next h3 hs2.2⟩
    intro hin
    obtain ⟨⟨r2, sl2⟩, hmem, hr⟩ := List.mem_map.mp hin
    simp only at hr
    subst hr
    obtain ⟨c2, n2, h4⟩ := seg_mem_get heap rest next e h3 r2 sl2 hmem
    rw [h2] at h4
    injection h4 with h4
    injection h4 with h5
    injection h5 with h5
    have := hs2.1 (r2, sl2) hmem
    simp only at this
    omega

theorem seg_heap_append (heap extra : List Obj) (l : List (Nat × Nat)) (head e : Option Nat)
    (h : IsSeg heap head l e) : IsSeg (heap ++ extra) head l e := by
  induction l generalizing head with
  | nil => exact h
  | cons x rest ih =>
    obtain ⟨r1, sl1⟩ := x
    obtain ⟨h1, closed, next, h2, h3⟩ := h
    refine ⟨h1, closed, next, ?_, ih next h3⟩
    have hlt : r1 < heap.length := (List.get?_eq_some.mp h2).1
    rw [List.get?_eq_getElem?, List.getElem?_append_left hlt, ← List.get?_eq_getElem?]
    exact h2

theorem seg_set_other (heap : List Obj) (p : Nat) (o : Obj) (l : List (Nat × Nat))
    (head e : Option Nat) (h : IsSeg heap head l e) (hp : p ∉ l.map Prod.fst) :
    IsSeg (heap.set p o) head l e := by
  induction l generalizing head with
  | nil => exact h
  | cons x rest ih =>
    obtain ⟨r1, sl1⟩ := x
    obtain ⟨h1, closed, next, h2, h3⟩ := h
    rw [List.map_cons, List.mem_cons, not_or] at hp
    refine ⟨h1, closed, next, ?_, ih next h3 hp.2⟩
    rw [get?_set_ne _ _ _ _ (fun h => hp.1 h.symm)]
    exact h2

theorem openSlot_ok (r sl : Nat) (closed : Value) (next : Option Nat) (s : St)
    (h : s.vm.heap.get? r = some (.upvalue (.stack sl) closed next)) :
    openSlot r s = .ok (sl, next) s := by
  simp only [openSlot, bind, M.bind, getObj, h, pure, M.pure]

theorem captureWalk_split (slot : Nat) (s : St) (l : List (Nat × Nat)) :
    ∀ (n : Nat) (prev head : Option Nat), IsSeg s.vm.heap head l none → l.length < n →
      ∃ before after, l = before ++ after ∧ (∀ e ∈ before, slot < e.2) ∧
        (∀ e, after.head? = some e → e.2 ≤ slot) ∧
        captureWalk n prev head slot s
          = .ok (lastRef prev before, after.head?.map Prod.fst) s := by
  induction l with
  | nil =>
    intro n prev head h hn
    obtain ⟨n, rfl⟩ : ∃ n1, n = n1 + 1 := ⟨n - 1, by simp at hn; omega⟩
    have h0 : head = none := h
    subst h0
    exact ⟨[], [], rfl, fun e he => absurd he (List.not_mem_nil _), fun e he => by simp at he, rfl⟩
  | cons x rest ih =>
    intro n prev head h hn
    obtain ⟨r, sl⟩ := x
    obtain ⟨n, rfl⟩ : ∃ n1, n = n1 + 1 := ⟨n - 1, by simp at hn; omega⟩
    obtain ⟨h1, closed, next, h2, h3⟩ := h
    subst h1
    by_cases hgt : sl > slot
    · obtain ⟨before, after, hl, hb, ha, hw⟩ := ih n (some r) next h3 (by simp at hn; omega)
      refine ⟨(r, sl) :: before, after, by rw [hl]; rfl, ?_, ha, ?_⟩
      · intro e he
        rcases List.mem_cons.mp he with heq | hin
        · subst heq
          exact hgt
        · exact hb e hin
      · rw [captureWalk]
        simp only [bind, M.bind, openSlot_ok r sl closed next s h2, hgt, if_true]
        exact hw
    · refine ⟨[], (r, sl) :: rest, rfl, fun e he => absurd he (List.not_mem_nil _), ?_, ?_⟩
      · intro e he
        simp only [List.head?_cons, Option.some.injEq] at he
        subst he
        exact Nat.le_of_not_lt hgt
      · rw [captureWalk]
        simp only [bind, M.bind, openSlot_ok r sl closed next s h2, hgt, if_false]
        rfl

theorem lastRef_append (prev : Option Nat) (l : List (Nat × Nat)) (e : Nat × Nat) :
    lastRef prev (l ++ [e]) = some e.1 := by
  induction l generalizing prev with
  | nil => rfl
  | cons x rest ih => exact ih (some x.1)

theorem lastRef_cases (l : List (Nat × Nat)) :
    (l = [] ∧ lastRef none l = none) ∨
      ∃ b p sp, l = b ++ [(p, sp)] ∧ lastRef none l = some p := by
  rcases List.eq_nil_or_concat l with h | ⟨b, e, h⟩
  · left
    subst h
    exact ⟨rfl, rfl⟩
  · right
    subst h
    exact ⟨b, e.1, e.2, by simp, by rw [List.concat_eq_append]; exact lastRef_append none b e⟩

theorem captureUpvalue_found (slot u : Nat) (s : St) (prev : Option Nat) (closed : Value)
    (next : Option Nat)
    (hw : captureWalk (s.vm.heap.length + 1) none s.vm.openUpvalues slot s
      = .ok (prev, some u) s)
    (hu : s.vm.heap.get? u = some (.upvalue (.stack slot) closed next)) :
    captureUpvalue slot s = .ok u s := by
  simp only [captureUpvalue, bind, M.bind, getSt, hw, openSlot_ok u slot closed next s hu, pure,
    M.pure, if_true]

theorem captureUpvalue_head (slot : Nat) (s : St) (stop : Option Nat)
    (hw : captureWalk (s.vm.heap.length + 1) none s.vm.openUpvalues slot s
      = .ok (none, stop) s)
    (hu : ∀ u, stop = some u → ∃ sl closed next, sl ≠ slot ∧
      s.vm.heap.get? u = some (.upvalue (.stack sl) closed next)) :
    captureUpvalue slot s = .ok s.vm.heap.length
      { s with vm := { s.vm with heap := s.vm.heap ++ [.upvalue (.stack slot) .nil stop],
                                 openUpvalues := some s.vm.heap.length } } := by
  cases stop with
  | none =>
    simp only [captureUpvalue, bind, M.bind, getSt, hw, pure, M.pure, allocate, modifyVM,
      modifySt]
  | some u =>
    obtain ⟨sl, closed, next, hne, hg⟩ := hu u rfl
    simp only [captureUpvalue, bind, M.bind, getSt, hw, openSlot_ok u sl closed next s hg, pure,
      M.pure, hne, if_false, allocate, modifyVM, modifySt]

theorem captureUpvalue_after (slot p sp : Nat) (s : St) (stop : Option Nat) (closed : Value)
    (next : Option Nat)
    (hw : captureWalk (s.vm.heap.length + 1) none s.vm.openUpvalues slot s
      = .ok (some p, stop) s)
    (hp : s.vm.heap.get? p = some (.upvalue (.stack sp) closed next))
    (hu : ∀ u, stop = some u → ∃ sl closed next, sl ≠ slot ∧
      s.vm.heap.get? u = some (.upvalue (.stack sl) closed next)) :
    captureUpvalue slot s = .ok s.vm.heap.length
      { s with vm := { s.vm with heap :=
        (List.set (s.vm.heap ++ [.upvalue (.stack slot) .nil stop]) p
          (.upvalue (.stack sp) closed (some s.vm.heap.length))) } } := by
  have hlt : p < s.vm.heap.length := (List.get?_eq_some.mp hp).1
  have hp2 : (s.vm.heap ++ [Obj.upvalue (.stack slot) .nil stop]).get? p
      = some (.upvalue (.stack sp) closed next) := by
    rw [List.get?_eq_getElem?, List.getElem?_append_left hlt, ← List.get?_eq_getElem?]
    exact hp
  cases stop with
  | none =>
    simp only [captureUpvalue, bind, M.bind, getSt, hw, pure, M.pure, allocate, modifyVM,
      modifySt, getObj, hp2, setObj]
  | some u =>
    obtain ⟨sl, closed, next, hne, hg⟩ := hu u rfl
    simp only [captureUpvalue, bind, M.bind, getSt, hw, openSlot_ok u sl closed next s hg, pure,
      M.pure, hne, if_false, allocate, modifyVM, modifySt, getObj, hp2, setObj]

theorem get?_append_new {α : Type} (l : List α) (x : α) : (l ++ [x]).get? l.length = some x := by
  rw [List.get?_eq_getElem?, List.getElem?_append_right (Nat.le_refl _)]
  simp

theorem captureUpvalue_create (slot : Nat) (s : St) (before after : List (Nat × Nat))
    (stop : Option Nat)
    (hseg1 : IsSeg s.vm.heap s.vm.openUpvalues before stop)
    (hseg2 : IsSeg s.vm.heap stop after none)
    (hw : captureWalk (s.vm.heap.length + 1) none s.vm.openUpvalues slot s
      = .ok (lastRef none before, stop) s)
    (hu : ∀ u, stop = some u → ∃ sl closed next, sl ≠ slot ∧
      s.vm.heap.get? u = some (.upvalue (.stack sl) closed next))
    (hnd : ((before ++ after).map Prod.fst).Nodup) :
    ∃ s1, captureUpvalue slot s = .ok s.vm.heap.length s1 ∧
      s1.vm.heap.length = s.vm.heap.length + 1 ∧
      IsSeg s1.vm.heap s1.vm.openUpvalues (before ++ (s.vm.heap.length, slot) :: after) none := by
  rcases lastRef_cases before with ⟨hnil, hlast⟩ | ⟨b, p, sp, hb, hlast⟩
  · subst hnil
    rw [hlast] at hw
    refine ⟨_, captureUpvalue_head slot s stop hw hu, by simp, ?_⟩
    exact ⟨rfl, .nil, stop, get?_append_new _ _, seg_heap_append _ _ _ _ _ hseg2⟩
  · subst hb
    rw [hlast] at hw
    obtain ⟨m1, hb1, hb2⟩ := (seg_append _ _ _ _ _).mp hseg1
    obtain ⟨hm1, closed, next, hp, hnext⟩ := hb2
    have hnext2 : next = stop := hnext
    subst hnext2
    subst hm1
    have hlt : p < s.vm.heap.length := (List.get?_eq_some.mp hp).1
    rw [List.map_append, List.map_append, List.append_assoc] at hnd
    have hnd2 := List.nodup_append.mp hnd
    have hnd3 := List.nodup_append.mp hnd2.2.1
    have hpb : p ∉ b.map Prod.fst := fun hin =>
      hnd2.2.2 hin (List.mem_append_left _ (List.mem_singleton.mpr rfl))
    have hpa : p ∉ after.map Prod.fst := fun hin =>
      hnd3.2.2 (List.mem_singleton.mpr rfl) hin
    refine ⟨_, captureUpvalue_after slot p sp s next closed next hw hp hu, by simp, ?_⟩
    show IsSeg _ s.vm.openUpvalues _ none
    rw [List.append_assoc]
    refine (seg_append _ _ _ _ _).mpr ⟨some p, ?_, ?_⟩
    · exact seg_set_other _ _ _ _ _ _ (seg_heap_append _ _ _ _ _ hb1) hpb
    · refine ⟨rfl, closed, some s.vm.heap.length, ?_, rfl, .nil, next, ?_, ?_⟩
      · exact get?_set_self _ _ _ (by rw [List.length_append]; simp; omega)
      · rw [get?_set_ne _ _ _ _ (by omega)]
        exact get?_append_new _ _
      · exact seg_set_other _ _ _ _ _ _ (seg_heap_append _ _ _ _ _ hseg2) hpa

theorem filter_slot (before rest : List (Nat × Nat)) (u slot : Nat)
    (hb : ∀ e ∈ before, slot < e.2) (hr : ∀ e ∈ rest, e.2 < slot) :
    (before ++ (u, slot) :: rest).filter (fun e => decide (e.2 = slot)) = [(u, slot)] := by
  have h1 : before.filter (fun e => decide (e.2 = slot)) = [] := by
    rw [List.filter_eq_nil_iff]
    intro e he
    have := hb e he
    simp only [decide_eq_true_eq]
    omega
  have h2 : rest.filter (fun e => decide (e.2 = slot)) = [] := by
    rw [List.filter_eq_nil_iff]
    intro e he
    have := hr e he
    simp only [decide_eq_true_eq]
    omega
  rw [List.filter_append, h1, List.filter_cons]
  simp only [decide_True, if_true, h2, List.nil_append]

theorem decreasing_insert (before after : List (Nat × Nat)) (u slot : Nat)
    (hs : decreasingSlots (before ++ after))
    (hb : ∀ e ∈ before, slot < e.2) (ha : ∀ e ∈ after, e.2 < slot) :
    decreasingSlots (before ++ (u, slot) :: after) := by
  unfold decreasingSlots at hs ⊢
  obtain ⟨h1, h2, h3⟩ := List.pairwise_append.mp hs
  refine List.pairwise_append.mpr ⟨h1, List.pairwise_cons.mpr ⟨ha, h2⟩, ?_⟩
  intro a hain b hbin
  rcases List.mem_cons.mp hbin with heq | hin
  · subst heq
    exact hb a hain
  · exact h3 a hain b hin

theorem decreasing_tail_below (before rest : List (Nat × Nat)) (x : Nat × Nat)
    (hs : decreasingSlots (before ++ x :: rest)) : ∀ e ∈ rest, e.2 < x.2 := by
  unfold decreasingSlots at hs
  obtain ⟨_, h2, _⟩ := List.pairwise_append.mp hs
  exact (List.pairwise_cons.mp h2).1

theorem closeUpvaluesLoop_split (last : Nat) (l : List (Nat × Nat)) :
    ∀ (n : Nat) (s : St), IsSeg s.vm.heap s.vm.openUpvalues l none → decreasingSlots l →
      l.length < n →
      ∃ s1 removed kept, closeUpvaluesLoop n last s = .ok () s1 ∧ l = removed ++ kept ∧
        (∀ e ∈ removed, last ≤ e.2) ∧ (∀ e, kept.head? = some e → e.2 < last) ∧
        s1.vm.heap.length = s.vm.heap.length ∧
        IsSeg s1.vm.heap s1.vm.openUpvalues kept none ∧
        (∀ e ∈ removed, ∃ next,
          s1.vm.heap.get? e.1 = some (.upvalue .closed (s.vm.slot e.2) next)) ∧
        (∀ r, r ∉ removed.map Prod.fst → s1.vm.heap.get? r = s.vm.heap.get? r) ∧
        s1 = { s with vm := { s.vm with heap := s1.vm.heap,
                                        openUpvalues := s1.vm.openUpvalues } } := by
  induction l with
  | nil =>
    intro n s h _ hn
    obtain ⟨n, rfl⟩ : ∃ n1, n = n1 + 1 := ⟨n - 1, by simp at hn; omega⟩
    have h0 : s.vm.openUpvalues = none := h
    refine ⟨s, [], [], ?_, rfl, fun e he => absurd he (List.not_mem_nil _),
      fun e he => by simp at he, rfl, h, fun e he => absurd he (List.not_mem_nil _),
      fun r _ => rfl, rfl⟩
    rw [closeUpvaluesLoop]
    simp only [bind, M.bind, getSt, h0]
    rfl
  | cons x rest ih =>
    intro n s h hs hn
    obtain ⟨r, sl⟩ := x
    obtain ⟨n, rfl⟩ : ∃ n1, n = n1 + 1 := ⟨n - 1, by simp at hn; omega⟩
    have hnd := seg_nodup _ _ _ _ h hs
    obtain ⟨h1, closed, next, h2, h3⟩ := h
    by_cases hge : sl ≥ last
    · have hr : r ∉ rest.map Prod.fst := (List.nodup_cons.mp hnd).1
      have hlt : r < s.vm.heap.length := (List.get?_eq_some.mp h2).1
      obtain ⟨s1, removed, kept, hrun, hl, hrem, hkept, hlen, hseg, hclosed, hother, hs1⟩ :=
        ih n
          { s with vm := { s.vm with
              heap := s.vm.heap.set r (.upvalue .closed (s.vm.slot sl) next),
              openUpvalues := next } }
          (seg_set_other _ _ _ _ _ _ h3 hr) (List.pairwise_cons.mp hs).2
          (by simp at hn; omega)
      have hr2 : r ∉ removed.map Prod.fst := by
        intro hin
        apply hr
        rw [hl, List.map_append]
        exact List.mem_append_left _ hin
      refine ⟨s1, (r, sl) :: removed, kept, ?_, by rw [hl]; rfl, ?_, hkept, ?_, hseg, ?_, ?_, ?_⟩
      · rw [closeUpvaluesLoop]
        simp only [bind, M.bind, getSt, h1, openSlot_ok r sl closed next s h2, hge, if_true,
          setObj, modifyVM, modifySt]
        exact hrun
      · intro e he
        rcases List.mem_cons.mp he with heq | hin
        · subst heq
          exact hge
        · exact hrem e hin
      · rw [hlen]
        simp
      · intro e he
        rcases List.mem_cons.mp he with heq | hin
        · subst heq
          refine ⟨next, ?_⟩
          rw [hother r hr2]
          exact get?_set_self _ _ _ hlt
        · exact hclosed e hin
      · intro r2 hr3
        rw [List.map_cons, List.mem_cons, not_or] at hr3
        rw [hother r2 hr3.2]
        exact get?_set_ne _ _ _ _ hr3.1
      · rw [hs1]
    · refine ⟨s, [], (r, sl) :: rest, ?_, rfl, fun e he => absurd he (List.not_mem_nil _), ?_, rfl,
        ⟨h1, closed, next, h2, h3⟩, fun e he => absurd he (List.not_mem_nil _), fun r _ => rfl,
        rfl⟩
      · rw [closeUpvaluesLoop]
        simp only [bind, M.bind, getSt, h1, openSlot_ok r sl closed next s h2, hge, if_false]
        rfl
      · intro e he
        simp only [List.head?_cons, Option.some.injEq] at he
        subst he
        exact Nat.lt_of_not_le hge

theorem peek_drop (sc : Scanner) : sc.peek = (sc.source.drop sc.current).headD 0 := by
  simp only [Scanner.peek, Scanner.at, List.getD_eq_getElem?_getD, List.headD_eq_head?_getD,
    List.head?_drop]

theorem drop_after {α : Type} (l x y : List α) (i : Nat) (h : l.drop i = x ++ y) :
    l.drop (i + x.length) = y := by
  rw [← List.drop_drop, h, List.drop_left]

theorem drop_length_le {α : Type} (l x : List α) (i : Nat) (h : l.drop i = x) :
    i + x.length ≤ l.length ∨ x = [] := by
  by_cases hx : x = []
  · exact Or.inr hx
  · left
    have := congrArg List.length h
    rw [List.length_drop] at this
    have hpos : 0 < x.length := List.length_pos.mpr hx
    omega

theorem skipWhitespaceLoop_blanks (k : Nat) :
    ∀ (sc : Scanner) (n : Nat) (rest : List Nat),
      sc.source.drop sc.current = blanks k ++ rest → k ≤ n →
      rest.headD 0 ≠ 32 → rest.headD 0 ≠ 13 → rest.headD 0 ≠ 9 → rest.headD 0 ≠ 10 →
      rest.headD 0 ≠ 47 →
      skipWhitespaceLoop n sc = { sc with current := sc.current + k } := by
  induction k with
  | zero =>
    intro sc n rest h _ h1 h2 h3 h4 h5
    cases n with
    | zero => rfl
    | succ n =>
      have hp : sc.peek = rest.headD 0 := by
        rw [peek_drop, h]
        rfl
      rw [skipWhitespaceLoop]
      simp only [hp, h1, h2, h3, h4, h5, or_self, if_false]
      rfl
  | succ k ih =>
    intro sc n rest h hn h1 h2 h3 h4 h5
    obtain ⟨n, rfl⟩ : ∃ n1, n = n1 + 1 := ⟨n - 1, by omega⟩
    have hp : sc.peek = 32 := by
      rw [peek_drop, h]
      rfl
    have hd : sc.advance.source.drop sc.advance.current = blanks k ++ rest := by
      have := drop_after sc.source [32] (blanks k ++ rest) sc.current h
      exact this
    rw [skipWhitespaceLoop]
    simp only [hp, true_or, if_true]
    rw [ih sc.advance n rest hd (by omega) h1 h2 h3 h4 h5]
    simp only [Scanner.advance, Nat.add_assoc, Nat.add_comm 1 k]

theorem skipWhitespace_blanks (k : Nat) (sc : Scanner) (rest : List Nat)
    (h : sc.source.drop sc.current = blanks k ++ rest)
    (h1 : rest.headD 0 ≠ 32) (h2 : rest.headD 0 ≠ 13) (h3 : rest.headD 0 ≠ 9)
    (h4 : rest.headD 0 ≠ 10) (h5 : rest.headD 0 ≠ 47) :
    skipWhitespace sc = { sc with current := sc.current + k } := by
  apply skipWhitespaceLoop_blanks k sc _ rest h _ h1 h2 h3 h4 h5
  have := congrArg List.length h
  rw [List.length_drop, List.length_append] at this
  simp only [blanks, List.length_replicate] at this
  omega

theorem digitLoop_digits (d : List Nat) :
    ∀ (sc : Scanner) (n : Nat) (rest : List Nat),
      sc.source.drop sc.current = d ++ rest → (∀ c ∈ d, isDigit c = true) → d.length ≤ n →
      isDigit (rest.headD 0) = false →
      digitLoop n sc = { sc with current := sc.current + d.length } := by
  induction d with
  | nil =>
    intro sc n rest h _ _ hr
    cases n with
    | zero => rfl
    | succ n =>
      have hp : sc.peek = rest.headD 0 := by
        rw [peek_drop, h]
        rfl
      rw [digitLoop]
      simp only [hp, hr, Bool.false_eq_true, if_false]
      rfl
  | cons c d ih =>
    intro sc n rest h hall hn hr
    obtain ⟨n, rfl⟩ : ∃ n1, n = n1 + 1 := ⟨n - 1, by simp at hn; omega⟩
    have hp : sc.peek = c := by
      rw [peek_drop, h]
      rfl
    have hd : sc.advance.source.drop sc.advance.current = d ++ rest :=
      drop_after sc.source [c] (d ++ rest) sc.current h
    rw [digitLoop]
    simp only [hp, hall c (List.mem_cons_self _ _), if_true]
    rw [ih sc.advance n rest hd (fun x hx => hall x (List.mem_cons_of_mem _ hx))
      (by simp at hn; omega) hr]
    simp only [Scanner.advance, List.length_cons, Nat.add_assoc, Nat.add_comm 1 d.length]

theorem isDigit_facts (c : Nat) (h : isDigit c = true) :
    isAlpha c = false ∧ c ≠ 0 ∧ c ≠ 32 ∧ c ≠ 13 ∧ c ≠ 9 ∧ c ≠ 10 ∧ c ≠ 47 := by
  simp only [isDigit, Bool.and_eq_true, decide_eq_true_eq] at h
  refine ⟨?_, by omega, by omega, by omega, by omega, by omega, by omega⟩
  simp only [isAlpha, Bool.or_eq_false_iff, Bool.and_eq_false_iff, decide_eq_false_iff_not,
    beq_eq_false_iff_ne]
  omega

theorem scanToken_int (sc : Scanner) (k : Nat) (d rest : List Nat)
    (h : sc.source.drop sc.current = blanks k ++ (d ++ rest)) (hd : d ≠ [])
    (hall : ∀ c ∈ d, isDigit c = true) (hr : isDigit (rest.headD 0) = false)
    (hdot : rest.headD 0 ≠ 46) :
    scanToken sc
      = (⟨.TOKEN_INT_LITERAL, d ++ rest, d.length, sc.line⟩,
         { sc with start := sc.current + k, current := sc.current + k + d.length }) := by
  obtain ⟨c, t, rfl⟩ : ∃ c t, d = c :: t := by
    cases d with
    | nil => exact absurd rfl hd
    | cons c t => exact ⟨c, t, rfl⟩
  have hc := hall c (List.mem_cons_self _ _)
  obtain ⟨ha, h0, h1, h2, h3, h4, h5⟩ := isDigit_facts c hc
  have hskip := skipWhitespace_blanks k sc (c :: t ++ rest) h h1 h2 h3 h4 h5
  have hdrop : sc.source.drop (sc.current + k) = c :: (t ++ rest) := by
    have := drop_after sc.source (blanks k) (c :: t ++ rest) sc.current h
    simp only [blanks, List.length_replicate] at this
    exact this
  have hdrop1 : sc.source.drop (sc.current + k + 1) = t ++ rest :=
    drop_after sc.source [c] (t ++ rest) (sc.current + k) hdrop
  have hlen : sc.current + k + 1 + t.length ≤ sc.source.length := by
    have := congrArg List.length hdrop
    rw [List.length_drop] at this
    simp only [List.length_cons, List.length_append] at this
    omega
  have hloop := digitLoop_digits t
    (Scanner.mk sc.source (sc.current + k) (sc.current + k + 1) sc.line)
    (sc.source.length + 1 - (sc.current + k + 1)) rest hdrop1
    (fun x hx => hall x (List.mem_cons_of_mem _ hx)) (by omega) hr
  have hpeek : Scanner.peek (Scanner.mk sc.source (sc.current + k) (sc.current + k) sc.line) = c := by
    rw [peek_drop]
    show (sc.source.drop (sc.current + k)).headD 0 = c
    rw [hdrop]
    rfl
  have hpeek2 : Scanner.peek
      (Scanner.mk sc.source (sc.current + k) (sc.current + k + 1 + t.length) sc.line)
        = rest.headD 0 := by
    rw [peek_drop]
    show (sc.source.drop (sc.current + k + 1 + t.length)).headD 0 = _
    rw [drop_after sc.source t rest (sc.current + k + 1) hdrop1]
  have hend : Scanner.isAtEnd (Scanner.mk sc.source (sc.current + k) (sc.current + k) sc.line)
      = false := by
    simp only [Scanner.isAtEnd, hpeek, beq_eq_false_iff_ne]
    exact h0
  unfold scanToken
  simp only [hskip, hend, hpeek, ha, hc, Bool.false_eq_true, if_false, if_true, Scanner.advance,
    number, hloop, hpeek2, hdot, false_and, makeToken, hdrop]
  refine Prod.ext ?_ ?_
  · simp only [List.length_cons, List.cons_append]
    congr 1
    omega
  · simp only [List.length_cons]
    congr 1
    omega

theorem scanToken_punctuation (sc : Scanner) (k c : Nat) (rest : List Nat)
    (h : sc.source.drop sc.current = blanks k ++ c :: rest)
    (hc : c = 43 ∨ c = 45 ∨ c = 42 ∨ c = 59) :
    scanToken sc
      = (⟨if c = 43 then .TOKEN_PLUS else if c = 45 then .TOKEN_MINUS
            else if c = 42 then .TOKEN_STAR else .TOKEN_SEMICOLON, c :: rest, 1, sc.line⟩,
         { sc with start := sc.current + k, current := sc.current + k + 1 }) := by
  have hskip := skipWhitespace_blanks k sc (c :: rest) h
    (by show c ≠ _; omega)
    (by show c ≠ _; omega)
    (by show c ≠ _; omega)
    (by show c ≠ _; omega)
    (by show c ≠ _; omega)
  have hdrop : sc.source.drop (sc.current + k) = c :: rest := by
    have := drop_after sc.source (blanks k) (c :: rest) sc.current h
    simp only [blanks, List.length_replicate] at this
    exact this
  have hpeek : Scanner.peek (Scanner.mk sc.source (sc.current + k) (sc.current + k) sc.line) = c := by
    rw [peek_drop]
    show (sc.source.drop (sc.current + k)).headD 0 = c
    rw [hdrop]
    rfl
  unfold scanToken
  simp only [hskip, hpeek, Scanner.isAtEnd, Scanner.advance, makeToken, hdrop]
  rcases hc with h | h | h | h <;> subst h <;> simp [isAlpha, isDigit]

theorem strtolDigits_append (d rest : List Nat) (hall : ∀ c ∈ d, isDigit c = true)
    (hr : isDigit (rest.headD 0) = false) :
    ∀ acc, strtolDigits (d ++ rest) acc = strtolDigits d acc := by
  induction d with
  | nil =>
    intro acc
    cases rest with
    | nil => rfl
    | cons c r =>
      have : isDigit c = false := hr
      simp only [List.nil_append, strtolDigits, this, Bool.false_eq_true, if_false]
  | cons c d ih =>
    intro acc
    have hc := hall c (List.mem_cons_self _ _)
    simp only [List.cons_append, strtolDigits, hc, if_true]
    exact ih (fun x hx => hall x (List.mem_cons_of_mem _ hx)) _

theorem strtolDigits_nonneg (d : List Nat) : ∀ acc : Int, 0 ≤ acc → 0 ≤ strtolDigits d acc := by
  induction d with
  | nil => exact fun acc h => h
  | cons c d ih =>
    intro acc h
    simp only [strtolDigits]
    split
    · apply ih
      have : (0 : Int) ≤ ((c - 48 : Nat) : Int) := Int.ofNat_nonneg _
      nlinarith
    · exact h

theorem strtol_digits (d rest : List Nat) (hd : d ≠ []) (hall : ∀ c ∈ d, isDigit c = true)
    (hr : isDigit (rest.headD 0) = false) : strtol (d ++ rest) = strtolDigits d 0 := by
  obtain ⟨c, t, rfl⟩ : ∃ c t, d = c :: t := by
    cases d with
    | nil => exact absurd rfl hd
    | cons c t => exact ⟨c, t, rfl⟩
  have hc := hall c (List.mem_cons_self _ _)
  have hc2 := hc
  simp only [isDigit, Bool.and_eq_true, decide_eq_true_eq] at hc2
  have hsp : isSpace c = false := by
    simp only [isSpace, Bool.or_eq_false_iff, beq_eq_false_iff_ne, Bool.and_eq_false_iff,
      decide_eq_false_iff_not]
    omega
  have h45 : c ≠ 45 := by omega
  have h43 : c ≠ 43 := by omega
  have := strtolDigits_append (c :: t) rest hall hr 0
  unfold strtol
  simp only [List.cons_append, skipSpaces, hsp, Bool.false_eq_true, if_false]
  split
  · rename_i heq
    injection heq with h1 _
    exact absurd h1 h45
  · rename_i heq
    injection heq with h1 _
    exact absurd h1 h43
  · exact this

theorem advance_scan (s : St) (token : Token) (sc : Scanner)
    (h : scanToken s.scanner = (token, sc)) (hne : token.type ≠ .TOKEN_ERROR)
    (hpos : s.scanner.current ≤ s.scanner.source.length + 1) :
    advance s = .ok () (s.shift token sc) := by
  obtain ⟨n, hn⟩ : ∃ n, s.scanner.source.length + 2 - s.scanner.current = n + 1 :=
    ⟨s.scanner.source.length + 1 - s.scanner.current, by omega⟩
  unfold advance
  simp only [bind, M.bind, getSt, modifySt, hn]
  rw [advanceLoop]
  simp only [bind, M.bind, getSt, modifySt, h, hne, ne_eq, not_false_eq_true, if_true, pure,
    M.pure, St.shift]

theorem integer_ok (canAssign : Bool) (s : St) (hcur : s.compilers ≠ [])
    (hstack : s.vm.stackTop < STACK_MAX) (hroom : s.constants.length < UINT8_COUNT)
    (hmin : INT_MIN ≤ strtol s.parser.previous.start)
    (hmax : strtol s.parser.previous.start ≤ INT_MAX) :
    integer_ canAssign s
      = .ok () ((((s.withCurrentType .VAL_INT).withConstant
          (.int (strtol s.parser.previous.start))).emit
            [OpCode.OP_CONSTANT_INT.byte, s.constants.length])) := by
  have hnot : ¬ (strtol s.parser.previous.start > INT_MAX ∨
      strtol s.parser.previous.start < INT_MIN) := by omega
  have hle : ¬ s.constants.length > UINT8_MAX := by
    simp only [UINT8_COUNT] at hroom
    omega
  have hadd := addConstant_ok (.int (strtol s.parser.previous.start))
    (s.withCurrentType .VAL_INT) hcur hstack
  simp only [integer_, bind, M.bind, getSt, hnot, if_false, setCurrentType, modifySt,
    emitConstant, makeConstantInt]
  have h2 : ({ s with parser := { s.parser with currentType := .VAL_INT } } : St)
      = s.withCurrentType .VAL_INT := rfl
  rw [h2, hadd]
  have hc : (s.withCurrentType .VAL_INT).constants = s.constants := rfl
  simp only [hc, hle, if_false, pure, M.pure]
  exact emitBytes_ok _ _ _ (withConstant_compilers _ _ hcur)

theorem appended_trans (s s1 s2 : St) (c1 c2 : List Nat) (k1 k2 : List Value)
    (h1 : Appended s s1 c1 k1) (h2 : Appended s1 s2 c2 k2) :
    Appended s s2 (c1 ++ c2) (k1 ++ k2) := by
  obtain ⟨_, a2, a3, a4, a5⟩ := h1
  obtain ⟨b1, b2, b3, b4, b5⟩ := h2
  exact ⟨b1, by rw [b2, a2], by rw [b3, a3, List.append_assoc],
    by rw [b4, a4, List.append_assoc], by rw [b5, a5]⟩

theorem appended_operator (s s1 : St) (c : List Nat) (k : List Value) (byte : Nat)
    (h : Appended s s1 c k) :
    Appended s ((s1.emit [byte]).withCurrentType .VAL_INT) (c ++ [byte]) k := by
  obtain ⟨a1, a2, a3, a4, a5⟩ := h
  obtain ⟨c1, rest, hc⟩ : ∃ c1 rest, s1.compilers = c1 :: rest := by
    cases hs : s1.compilers with
    | nil => exact absurd hs a1
    | cons c1 rest => exact ⟨c1, rest, rfl⟩
  refine ⟨?_, ?_, ?_, ?_, ?_⟩
  · simp [St.withCurrentType, St.emit, hc]
  · rw [← a2]
    simp [St.withCurrentType, St.emit, hc]
  · rw [← List.append_assoc, ← a3]
    simp [St.withCurrentType, St.emit, St.code, hc]
  · rw [← a4]
    simp [St.withCurrentType, St.emit, St.constants, hc]
  · rw [← a5]
    simp [St.withCurrentType, St.emit, hc]

theorem literal_state (s : St) (v : Value) (token : Token) (sc : Scanner)
    (hcur : s.compilers ≠ []) :
    Appended s
      ((((s.shift token sc).withCurrentType .VAL_INT).withConstant v).emit
        [OpCode.OP_CONSTANT_INT.byte, s.constants.length])
      [OpCode.OP_CONSTANT_INT.byte, s.constants.length] [v] ∧
    ((((s.shift token sc).withCurrentType .VAL_INT).withConstant v).emit
        [OpCode.OP_CONSTANT_INT.byte, s.constants.length]).scanner = sc ∧
    ((((s.shift token sc).withCurrentType .VAL_INT).withConstant v).emit
        [OpCode.OP_CONSTANT_INT.byte, s.constants.length]).parser.current = token ∧
    ((((s.shift token sc).withCurrentType .VAL_INT).withConstant v).emit
        [OpCode.OP_CONSTANT_INT.byte, s.constants.length]).parser.currentType = .VAL_INT := by
  obtain ⟨c1, rest, hc⟩ : ∃ c1 rest, s.compilers = c1 :: rest := by
    cases hs : s.compilers with
    | nil => exact absurd hs hcur
    | cons c1 rest => exact ⟨c1, rest, rfl⟩
  simp [Appended, St.shift, St.withCurrentType, St.withConstant, St.emit, St.code, St.constants,
    hc, writeValueArray]

theorem infixLoop_stop (n : Nat) (prec : Precedence) (canAssign : Bool) (s : St)
    (h : (getRule s.parser.current.type).precedence.code < prec.code) :
    infixLoop (n + 1) prec canAssign s = .ok () s := by
  rw [infixLoop]
  simp only [bind, M.bind, getSt, Nat.not_le.mpr h, if_false]
  rfl

theorem parsePrecedence_literal (n : Nat) (prec : Precedence) (s : St) (token : Token)
    (sc : Scanner) (hcur : s.compilers ≠ []) (hstack : s.vm.stackTop < STACK_MAX)
    (hroom : s.constants.length < UINT8_COUNT)
    (htype : s.parser.current.type = .TOKEN_INT_LITERAL)
    (hmin : INT_MIN ≤ strtol s.parser.current.start)
    (hmax : strtol s.parser.current.start ≤ INT_MAX)
    (hscan : scanToken s.scanner = (token, sc)) (hne : token.type ≠ .TOKEN_ERROR)
    (hpos : s.scanner.current ≤ s.scanner.source.length + 1) :
    ∃ s1, Appended s s1 [OpCode.OP_CONSTANT_INT.byte, s.constants.length]
        [.int (strtol s.parser.current.start)] ∧
      s1.scanner = sc ∧ s1.parser.current = token ∧ s1.parser.currentType = .VAL_INT ∧
      ∀ s2, infixLoop (n + 1) prec (decide (prec.code ≤ Precedence.PREC_ASSIGNMENT.code)) s1
          = .ok () s2 →
        s2.parser.current.type ≠ .TOKEN_EQUAL → parsePrecedence (n + 2) prec s = .ok () s2 := by
  obtain ⟨h1, h2, h3, h4⟩ :=
    literal_state s (.int (strtol s.parser.current.start)) token sc hcur
  refine ⟨_, h1, h2, h3, h4, ?_⟩
  intro s2 hloop heq
  have hint := integer_ok (decide (prec.code ≤ Precedence.PREC_ASSIGNMENT.code))
    (s.shift token sc) hcur hstack hroom hmin hmax
  rw [parsePrecedence]
  simp only [bind, M.bind, advance_scan s token sc hscan hne hpos, getSt]
  have hprev : (s.shift token sc).parser.previous.type = .TOKEN_INT_LITERAL := htype
  simp only [hprev, getRule]
  rw [applyRule]
  have hk : (s.shift token sc).constants = s.constants := rfl
  have hp : (s.shift token sc).parser.previous = s.parser.current := rfl
  rw [hk, hp] at hint
  simp only [M.bind, hint, hloop]
  by_cases hca : prec.code ≤ Precedence.PREC_ASSIGNMENT.code
  · simp only [hca, decide_True, if_true, M.bind, matchToken_false _ s2 heq, Bool.false_eq_true,
      if_false]
    rfl
  · simp only [hca, decide_False, Bool.false_eq_true, if_false]
    rfl

theorem arithmetic_infixRule (op : TokenType) (code : OpCode)
    (h : arithmeticOp op .VAL_INT = some code) : (getRule op).infixRule = some .binary := by
  cases op <;> simp [arithmeticOp] at h <;> rfl

theorem infixLoop_binary (n : Nat) (prec : Precedence) (canAssign : Bool) (s : St)
    (token : Token) (sc : Scanner) (code : OpCode)
    (hty : s.parser.currentType = .VAL_INT)
    (harith : arithmeticOp s.parser.current.type .VAL_INT = some code)
    (hprec : prec.code ≤ (getRule s.parser.current.type).precedence.code)
    (hscan : scanToken s.scanner = (token, sc)) (hne : token.type ≠ .TOKEN_ERROR)
    (hpos : s.scanner.current ≤ s.scanner.source.length + 1)
    (s1 : St)
    (hoperand : parsePrecedence n (getRule s.parser.current.type).precedence.next
      (s.shift token sc) = .ok () s1)
    (hcur1 : s1.compilers ≠ []) (hty1 : s1.parser.currentType = .VAL_INT) :
    infixLoop (n + 3) prec canAssign s
      = infixLoop (n + 2) prec canAssign ((s1.emit [code.byte]).withCurrentType .VAL_INT) := by
  have hrule := arithmetic_infixRule _ _ harith
  have hprev : (s.shift token sc).parser.previous.type = s.parser.current.type := rfl
  have hbin := binary_after_operand n canAssign (s.shift token sc) s1 (by rw [hprev]; exact hoperand)
  have hct : (s.shift token sc).parser.currentType = .VAL_INT := hty
  rw [hprev, hct] at hbin
  rw [infixLoop]
  simp only [bind, M.bind, getSt, hprec, if_true, advance_scan s token sc hscan hne hpos, hprev,
    hrule]
  rw [applyRule]
  simp only [hbin, binaryOperator_arithmetic s1 _ .VAL_INT code hcur1 hty1 harith]

theorem arithmetic_next (op : TokenType) (code : OpCode)
    (h : arithmeticOp op .VAL_INT = some code) :
    (getRule op).precedence.next.code = (getRule op).precedence.code + 1 := by
  cases op <;> simp [arithmeticOp] at h <;> rfl

theorem operator_state (s : St) (code : List Nat) (t : ValueType) :
    ((s.emit code).withCurrentType t).scanner = s.scanner ∧
    ((s.emit code).withCurrentType t).parser.current = s.parser.current ∧
    ((s.emit code).withCurrentType t).parser.currentType = t := by
  cases hc : s.compilers with
  | nil => simp [St.emit, St.withCurrentType, hc]
  | cons c rest => simp [St.emit, St.withCurrentType, hc]

theorem infixLoop_binary_literal (n : Nat) (prec : Precedence) (canAssign : Bool) (s : St)
    (lit next : Token) (sc1 sc2 : Scanner) (code : OpCode)
    (hcur : s.compilers ≠ []) (hstack : s.vm.stackTop < STACK_MAX)
    (hroom : s.constants.length < UINT8_COUNT)
    (hty : s.parser.currentType = .VAL_INT)
    (harith : arithmeticOp s.parser.current.type .VAL_INT = some code)
    (hprec : prec.code ≤ (getRule s.parser.current.type).precedence.code)
    (hscan1 : scanToken s.scanner = (lit, sc1)) (hlit : lit.type = .TOKEN_INT_LITERAL)
    (hmin : INT_MIN ≤ strtol lit.start) (hmax : strtol lit.start ≤ INT_MAX)
    (hpos1 : s.scanner.current ≤ s.scanner.source.length + 1)
    (hscan2 : scanToken sc1 = (next, sc2)) (hne2 : next.type ≠ .TOKEN_ERROR)
    (heq2 : next.type ≠ .TOKEN_EQUAL)
    (hpos2 : sc1.current ≤ sc1.source.length + 1)
    (hlow : (getRule next.type).precedence.code
      ≤ (getRule s.parser.current.type).precedence.code) :
    ∃ s1, infixLoop (n + 5) prec canAssign s = infixLoop (n + 4) prec canAssign s1 ∧
      Appended s s1 [OpCode.OP_CONSTANT_INT.byte, s.constants.length, code.byte]
        [.int (strtol lit.start)] ∧
      s1.scanner = sc2 ∧ s1.parser.current = next ∧ s1.parser.currentType = .VAL_INT := by
  have hlitne : lit.type ≠ .TOKEN_ERROR := by
    rw [hlit]
    decide
  obtain ⟨s1, happ, hsc, htok, hct, hrun⟩ :=
    parsePrecedence_literal n (getRule s.parser.current.type).precedence.next
      (s.shift lit sc1) next sc2 hcur hstack hroom hlit hmin hmax hscan2 hne2 hpos2
  have hstop := infixLoop_stop n (getRule s.parser.current.type).precedence.next
    (decide ((getRule s.parser.current.type).precedence.next.code
      ≤ Precedence.PREC_ASSIGNMENT.code)) s1
    (by rw [htok, arithmetic_next _ _ harith]; omega)
  have hoperand := hrun s1 hstop (by rw [htok]; exact heq2)
  have hstep := infixLoop_binary (n + 2) prec canAssign s lit sc1 code hty harith hprec hscan1
    hlitne hpos1 s1 hoperand happ.1 hct
  obtain ⟨o1, o2, o3⟩ := operator_state s1 [code.byte] .VAL_INT
  refine ⟨_, hstep, ?_, by rw [o1, hsc], by rw [o2, htok], o3⟩
  exact appended_operator s s1 _ _ code.byte happ

theorem arithmetic_precedence (op : TokenType) (code : OpCode)
    (h : arithmeticOp op .VAL_INT = some code) :
    Precedence.PREC_ASSIGNMENT.code ≤ (getRule op).precedence.code ∧ op ≠ .TOKEN_EQUAL ∧
      op ≠ .TOKEN_ERROR := by
  cases op <;> simp [arithmeticOp] at h <;> decide

theorem parse_left_associative (n : Nat) (s : St) (t1 t2 t3 t4 t5 : Token)
    (sc1 sc2 sc3 sc4 sc5 : Scanner) (code1 code2 : OpCode)
    (hcur : s.compilers ≠ []) (hstack : s.vm.stackTop < STACK_MAX)
    (hroom : s.constants.length + 3 ≤ UINT8_COUNT)
    (htype : s.parser.current.type = .TOKEN_INT_LITERAL)
    (hmin : INT_MIN ≤ strtol s.parser.current.start)
    (hmax : strtol s.parser.current.start ≤ INT_MAX)
    (hscan1 : scanToken s.scanner = (t1, sc1))
    (hpos1 : s.scanner.current ≤ s.scanner.source.length + 1)
    (harith1 : arithmeticOp t1.type .VAL_INT = some code1)
    (hscan2 : scanToken sc1 = (t2, sc2)) (hpos2 : sc1.current ≤ sc1.source.length + 1)
    (hlit2 : t2.type = .TOKEN_INT_LITERAL)
    (hmin2 : INT_MIN ≤ strtol t2.start) (hmax2 : strtol t2.start ≤ INT_MAX)
    (hscan3 : scanToken sc2 = (t3, sc3)) (hpos3 : sc2.current ≤ sc2.source.length + 1)
    (harith2 : arithmeticOp t3.type .VAL_INT = some code2)
    (hscan4 : scanToken sc3 = (t4, sc4)) (hpos4 : sc3.current ≤ sc3.source.length + 1)
    (hlit4 : t4.type = .TOKEN_INT_LITERAL)
    (hmin4 : INT_MIN ≤ strtol t4.start) (hmax4 : strtol t4.start ≤ INT_MAX)
    (hscan5 : scanToken sc4 = (t5, sc5)) (hpos5 : sc4.current ≤ sc4.source.length + 1)
    (hend : t5.type = .TOKEN_SEMICOLON)
    (hord : (getRule t3.type).precedence.code ≤ (getRule t1.type).precedence.code) :
    ∃ s1, parsePrecedence (n + 7) .PREC_ASSIGNMENT s = .ok () s1 ∧
      Appended s s1
        [OpCode.OP_CONSTANT_INT.byte, s.constants.length,
         OpCode.OP_CONSTANT_INT.byte, s.constants.length + 1, code1.byte,
         OpCode.OP_CONSTANT_INT.byte, s.constants.length + 2, code2.byte]
        [.int (strtol s.parser.current.start), .int (strtol t2.start), .int (strtol t4.start)] ∧
      s1.parser.current = t5 := by
  obtain ⟨p1, q1, r1⟩ := arithmetic_precedence _ _ harith1
  obtain ⟨p2, q2, r2⟩ := arithmetic_precedence _ _ harith2
  obtain ⟨s1, app1, hsc1, htok1, hct1, hrun1⟩ :=
    parsePrecedence_literal (n + 5) .PREC_ASSIGNMENT s t1 sc1 hcur hstack
      (by omega) htype hmin hmax hscan1 r1 hpos1
  have hk1 : s1.constants.length = s.constants.length + 1 := by
    rw [app1.2.2.2.1]
    simp
  obtain ⟨s2, hstep2, app2, hsc2, htok2, hct2⟩ :=
    infixLoop_binary_literal (n + 1) .PREC_ASSIGNMENT
      (decide (Precedence.PREC_ASSIGNMENT.code ≤ Precedence.PREC_ASSIGNMENT.code)) s1 t2 t3
      sc2 sc3 code1 app1.1 (by rw [app1.2.1]; exact hstack) (by omega) hct1
      (by rw [htok1]; exact harith1) (by rw [htok1]; exact p1)
      (by rw [hsc1]; exact hscan2) hlit2 hmin2 hmax2 (by rw [hsc1]; exact hpos2)
      hscan3 r2 q2 hpos3 (by rw [htok1]; exact hord)
  have hk2 : s2.constants.length = s.constants.length + 2 := by
    rw [app2.2.2.2.1, List.length_append, hk1]
    rfl
  obtain ⟨s3, hstep3, app3, hsc3, htok3, hct3⟩ :=
    infixLoop_binary_literal n .PREC_ASSIGNMENT
      (decide (Precedence.PREC_ASSIGNMENT.code ≤ Precedence.PREC_ASSIGNMENT.code)) s2 t4 t5
      sc4 sc5 code2 app2.1 (by rw [app2.2.1, app1.2.1]; exact hstack) (by omega) hct2
      (by rw [htok2]; exact harith2) (by rw [htok2]; exact p2)
      (by rw [hsc2]; exact hscan4) hlit4 hmin4 hmax4 (by rw [hsc2]; exact hpos4)
      hscan5 (by rw [hend]; decide) (by rw [hend]; decide) hpos5
      (by rw [hend]; exact Nat.zero_le _)
  have hstop := infixLoop_stop (n + 3) .PREC_ASSIGNMENT
    (decide (Precedence.PREC_ASSIGNMENT.code ≤ Precedence.PREC_ASSIGNMENT.code)) s3
    (by rw [htok3, hend]; decide)
  refine ⟨s3, hrun1 s3 (by rw [hstep2, hstep3]; exact hstop) (by rw [htok3, hend]; decide), ?_,
    htok3⟩
  have := appended_trans _ _ _ _ _ _ _ (appended_trans _ _ _ _ _ _ _ app1 app2) app3
  rw [hk1, hk2] at this
  exact this

theorem parse_tighter_right (n : Nat) (s : St) (t1 t2 t3 t4 t5 : Token)
    (sc1 sc2 sc3 sc4 sc5 : Scanner) (code1 code2 : OpCode)
    (hcur : s.compilers ≠ []) (hstack : s.vm.stackTop < STACK_MAX)
    (hroom : s.constants.length + 3 ≤ UINT8_COUNT)
    (htype : s.parser.current.type = .TOKEN_INT_LITERAL)
    (hmin : INT_MIN ≤ strtol s.parser.current.start)
    (hmax : strtol s.parser.current.start ≤ INT_MAX)
    (hscan1 : scanToken s.scanner = (t1, sc1))
    (hpos1 : s.scanner.current ≤ s.scanner.source.length + 1)
    (harith1 : arithmeticOp t1.type .VAL_INT = some code1)
    (hscan2 : scanToken sc1 = (t2, sc2)) (hpos2 : sc1.current ≤ sc1.source.length + 1)
    (hlit2 : t2.type = .TOKEN_INT_LITERAL)
    (hmin2 : INT_MIN ≤ strtol t2.start) (hmax2 : strtol t2.start ≤ INT_MAX)
    (hscan3 : scanToken sc2 = (t3, sc3)) (hpos3 : sc2.current ≤ sc2.source.length + 1)
    (harith2 : arithmeticOp t3.type .VAL_INT = some code2)
    (hscan4 : scanToken sc3 = (t4, sc4)) (hpos4 : sc3.current ≤ sc3.source.length + 1)
    (hlit4 : t4.type = .TOKEN_INT_LITERAL)
    (hmin4 : INT_MIN ≤ strtol t4.start) (hmax4 : strtol t4.start ≤ INT_MAX)
    (hscan5 : scanToken sc4 = (t5, sc5)) (hpos5 : sc4.current ≤ sc4.source.length + 1)
    (hend : t5.type = .TOKEN_SEMICOLON)
    (hord : (getRule t1.type).precedence.code < (getRule t3.type).precedence.code) :
    ∃ s1, parsePrecedence (n + 10) .PREC_ASSIGNMENT s = .ok () s1 ∧
      Appended s s1
        [OpCode.OP_CONSTANT_INT.byte, s.constants.length,
         OpCode.OP_CONSTANT_INT.byte, s.constants.length + 1,
         OpCode.OP_CONSTANT_INT.byte, s.constants.length + 2, code2.byte, code1.byte]
        [.int (strtol s.parser.current.start), .int (strtol t2.start), .int (strtol t4.start)] ∧
      s1.parser.current = t5 := by
  obtain ⟨p1, q1, r1⟩ := arithmetic_precedence _ _ harith1
  obtain ⟨p2, q2, r2⟩ := arithmetic_precedence _ _ harith2
  have hnext := arithmetic_next _ _ harith1
  have hlit2ne : t2.type ≠ .TOKEN_ERROR := by
    rw [hlit2]
    decide
  obtain ⟨s1, app1, hsc1, htok1, hct1, hrun1⟩ :=
    parsePrecedence_literal (n + 8) .PREC_ASSIGNMENT s t1 sc1 hcur hstack
      (by omega) htype hmin hmax hscan1 r1 hpos1
  have hk1 : s1.constants.length = s.constants.length + 1 := by
    rw [app1.2.2.2.1]
    simp
  -- the right operand of the first operator: the second literal and what binds to it
  obtain ⟨s2, app2, hsc2, htok2, hct2, hrun2⟩ :=
    parsePrecedence_literal (n + 4) (getRule t1.type).precedence.next (s1.shift t2 sc2) t3 sc3
      app1.1 (by rw [← app1.2.1] at hstack; exact hstack)
      (by
        have : (s1.shift t2 sc2).constants = s1.constants := rfl
        rw [this]
        omega)
      hlit2 hmin2 hmax2 hscan3 r2 hpos3
  have hk2 : s2.constants.length = s.constants.length + 2 := by
    rw [app2.2.2.2.1, List.length_append]
    have : (s1.shift t2 sc2).constants = s1.constants := rfl
    rw [this, hk1]
    rfl
  obtain ⟨s3, hstep3, app3, hsc3, htok3, hct3⟩ :=
    infixLoop_binary_literal n (getRule t1.type).precedence.next
      (decide ((getRule t1.type).precedence.next.code ≤ Precedence.PREC_ASSIGNMENT.code)) s2 t4 t5
      sc4 sc5 code2 app2.1
      (by
        rw [app2.2.1]
        show s1.vm.stackTop < STACK_MAX
        rw [app1.2.1]
        exact hstack)
      (by omega) hct2
      (by rw [htok2]; exact harith2) (by rw [htok2, hnext]; omega)
      (by rw [hsc2]; exact hscan4) hlit4 hmin4 hmax4 (by rw [hsc2]; exact hpos4)
      hscan5 (by rw [hend]; decide) (by rw [hend]; decide) hpos5
      (by rw [hend]; exact Nat.zero_le _)
  have hstop3 := infixLoop_stop (n + 3) (getRule t1.type).precedence.next
    (decide ((getRule t1.type).precedence.next.code ≤ Precedence.PREC_ASSIGNMENT.code)) s3
    (by rw [htok3, hend, hnext]; exact Nat.succ_pos _)
  have hoperand := hrun2 s3 (by rw [hstep3]; exact hstop3) (by rw [htok3, hend]; decide)
  have hstep := infixLoop_binary (n + 6) .PREC_ASSIGNMENT
    (decide (Precedence.PREC_ASSIGNMENT.code ≤ Precedence.PREC_ASSIGNMENT.code)) s1 t2 sc2 code1
    hct1 (by rw [htok1]; exact harith1) (by rw [htok1]; exact p1)
    (by rw [hsc1]; exact hscan2) hlit2ne (by rw [hsc1]; exact hpos2) s3
    (by rw [htok1]; exact hoperand) app3.1 hct3
  obtain ⟨o1, o2, o3⟩ := operator_state s3 [code1.byte] .VAL_INT
  have hstop := infixLoop_stop (n + 7) .PREC_ASSIGNMENT
    (decide (Precedence.PREC_ASSIGNMENT.code ≤ Precedence.PREC_ASSIGNMENT.code))
    ((s3.emit [code1.byte]).withCurrentType .VAL_INT)
    (by rw [o2, htok3, hend]; decide)
  refine ⟨_, hrun1 _ (by rw [hstep]; exact hstop) (by rw [o2, htok3, hend]; decide), ?_,
    by rw [o2, htok3]⟩
  have happ2 : Appended s1 s2 [OpCode.OP_CONSTANT_INT.byte, s1.constants.length]
      [.int (strtol t2.start)] := app2
  have := appended_operator _ _ _ _ code1.byte
    (appended_trans _ _ _ _ _ _ _ (appended_trans _ _ _ _ _ _ _ app1 happ2) app3)
  rw [hk1, hk2] at this
  exact this

theorem intLiteral_iff (d : List Nat) :
    intLiteral d = true ↔
      d ≠ [] ∧ (∀ c ∈ d, isDigit c = true) ∧ strtolDigits d 0 ≤ INT_MAX := by
  simp only [intLiteral, Bool.and_eq_true, Bool.not_eq_true', List.isEmpty_eq_false,
    List.all_eq_true, decide_eq_true_eq, and_assoc]

theorem gap_head (k c : Nat) (r : List Nat) (hc : c = 43 ∨ c = 45 ∨ c = 42 ∨ c = 59) :
    isDigit ((blanks k ++ c :: r).headD 0) = false ∧ (blanks k ++ c :: r).headD 0 ≠ 46 := by
  cases k with
  | zero =>
    show isDigit c = false ∧ c ≠ 46
    rcases hc with h | h | h | h <;> subst h <;> decide
  | succ k =>
    show isDigit 32 = false ∧ 32 ≠ 46
    decide

theorem scan_literal (sc : Scanner) (k : Nat) (d rest : List Nat)
    (h : sc.source.drop sc.current = blanks k ++ (d ++ rest)) (hd : intLiteral d = true)
    (hr : isDigit (rest.headD 0) = false) (hdot : rest.headD 0 ≠ 46) :
    ∃ t sc1, scanToken sc = (t, sc1) ∧ sc.current ≤ sc.source.length + 1 ∧
      t.type = .TOKEN_INT_LITERAL ∧ INT_MIN ≤ strtol t.start ∧ strtol t.start ≤ INT_MAX ∧
      strtol t.start = strtolDigits d 0 ∧ sc1.source.drop sc1.current = rest := by
  obtain ⟨h1, h2, h3⟩ := (intLiteral_iff d).mp hd
  have hval := strtol_digits d rest h1 h2 hr
  refine ⟨_, _, scanToken_int sc k d rest h h1 h2 hr hdot, ?_, rfl, ?_, ?_, hval, ?_⟩
  · rcases drop_length_le _ _ _ h with hl | hl
    · omega
    · have := congrArg List.length hl
      simp only [List.length_append, List.length_nil] at this
      have := List.length_pos.mpr h1
      omega
  · show INT_MIN ≤ strtol (d ++ rest)
    rw [hval]
    exact Int.le_trans (by decide) (strtolDigits_nonneg d 0 (Int.le_refl 0))
  · show strtol (d ++ rest) ≤ INT_MAX
    rw [hval]
    exact h3
  · show sc.source.drop (sc.current + k + d.length) = rest
    have h4 := drop_after sc.source (blanks k) (d ++ rest) sc.current h
    simp only [blanks, List.length_replicate] at h4
    exact drop_after sc.source d rest (sc.current + k) h4

theorem scan_punctuation (sc : Scanner) (k c : Nat) (rest : List Nat)
    (h : sc.source.drop sc.current = blanks k ++ c :: rest)
    (hc : c = 43 ∨ c = 45 ∨ c = 42 ∨ c = 59) :
    ∃ t sc1, scanToken sc = (t, sc1) ∧ sc.current ≤ sc.source.length + 1 ∧
      t.type = (if c = 43 then .TOKEN_PLUS else if c = 45 then .TOKEN_MINUS
            else if c = 42 then .TOKEN_STAR else .TOKEN_SEMICOLON) ∧
      sc1.source.drop sc1.current = rest := by
  refine ⟨_, _, scanToken_punctuation sc k c rest h hc, ?_, rfl, ?_⟩
  · rcases drop_length_le _ _ _ h with hl | hl
    · omega
    · have := congrArg List.length hl
      simp only [List.length_append, List.length_cons, List.length_nil] at this
      omega
  · show sc.source.drop (sc.current + k + 1) = rest
    have h4 := drop_after sc.source (blanks k) (c :: rest) sc.current h
    simp only [blanks, List.length_replicate] at h4
    exact drop_after sc.source [c] rest (sc.current + k) h4

theorem tokens_of_infixText (gaps : Nat → Nat) (a b c rest : List Nat) (op1 op2 : Nat)
    (s : St) (h : atLiteral s a (infixText gaps a op1 b op2 c rest))
    (ha : intLiteral a = true) (hb : intLiteral b = true) (hc : intLiteral c = true)
    (h1 : op1 = 43 ∨ op1 = 45 ∨ op1 = 42) (h2 : op2 = 43 ∨ op2 = 45 ∨ op2 = 42) :
    s.parser.current.type = .TOKEN_INT_LITERAL ∧ INT_MIN ≤ strtol s.parser.current.start ∧
    strtol s.parser.current.start ≤ INT_MAX ∧
    strtol s.parser.current.start = strtolDigits a 0 ∧
    ∃ t1 t2 t3 t4 t5 sc1 sc2 sc3 sc4 sc5,
      scanToken s.scanner = (t1, sc1) ∧ s.scanner.current ≤ s.scanner.source.length + 1 ∧
      t1.type = (if op1 = 43 then .TOKEN_PLUS else if op1 = 45 then .TOKEN_MINUS
            else if op1 = 42 then .TOKEN_STAR else .TOKEN_SEMICOLON) ∧
      scanToken sc1 = (t2, sc2) ∧ sc1.current ≤ sc1.source.length + 1 ∧
      t2.type = .TOKEN_INT_LITERAL ∧ INT_MIN ≤ strtol t2.start ∧ strtol t2.start ≤ INT_MAX ∧
      strtol t2.start = strtolDigits b 0 ∧
      scanToken sc2 = (t3, sc3) ∧ sc2.current ≤ sc2.source.length + 1 ∧
      t3.type = (if op2 = 43 then .TOKEN_PLUS else if op2 = 45 then .TOKEN_MINUS
            else if op2 = 42 then .TOKEN_STAR else .TOKEN_SEMICOLON) ∧
      scanToken sc3 = (t4, sc4) ∧ sc3.current ≤ sc3.source.length + 1 ∧
      t4.type = .TOKEN_INT_LITERAL ∧ INT_MIN ≤ strtol t4.start ∧ strtol t4.start ≤ INT_MAX ∧
      strtol t4.start = strtolDigits c 0 ∧
      scanToken sc4 = (t5, sc5) ∧ sc4.current ≤ sc4.source.length + 1 ∧
      t5.type = .TOKEN_SEMICOLON := by
  obtain ⟨_, _, _, htok, hsrc, hpos⟩ := h
  obtain ⟨a1, a2, a3⟩ := (intLiteral_iff a).mp ha
  have o1 : op1 = 43 ∨ op1 = 45 ∨ op1 = 42 ∨ op1 = 59 := by omega
  have o2 : op2 = 43 ∨ op2 = 45 ∨ op2 = 42 ∨ op2 = 59 := by omega
  have g0 := gap_head (gaps 0) op1 (blanks (gaps 1) ++ (b ++ (blanks (gaps 2) ++ op2 ::
    (blanks (gaps 3) ++ (c ++ (blanks (gaps 4) ++ 59 :: rest)))))) o1
  have g2 := gap_head (gaps 2) op2 (blanks (gaps 3) ++ (c ++ (blanks (gaps 4) ++ 59 :: rest))) o2
  have g4 := gap_head (gaps 4) 59 rest (by omega)
  have hstart : s.parser.current.start = infixText gaps a op1 b op2 c rest := by
    rw [htok]
    exact hsrc
  have hval := strtol_digits a _ a1 a2 g0.1
  have hdrop0 : s.scanner.source.drop s.scanner.current
      = blanks (gaps 0) ++ op1 :: (blanks (gaps 1) ++ (b ++ (blanks (gaps 2) ++ op2 ::
        (blanks (gaps 3) ++ (c ++ (blanks (gaps 4) ++ 59 :: rest)))))) := by
    rw [hpos]
    exact drop_after _ a _ _ hsrc
  obtain ⟨t1, sc1, e1, p1, ty1, d1⟩ := scan_punctuation s.scanner (gaps 0) op1 _ hdrop0 o1
  obtain ⟨t2, sc2, e2, p2, ty2, m2, x2, v2, d2⟩ :=
    scan_literal sc1 (gaps 1) b _ d1 hb g2.1 g2.2
  obtain ⟨t3, sc3, e3, p3, ty3, d3⟩ := scan_punctuation sc2 (gaps 2) op2 _ d2 o2
  obtain ⟨t4, sc4, e4, p4, ty4, m4, x4, v4, d4⟩ :=
    scan_literal sc3 (gaps 3) c _ d3 hc g4.1 g4.2
  obtain ⟨t5, sc5, e5, p5, ty5, _⟩ := scan_punctuation sc4 (gaps 4) 59 rest d4 (by omega)
  refine ⟨by rw [htok]; rfl, ?_, ?_, ?_, t1, t2, t3, t4, t5, sc1, sc2, sc3, sc4, sc5, e1, p1, ty1,
    e2, p2, ty2, m2, x2, v2, e3, p3, ty3, e4, p4, ty4, m4, x4, v4, e5, p5, ty5⟩
  · rw [hstart]
    show INT_MIN ≤ strtol (a ++ _)
    rw [hval]
    exact Int.le_trans (by decide) (strtolDigits_nonneg a 0 (Int.le_refl 0))
  · rw [hstart]
    show strtol (a ++ _) ≤ INT_MAX
    rw [hval]
    exact a3
  · rw [hstart]
    exact hval

/-! ### Lemmas on the bytes `binary` emits and on the error of `consume` -/

theorem emit_determined (s s1 : St) (code code1 : List Nat) (hcur : s.compilers ≠ [])
    (hcomp : s1.compilers = (s.emit code).compilers) (hcode : s1.code = s.code ++ code1) :
    code = code1 := by
  have h1 : s1.code = (s.emit code).code := by
    simp only [St.code, hcomp]
  rw [h1, emit_code _ _ hcur] at hcode
  exact List.append_cancel_left hcode

theorem binaryOperator_type_error_only (s : St) (op : TokenType) (leftType : ValueType)
    (hpanic : s.parser.panicMode = false) (hcur : s.compilers ≠ []) (s1 : St)
    (hrun : binaryOperator op leftType s = .ok () s1)
    (hcode : s1.code = s.code ++ [OpCode.OP_TYPE_ERROR.byte]) :
    op = .TOKEN_PLUS ∧ leftType = s.parser.currentType ∧ leftType ≠ .VAL_INT ∧
      leftType ≠ .VAL_FLOAT ∧ leftType ≠ .VAL_OBJ := by
  by_cases heq : leftType = s.parser.currentType
  · have hlen : s.code ≠ s.code ++ [OpCode.OP_TYPE_ERROR.byte] := by
      intro h
      have := congrArg List.length h
      simp at this
    cases op <;> cases leftType <;>
      simp [binaryOperator, getSt, bind, M.bind, ← heq, emitOp_ok _ _ hcur,
        emitBytes_ok _ _ _ hcur, pure, M.pure, setCurrentType, modifySt, exitWith] at hrun <;>
      subst hrun <;>
      first
        | exact ⟨rfl, heq, by decide, by decide, by decide⟩
        | (exfalso
           first
             | exact hlen hcode
             | exact absurd (emit_determined s _ _ _ hcur rfl hcode) (by decide))
  · exfalso
    have h : binaryOperator op leftType s = .exit TokenType.TOKEN_ERROR.code
        { s with parser := { s.parser with panicMode := true },
                 log := s.log ++ [.error "Operands must be of compatible types.",
                   .errorAt s.parser.previous.line s.parser.previous.type
                     s.parser.previous.lexeme] } := by
      simp [binaryOperator, getSt, bind, M.bind, heq, error_exits _ _ hpanic]
    rw [h] at hrun
    exact Res.noConfusion hrun

/-- The state `errorAtCurrent` leaves when it ends the process: panic mode set
and the header for the current token written. -/
theorem errorAtCurrent_exits (message : List Nat) (s : St) (hpanic : s.parser.panicMode = false) :
    errorAtCurrent message s = .exit TokenType.TOKEN_ERROR.code
      { s with parser := { s.parser with panicMode := true },
               log := s.log ++ [.errorAt s.parser.current.line s.parser.current.type
                 s.parser.current.lexeme] } := by
  simp [errorAtCurrent, errorAt, logEvent, modifySt, getSt, exitWith, bind, M.bind, hpanic]

/-! ### Compiled programs that execute the unchecked opcodes -/

/-- Compiled programs do execute a typed global opcode and `OP_GET_SUPER` on a
value that is no class.  In the first source the operand of the
`OP_SET_GLOBAL` of `x = 1` is the constant index 16, the byte of
`OP_GET_GLOBAL_INT`; `run` decodes it as the next opcode, with the following
`OP_POP` byte as its operand, the index of the name `y`: the global `y` holds
a float and `Expected int value for variable 'y'.` is written.  In the second
source the method `g` reads `super` through an upvalue on stack slot 3, where
the call `h(P, 5)` has put the argument 5: the run ends in the frame of `g`
behind its `OP_GET_SUPER`, which takes `AS_CLASS` of that int, and nothing is
written. -/
theorem unchecked_opcodes_reached_from_source :
    OpCode.ofByte 16 = some .OP_GET_GLOBAL_INT ∧
    (interpret plainHost 400
      (bytes "1;1;1;1;1;1;1; float y = 1.5; 1;1;1;1;1;1;1; x = 1; print 5;") freshVM).log
      = [.runtimeError "Expected int value for variable '%s'." [.str (bytes "y")] []] ∧
    (interpret plainHost 400
      (bytes ("class A \x7b f() \x7b\x7d \x7d class P \x7b\x7d fun h(p, q) \x7b " ++
        "class B < A \x7b g() \x7b return super.f; \x7d \x7d P().g(); \x7d h(P, 5);"))
      freshVM).undefined? = some "AS_CLASS of a value that is not an object" ∧
    (interpret plainHost 400
      (bytes ("class A \x7b f() \x7b\x7d \x7d class P \x7b\x7d fun h(p, q) \x7b " ++
        "class B < A \x7b g() \x7b return super.f; \x7d \x7d P().g(); \x7d h(P, 5);"))
      freshVM).log = [] ∧
    (interpret plainHost 400
      (bytes ("class A \x7b f() \x7b\x7d \x7d class P \x7b\x7d fun h(p, q) \x7b " ++
        "class B < A \x7b g() \x7b return super.f; \x7d \x7d P().g(); \x7d h(P, 5);"))
      freshVM).stateOr.vm.frames.get? 2 = some { closure := 21, ip := 6, slots := 5 } ∧
    (interpret plainHost 400
      (bytes ("class A \x7b f() \x7b\x7d \x7d class P \x7b\x7d fun h(p, q) \x7b " ++
        "class B < A \x7b g() \x7b return super.f; \x7d \x7d P().g(); \x7d h(P, 5);"))
      freshVM).stateOr.vm.heap.get? 21 = some (.closure 14 [some 22]) ∧
    ((functionAt (interpret plainHost 400
      (bytes ("class A \x7b f() \x7b\x7d \x7d class P \x7b\x7d fun h(p, q) \x7b " ++
        "class B < A \x7b g() \x7b return super.f; \x7d \x7d P().g(); \x7d h(P, 5);"))
      freshVM).stateOr 14).map (fun f => f.chunk.code.drop 4)
      = some [OpCode.OP_GET_SUPER.byte, 0, OpCode.OP_RETURN.byte, OpCode.OP_NIL.byte,
          OpCode.OP_RETURN.byte]) := by
  decide!

/-! ### The claims -/

/-- C1: on every host, interpreting `print 1 + 2;` on a freshly initialised VM
returns `INTERPRET_OK`, and the only output event is the line `3` written by
`OP_PRINT`. -/
theorem C1_print_one_plus_two (host : Host) :
    (interpret host 200 (bytes "print 1 + 2;") freshVM).value? = some .INTERPRET_OK ∧
    (interpret host 200 (bytes "print 1 + 2;") freshVM).log
      = [Event.print (.text (bytes "3"))] := by
  rw [interpret_host host 200 _ freshVM (by decide!)]
  decide!

/-- C2 (the code departs from the claim): `OP_RETURN` ends the dispatch loop in
every frame.  Its `case` returns `INTERPRET_OK` at once and leaves the whole
state as it is: no result is popped, no upvalue closed, `frameCount` is not
decremented.  In `fun f(){ return 1; } print f();` the `RETURN` of `f` runs
with two frames: `interpret` returns `INTERPRET_OK`, nothing is printed, and
three stack slots and two frames stay live. -/
theorem C2_return_ends_run_in_every_frame (host : Host) :
    (∀ (frame : Nat) (s : St),
      execute host frame .OP_RETURN s = .ok (.inr .INTERPRET_OK) s) ∧
    (interpret host 200 (bytes "fun f()\x7b return 1; \x7d print f();") freshVM).value?
      = some .INTERPRET_OK ∧
    (interpret host 200 (bytes "fun f()\x7b return 1; \x7d print f();") freshVM).log = [] ∧
    (interpret host 200 (bytes "fun f()\x7b return 1; \x7d print f();") freshVM).extents
      = some (3, 2) := by
  refine ⟨fun _ _ => rfl, ?_⟩
  rw [interpret_host host 200 _ freshVM (by decide!)]
  decide!

/-- C3 (the code departs from the claim): `print 1 + 2;` compiles without
error and runs to `INTERPRET_OK`, and when `interpret` returns two stack slots
are live (the script closure and the `nil` pushed for the implicit return) and
`frameCount` is 1. -/
theorem C3_stack_and_frame_left_after_run (host : Host) :
    (interpret host 200 (bytes "print 1 + 2;") freshVM).value? = some .INTERPRET_OK ∧
    (interpret host 200 (bytes "print 1 + 2;") freshVM).extents = some (2, 1) := by
  rw [interpret_host host 200 _ freshVM (by decide!)]
  decide!

/-- C4 (the code departs from the claim): the closure scenario prints nothing
and does not return `INTERPRET_OK`: inside `mk` the name `inc` is compiled as
a global, which is undefined when `return inc;` reads it.  `runtimeError`
writes `Undefined variable 'inc'.` and then reads the line table of `mk`,
which was never written. -/
theorem C4_closure_scenario_fails (host : Host) :
    (interpret host 200
      (bytes ("fun mk()\x7b int x = 0; fun inc()\x7b x = x + 1; return x; \x7d return inc; \x7d " ++
        "int f = mk(); print f(); print f();")) freshVM).value? = none ∧
    (interpret host 200
      (bytes ("fun mk()\x7b int x = 0; fun inc()\x7b x = x + 1; return x; \x7d return inc; \x7d " ++
        "int f = mk(); print f(); print f();")) freshVM).undefined?
      = some "read outside chunk.lines" ∧
    (interpret host 200
      (bytes ("fun mk()\x7b int x = 0; fun inc()\x7b x = x + 1; return x; \x7d return inc; \x7d " ++
        "int f = mk(); print f(); print f();")) freshVM).log
      = [.runtimeError "Undefined variable '%s'." [.str (bytes "inc")] []] := by
  rw [interpret_host host 200 _ freshVM (by decide!)]
  decide!

/-- C5, counterexample: for `int x = 1; print x + "hi";` (inferred operand
types int and string) the compiler reports the compile error `Operands must
be of compatible types.` and ends the process; `interpret` does not return,
and the chunk holds no `OP_TYPE_ERROR`. -/
theorem C5_counterexample :
    (interpret plainHost 200 (bytes "int x = 1; print x + \"hi\";") freshVM).exitCode?
      = some TokenType.TOKEN_ERROR.code ∧
    (interpret plainHost 200 (bytes "int x = 1; print x + \"hi\";") freshVM).value? = none ∧
    (interpret plainHost 200 (bytes "int x = 1; print x + \"hi\";") freshVM).log
      = [.error "Operands must be of compatible types.",
         .errorAt 1 .TOKEN_STRING_LITERAL (bytes "\"hi\"")] ∧
    OpCode.OP_TYPE_ERROR.byte ∉
      (interpret plainHost 200 (bytes "int x = 1; print x + \"hi\";") freshVM).stateOr.code := by
  decide!

/-- C5, as amended: after the right operand of a binary operator, outside panic
mode.  (1) Operand types that differ make the compiler report
`Operands must be of compatible types.`, for every operator, with nothing
emitted.  (2) For `+` with both operand types bool, or both nil, it reports
nothing and emits `OP_TYPE_ERROR` as the one further byte.  (3) For `-`, `*`
and `/` with equal operand types other than int and float nothing is emitted
and nothing reported either: the process is ended with status 1.  (4) Whenever
`OP_TYPE_ERROR` is the byte emitted, the operator is `+` and the two types are
equal and are neither int, float nor object.  (5) Executing `OP_TYPE_ERROR`,
in any state of the VM, raises the runtime error `Type mismatch`: the message
is written, and the instruction makes `run` return `INTERPRET_RUNTIME_ERROR`,
with the stack and the frame count reset, where `runtimeError` can write its
backtrace; where it cannot (the line table has no entry for a live frame),
what follows the message is undefined. -/
theorem C5_type_errors (host : Host) (s : St) (op : TokenType) (leftType : ValueType)
    (hpanic : s.parser.panicMode = false) (hcur : s.compilers ≠ []) :
    (leftType ≠ s.parser.currentType →
      binaryOperator op leftType s = .exit TokenType.TOKEN_ERROR.code
        { s with parser := { s.parser with panicMode := true },
                 log := s.log ++ [.error "Operands must be of compatible types.",
                   .errorAt s.parser.previous.line s.parser.previous.type
                     s.parser.previous.lexeme] } ∧
      (binaryOperator op leftType s).stateOr.code = s.code) ∧
    (leftType = s.parser.currentType → leftType = .VAL_BOOL ∨ leftType = .VAL_NIL →
      binaryOperator .TOKEN_PLUS leftType s = .ok () (s.emit [OpCode.OP_TYPE_ERROR.byte]) ∧
      (s.emit [OpCode.OP_TYPE_ERROR.byte]).code = s.code ++ [OpCode.OP_TYPE_ERROR.byte] ∧
      (s.emit [OpCode.OP_TYPE_ERROR.byte]).log = s.log) ∧
    (leftType = s.parser.currentType → leftType ≠ .VAL_INT → leftType ≠ .VAL_FLOAT →
      op = .TOKEN_MINUS ∨ op = .TOKEN_STAR ∨ op = .TOKEN_SLASH →
      binaryOperator op leftType s = .exit (some 1) s) ∧
    (∀ s1, binaryOperator op leftType s = .ok () s1 →
      s1.code = s.code ++ [OpCode.OP_TYPE_ERROR.byte] →
      op = .TOKEN_PLUS ∧ leftType = s.parser.currentType ∧ leftType ≠ .VAL_INT ∧
        leftType ≠ .VAL_FLOAT ∧ leftType ≠ .VAL_OBJ) ∧
    (∀ (frame : Nat) (s2 : St),
      (execute host frame .OP_TYPE_ERROR s2).log
        = s2.log ++ [.runtimeError "Type mismatch" [] (backtrace s2.vm s2.vm.liveFrames).1] ∧
      (s2.tracesBack = true →
        execute host frame .OP_TYPE_ERROR s2
          = .ok (.inr .INTERPRET_RUNTIME_ERROR) (s2.afterRuntimeError "Type mismatch" [])) ∧
      (s2.tracesBack = false →
        execute host frame .OP_TYPE_ERROR s2
          = .undefinedBehaviour "read outside chunk.lines"
              (s2.afterMessage "Type mismatch" []))) := by
  have hexec : ∀ (frame : Nat) (s2 : St), execute host frame .OP_TYPE_ERROR s2
      = s2.raise "Type mismatch" [] (.inr .INTERPRET_RUNTIME_ERROR) := by
    intro frame s2
    rw [← runtimeError_then]
    simp only [execute, bind, pure]
  refine ⟨?_, ?_, ?_, ?_, ?_⟩
  · intro hne
    have h : binaryOperator op leftType s = .exit TokenType.TOKEN_ERROR.code
        { s with parser := { s.parser with panicMode := true },
                 log := s.log ++ [.error "Operands must be of compatible types.",
                   .errorAt s.parser.previous.line s.parser.previous.type
                     s.parser.previous.lexeme] } := by
      simp [binaryOperator, getSt, bind, M.bind, hne, error_exits _ _ hpanic]
    refine ⟨h, ?_⟩
    rw [h]
    rfl
  · intro heq hty
    refine ⟨?_, emit_code _ _ hcur, ?_⟩
    · rcases hty with h | h <;> subst h <;>
        simp [binaryOperator, getSt, bind, M.bind, ← heq, emitOp_ok _ _ hcur, pure, M.pure]
    · cases hc : s.compilers with
      | nil => exact absurd hc hcur
      | cons c rest => simp [St.emit, hc]
  · intro heq hi hf hop
    rcases hop with h | h | h <;> subst h <;>
      simp [binaryOperator, getSt, bind, M.bind, ← heq, hi, hf, exitWith]
  · intro s1 hrun hcode
    exact binaryOperator_type_error_only s op leftType hpanic hcur s1 hrun hcode
  · intro frame s2
    rw [hexec frame s2]
    exact ⟨raise_log _ _ _ s2, raise_cases _ _ _ s2⟩

/-- C5, witness: the amended statement at the state after `1 + "hi"` (operand
types int and string) for the operator `+`; at the state after `true + false`
(both operand types bool) for `+` and for `-`; and for `OP_TYPE_ERROR` as the
instruction executed in the VM where `run` starts on the chunk
`OP_TYPE_ERROR`, `OP_NIL`, `OP_RETURN`. -/
theorem C5_type_errors_witness :
    (binaryOperator .TOKEN_PLUS .VAL_INT afterMixedOperand
      = .exit TokenType.TOKEN_ERROR.code
        { afterMixedOperand with
          parser := { afterMixedOperand.parser with panicMode := true },
          log := afterMixedOperand.log ++ [.error "Operands must be of compatible types.",
            .errorAt afterMixedOperand.parser.previous.line
              afterMixedOperand.parser.previous.type
              afterMixedOperand.parser.previous.lexeme] }) ∧
    binaryOperator .TOKEN_PLUS .VAL_BOOL afterBoolOperand
      = .ok () (afterBoolOperand.emit [OpCode.OP_TYPE_ERROR.byte]) ∧
    binaryOperator .TOKEN_MINUS .VAL_BOOL afterBoolOperand = .exit (some 1) afterBoolOperand ∧
    execute plainHost 0 .OP_TYPE_ERROR
        (loaded [OpCode.OP_TYPE_ERROR.byte, OpCode.OP_NIL.byte, OpCode.OP_RETURN.byte] [])
      = .undefinedBehaviour "read outside chunk.lines"
          ((loaded [OpCode.OP_TYPE_ERROR.byte, OpCode.OP_NIL.byte, OpCode.OP_RETURN.byte]
            []).afterMessage "Type mismatch" []) :=
  ⟨((C5_type_errors plainHost afterMixedOperand .TOKEN_PLUS .VAL_INT (by decide!)
      (by decide!)).1 (by decide!)).1,
   ((C5_type_errors plainHost afterBoolOperand .TOKEN_PLUS .VAL_BOOL (by decide!)
      (by decide!)).2.1 (by decide!) (Or.inl rfl)).1,
   (C5_type_errors plainHost afterBoolOperand .TOKEN_MINUS .VAL_BOOL (by decide!)
      (by decide!)).2.2.1 (by decide!) (by decide) (by decide) (Or.inl rfl),
   ((C5_type_errors plainHost afterBoolOperand .TOKEN_PLUS .VAL_BOOL (by decide!)
      (by decide!)).2.2.2.2 0
      (loaded [OpCode.OP_TYPE_ERROR.byte, OpCode.OP_NIL.byte, OpCode.OP_RETURN.byte] [])).2.2
      (by decide!)⟩

/-- C6: when `binary` is called for one of `+ - * /` with left operand type `t`,
and compiling the right operand succeeds and leaves the inferred type `t`
again, then for `t` int, `t` float, and `t` string with `+`, `binary` succeeds
and adds to the code of the right operand exactly the one opcode the
specification prescribes, and the inferred type of the whole expression is the
left operand's type. -/
theorem C6_binary_emits_typed_opcode (n : Nat) (canAssign : Bool) (s s1 : St)
    (op : TokenType) (t : ValueType) (code : OpCode)
    (hop : s.parser.previous.type = op) (hleft : s.parser.currentType = t)
    (hparse : parsePrecedence n (getRule op).precedence.next s = .ok () s1)
    (hright : s1.parser.currentType = t) (hcur : s1.compilers ≠ [])
    (hcode : arithmeticOp op t = some code) :
    binary (n + 1) canAssign s = .ok () ((s1.emit [code.byte]).withCurrentType t) ∧
    ((s1.emit [code.byte]).withCurrentType t).code = s1.code ++ [code.byte] ∧
    ((s1.emit [code.byte]).withCurrentType t).parser.currentType = s.parser.currentType := by
  subst hop
  refine ⟨?_, ?_, ?_⟩
  · rw [binary_after_operand n canAssign s s1 hparse, hleft]
    exact binaryOperator_arithmetic s1 _ t code hcur hright hcode
  · have := emit_code s1 [code.byte] hcur
    simpa [St.withCurrentType, St.code] using this
  · simp [St.withCurrentType, hleft]

/-- C6, witness: the `+` of `1 + 2;`, both operands int, emits `OP_ADD_INT`. -/
theorem C6_binary_emits_typed_opcode_witness :
    binary 11 false atPlus
      = .ok () ((afterRightOperand.emit [OpCode.OP_ADD_INT.byte]).withCurrentType .VAL_INT) ∧
    ((afterRightOperand.emit [OpCode.OP_ADD_INT.byte]).withCurrentType .VAL_INT).code
      = afterRightOperand.code ++ [OpCode.OP_ADD_INT.byte] ∧
    ((afterRightOperand.emit [OpCode.OP_ADD_INT.byte]).withCurrentType .VAL_INT).parser.currentType
      = atPlus.parser.currentType :=
  C6_binary_emits_typed_opcode 10 false atPlus afterRightOperand .TOKEN_PLUS .VAL_INT
    .OP_ADD_INT (by decide!) (by decide!) (by decide!) (by decide!) (by decide!) (by decide!)

/-- C7 (the code departs from the claim): in `{ int a = 1; }` the declaration is
compiled at scope depth 2 with one local in the frame (the reserved slot 0,
named `this` in the script, depth 0).  After the declaration the frame still
has that one local: no local named `a` was added, and the depth of the local
that existed before has changed from 0 to 2. -/
theorem C7_declaration_adds_no_local :
    (enterBlock (bytes "\x7b int a = 1; \x7d") freshVM).value? = some () ∧
    namesAndDepths (enterBlock (bytes "\x7b int a = 1; \x7d") freshVM).stateOr.locals
      = [(bytes "this", 0)] ∧
    (declareInBlock (bytes "\x7b int a = 1; \x7d") freshVM).value? = some () ∧
    namesAndDepths (declareInBlock (bytes "\x7b int a = 1; \x7d") freshVM).stateOr.locals
      = [(bytes "this", 2)] := by
  decide!

/-- C8 (the code departs from the claim): `{ int a = 1; int a = 2; }` compiles
without any error being reported and `compile` returns a function; so does
the redeclaration in a nested scope, `{ int a = 1; { int a = 2; } }`. -/
theorem C8_redeclaration_is_accepted :
    compiled (compile 200 (bytes "\x7b int a = 1; int a = 2; \x7d") freshVM) = true ∧
    (compile 200 (bytes "\x7b int a = 1; int a = 2; \x7d") freshVM).log = [] ∧
    compiled (compile 200 (bytes "\x7b int a = 1; \x7b int a = 2; \x7d \x7d") freshVM) = true ∧
    (compile 200 (bytes "\x7b int a = 1; \x7b int a = 2; \x7d \x7d") freshVM).log = [] := by
  decide!

/-- C9 (the code departs from the claim): after the parameter list of
`fun f(a, b) { return a; }` the function has arity 2 and its compiler frame
holds one local, the reserved slot 0 (its depth set to 1 by the parameters);
the reference to `a` in the body compiles to `OP_GET_GLOBAL` with the name `a`
as its operand (the function is heap object 5, the name heap object 6), and
calling `f(1, 2)` raises the runtime error `Undefined variable 'a'.`, whose
backtrace then reads the line table that was never written. -/
theorem C9_parameters_are_not_locals (host : Host) :
    (enterFunction (bytes "fun f(a, b) \x7b return a; \x7d") freshVM).value? = some () ∧
    namesAndDepths (enterFunction (bytes "fun f(a, b) \x7b return a; \x7d") freshVM).stateOr.locals
      = [([], 1)] ∧
    (enterFunction (bytes "fun f(a, b) \x7b return a; \x7d") freshVM).stateOr.compilers.map
      (fun c => c.function.arity) = [2, 0] ∧
    (functionAt (compile 200 (bytes "fun f(a, b) \x7b return a; \x7d") freshVM).stateOr 5).map
      (fun f => (f.arity, f.chunk.code, f.chunk.constants.get? 2))
      = some (2, [OpCode.OP_GET_GLOBAL.byte, 2, OpCode.OP_RETURN.byte, OpCode.OP_NIL.byte,
                  OpCode.OP_RETURN.byte], some (.obj 6)) ∧
    (compile 200 (bytes "fun f(a, b) \x7b return a; \x7d") freshVM).stateOr.vm.heap.get? 6
      = some (.string (bytes "a")) ∧
    (interpret host 200 (bytes "fun f(a, b) \x7b return a; \x7d print f(1, 2);")
      freshVM).undefined? = some "read outside chunk.lines" ∧
    (interpret host 200 (bytes "fun f(a, b) \x7b return a; \x7d print f(1, 2);")
      freshVM).log
      = [.runtimeError "Undefined variable '%s'." [.str (bytes "a")] []] := by
  rw [interpret_host host 200 _ freshVM (by decide!)]
  decide!

/-- C10 (the code departs from the claim): `{ int a = a; }` compiles without
any error being reported; the `a` of the initializer is compiled as a read of
a global, and running the program raises the runtime error
`Undefined variable 'a'.`, whose backtrace then reads the line table that was
never written. -/
theorem C10_own_initializer_is_accepted (host : Host) :
    compiled (compile 200 (bytes "\x7b int a = a; \x7d") freshVM) = true ∧
    (compile 200 (bytes "\x7b int a = a; \x7d") freshVM).log = [] ∧
    compiledCode (compile 200 (bytes "\x7b int a = a; \x7d") freshVM)
      = [OpCode.OP_GET_GLOBAL.byte, 1, OpCode.OP_POP.byte, OpCode.OP_NIL.byte,
         OpCode.OP_RETURN.byte] ∧
    (interpret host 200 (bytes "\x7b int a = a; \x7d") freshVM).undefined?
      = some "read outside chunk.lines" ∧
    (interpret host 200 (bytes "\x7b int a = a; \x7d") freshVM).log
      = [.runtimeError "Undefined variable '%s'." [.str (bytes "a")] []] := by
  rw [interpret_host host 200 _ freshVM (by decide!)]
  decide!

/-- C11: `resolveLocal` returns the index `i` exactly when `i` is the greatest
index below `localCount` whose local has the length and the bytes of `name`,
and -1 exactly when no local has them.  In a frame with at most
`UINT8_COUNT` locals, `namedVariable` picks `OP_GET_LOCAL`/`OP_SET_LOCAL` with
that index when it is not -1; when it is -1 and `resolveUpvalue` returns an
index, `OP_GET_UPVALUE`/`OP_SET_UPVALUE` with that index as a byte; a pair of
opcodes that access a global is picked only when `resolveLocal` and
`resolveUpvalue` both returned -1, and then it is the pair of `globalOps` with
the constant of the name as operand.  `namedVariable` then emits the get
opcode with the operand, or after `=` and the assigned expression the set
opcode with the operand. -/
theorem C11_variables_resolve_local_upvalue_global (n : Nat) (name : Token) (s : St)
    (c : Compiler) (rest : List Compiler) (hs : s.compilers = c :: rest)
    (hcount : c.localCount ≤ UINT8_COUNT) :
    (∀ i : Nat, resolveLocal c name = (i : Int) ↔
      i < c.localCount ∧
      (∃ l, c.locals.get? i = some l ∧
        l.name.length = name.length ∧ l.name.lexeme = name.lexeme) ∧
      ∀ j l, i < j → c.locals.get? j = some l →
        ¬ (l.name.length = name.length ∧ l.name.lexeme = name.lexeme)) ∧
    (resolveLocal c name = -1 ↔
      ∀ j l, c.locals.get? j = some l →
        ¬ (l.name.length = name.length ∧ l.name.lexeme = name.lexeme)) ∧
    (resolveLocal c name = -1 ∨
      ∃ i : Nat, i < c.localCount ∧ resolveLocal c name = (i : Int)) ∧
    (∀ i : Nat, resolveLocal c name = (i : Int) →
      resolveVariable name s = .ok (.OP_GET_LOCAL, .OP_SET_LOCAL, i) s ∧
      namedVariable (n + 1) name false s = .ok () (s.emit [OpCode.OP_GET_LOCAL.byte, i])) ∧
    (∀ (u : Nat) (s1 : St), resolveLocal c name = -1 →
      resolveUpvalue s.compilers.length 0 name s = .ok (u : Int) s1 →
      resolveVariable name s = .ok (.OP_GET_UPVALUE, .OP_SET_UPVALUE, u % 256) s1) ∧
    (∀ (getOp setOp : OpCode) (arg : Nat) (s2 : St),
      resolveVariable name s = .ok (getOp, setOp, arg) s2 →
      getOp.globalAccess = true ∨ setOp.globalAccess = true →
      resolveLocal c name = -1 ∧
      ∃ s1, resolveUpvalue s.compilers.length 0 name s = .ok (-1) s1 ∧
        identifierConstant name s1 = .ok arg s2 ∧ globalOps name.type = some (getOp, setOp)) ∧
    (∀ (getOp setOp : OpCode) (arg : Nat) (s1 : St),
      resolveVariable name s = .ok (getOp, setOp, arg) s1 →
      namedVariable (n + 1) name false s = emitBytes getOp.byte arg s1 ∧
      (∀ s2, matchToken .TOKEN_EQUAL s1 = .ok false s2 →
        namedVariable (n + 1) name true s = emitBytes getOp.byte arg s2) ∧
      (∀ s2 s3, matchToken .TOKEN_EQUAL s1 = .ok true s2 → expression n s2 = .ok () s3 →
        namedVariable (n + 1) name true s = emitBytes setOp.byte arg s3)) ∧
    (∀ (byte1 byte2 : Nat) (s1 : St), s1.compilers ≠ [] →
      emitBytes byte1 byte2 s1 = .ok () (s1.emit [byte1, byte2])) := by
  have hfalse : ∀ l : Local, identifiersEqual name l.name = false ↔
      ¬ (l.name.length = name.length ∧ l.name.lexeme = name.lexeme) := by
    intro l
    rw [← identifiersEqual_iff name l.name]
    simp
  have hbound : ∀ (j : Nat) (l : Local), c.locals.get? j = some l → j < c.localCount := by
    intro j l hj
    have := List.get?_eq_some.mp hj
    exact this.1
  refine ⟨?_, ?_, ?_, ?_, ?_, ?_, ?_, ?_⟩
  · intro i
    unfold resolveLocal
    rw [resolveLocalFrom_some]
    constructor
    · rintro ⟨h1, ⟨l, h2, h3⟩, h4⟩
      exact ⟨h1, ⟨l, h2, (identifiersEqual_iff name l.name).mp h3⟩,
        fun j l hij hj => (hfalse l).mp (h4 j l hij (hbound j l hj) hj)⟩
    · rintro ⟨h1, ⟨l, h2, h3⟩, h4⟩
      exact ⟨h1, ⟨l, h2, (identifiersEqual_iff name l.name).mpr h3⟩,
        fun j l hij _ hj => (hfalse l).mpr (h4 j l hij hj)⟩
  · unfold resolveLocal
    rw [resolveLocalFrom_none]
    constructor
    · intro h j l hj
      exact (hfalse l).mp (h j l (hbound j l hj) hj)
    · intro h j l _ hj
      exact (hfalse l).mpr (h j l hj)
  · exact resolveLocalFrom_range c.locals name c.localCount
  · intro i h
    have hr := resolveVariable_local name s c rest hs i hcount h
    refine ⟨hr, ?_⟩
    rw [namedVariable_get n name s s _ _ _ hr]
    exact emitBytes_ok _ _ s (by simp [hs])
  · intro u s1 h hu
    exact resolveVariable_upvalue name s s1 c rest hs u h hu
  · intro getOp setOp arg s2 h hg
    exact resolveVariable_globalAccess name s s2 c rest hs hcount getOp setOp arg h hg
  · intro getOp setOp arg s1 h
    exact ⟨namedVariable_get n name s s1 getOp setOp arg h,
      fun s2 hm => namedVariable_get_assignable n name s s1 s2 getOp setOp arg h hm,
      fun s2 s3 hm he => namedVariable_set n name s s1 s2 s3 getOp setOp arg h hm he⟩
  · intro byte1 byte2 s1 h
    exact emitBytes_ok byte1 byte2 s1 h

/-- C11, witness: in a frame with the locals `this`, `a`, `b`, `a` the name `a`
resolves to index 3, the inner of the two locals named `a`, and `variable`
emits `OP_GET_LOCAL 3`. -/
theorem C11_variables_resolve_local_upvalue_global_witness :
    resolveLocal shadowing.frame shadowing.parser.previous = 3 ∧
    resolveVariable shadowing.parser.previous shadowing
      = .ok (.OP_GET_LOCAL, .OP_SET_LOCAL, 3) shadowing ∧
    namedVariable 6 shadowing.parser.previous false shadowing
      = .ok () (shadowing.emit [OpCode.OP_GET_LOCAL.byte, 3]) :=
  ⟨by decide!,
    (C11_variables_resolve_local_upvalue_global 5 shadowing.parser.previous shadowing
      shadowing.frame shadowing.compilers.tail (by decide!) (by decide!)).2.2.2.1 3
      (by decide!)⟩

/-- C12 (the code departs from the claim): in a frame whose 256 locals are all
in use, the declaration `int x = 1;` inside a block is compiled without any
error being reported, and the frame has its 256 locals afterwards: the
declaration does not reach `addLocal`, which in that state reports
`Too many local variables in function.`. -/
theorem C12_declaration_beyond_the_limit_is_accepted :
    fullFrame.locals.length = UINT8_COUNT ∧
    fullFrame.parser.current.type = .TOKEN_INT ∧
    (declaration 100 fullFrame).value? = some () ∧
    (declaration 100 fullFrame).log = [] ∧
    (declaration 100 fullFrame).stateOr.locals.length = UINT8_COUNT ∧
    (declaration 100 fullFrame).stateOr.parser.current.type = .TOKEN_RIGHT_BRACE ∧
    (addLocal (syntheticToken "w") fullFrame).exitCode? = some TokenType.TOKEN_ERROR.code ∧
    (addLocal (syntheticToken "w") fullFrame).log
      = [.error "Too many local variables in function.",
         .errorAt 1 .TOKEN_LEFT_BRACE (bytes "\x7b")] := by
  decide!

/-- C13, counterexample: when the 257th call of `makeConstant` on the chunk of
an empty script has reported its error, the constant pool holds 257 values. -/
theorem C13_counterexample :
    (makeConstants (List.replicate 257 (.int 7)) emptyScript).stateOr.constants.length = 257 ∧
    (makeConstants (List.replicate 257 (.int 7)) emptyScript).log
      = [.error "Too many constants in one chunk.", .errorAt 0 .UNINITIALIZED []] := by
  decide!

/-- C13 (amended): on a chunk under construction, with a free stack slot and
outside panic mode, a sequence of `makeConstant` calls that brings the
constant pool to at most `UINT8_COUNT` entries returns for each call the index
at which its value is stored, the pool being the earlier pool followed by the
values, and reports nothing.  When the pool has reached `UINT8_COUNT` entries
the next call appends its value as well (the pool then has one entry more than
`UINT8_COUNT`) and reports `Too many constants in one chunk.`, which ends the
process. -/
theorem C13_constants_appended_then_checked (values : List Value) (value : Value) (s : St)
    (hcur : s.compilers ≠ []) (hstack : s.vm.stackTop < STACK_MAX)
    (hpanic : s.parser.panicMode = false)
    (hroom : s.constants.length + values.length ≤ UINT8_COUNT) :
    ∃ s1, makeConstants values s = .ok (List.range' s.constants.length values.length) s1 ∧
      s1.constants = s.constants ++ values ∧ s1.log = s.log ∧
      (s.constants.length + values.length = UINT8_COUNT →
        ∃ s2, makeConstant value s1 = .exit TokenType.TOKEN_ERROR.code s2 ∧
          s2.constants = s.constants ++ values ++ [value] ∧
          s2.log = s.log ++ [.error "Too many constants in one chunk.",
            .errorAt s.parser.previous.line s.parser.previous.type
              s.parser.previous.lexeme]) := by
  obtain ⟨s1, hrun, hcs, hne, htop, hpar, hlog⟩ := makeConstants_ok values s hcur hstack hroom
  refine ⟨s1, hrun, hcs, hlog, ?_⟩
  intro hfull
  have hlen : UINT8_COUNT ≤ s1.constants.length := by
    rw [hcs, List.length_append, hfull]
  refine ⟨_, makeConstant_full value s1 hne (by rw [htop]; exact hstack) hlen
    (by rw [hpar]; exact hpanic), ?_, ?_⟩
  · have := withConstant_constants s1 value hne
    cases hc : s1.compilers with
    | nil => exact absurd hc hne
    | cons c rest =>
      simp only [St.withConstant, St.constants, hc] at this hcs ⊢
      simp only [writeValueArray]
      rw [hcs]
  · simp only [hlog, hpar]

/-- C13, witness: 256 calls of `makeConstant` on the chunk of an empty script,
and the call after them. -/
theorem C13_constants_appended_then_checked_witness :
    ∃ s1, makeConstants (List.replicate 256 (.int 7)) emptyScript
        = .ok (List.range' emptyScript.constants.length (List.replicate 256 (Value.int 7)).length)
            s1 ∧
      s1.constants = emptyScript.constants ++ List.replicate 256 (.int 7) ∧
      s1.log = emptyScript.log ∧
      (emptyScript.constants.length + (List.replicate 256 (Value.int 7)).length = UINT8_COUNT →
        ∃ s2, makeConstant (.int 8) s1 = .exit TokenType.TOKEN_ERROR.code s2 ∧
          s2.constants = emptyScript.constants ++ List.replicate 256 (.int 7) ++ [.int 8] ∧
          s2.log = emptyScript.log ++ [.error "Too many constants in one chunk.",
            .errorAt emptyScript.parser.previous.line emptyScript.parser.previous.type
              emptyScript.parser.previous.lexeme]) :=
  C13_constants_appended_then_checked (List.replicate 256 (.int 7)) (.int 8) emptyScript
    (by decide!) (by decide!) (by decide!) (by decide!)

/-- C14 (the code departs from the claim): compiling `print ; print ;` reports
the first error (`Expect expression.` at the first `;`) and then ends the
process with the exit status `TOKEN_ERROR`, inside `errorAt`: `compile` does
not return, `hadError` is still false in the state the process ends in, and
the second, independent error of the source is never reported. -/
theorem C14_first_error_ends_the_process :
    (compile 200 (bytes "print ; print ;") freshVM).exitCode? = some TokenType.TOKEN_ERROR.code ∧
    (compile 200 (bytes "print ; print ;") freshVM).value? = none ∧
    (compile 200 (bytes "print ; print ;") freshVM).log
      = [.error "Expect expression.", .errorAt 1 .TOKEN_SEMICOLON (bytes ";")] ∧
    (compile 200 (bytes "print ; print ;") freshVM).stateOr.parser.hadError = false ∧
    (compile 200 (bytes "print ; print ;") freshVM).stateOr.parser.panicMode = true := by
  decide!

/-- C15, counterexample: in the function of `fun f() { return 1 }`, which is
neither the script nor an initializer, `returnStatement` reports a compile
error: the value is not followed by `;`, and its `consume` reports at the
closing brace. -/
theorem C15_counterexample :
    (enterReturn .TYPE_FUNCTION (bytes "return 1 \x7d") freshVM).stateOr.frame.type
      = .TYPE_FUNCTION ∧
    (returnStatement 10 (enterReturn .TYPE_FUNCTION (bytes "return 1 \x7d") freshVM).stateOr).exitCode?
      = some TokenType.TOKEN_ERROR.code ∧
    (returnStatement 10 (enterReturn .TYPE_FUNCTION (bytes "return 1 \x7d") freshVM).stateOr).log
      = [.errorAt 1 .TOKEN_RIGHT_BRACE (bytes "\x7d")] ∧
    (compile 200 (bytes "fun f() \x7b return 1 \x7d") freshVM).exitCode?
      = some TokenType.TOKEN_ERROR.code ∧
    (compile 200 (bytes "fun f() \x7b return 1 \x7d") freshVM).log
      = [.errorAt 1 .TOKEN_RIGHT_BRACE (bytes "\x7d")] := by
  decide!

/-- C15, as amended: `returnStatement` in a frame outside panic mode, by the
type of the function and the token after `return`.  It reports an error in
three situations.  In the script it reports
`Can't return from top-level code.`; in an initializer with anything but `;`
after `return` it reports `Can't return a value from an initializer.`; and in
a function or method whose `return` has a value, when the expression has been
compiled and the token after it is not `;`, its `consume` reports at that
token (the error of `Expect ';' after return value.`).  Otherwise it reports
nothing of its own: a bare `return;` in an initializer emits `OP_GET_LOCAL 0`,
`OP_RETURN`; in a function or method a bare `return;` emits `OP_NIL`,
`OP_RETURN`, and a `return` with a value whose expression is compiled and
followed by `;` emits `OP_RETURN` (the log is the one the expression
left). -/
theorem C15_return_errors (n : Nat) (s : St) (c : Compiler) (rest : List Compiler)
    (hs : s.compilers = c :: rest) (hpanic : s.parser.panicMode = false) :
    (c.type = .TYPE_SCRIPT →
      returnStatement (n + 1) s = .exit TokenType.TOKEN_ERROR.code
        { s with parser := { s.parser with panicMode := true },
                 log := s.log ++ [.error "Can't return from top-level code.",
                   .errorAt s.parser.previous.line s.parser.previous.type
                     s.parser.previous.lexeme] }) ∧
    (c.type = .TYPE_INITIALIZER → s.parser.current.type ≠ .TOKEN_SEMICOLON →
      returnStatement (n + 1) s = .exit TokenType.TOKEN_ERROR.code
        { s with parser := { s.parser with panicMode := true },
                 log := s.log ++ [.error "Can't return a value from an initializer.",
                   .errorAt s.parser.previous.line s.parser.previous.type
                     s.parser.previous.lexeme] }) ∧
    (c.type = .TYPE_INITIALIZER → s.parser.current.type = .TOKEN_SEMICOLON →
      ∀ s1, advance s = .ok () s1 →
        returnStatement (n + 1) s
          = .ok () (s1.emit [OpCode.OP_GET_LOCAL.byte, 0, OpCode.OP_RETURN.byte]) ∧
        (s1.emit [OpCode.OP_GET_LOCAL.byte, 0, OpCode.OP_RETURN.byte]).code
          = s.code ++ [OpCode.OP_GET_LOCAL.byte, 0, OpCode.OP_RETURN.byte] ∧
        (s1.emit [OpCode.OP_GET_LOCAL.byte, 0, OpCode.OP_RETURN.byte]).log = s.log) ∧
    (c.type ≠ .TYPE_SCRIPT → c.type ≠ .TYPE_INITIALIZER →
      s.parser.current.type = .TOKEN_SEMICOLON →
      ∀ s1, advance s = .ok () s1 →
        returnStatement (n + 1) s = .ok () (s1.emit [OpCode.OP_NIL.byte, OpCode.OP_RETURN.byte]) ∧
        (s1.emit [OpCode.OP_NIL.byte, OpCode.OP_RETURN.byte]).log = s.log) ∧
    (c.type ≠ .TYPE_SCRIPT → c.type ≠ .TYPE_INITIALIZER →
      s.parser.current.type ≠ .TOKEN_SEMICOLON →
      ∀ s1 s2, expression n s = .ok () s1 → s1.compilers ≠ [] →
        s1.parser.current.type = .TOKEN_SEMICOLON → advance s1 = .ok () s2 →
        returnStatement (n + 1) s = .ok () (s2.emit [OpCode.OP_RETURN.byte]) ∧
        (s2.emit [OpCode.OP_RETURN.byte]).log = s1.log) ∧
    (c.type ≠ .TYPE_SCRIPT → c.type ≠ .TYPE_INITIALIZER →
      s.parser.current.type ≠ .TOKEN_SEMICOLON →
      ∀ s1, expression n s = .ok () s1 → s1.parser.panicMode = false →
        s1.parser.current.type ≠ .TOKEN_SEMICOLON →
        returnStatement (n + 1) s = .exit TokenType.TOKEN_ERROR.code
          { s1 with parser := { s1.parser with panicMode := true },
                    log := s1.log ++ [.errorAt s1.parser.current.line s1.parser.current.type
                      s1.parser.current.lexeme] }) := by
  have hcur : s.compilers ≠ [] := by simp [hs]
  refine ⟨?_, ?_, ?_, ?_, ?_, ?_⟩
  · intro ht
    rw [returnStatement]
    simp [currentCompiler, bind, M.bind, hs, ht, error_exits _ _ hpanic]
  · intro ht hsemi
    rw [returnStatement]
    simp [currentCompiler, bind, M.bind, hs, ht, matchToken_false _ _ hsemi, pure, M.pure,
      error_exits _ _ hpanic]
  · intro ht hsemi s1 ha
    have h1 := advance_ok s s1 ha
    have hc1 : s1.compilers = c :: rest := by rw [h1.1, hs]
    have hne1 : s1.compilers ≠ [] := by simp [hc1]
    refine ⟨?_, ?_, ?_⟩
    · rw [returnStatement]
      simp [currentCompiler, bind, M.bind, hs, ht, matchToken_true _ _ _ hsemi ha, pure, M.pure,
        emitReturn, hc1, emitBytes_ok _ _ _ hne1, emitOp_ok _ _ (emit_compilers s1 _ hne1),
        emit_append]
    · rw [emit_code _ _ hne1]
      simp [St.code, hc1, hs]
    · rw [emit_log, h1.2.1]
  · intro ht1 ht2 hsemi s1 ha
    have h1 := advance_ok s s1 ha
    have hc1 : s1.compilers = c :: rest := by rw [h1.1, hs]
    have hne1 : s1.compilers ≠ [] := by simp [hc1]
    refine ⟨?_, ?_⟩
    · rw [returnStatement]
      simp [currentCompiler, bind, M.bind, hs, ht1, ht2, matchToken_true _ _ _ hsemi ha, pure,
        M.pure, emitReturn, hc1, emitOp_ok _ _ hne1, emitOp_ok _ _ (emit_compilers s1 _ hne1),
        emit_append]
    · rw [emit_log, h1.2.1]
  · intro ht1 ht2 hsemi s1 s2 he hne1 hsemi1 ha
    have h2 := advance_ok s1 s2 ha
    have hne2 : s2.compilers ≠ [] := by rw [h2.1]; exact hne1
    refine ⟨?_, ?_⟩
    · rw [returnStatement]
      simp [currentCompiler, bind, M.bind, hs, ht1, ht2, matchToken_false _ _ hsemi, pure,
        M.pure, he, consume, getSt, hsemi1, ha, emitOp_ok _ _ hne2]
    · rw [emit_log, h2.2.1]
  · intro ht1 ht2 hsemi s1 he hpanic1 hsemi1
    rw [returnStatement]
    simp [currentCompiler, bind, M.bind, hs, ht1, ht2, matchToken_false _ _ hsemi, pure,
      M.pure, he, consume, getSt, hsemi1, errorAtCurrent_exits _ _ hpanic1]

/-- C15, witness: a bare `return;` in an initializer, and `return 1` in a
function with the closing brace where the `;` should be. -/
theorem C15_return_errors_witness :
    (returnStatement 6 (enterReturn .TYPE_INITIALIZER (bytes "return;") freshVM).stateOr
      = .ok () ((advance (enterReturn .TYPE_INITIALIZER (bytes "return;") freshVM).stateOr).stateOr.emit
          [OpCode.OP_GET_LOCAL.byte, 0, OpCode.OP_RETURN.byte]) ∧
    ((advance (enterReturn .TYPE_INITIALIZER (bytes "return;") freshVM).stateOr).stateOr.emit
        [OpCode.OP_GET_LOCAL.byte, 0, OpCode.OP_RETURN.byte]).code
      = (enterReturn .TYPE_INITIALIZER (bytes "return;") freshVM).stateOr.code
          ++ [OpCode.OP_GET_LOCAL.byte, 0, OpCode.OP_RETURN.byte] ∧
    ((advance (enterReturn .TYPE_INITIALIZER (bytes "return;") freshVM).stateOr).stateOr.emit
        [OpCode.OP_GET_LOCAL.byte, 0, OpCode.OP_RETURN.byte]).log
      = (enterReturn .TYPE_INITIALIZER (bytes "return;") freshVM).stateOr.log) ∧
    returnStatement 10 (enterReturn .TYPE_FUNCTION (bytes "return 1 \x7d") freshVM).stateOr
      = .exit TokenType.TOKEN_ERROR.code
          { (expression 9 (enterReturn .TYPE_FUNCTION (bytes "return 1 \x7d")
              freshVM).stateOr).stateOr with
            parser := { (expression 9 (enterReturn .TYPE_FUNCTION (bytes "return 1 \x7d")
              freshVM).stateOr).stateOr.parser with panicMode := true },
            log := (expression 9 (enterReturn .TYPE_FUNCTION (bytes "return 1 \x7d")
              freshVM).stateOr).stateOr.log ++
              [.errorAt
                (expression 9 (enterReturn .TYPE_FUNCTION (bytes "return 1 \x7d")
                  freshVM).stateOr).stateOr.parser.current.line
                (expression 9 (enterReturn .TYPE_FUNCTION (bytes "return 1 \x7d")
                  freshVM).stateOr).stateOr.parser.current.type
                (expression 9 (enterReturn .TYPE_FUNCTION (bytes "return 1 \x7d")
                  freshVM).stateOr).stateOr.parser.current.lexeme] } :=
  ⟨(C15_return_errors 5 (enterReturn .TYPE_INITIALIZER (bytes "return;") freshVM).stateOr
      (enterReturn .TYPE_INITIALIZER (bytes "return;") freshVM).stateOr.frame
      (enterReturn .TYPE_INITIALIZER (bytes "return;") freshVM).stateOr.compilers.tail
      (by decide!) (by decide!)).2.2.1 (by decide!) (by decide!) _ (by decide!),
   (C15_return_errors 9 (enterReturn .TYPE_FUNCTION (bytes "return 1 \x7d") freshVM).stateOr
      (enterReturn .TYPE_FUNCTION (bytes "return 1 \x7d") freshVM).stateOr.frame
      (enterReturn .TYPE_FUNCTION (bytes "return 1 \x7d") freshVM).stateOr.compilers.tail
      (by decide!) (by decide!)).2.2.2.2.2 (by decide!) (by decide!) (by decide!)
      (expression 9 (enterReturn .TYPE_FUNCTION (bytes "return 1 \x7d") freshVM).stateOr).stateOr
      (by decide!) (by decide!) (by decide!)⟩

/-- C16 (the code departs from the claim): in a chunk whose constant 0 is the
name `x`, `OP_GET_GLOBAL_INT 0` on the undefined global writes
`Undefined variable 'x'.`; the backtrace of `runtimeError` then reads the line
table, which was never written, so the stack and the frame count are not
reset and `run` does not return `INTERPRET_RUNTIME_ERROR`.  And where the
chunk does have a line table (function object 4, one entry per code byte),
`runtimeError` returns and the run goes on: the following `OP_NIL`, `OP_PRINT`
print `nil` and the run returns `INTERPRET_OK`, with one value left on the
stack.  The same happens for `OP_GET_GLOBAL_INT` on a global bound to a bool,
and for `OP_SET_GLOBAL_INT` with `nil` as the value. -/
theorem C16_typed_global_error_does_not_end_run (host : Host) :
    (runChunk host 50
      [OpCode.OP_GET_GLOBAL_INT.byte, 0, OpCode.OP_NIL.byte, OpCode.OP_PRINT.byte,
       OpCode.OP_NIL.byte, OpCode.OP_RETURN.byte]
      [.inr (bytes "x")] freshVM).undefined? = some "read outside chunk.lines" ∧
    (runChunk host 50
      [OpCode.OP_GET_GLOBAL_INT.byte, 0, OpCode.OP_NIL.byte, OpCode.OP_PRINT.byte,
       OpCode.OP_NIL.byte, OpCode.OP_RETURN.byte]
      [.inr (bytes "x")] freshVM).log
      = [.runtimeError "Undefined variable '%s'." [.str (bytes "x")] []] ∧
    (runChunk host 50
      [OpCode.OP_GET_GLOBAL_INT.byte, 0, OpCode.OP_NIL.byte, OpCode.OP_PRINT.byte,
       OpCode.OP_NIL.byte, OpCode.OP_RETURN.byte]
      [.inr (bytes "x")] freshVM).extents = some (1, 1) ∧
    (runLoop host 50 0
      ((loaded [OpCode.OP_GET_GLOBAL_INT.byte, 0, OpCode.OP_NIL.byte, OpCode.OP_PRINT.byte,
         OpCode.OP_NIL.byte, OpCode.OP_RETURN.byte]
        [.inr (bytes "x")]).withLines 4 (List.replicate 6 1))).value? = some .INTERPRET_OK ∧
    (runLoop host 50 0
      ((loaded [OpCode.OP_GET_GLOBAL_INT.byte, 0, OpCode.OP_NIL.byte, OpCode.OP_PRINT.byte,
         OpCode.OP_NIL.byte, OpCode.OP_RETURN.byte]
        [.inr (bytes "x")]).withLines 4 (List.replicate 6 1))).log
      = [.runtimeError "Undefined variable '%s'." [.str (bytes "x")] [(1, none)],
         .print (.text (bytes "nil"))] ∧
    (runLoop host 50 0
      ((loaded [OpCode.OP_GET_GLOBAL_INT.byte, 0, OpCode.OP_NIL.byte, OpCode.OP_PRINT.byte,
         OpCode.OP_NIL.byte, OpCode.OP_RETURN.byte]
        [.inr (bytes "x")]).withLines 4 (List.replicate 6 1))).extents = some (1, 0) ∧
    (runChunk host 50
      [OpCode.OP_TRUE.byte, OpCode.OP_DEFINE_GLOBAL.byte, 0, OpCode.OP_GET_GLOBAL_INT.byte, 0,
       OpCode.OP_NIL.byte, OpCode.OP_PRINT.byte, OpCode.OP_NIL.byte, OpCode.OP_RETURN.byte]
      [.inr (bytes "x")] freshVM).undefined? = some "read outside chunk.lines" ∧
    (runChunk host 50
      [OpCode.OP_TRUE.byte, OpCode.OP_DEFINE_GLOBAL.byte, 0, OpCode.OP_GET_GLOBAL_INT.byte, 0,
       OpCode.OP_NIL.byte, OpCode.OP_PRINT.byte, OpCode.OP_NIL.byte, OpCode.OP_RETURN.byte]
      [.inr (bytes "x")] freshVM).log
      = [.runtimeError "Expected int value for variable '%s'." [.str (bytes "x")] []] ∧
    (runLoop host 50 0
      ((loaded [OpCode.OP_TRUE.byte, OpCode.OP_DEFINE_GLOBAL.byte, 0,
         OpCode.OP_GET_GLOBAL_INT.byte, 0, OpCode.OP_NIL.byte, OpCode.OP_PRINT.byte,
         OpCode.OP_NIL.byte, OpCode.OP_RETURN.byte]
        [.inr (bytes "x")]).withLines 4 (List.replicate 9 1))).value? = some .INTERPRET_OK ∧
    (runLoop host 50 0
      ((loaded [OpCode.OP_TRUE.byte, OpCode.OP_DEFINE_GLOBAL.byte, 0,
         OpCode.OP_GET_GLOBAL_INT.byte, 0, OpCode.OP_NIL.byte, OpCode.OP_PRINT.byte,
         OpCode.OP_NIL.byte, OpCode.OP_RETURN.byte]
        [.inr (bytes "x")]).withLines 4 (List.replicate 9 1))).log
      = [.runtimeError "Expected int value for variable '%s'." [.str (bytes "x")] [(1, none)],
         .print (.text (bytes "nil"))] ∧
    (runChunk host 50
      [OpCode.OP_NIL.byte, OpCode.OP_SET_GLOBAL_INT.byte, 0, OpCode.OP_TRUE.byte,
       OpCode.OP_PRINT.byte, OpCode.OP_NIL.byte, OpCode.OP_RETURN.byte]
      [.inr (bytes "x")] freshVM).undefined? = some "read outside chunk.lines" ∧
    (runChunk host 50
      [OpCode.OP_NIL.byte, OpCode.OP_SET_GLOBAL_INT.byte, 0, OpCode.OP_TRUE.byte,
       OpCode.OP_PRINT.byte, OpCode.OP_NIL.byte, OpCode.OP_RETURN.byte]
      [.inr (bytes "x")] freshVM).log
      = [.runtimeError "Expected int value for variable '%s'." [.str (bytes "x")] []] ∧
    (runLoop host 50 0
      ((loaded [OpCode.OP_NIL.byte, OpCode.OP_SET_GLOBAL_INT.byte, 0, OpCode.OP_TRUE.byte,
         OpCode.OP_PRINT.byte, OpCode.OP_NIL.byte, OpCode.OP_RETURN.byte]
        [.inr (bytes "x")]).withLines 4 (List.replicate 7 1))).value? = some .INTERPRET_OK ∧
    (runLoop host 50 0
      ((loaded [OpCode.OP_NIL.byte, OpCode.OP_SET_GLOBAL_INT.byte, 0, OpCode.OP_TRUE.byte,
         OpCode.OP_PRINT.byte, OpCode.OP_NIL.byte, OpCode.OP_RETURN.byte]
        [.inr (bytes "x")]).withLines 4 (List.replicate 7 1))).log
      = [.runtimeError "Expected int value for variable '%s'." [.str (bytes "x")] [(1, none)],
         .print (.text (bytes "true"))] := by
  rw [runChunk_host host 50 _ [.inr (bytes "x")] freshVM (by decide!),
    runChunk_host host 50 _ [.inr (bytes "x")] freshVM (by decide!),
    runChunk_host host 50 _ [.inr (bytes "x")] freshVM (by decide!),
    runLoop_host host 50 0 _ (by decide!), runLoop_host host 50 0 _ (by decide!),
    runLoop_host host 50 0 _ (by decide!)]
  decide!

/-- C17 (the code departs from the claim): `OP_DEFINE_GLOBAL_INT` does not look
at the tag.  In a chunk whose constant 0 is the name `x` (heap object 3),
`OP_TRUE`, `OP_DEFINE_GLOBAL_INT 0` binds `x` to `true` without any error, and
the `OP_GET_GLOBAL 0`, `OP_PRINT` after it print `true`.  The same chunk with
`OP_DEFINE_GLOBAL_FLOAT` raises the runtime error of its tag test and leaves
the globals as they were. -/
theorem C17_define_global_int_accepts_any_tag (host : Host) :
    (runChunk host 50
      [OpCode.OP_TRUE.byte, OpCode.OP_DEFINE_GLOBAL_INT.byte, 0, OpCode.OP_GET_GLOBAL.byte, 0,
       OpCode.OP_PRINT.byte, OpCode.OP_NIL.byte, OpCode.OP_RETURN.byte]
      [.inr (bytes "x")] freshVM).value? = some .INTERPRET_OK ∧
    (runChunk host 50
      [OpCode.OP_TRUE.byte, OpCode.OP_DEFINE_GLOBAL_INT.byte, 0, OpCode.OP_GET_GLOBAL.byte, 0,
       OpCode.OP_PRINT.byte, OpCode.OP_NIL.byte, OpCode.OP_RETURN.byte]
      [.inr (bytes "x")] freshVM).log = [.print (.text (bytes "true"))] ∧
    (runChunk host 50
      [OpCode.OP_TRUE.byte, OpCode.OP_DEFINE_GLOBAL_INT.byte, 0, OpCode.OP_GET_GLOBAL.byte, 0,
       OpCode.OP_PRINT.byte, OpCode.OP_NIL.byte, OpCode.OP_RETURN.byte]
      [.inr (bytes "x")] freshVM).stateOr.vm.heap.get? 3 = some (.string (bytes "x")) ∧
    (runChunk host 50
      [OpCode.OP_TRUE.byte, OpCode.OP_DEFINE_GLOBAL_INT.byte, 0, OpCode.OP_GET_GLOBAL.byte, 0,
       OpCode.OP_PRINT.byte, OpCode.OP_NIL.byte, OpCode.OP_RETURN.byte]
      [.inr (bytes "x")] freshVM).stateOr.vm.globals
      = freshVM.vm.globals ++ [(3, .bool true)] ∧
    (runChunk host 50
      [OpCode.OP_TRUE.byte, OpCode.OP_DEFINE_GLOBAL_FLOAT.byte, 0, OpCode.OP_GET_GLOBAL.byte, 0,
       OpCode.OP_PRINT.byte, OpCode.OP_NIL.byte, OpCode.OP_RETURN.byte]
      [.inr (bytes "x")] freshVM).log
      = [.runtimeError "Cannot assign non-float value to float variable." [] []] ∧
    (runChunk host 50
      [OpCode.OP_TRUE.byte, OpCode.OP_DEFINE_GLOBAL_FLOAT.byte, 0, OpCode.OP_GET_GLOBAL.byte, 0,
       OpCode.OP_PRINT.byte, OpCode.OP_NIL.byte, OpCode.OP_RETURN.byte]
      [.inr (bytes "x")] freshVM).stateOr.vm.globals = freshVM.vm.globals := by
  rw [runChunk_host host 50 _ [.inr (bytes "x")] freshVM (by decide!),
    runChunk_host host 50 _ [.inr (bytes "x")] freshVM (by decide!)]
  decide!

/-- C18 (the code departs from the claim): `OP_CONSTANT_INT` does not look at
the tag of the constant.  In a chunk whose constant 0 is `nil`,
`OP_CONSTANT_INT 0` raises no error and pushes the int 0 (the integer member
`NIL_VAL` stores): the `OP_PRINT` after it prints `0` and the run returns
`INTERPRET_OK`. -/
theorem C18_constant_int_accepts_any_tag (host : Host) :
    (runChunk host 50
      [OpCode.OP_CONSTANT_INT.byte, 0, OpCode.OP_PRINT.byte, OpCode.OP_NIL.byte,
       OpCode.OP_RETURN.byte]
      [.inl .nil] freshVM).value? = some .INTERPRET_OK ∧
    (runChunk host 50
      [OpCode.OP_CONSTANT_INT.byte, 0, OpCode.OP_PRINT.byte, OpCode.OP_NIL.byte,
       OpCode.OP_RETURN.byte]
      [.inl .nil] freshVM).log = [.print (.text (bytes "0"))] := by
  rw [runChunk_host host 50 _ [.inl .nil] freshVM (by decide!)]
  decide!

/-- C19 (the code departs from the claim): `print 1.5 + 2.5;` compiles to
`OP_CONSTANT_FLOAT 0`, `OP_CONSTANT_FLOAT 1`, `OP_ADD_FLOAT`, `OP_PRINT`, and
running it raises the runtime error of `BINARY_OP_FLOAT`, with nothing
printed: after the addition the case of `OP_ADD_FLOAT` runs on into the
subtraction, whose second operand is the script closure in slot 0.  The same
happens with `*`.  (The backtrace of the error then reads the line table that
was never written.) -/
theorem C19_float_operation_runs_on (host : Host) :
    compiledCode (compile 200 (bytes "print 1.5 + 2.5;") freshVM)
      = [OpCode.OP_CONSTANT_FLOAT.byte, 0, OpCode.OP_CONSTANT_FLOAT.byte, 1,
         OpCode.OP_ADD_FLOAT.byte, OpCode.OP_PRINT.byte, OpCode.OP_NIL.byte,
         OpCode.OP_RETURN.byte] ∧
    (interpret host 200 (bytes "print 1.5 + 2.5;") freshVM).undefined?
      = some "read outside chunk.lines" ∧
    (interpret host 200 (bytes "print 1.5 + 2.5;") freshVM).log
      = [.runtimeError "From BINARY_OP_FLOAT. Operands must be numbers." [] []] ∧
    (interpret host 200 (bytes "print 1.5 * 2.25;") freshVM).undefined?
      = some "read outside chunk.lines" ∧
    (interpret host 200 (bytes "print 1.5 * 2.25;") freshVM).log
      = [.runtimeError "From BINARY_OP_FLOAT. Operands must be numbers." [] []] := by
  rw [interpret_host host 200 (bytes "print 1.5 + 2.5;") freshVM (by decide!),
    interpret_host host 200 (bytes "print 1.5 * 2.25;") freshVM (by decide!)]
  decide!

/-- C20 (the code departs from the claim): with the strings `a` and `b` as
operands, `OP_GREATER` raises no error: it runs on into `OP_ADD`, which
replaces the two operands by their concatenation, so that the `OP_PRINT`
after it prints `ab` and the run returns `INTERPRET_OK`; `OP_LESS` does the
same.  The source `print "a" > "b";` compiles to such a chunk. -/
theorem C20_comparison_of_strings_concatenates (host : Host) :
    (runChunk host 50
      [OpCode.OP_CONSTANT.byte, 0, OpCode.OP_CONSTANT.byte, 1, OpCode.OP_GREATER.byte,
       OpCode.OP_PRINT.byte, OpCode.OP_NIL.byte, OpCode.OP_RETURN.byte]
      [.inr (bytes "a"), .inr (bytes "b")] freshVM).value? = some .INTERPRET_OK ∧
    (runChunk host 50
      [OpCode.OP_CONSTANT.byte, 0, OpCode.OP_CONSTANT.byte, 1, OpCode.OP_GREATER.byte,
       OpCode.OP_PRINT.byte, OpCode.OP_NIL.byte, OpCode.OP_RETURN.byte]
      [.inr (bytes "a"), .inr (bytes "b")] freshVM).log = [.print (.text (bytes "ab"))] ∧
    (runChunk host 50
      [OpCode.OP_CONSTANT.byte, 0, OpCode.OP_CONSTANT.byte, 1, OpCode.OP_LESS.byte,
       OpCode.OP_PRINT.byte, OpCode.OP_NIL.byte, OpCode.OP_RETURN.byte]
      [.inr (bytes "a"), .inr (bytes "b")] freshVM).value? = some .INTERPRET_OK ∧
    (runChunk host 50
      [OpCode.OP_CONSTANT.byte, 0, OpCode.OP_CONSTANT.byte, 1, OpCode.OP_LESS.byte,
       OpCode.OP_PRINT.byte, OpCode.OP_NIL.byte, OpCode.OP_RETURN.byte]
      [.inr (bytes "a"), .inr (bytes "b")] freshVM).log = [.print (.text (bytes "ab"))] ∧
    compiledCode (compile 200 (bytes "print \"a\" > \"b\";") freshVM)
      = [OpCode.OP_CONSTANT_STRING.byte, 0, OpCode.OP_CONSTANT_STRING.byte, 1,
         OpCode.OP_GREATER.byte, OpCode.OP_PRINT.byte, OpCode.OP_NIL.byte,
         OpCode.OP_RETURN.byte] ∧
    (interpret plainHost 200 (bytes "print \"a\" > \"b\";") freshVM).value?
      = some .INTERPRET_OK ∧
    (interpret plainHost 200 (bytes "print \"a\" > \"b\";") freshVM).log
      = [.print (.text (bytes "ab"))] := by
  rw [runChunk_host host 50 _ [.inr (bytes "a"), .inr (bytes "b")] freshVM (by decide!),
    runChunk_host host 50 _ [.inr (bytes "a"), .inr (bytes "b")] freshVM (by decide!)]
  decide!

/-- C21 (the code departs from the claim): when the loop of `run` executes
`OP_DIVIDE_INT` with an int `a` and the int 0 on top of the stack, no runtime
error is raised and `run` does not return: the quotient of the two doubles is
converted to `int`, which the C standard leaves undefined for an infinity or
a NaN; nothing has been written to the log.  So it is for `print 1 / 0;`. -/
theorem C21_division_by_zero_raises_no_error (host : Host) (frame : Nat) (s : St)
    (f : CallFrame) (fnRef : Nat) (ups : List (Option Nat)) (fn : ObjFunction) (a : Int)
    (hf : s.vm.frames.get? frame = some f)
    (h1 : s.vm.heap.get? f.closure = some (.closure fnRef ups))
    (h2 : s.vm.heap.get? fnRef = some (.function fn))
    (hop : fn.chunk.code.get? f.ip = some OpCode.OP_DIVIDE_INT.byte)
    (htop : 2 ≤ s.vm.stackTop)
    (hb : s.vm.slot (s.vm.stackTop - 1) = .int 0)
    (ha : s.vm.slot (s.vm.stackTop - 2) = .int a) :
    (∃ s1, step host frame s
        = .undefinedBehaviour "conversion of an infinite or NaN double to int" s1 ∧
      s1.log = s.log) ∧
    compiledCode (compile 200 (bytes "print 1 / 0;") freshVM)
      = [OpCode.OP_CONSTANT_INT.byte, 0, OpCode.OP_CONSTANT_INT.byte, 1,
         OpCode.OP_DIVIDE_INT.byte, OpCode.OP_PRINT.byte, OpCode.OP_NIL.byte,
         OpCode.OP_RETURN.byte] ∧
    (interpret host 200 (bytes "print 1 / 0;") freshVM).undefined?
      = some "conversion of an infinite or NaN double to int" ∧
    (interpret host 200 (bytes "print 1 / 0;") freshVM).log = [] := by
  refine ⟨?_, ?_⟩
  · have hr := withIp_rest s frame (f.ip + 1)
    rw [step_execute host frame s f fnRef ups fn .OP_DIVIDE_INT hf h1 h2 hop,
      execute_divide_by_zero host frame _ a (by rw [hr.2.1]; exact htop)
        (by unfold VM.slot; rw [hr.1, hr.2.1]; exact hb)
        (by unfold VM.slot; rw [hr.1, hr.2.1]; exact ha)]
    exact ⟨_, rfl, hr.2.2.2.2⟩
  · rw [interpret_host host 200 _ freshVM (by decide!)]
    decide!

/-- C21, witness: the chunk `OP_CONSTANT_INT 0`, `OP_CONSTANT_INT 1`,
`OP_DIVIDE_INT` with the constants 7 and 0, after the two loads. -/
theorem C21_division_by_zero_raises_no_error_witness :
    ∃ s1, step plainHost 0
        (afterSteps 2 (loaded
          [OpCode.OP_CONSTANT_INT.byte, 0, OpCode.OP_CONSTANT_INT.byte, 1,
           OpCode.OP_DIVIDE_INT.byte, OpCode.OP_PRINT.byte, OpCode.OP_NIL.byte,
           OpCode.OP_RETURN.byte] [.inl (.int 7), .inl (.int 0)]))
        = .undefinedBehaviour "conversion of an infinite or NaN double to int" s1 ∧
      s1.log = (afterSteps 2 (loaded
          [OpCode.OP_CONSTANT_INT.byte, 0, OpCode.OP_CONSTANT_INT.byte, 1,
           OpCode.OP_DIVIDE_INT.byte, OpCode.OP_PRINT.byte, OpCode.OP_NIL.byte,
           OpCode.OP_RETURN.byte] [.inl (.int 7), .inl (.int 0)])).log :=
  (C21_division_by_zero_raises_no_error plainHost 0 _ ⟨4, 4, 0⟩ 3 []
    (chunkFunction [OpCode.OP_CONSTANT_INT.byte, 0, OpCode.OP_CONSTANT_INT.byte, 1,
           OpCode.OP_DIVIDE_INT.byte, OpCode.OP_PRINT.byte, OpCode.OP_NIL.byte,
           OpCode.OP_RETURN.byte] [.int 7, .int 0]) 7
    (by decide!) (by decide!) (by decide!) (by decide!) (by decide!) (by decide!)
    (by decide!)).1

/-- C22 (the code departs from the claim): `unary` for a `-` emits
`OP_NEGATE_INT` after its operand whatever type was inferred for the operand,
and reports nothing.  `print -1.5;` compiles to `OP_CONSTANT_FLOAT 0`,
`OP_NEGATE_INT`, `OP_PRINT` and `print -true;` to `OP_TRUE`, `OP_NEGATE_INT`,
`OP_PRINT`, both without any compile error; running the first raises the
runtime error `Operand must be a number.`. -/
theorem C22_unary_minus_always_emits_negate_int (host : Host) (n : Nat) (canAssign : Bool)
    (s s1 : St) (hminus : s.parser.previous.type = .TOKEN_MINUS)
    (hparse : parsePrecedence n .PREC_UNARY s = .ok () s1) (hcur : s1.compilers ≠ []) :
    unary (n + 1) canAssign s = .ok () (s1.emit [OpCode.OP_NEGATE_INT.byte]) ∧
    (s1.emit [OpCode.OP_NEGATE_INT.byte]).code = s1.code ++ [OpCode.OP_NEGATE_INT.byte] ∧
    (s1.emit [OpCode.OP_NEGATE_INT.byte]).log = s1.log ∧
    compiledCode (compile 200 (bytes "print -1.5;") freshVM)
      = [OpCode.OP_CONSTANT_FLOAT.byte, 0, OpCode.OP_NEGATE_INT.byte, OpCode.OP_PRINT.byte,
         OpCode.OP_NIL.byte, OpCode.OP_RETURN.byte] ∧
    (compile 200 (bytes "print -1.5;") freshVM).log = [] ∧
    compiledCode (compile 200 (bytes "print -true;") freshVM)
      = [OpCode.OP_TRUE.byte, OpCode.OP_NEGATE_INT.byte, OpCode.OP_PRINT.byte,
         OpCode.OP_NIL.byte, OpCode.OP_RETURN.byte] ∧
    (compile 200 (bytes "print -true;") freshVM).log = [] ∧
    (interpret host 200 (bytes "print -1.5;") freshVM).undefined?
      = some "read outside chunk.lines" ∧
    (interpret host 200 (bytes "print -1.5;") freshVM).log
      = [.runtimeError "Operand must be a number." [] []] := by
  refine ⟨?_, emit_code _ _ hcur, emit_log _ _, ?_⟩
  · rw [unary]
    simp only [bind, M.bind, getSt, hparse, hminus, emitOp_ok _ _ hcur]
  · rw [interpret_host host 200 _ freshVM (by decide!)]
    decide!

/-- C22, witness: the `-` of `-1.5;`, whose operand has the inferred type float. -/
theorem C22_unary_minus_always_emits_negate_int_witness :
    (parsePrecedence 10 .PREC_UNARY (atPrefixOperator (bytes "-1.5;"))).stateOr.parser.currentType
      = .VAL_FLOAT ∧
    unary 11 false (atPrefixOperator (bytes "-1.5;"))
      = .ok () ((parsePrecedence 10 .PREC_UNARY (atPrefixOperator (bytes "-1.5;"))).stateOr.emit
          [OpCode.OP_NEGATE_INT.byte]) :=
  ⟨by decide!,
    (C22_unary_minus_always_emits_negate_int plainHost 10 false
      (atPrefixOperator (bytes "-1.5;")) _ (by decide!) (by decide!) (by decide!)).1⟩

/-- C23 (the code departs from the claim): `OP_GET_SUPER` and `OP_SUPER_INVOKE`
use the value they pop as a class without testing it.  With `nil` or an int
as that value, and with a string object as that value, no runtime error is
raised and `run` does not return `INTERPRET_RUNTIME_ERROR`: the value is read
through `AS_CLASS` as a pointer to a class, which is undefined; nothing has
been written to the log. -/
theorem C23_super_target_is_not_checked (host : Host) :
    (runChunk host 50
      [OpCode.OP_NIL.byte, OpCode.OP_GET_SUPER.byte, 0, OpCode.OP_NIL.byte,
       OpCode.OP_RETURN.byte] [.inr (bytes "m")] freshVM).undefined?
      = some "AS_CLASS of a value that is not an object" ∧
    (runChunk host 50
      [OpCode.OP_NIL.byte, OpCode.OP_GET_SUPER.byte, 0, OpCode.OP_NIL.byte,
       OpCode.OP_RETURN.byte] [.inr (bytes "m")] freshVM).log = [] ∧
    (runChunk host 50
      [OpCode.OP_CONSTANT_INT.byte, 1, OpCode.OP_GET_SUPER.byte, 0, OpCode.OP_NIL.byte,
       OpCode.OP_RETURN.byte] [.inr (bytes "m"), .inl (.int 5)] freshVM).undefined?
      = some "AS_CLASS of a value that is not an object" ∧
    (runChunk host 50
      [OpCode.OP_NIL.byte, OpCode.OP_NIL.byte, OpCode.OP_SUPER_INVOKE.byte, 0, 0,
       OpCode.OP_NIL.byte, OpCode.OP_RETURN.byte] [.inr (bytes "m")] freshVM).undefined?
      = some "AS_CLASS of a value that is not an object" ∧
    (runChunk host 50
      [OpCode.OP_NIL.byte, OpCode.OP_NIL.byte, OpCode.OP_SUPER_INVOKE.byte, 0, 0,
       OpCode.OP_NIL.byte, OpCode.OP_RETURN.byte] [.inr (bytes "m")] freshVM).log = [] ∧
    (runChunk host 50
      [OpCode.OP_NIL.byte, OpCode.OP_CONSTANT.byte, 0, OpCode.OP_SUPER_INVOKE.byte, 0, 0,
       OpCode.OP_NIL.byte, OpCode.OP_RETURN.byte] [.inr (bytes "m")] freshVM).undefined?
      = some "use of an object that is not a class as a class" ∧
    (runChunk host 50
      [OpCode.OP_NIL.byte, OpCode.OP_CONSTANT.byte, 0, OpCode.OP_SUPER_INVOKE.byte, 0, 0,
       OpCode.OP_NIL.byte, OpCode.OP_RETURN.byte] [.inr (bytes "m")] freshVM).log = [] := by
  rw [runChunk_host host 50 _ [.inr (bytes "m")] freshVM (by decide!),
    runChunk_host host 50 _ [.inr (bytes "m"), .inl (.int 5)] freshVM (by decide!),
    runChunk_host host 50 _ [.inr (bytes "m")] freshVM (by decide!),
    runChunk_host host 50 _ [.inr (bytes "m")] freshVM (by decide!)]
  decide!

/-- C24: for a closure object whose function has arity `arity`, in a VM with at
most `FRAMES_MAX` frames and the callee and `k` arguments on the stack,
`call(closure, k)` returns true exactly when `k = arity` and
`frameCount < FRAMES_MAX`.  Then the frame count has grown by one, the stack
and its top are unchanged, and the new top frame holds the closure, the
instruction pointer 0 and the base `stackTop - k - 1`.  With `k` different
from the arity it raises the runtime error
`Expected <arity> arguments but got <k>.`; with the arity matched and
`frameCount = FRAMES_MAX` it raises `Stack overflow.`.  In both cases the
message is written; `call` then returns false, with the stack reset, where
`runtimeError` can write its backtrace, and where it cannot (the line table
has no entry for a live frame) what follows the message is undefined.
Whatever `call` returns, the frame count is at most `FRAMES_MAX` afterwards. -/
theorem C24_call_checks_arity_and_depth (closure k fnRef : Nat) (ups : List (Option Nat))
    (fn : ObjFunction) (s : St)
    (h1 : s.vm.heap.get? closure = some (.closure fnRef ups))
    (h2 : s.vm.heap.get? fnRef = some (.function fn))
    (hframes : s.vm.frameCount ≤ FRAMES_MAX) (hargs : k + 1 ≤ s.vm.stackTop) :
    ((∃ s1, call closure k s = .ok true s1) ↔ k = fn.arity ∧ s.vm.frameCount < FRAMES_MAX) ∧
    (k = fn.arity → s.vm.frameCount < FRAMES_MAX →
      ∃ s1, call closure k s = .ok true s1 ∧
        s1.vm.frameCount = s.vm.frameCount + 1 ∧
        s1.vm.stack = s.vm.stack ∧ s1.vm.stackTop = s.vm.stackTop ∧
        s1.vm.frames.get? s.vm.frameCount
          = some { closure := closure, ip := 0, slots := s.vm.stackTop - k - 1 } ∧
        s1.log = s.log) ∧
    (k ≠ fn.arity →
      call closure k s
        = s.raise "Expected %d arguments but got %d." [.int fn.arity, .int k] false) ∧
    (k = fn.arity → s.vm.frameCount = FRAMES_MAX →
      call closure k s = s.raise "Stack overflow." [] false) ∧
    (∀ format args,
      (s.raise format args false).log
        = s.log ++ [.runtimeError format args (backtrace s.vm s.vm.liveFrames).1] ∧
      (s.tracesBack = true →
        s.raise format args false = .ok false (s.afterRuntimeError format args)) ∧
      (s.tracesBack = false →
        s.raise format args false
          = .undefinedBehaviour "read outside chunk.lines" (s.afterMessage format args))) ∧
    (∀ r s1, call closure k s = .ok r s1 → s1.vm.frameCount ≤ FRAMES_MAX) := by
  have he := call_eq closure k fnRef ups fn s h1 h2
  have hs : ¬ s.vm.stackTop < k + 1 := by omega
  refine ⟨?_, ?_, ?_, ?_,
    fun format args => ⟨raise_log format args false s, raise_cases format args false s⟩, ?_⟩
  · constructor
    · rintro ⟨s1, hc⟩
      rw [he] at hc
      by_cases ha : k ≠ fn.arity
      · rw [if_pos ha] at hc
        exact Bool.noConfusion (raise_ok _ _ _ _ _ _ hc).1
      · rw [if_neg ha] at hc
        by_cases hm : s.vm.frameCount = FRAMES_MAX
        · rw [if_pos hm] at hc
          exact Bool.noConfusion (raise_ok _ _ _ _ _ _ hc).1
        · exact ⟨not_not.mp ha, by omega⟩
    · rintro ⟨ha, hm⟩
      have hm2 : s.vm.frameCount ≠ FRAMES_MAX := by omega
      rw [he, if_neg (not_not.mpr ha), if_neg hm2, if_neg hs]
      exact ⟨_, rfl⟩
  · intro ha hm
    have hm2 : s.vm.frameCount ≠ FRAMES_MAX := by omega
    rw [he, if_neg (not_not.mpr ha), if_neg hm2, if_neg hs]
    exact ⟨_, rfl, rfl, rfl, rfl, storeFrame_get _ _ _, rfl⟩
  · intro ha
    rw [he, if_pos ha]
  · intro ha hm
    rw [he, if_neg (not_not.mpr ha), if_pos hm]
  · intro r s1 hc
    rw [he] at hc
    by_cases ha : k ≠ fn.arity
    · rw [if_pos ha] at hc
      rw [(raise_ok _ _ _ _ _ _ hc).2]
      exact Nat.zero_le _
    · rw [if_neg ha] at hc
      by_cases hm : s.vm.frameCount = FRAMES_MAX
      · rw [if_pos hm] at hc
        rw [(raise_ok _ _ _ _ _ _ hc).2]
        exact Nat.zero_le _
      · rw [if_neg hm, if_neg hs] at hc
        injection hc with _ hc
        subst hc
        show s.vm.frameCount + 1 ≤ FRAMES_MAX
        omega

/-- C24, witness: a second call of the closure of a chunk (arity 0) with no
arguments, in the VM where `run` starts on that chunk. -/
theorem C24_call_checks_arity_and_depth_witness :
    ∃ s1, call 4 0 (loaded [OpCode.OP_NIL.byte, OpCode.OP_RETURN.byte] []) = .ok true s1 ∧
      s1.vm.frameCount = (loaded [OpCode.OP_NIL.byte, OpCode.OP_RETURN.byte] []).vm.frameCount + 1 ∧
      s1.vm.stack = (loaded [OpCode.OP_NIL.byte, OpCode.OP_RETURN.byte] []).vm.stack ∧
      s1.vm.stackTop = (loaded [OpCode.OP_NIL.byte, OpCode.OP_RETURN.byte] []).vm.stackTop ∧
      s1.vm.frames.get? (loaded [OpCode.OP_NIL.byte, OpCode.OP_RETURN.byte] []).vm.frameCount
        = some { closure := 4, ip := 0,
                 slots := (loaded [OpCode.OP_NIL.byte, OpCode.OP_RETURN.byte] []).vm.stackTop
                   - 0 - 1 } ∧
      s1.log = (loaded [OpCode.OP_NIL.byte, OpCode.OP_RETURN.byte] []).log :=
  (C24_call_checks_arity_and_depth 4 0 3 []
    (chunkFunction [OpCode.OP_NIL.byte, OpCode.OP_RETURN.byte] [])
    (loaded [OpCode.OP_NIL.byte, OpCode.OP_RETURN.byte] [])
    (by decide!) (by decide!) (by decide!) (by decide!)).2.1 (by decide!) (by decide!)

/-- C25: `callValue` on a class object `r` with `k` arguments on the stack
above the callee allocates an instance of `r` without fields and stores it in
the slot of the callee.  If the table of methods of the class binds the
string `init` to a closure, the result is that of `call` of this closure with
`k` arguments; if it binds nothing to `init`, the result is true, with no
frame pushed, when `k = 0`, and the runtime error
`Expected 0 arguments but got <k>.` is raised otherwise.  A callee that is no
object, or an object other than a bound method, class, closure or native
function, makes `callValue` raise the runtime error
`Can only call functions and classes.`.  A raised error writes its message;
`callValue` then returns false, with the stack reset, where `runtimeError` can
write its backtrace, and where it cannot what follows the message is
undefined. -/
theorem C25_callValue_on_a_class (host : Host) (r k name : Nat) (methods : Table) (s : St)
    (hk : s.vm.heap.get? r = some (.klass name methods)) (hargs : k + 1 ≤ s.vm.stackTop) :
    (s.withInstance r k).vm.heap.get? s.vm.heap.length = some (.inst r []) ∧
    (s.withInstance r k).vm.slot (s.vm.stackTop - 1 - k) = .obj s.vm.heap.length ∧
    (s.withInstance r k).vm.stackTop = s.vm.stackTop ∧
    (s.withInstance r k).vm.frameCount = s.vm.frameCount ∧
    (s.withInstance r k).log = s.log ∧
    (∀ initializer, tableGet methods s.vm.initString = some (.obj initializer) →
      callValue host (.obj r) k s = call initializer k (s.withInstance r k)) ∧
    (tableGet methods s.vm.initString = none → k = 0 →
      callValue host (.obj r) k s = .ok true (s.withInstance r k)) ∧
    (tableGet methods s.vm.initString = none → k ≠ 0 →
      callValue host (.obj r) k s
        = (s.withInstance r k).raise "Expected 0 arguments but got %d." [.int k] false) ∧
    (∀ v : Value, (∀ q, v = .obj q → ∃ o, s.vm.heap.get? q = some o ∧ o.callable = false) →
      callValue host v k s = s.raise "Can only call functions and classes." [] false) ∧
    (∀ (s0 : St) format args,
      (s0.raise format args false).log
        = s0.log ++ [.runtimeError format args (backtrace s0.vm s0.vm.liveFrames).1] ∧
      (s0.tracesBack = true →
        s0.raise format args false = .ok false (s0.afterRuntimeError format args)) ∧
      (s0.tracesBack = false →
        s0.raise format args false
          = .undefinedBehaviour "read outside chunk.lines" (s0.afterMessage format args))) := by
  have he := callValue_class host r k name methods s hk hargs
  refine ⟨?_, ?_, rfl, rfl, rfl, ?_, ?_, ?_, ?_,
    fun s0 format args => ⟨raise_log format args false s0, raise_cases format args false s0⟩⟩
  · simp [St.withInstance]
  · exact storeSlot_get _ _ _
  · intro initializer hi
    rw [he, hi]
  · intro hi h0
    rw [he, hi]
    simp only [h0, ne_eq, not_true_eq_false, if_false]
  · intro hi h0
    rw [he, hi]
    simp only [h0, ne_eq, not_false_eq_true, if_true]
  · intro v hv
    exact callValue_not_callable host v k s hv

/-- C25, witness: the call of the class `A` without methods and without
arguments, in the chunk `OP_CLASS 0`, `OP_CALL 0`. -/
theorem C25_callValue_on_a_class_witness :
    callValue plainHost (.obj 6) 0
        (afterSteps 1 (loaded [OpCode.OP_CLASS.byte, 0, OpCode.OP_CALL.byte, 0,
          OpCode.OP_NIL.byte, OpCode.OP_RETURN.byte] [.inr (bytes "A")]))
      = .ok true
        ((afterSteps 1 (loaded [OpCode.OP_CLASS.byte, 0, OpCode.OP_CALL.byte, 0,
          OpCode.OP_NIL.byte, OpCode.OP_RETURN.byte] [.inr (bytes "A")])).withInstance 6 0) :=
  (C25_callValue_on_a_class plainHost 6 0 3 []
    (afterSteps 1 (loaded [OpCode.OP_CLASS.byte, 0, OpCode.OP_CALL.byte, 0,
      OpCode.OP_NIL.byte, OpCode.OP_RETURN.byte] [.inr (bytes "A")]))
    (by decide!) (by decide!)).2.2.2.2.2.2.1 (by decide!) rfl

/-- C26: `valuesEqual` is false for two values of different tags (so for the
int 1 and any float, and for nil and false); for equal tags it is true for
nil, and for bool, int and object values it is true exactly when the payloads
are equal; for floats it is the equality of the C floating-point numbers.  It
is reflexive on every value that is not a float, and, the equality of C
floating-point numbers being symmetric, it is symmetric. -/
theorem C26_valuesEqual_by_tag_then_payload (host : Host) (a b : Value)
    (hsymm : ∀ x y, host.floatEq x y = host.floatEq y x) :
    (a.type ≠ b.type → valuesEqual host a b = false) ∧
    (∀ f, valuesEqual host (.int 1) (.float f) = false) ∧
    valuesEqual host .nil (.bool false) = false ∧
    valuesEqual host .nil .nil = true ∧
    (∀ x y : Bool, valuesEqual host (.bool x) (.bool y) = decide (x = y)) ∧
    (∀ x y : Int, valuesEqual host (.int x) (.int y) = decide (x = y)) ∧
    (∀ x y : Nat, valuesEqual host (.obj x) (.obj y) = decide (x = y)) ∧
    (∀ x y : FloatVal, valuesEqual host (.float x) (.float y) = host.floatEq x y) ∧
    valuesEqual host a b = valuesEqual host b a ∧
    ((∀ f, a ≠ .float f) → valuesEqual host a a = true) := by
  refine ⟨?_, ?_, ?_, ?_, ?_, ?_, ?_, ?_, ?_, ?_⟩
  · intro h
    simp [valuesEqual, h]
  · intro f
    simp [valuesEqual, Value.type]
  · simp [valuesEqual, Value.type]
  · simp [valuesEqual]
  · intro x y
    cases x <;> cases y <;> rfl
  · intro x y
    by_cases h : x = y <;> simp [valuesEqual, Value.type, h]
  · intro x y
    by_cases h : x = y <;> simp [valuesEqual, Value.type, h]
  · intro x y
    simp [valuesEqual, Value.type]
  · cases a <;> cases b <;> simp [valuesEqual, Value.type, hsymm, eq_comm]
  · intro h
    cases a with
    | float f => exact absurd rfl (h f)
    | _ => simp [valuesEqual]

/-- C26, witness: on a host whose float equality is the equality of terms. -/
theorem C26_valuesEqual_by_tag_then_payload_witness :
    valuesEqual plainHost (.obj 3) (.obj 4) = valuesEqual plainHost (.obj 4) (.obj 3) :=
  (C26_valuesEqual_by_tag_then_payload plainHost (.obj 3) (.obj 4)
    (fun x y => by simp [plainHost, eq_comm])).2.2.2.2.2.2.2.2.1

/-- C27: `isFalsey(v)` holds exactly when `v` is nil or the boolean false, so
the int 0, the float 0 and every object are truthy.  A round of the loop of
`run` at an `OP_JUMP_IF_FALSE` with the operand bytes `hi`, `lo` leaves the
instruction pointer behind the three bytes of the instruction, advanced by
`hi * 256 + lo` exactly when the top of the stack is falsey, goes on in the
same frame, and leaves the stack and its top as they were. -/
theorem C27_jump_if_false_tests_without_popping (host : Host) (frame : Nat) (s : St)
    (f : CallFrame) (fnRef : Nat) (ups : List (Option Nat)) (fn : ObjFunction) (hi lo : Nat)
    (hf : s.vm.frames.get? frame = some f)
    (h1 : s.vm.heap.get? f.closure = some (.closure fnRef ups))
    (h2 : s.vm.heap.get? fnRef = some (.function fn))
    (hop : fn.chunk.code.get? f.ip = some OpCode.OP_JUMP_IF_FALSE.byte)
    (hhi : fn.chunk.code.get? (f.ip + 1) = some hi)
    (hlo : fn.chunk.code.get? (f.ip + 2) = some lo)
    (htop : 1 ≤ s.vm.stackTop) :
    (∀ v, isFalsey v = true ↔ v = .nil ∨ v = .bool false) ∧
    isFalsey (.int 0) = false ∧ isFalsey (.float .zero) = false ∧
    (∀ r, isFalsey (.obj r) = false) ∧
    (∃ s1, step host frame s = .ok (.inl frame) s1 ∧
      s1.vm.frames.get? frame
        = some { f with ip := f.ip + 3 +
            (if isFalsey (s.vm.slot (s.vm.stackTop - 1)) then hi * 256 + lo else 0) } ∧
      s1.vm.stack = s.vm.stack ∧ s1.vm.stackTop = s.vm.stackTop ∧
      s1.vm.frameCount = s.vm.frameCount ∧ s1.log = s.log) := by
  refine ⟨isFalsey_iff, rfl, rfl, fun _ => rfl, ?_⟩
  have hr := withIp_rest s frame
    (f.ip + 3 + if isFalsey (s.vm.slot (s.vm.stackTop - 1)) then hi * 256 + lo else 0)
  exact ⟨_, step_jump_if_false host frame s f fnRef ups fn hi lo hf h1 h2 hop hhi hlo htop,
    withIp_frame s frame _ f hf, hr.1, hr.2.1, hr.2.2.1, hr.2.2.2.2⟩

/-- C27, witness: `OP_JUMP_IF_FALSE` with offset 1 and nil on top of the stack,
in the chunk `OP_NIL`, `OP_JUMP_IF_FALSE 0 1`, `OP_TRUE`, `OP_RETURN`. -/
theorem C27_jump_if_false_tests_without_popping_witness :
    ∃ s1, step plainHost 0
        (afterSteps 1 (loaded [OpCode.OP_NIL.byte, OpCode.OP_JUMP_IF_FALSE.byte, 0, 1,
          OpCode.OP_TRUE.byte, OpCode.OP_RETURN.byte] [])) = .ok (.inl 0) s1 ∧
      s1.vm.frames.get? 0
        = some { (⟨4, 1, 0⟩ : CallFrame) with ip := (⟨4, 1, 0⟩ : CallFrame).ip + 3 +
            (if isFalsey ((afterSteps 1 (loaded [OpCode.OP_NIL.byte,
                OpCode.OP_JUMP_IF_FALSE.byte, 0, 1, OpCode.OP_TRUE.byte,
                OpCode.OP_RETURN.byte] [])).vm.slot
              ((afterSteps 1 (loaded [OpCode.OP_NIL.byte, OpCode.OP_JUMP_IF_FALSE.byte, 0, 1,
                OpCode.OP_TRUE.byte, OpCode.OP_RETURN.byte] [])).vm.stackTop - 1))
            then 0 * 256 + 1 else 0) } ∧
      s1.vm.stack = (afterSteps 1 (loaded [OpCode.OP_NIL.byte, OpCode.OP_JUMP_IF_FALSE.byte,
        0, 1, OpCode.OP_TRUE.byte, OpCode.OP_RETURN.byte] [])).vm.stack ∧
      s1.vm.stackTop = (afterSteps 1 (loaded [OpCode.OP_NIL.byte,
        OpCode.OP_JUMP_IF_FALSE.byte, 0, 1, OpCode.OP_TRUE.byte,
        OpCode.OP_RETURN.byte] [])).vm.stackTop ∧
      s1.vm.frameCount = (afterSteps 1 (loaded [OpCode.OP_NIL.byte,
        OpCode.OP_JUMP_IF_FALSE.byte, 0, 1, OpCode.OP_TRUE.byte,
        OpCode.OP_RETURN.byte] [])).vm.frameCount ∧
      s1.log = (afterSteps 1 (loaded [OpCode.OP_NIL.byte, OpCode.OP_JUMP_IF_FALSE.byte, 0, 1,
        OpCode.OP_TRUE.byte, OpCode.OP_RETURN.byte] [])).log :=
  (C27_jump_if_false_tests_without_popping plainHost 0
    (afterSteps 1 (loaded [OpCode.OP_NIL.byte, OpCode.OP_JUMP_IF_FALSE.byte, 0, 1,
      OpCode.OP_TRUE.byte, OpCode.OP_RETURN.byte] []))
    ⟨4, 1, 0⟩ 3 []
    (chunkFunction [OpCode.OP_NIL.byte, OpCode.OP_JUMP_IF_FALSE.byte, 0, 1,
      OpCode.OP_TRUE.byte, OpCode.OP_RETURN.byte] []) 0 1
    (by decide!) (by decide!) (by decide!) (by decide!) (by decide!) (by decide!)
    (by decide!)).2.2.2.2

/-- C28: for a word that starts with a letter or an underscore, consists of
letters, digits and underscores, and is followed in the source by a byte that
is none of these (or by the end of the source), `scanToken` at the first byte
of the word returns a token whose bytes are the word and whose kind is the
kind the specification gives the word: the kind of the keyword when the word
is exactly one of the 18 keywords, each of which has its own kind, and
`IDENTIFIER` for every other word, such as `cl`, `classy`, `i`, `in`, `floats`
and `var`. -/
theorem C28_keywords_are_recognised_exactly (before lexeme rest : List Nat)
    (start line c : Nat) (t : List Nat)
    (hlex : lexeme = c :: t) (hc : isAlpha c = true)
    (hall : ∀ c ∈ lexeme, (isAlpha c || isDigit c) = true)
    (hrest : (isAlpha (rest.getD 0 0) || isDigit (rest.getD 0 0)) = false) :
    (scanToken (Scanner.mk (before ++ lexeme ++ rest) start before.length line)).1.type
      = specKeywordType lexeme ∧
    (scanToken (Scanner.mk (before ++ lexeme ++ rest) start before.length line)).1.lexeme
      = lexeme ∧
    (scanToken (Scanner.mk (before ++ lexeme ++ rest) start before.length line)).2.current
      = before.length + lexeme.length ∧
    (specKeywordType lexeme ≠ .TOKEN_IDENTIFIER ↔
      lexeme ∈ [bytes "class", bytes "else", bytes "false", bytes "for", bytes "fun", bytes "if",
        bytes "nil", bytes "or", bytes "and", bytes "print", bytes "return", bytes "super",
        bytes "this", bytes "true", bytes "while", bytes "int", bytes "float", bytes "string"]) ∧
    specKeywordType (bytes "class") = .TOKEN_CLASS ∧
    specKeywordType (bytes "else") = .TOKEN_ELSE ∧
    specKeywordType (bytes "false") = .TOKEN_FALSE ∧
    specKeywordType (bytes "for") = .TOKEN_FOR ∧
    specKeywordType (bytes "fun") = .TOKEN_FUN ∧
    specKeywordType (bytes "if") = .TOKEN_IF ∧
    specKeywordType (bytes "nil") = .TOKEN_NIL ∧
    specKeywordType (bytes "or") = .TOKEN_OR ∧
    specKeywordType (bytes "and") = .TOKEN_AND ∧
    specKeywordType (bytes "print") = .TOKEN_PRINT ∧
    specKeywordType (bytes "return") = .TOKEN_RETURN ∧
    specKeywordType (bytes "super") = .TOKEN_SUPER ∧
    specKeywordType (bytes "this") = .TOKEN_THIS ∧
    specKeywordType (bytes "true") = .TOKEN_TRUE ∧
    specKeywordType (bytes "while") = .TOKEN_WHILE ∧
    specKeywordType (bytes "int") = .TOKEN_INT ∧
    specKeywordType (bytes "float") = .TOKEN_FLOAT ∧
    specKeywordType (bytes "string") = .TOKEN_STRING ∧
    specKeywordType (bytes "cl") = .TOKEN_IDENTIFIER ∧
    specKeywordType (bytes "classy") = .TOKEN_IDENTIFIER ∧
    specKeywordType (bytes "i") = .TOKEN_IDENTIFIER ∧
    specKeywordType (bytes "in") = .TOKEN_IDENTIFIER ∧
    specKeywordType (bytes "floats") = .TOKEN_IDENTIFIER ∧
    specKeywordType (bytes "var") = .TOKEN_IDENTIFIER := by
  have hscan := scanToken_word before lexeme rest start line c t hlex hc hall hrest
  refine ⟨?_, ?_, ?_, ?_, by decide⟩
  · rw [hscan]
    rfl
  · rw [hscan]
    simp only [makeToken, Token.lexeme, atWordEnd, Nat.add_sub_cancel_left]
    simp
  · rw [hscan]
    rfl
  · constructor
    · intro hne
      by_contra hnot
      apply hne
      simp only [List.mem_cons, List.mem_singleton, List.not_mem_nil, or_false, not_or] at hnot
      obtain ⟨e0, e1, e2, e3, e4, e5, e6, e7, e8, e9, e10, e11, e12, e13, e14, e15, e16, e17⟩ := hnot
      simp only [specKeywordType, e0, e1, e2, e3, e4, e5, e6, e7, e8, e9, e10, e11, e12, e13, e14, e15, e16, e17, if_false]
    · intro hmem
      simp only [List.mem_cons, List.mem_singleton, List.not_mem_nil, or_false] at hmem
      rcases hmem with e | e | e | e | e | e | e | e | e | e | e | e | e | e | e | e | e | e <;>
        rw [e] <;> decide

/-- C28, witness: the word `class` at the start of the source `class A`. -/
theorem C28_keywords_are_recognised_exactly_witness :
    (scanToken (Scanner.mk ([] ++ bytes "class" ++ bytes " A") 0 ([] : List Nat).length 1)).1.type
      = specKeywordType (bytes "class") :=
  (C28_keywords_are_recognised_exactly [] (bytes "class") (bytes " A") 0 1 99
    (bytes "lass") (by decide) (by decide) (by decide) (by decide)).1

/-- C29 (the code departs from the claim): `emitJump` returns the count of the
chunk before the jump minus 2, not the position of the two placeholder bytes.
When `body` has been emitted after the jump, `patchJump` with that value
leaves the placeholder bytes 255, 255 as they are and overwrites the two bytes
in front of the jump opcode with the big-endian value of the length of `body`
plus 3; when fewer than two bytes precede the jump it writes in front of the
code array.  `if (1 < 2) print 1;` compiles without any error to a chunk in
which the operand of the second `OP_CONSTANT_INT` and the `OP_LESS` have been
overwritten, as have the operand of the third `OP_CONSTANT_INT` and the
`OP_PRINT`, and both jumps still have the operand 255, 255; compiling
`if (true) print 1;` writes in front of the code array. -/
theorem C29_patchJump_overwrites_the_bytes_before_the_jump (op : OpCode) (s s1 : St)
    (c c1 : Compiler) (rest rest1 : List Compiler) (body : List Nat)
    (hs : s.compilers = c :: rest) (hs1 : s1.compilers = c1 :: rest1)
    (hcode : c1.function.chunk.code = c.function.chunk.code ++ [op.byte, 255, 255] ++ body)
    (hn : body.length + 3 ≤ UINT16_MAX) :
    emitJump op s = .ok ((c.function.chunk.count : Int) - 2) (s.emit [op.byte, 255, 255]) ∧
    (∀ (front : List Nat) (x y : Nat), c.function.chunk.code = front ++ [x, y] →
      patchJump ((c.function.chunk.count : Int) - 2) s1 = .ok ()
        { s1 with compilers :=
            { c1 with function := { c1.function with chunk := { c1.function.chunk with
                code := front ++ [(body.length + 3) / 256, (body.length + 3) % 256]
                  ++ [op.byte, 255, 255] ++ body } } } :: rest1 }) ∧
    (c.function.chunk.count < 2 →
      patchJump ((c.function.chunk.count : Int) - 2) s1
        = .undefinedBehaviour "patchJump writes outside the code array" s1) ∧
    compiledCode (compile 200 (bytes "if (1 < 2) print 1;") freshVM)
      = [OpCode.OP_CONSTANT_INT.byte, 0, OpCode.OP_CONSTANT_INT.byte, 0, 10,
         OpCode.OP_JUMP_IF_FALSE.byte, 255, 255, OpCode.OP_POP.byte,
         OpCode.OP_CONSTANT_INT.byte, 0, 4, OpCode.OP_JUMP.byte, 255, 255, OpCode.OP_POP.byte,
         OpCode.OP_NIL.byte, OpCode.OP_RETURN.byte] ∧
    (compile 200 (bytes "if (1 < 2) print 1;") freshVM).log = [] ∧
    (compile 200 (bytes "if (true) print 1;") freshVM).undefined?
      = some "patchJump writes outside the code array" := by
  refine ⟨emitJump_eq op s c rest hs, ?_, ?_, by decide!, by decide!, by decide!⟩
  · intro front x y hfront
    have hc1 : c1.function.chunk.code = front ++ x :: y :: ([op.byte, 255, 255] ++ body) := by
      rw [hcode, hfront]
      simp
    have hcount : (c.function.chunk.count : Int) - 2 = (front.length : Int) := by
      simp only [Chunk.count, hfront, List.length_append, List.length_cons, List.length_nil]
      push_cast
      omega
    have hlen : ([op.byte, 255, 255] ++ body).length = body.length + 3 := by
      simp only [List.length_append, List.length_cons, List.length_nil]
      omega
    rw [hcount, patchJump_front s1 c1 rest1 front _ x y hs1 hc1 (by rw [hlen]; exact hn), hlen]
    simp
  · intro hlt
    apply patchJump_before_array s1 c1 rest1 _ hs1
    · omega
    · simp only [Chunk.count, hcode, List.length_append, List.length_cons, List.length_nil]
      simp only [Chunk.count] at hlt
      simp only [UINT16_MAX] at hn ⊢
      push_cast
      omega

/-- C29, witness: an `OP_JUMP` emitted after the two bytes 1, 0 and followed by
one byte, then patched. -/
theorem C29_patchJump_overwrites_the_bytes_before_the_jump_witness :
    patchJump (((emptyScript.emit [1, 0]).frame.function.chunk.count : Int) - 2)
        (emptyScript.emit [1, 0, OpCode.OP_JUMP.byte, 255, 255, 7])
      = .ok ()
        { emptyScript.emit [1, 0, OpCode.OP_JUMP.byte, 255, 255, 7] with compilers :=
            { (emptyScript.emit [1, 0, OpCode.OP_JUMP.byte, 255, 255, 7]).frame with
              function := { (emptyScript.emit [1, 0, OpCode.OP_JUMP.byte, 255, 255, 7]).frame.function with
                chunk := { (emptyScript.emit [1, 0, OpCode.OP_JUMP.byte, 255, 255, 7]).frame.function.chunk with
                  code := [] ++ [(([7] : List Nat).length + 3) / 256,
                      (([7] : List Nat).length + 3) % 256]
                    ++ [OpCode.OP_JUMP.byte, 255, 255] ++ [7] } } }
            :: (emptyScript.emit [1, 0, OpCode.OP_JUMP.byte, 255, 255, 7]).compilers.tail } :=
  (C29_patchJump_overwrites_the_bytes_before_the_jump .OP_JUMP (emptyScript.emit [1, 0])
    (emptyScript.emit [1, 0, OpCode.OP_JUMP.byte, 255, 255, 7])
    (emptyScript.emit [1, 0]).frame
    (emptyScript.emit [1, 0, OpCode.OP_JUMP.byte, 255, 255, 7]).frame
    (emptyScript.emit [1, 0]).compilers.tail
    (emptyScript.emit [1, 0, OpCode.OP_JUMP.byte, 255, 255, 7]).compilers.tail [7]
    (by decide!) (by decide!) (by decide!) (by decide!)).2.1 [] 1 0 (by decide!)

/-- C30: on a chunk with `count` bytes and for `loopStart ≤ count`, when
`count - loopStart + 3` is at most 65535 `emitLoop(loopStart)` appends exactly
the three bytes `OP_LOOP`, high byte, low byte of `count - loopStart + 3`; and
a round of the loop of `run` on a function whose code starts with the chunk's
code and these three bytes, with the instruction pointer at this `OP_LOOP`,
leaves the instruction pointer at `loopStart`, in the same frame and with the
stack as it was.  When `count - loopStart + 3` exceeds 65535, `emitLoop`
reports `Loop body too large.` (outside panic mode). -/
theorem C30_emitLoop_jumps_back_to_loopStart (host : Host) (loopStart : Nat) (s : St)
    (c : Compiler) (rest : List Compiler) (hs : s.compilers = c :: rest)
    (hle : loopStart ≤ c.function.chunk.count) :
    (c.function.chunk.count - loopStart + 3 ≤ UINT16_MAX →
      emitLoop loopStart s = .ok ()
        (s.emit [OpCode.OP_LOOP.byte, (c.function.chunk.count - loopStart + 3) / 256,
          (c.function.chunk.count - loopStart + 3) % 256]) ∧
      (s.emit [OpCode.OP_LOOP.byte, (c.function.chunk.count - loopStart + 3) / 256,
          (c.function.chunk.count - loopStart + 3) % 256]).code
        = s.code ++ [OpCode.OP_LOOP.byte, (c.function.chunk.count - loopStart + 3) / 256,
            (c.function.chunk.count - loopStart + 3) % 256] ∧
      (c.function.chunk.count - loopStart + 3) / 256 < 256 ∧
      ∀ (v : St) (frame : Nat) (f : CallFrame) (fnRef : Nat) (ups : List (Option Nat))
        (fn : ObjFunction) (tail : List Nat),
        v.vm.frames.get? frame = some f →
        v.vm.heap.get? f.closure = some (.closure fnRef ups) →
        v.vm.heap.get? fnRef = some (.function fn) →
        fn.chunk.code = c.function.chunk.code
          ++ [OpCode.OP_LOOP.byte, (c.function.chunk.count - loopStart + 3) / 256,
              (c.function.chunk.count - loopStart + 3) % 256] ++ tail →
        f.ip = c.function.chunk.count →
        ∃ v1, step host frame v = .ok (.inl frame) v1 ∧
          v1.vm.frames.get? frame = some { f with ip := loopStart } ∧
          v1.vm.stack = v.vm.stack ∧ v1.vm.stackTop = v.vm.stackTop ∧
          v1.vm.frameCount = v.vm.frameCount ∧ v1.log = v.log) ∧
    (c.function.chunk.count - loopStart + 3 > UINT16_MAX → s.parser.panicMode = false →
      emitLoop loopStart s = .exit TokenType.TOKEN_ERROR.code
        { s.emit [OpCode.OP_LOOP.byte] with
          parser := { s.parser with panicMode := true },
          log := s.log ++ [.error "Loop body too large.",
            .errorAt s.parser.previous.line s.parser.previous.type
              s.parser.previous.lexeme] }) := by
  have hcur : s.compilers ≠ [] := by simp [hs]
  refine ⟨?_, ?_⟩
  · intro hfit
    have h256 : (c.function.chunk.count - loopStart + 3) / 256 < 256 := by
      simp only [UINT16_MAX] at hfit
      omega
    refine ⟨emitLoop_eq loopStart s c rest hs hle hfit, emit_code _ _ hcur, h256, ?_⟩
    intro v frame f fnRef ups fn tail hf h1 h2 hcode hip
    have hget : ∀ (j : Nat) (b : Nat),
        ([OpCode.OP_LOOP.byte, (c.function.chunk.count - loopStart + 3) / 256,
          (c.function.chunk.count - loopStart + 3) % 256] ++ tail).get? j = some b →
        fn.chunk.code.get? (f.ip + j) = some b := by
      intro j b hj
      rw [hcode, hip, List.append_assoc, List.get?_eq_getElem?]
      rw [List.getElem?_append_right (by simp [Chunk.count])]
      simp only [Chunk.count, Nat.add_sub_cancel_left]
      rw [← List.get?_eq_getElem?]
      exact hj
    have hsum : (c.function.chunk.count - loopStart + 3) / 256 * 256
        + (c.function.chunk.count - loopStart + 3) % 256
        = c.function.chunk.count - loopStart + 3 := Nat.div_add_mod' _ _
    have hstep := step_loop host frame v f fnRef ups fn _ _ hf h1 h2 (hget 0 _ rfl)
      (hget 1 _ rfl) (hget 2 _ rfl) (by rw [hsum, hip]; omega)
    have htarget : f.ip + 3 - ((c.function.chunk.count - loopStart + 3) / 256 * 256
        + (c.function.chunk.count - loopStart + 3) % 256) = loopStart := by
      rw [hsum, hip]
      omega
    rw [htarget] at hstep
    have hr := withIp_rest v frame loopStart
    exact ⟨_, hstep, withIp_frame v frame _ f hf, hr.1, hr.2.1, hr.2.2.1, hr.2.2.2.2⟩
  · intro hbig hpanic
    exact emitLoop_too_large loopStart s c rest hs hle hbig hpanic

/-- C30, witness: `emitLoop(0)` on a chunk of two bytes. -/
theorem C30_emitLoop_jumps_back_to_loopStart_witness :
    emitLoop 0 (emptyScript.emit [4, 7]) = .ok ()
      ((emptyScript.emit [4, 7]).emit
        [OpCode.OP_LOOP.byte,
         ((emptyScript.emit [4, 7]).frame.function.chunk.count - 0 + 3) / 256,
         ((emptyScript.emit [4, 7]).frame.function.chunk.count - 0 + 3) % 256]) :=
  ((C30_emitLoop_jumps_back_to_loopStart plainHost 0 (emptyScript.emit [4, 7])
    (emptyScript.emit [4, 7]).frame (emptyScript.emit [4, 7]).compilers.tail
    (by decide!) (by decide!)).1 (by decide!)).1

/-- C31 (the code departs from the claim): the case of `OP_SET_GLOBAL` reads no
operand: it leaves the state, the instruction pointer included, as it is.  The
compiler emits `OP_SET_GLOBAL` with a one-byte operand, and that operand is
decoded as the next opcode: in `int x = 1; x = 2; print x;` the operand 2 of
`OP_SET_GLOBAL` is executed as `OP_CONSTANT_FLOAT` with the following
`OP_POP` byte 7 as its operand, which is no index of the constant pool; and in
the chunk `OP_TRUE`, `OP_SET_GLOBAL 45` the operand 45 is executed as
`OP_PRINT` and prints `true`. -/
theorem C31_set_global_leaves_its_operand_to_be_decoded (host : Host) :
    (∀ (frame : Nat) (s : St), execute host frame .OP_SET_GLOBAL s = .ok (.inl frame) s) ∧
    compiledCode (compile 200 (bytes "int x = 1; x = 2; print x;") freshVM)
      = [OpCode.OP_CONSTANT_INT.byte, 1, OpCode.OP_DEFINE_GLOBAL.byte, 0,
         OpCode.OP_CONSTANT_INT.byte, 3, OpCode.OP_SET_GLOBAL.byte, 2, OpCode.OP_POP.byte,
         OpCode.OP_GET_GLOBAL.byte, 4, OpCode.OP_PRINT.byte, OpCode.OP_NIL.byte,
         OpCode.OP_RETURN.byte] ∧
    OpCode.ofByte 2 = some .OP_CONSTANT_FLOAT ∧
    (interpret host 200 (bytes "int x = 1; x = 2; print x;") freshVM).undefined?
      = some "constant index outside the constant pool" ∧
    (interpret host 200 (bytes "int x = 1; x = 2; print x;") freshVM).log = [] ∧
    (runChunk host 50
      [OpCode.OP_TRUE.byte, OpCode.OP_SET_GLOBAL.byte, 45, OpCode.OP_NIL.byte,
       OpCode.OP_RETURN.byte] [] freshVM).value? = some .INTERPRET_OK ∧
    (runChunk host 50
      [OpCode.OP_TRUE.byte, OpCode.OP_SET_GLOBAL.byte, 45, OpCode.OP_NIL.byte,
       OpCode.OP_RETURN.byte] [] freshVM).log = [.print (.text (bytes "true"))] := by
  refine ⟨fun _ _ => rfl, ?_⟩
  rw [interpret_host host 200 _ freshVM (by decide!),
    runChunk_host host 50 _ [] freshVM (by decide!)]
  decide!

/-- C32 (the code departs from the claim): `writeChunk` appends the byte to the
code vector and leaves the line vector as it is, so after any sequence of
writes to a fresh chunk the line vector is still empty while the code vector
holds the bytes written.  The chunk `compile` produces for `print -true;` has
five code bytes and no line entry, and the backtrace of the runtime error of
that program reads outside the line vector. -/
theorem C32_writeChunk_never_writes_lines (host : Host) (chunk : Chunk) (byte line : Nat)
    (writes : List (Nat × Nat)) :
    (writeChunk chunk byte line).count = chunk.count + 1 ∧
    (writeChunk chunk byte line).code = chunk.code ++ [byte] ∧
    (writeChunk chunk byte line).lines = chunk.lines ∧
    (writes.foldl (fun ch w => writeChunk ch w.1 w.2) initChunk).code = writes.map (fun w => w.1) ∧
    (writes.foldl (fun ch w => writeChunk ch w.1 w.2) initChunk).lines = [] ∧
    ((functionAt (compile 200 (bytes "print -true;") freshVM).stateOr 3).map
      (fun f => (f.chunk.code.length, f.chunk.lines))) = some (5, []) ∧
    (interpret host 200 (bytes "print -true;") freshVM).log
      = [.runtimeError "Operand must be a number." [] []] ∧
    (interpret host 200 (bytes "print -true;") freshVM).undefined?
      = some "read outside chunk.lines" := by
  have hfold : ∀ (ws : List (Nat × Nat)) (ch : Chunk),
      (ws.foldl (fun ch w => writeChunk ch w.1 w.2) ch).code = ch.code ++ ws.map (fun w => w.1) ∧
      (ws.foldl (fun ch w => writeChunk ch w.1 w.2) ch).lines = ch.lines := by
    intro ws
    induction ws with
    | nil => intro ch; simp
    | cons w ws ih =>
      intro ch
      have h := ih (writeChunk ch w.1 w.2)
      simp only [List.foldl_cons, List.map_cons]
      refine ⟨?_, ?_⟩
      · rw [h.1]
        simp [writeChunk]
      · rw [h.2]
        rfl
  refine ⟨?_, rfl, rfl, ?_, ?_, ?_⟩
  · simp [writeChunk, Chunk.count]
  · simpa [initChunk] using (hfold writes initChunk).1
  · simpa [initChunk] using (hfold writes initChunk).2
  · rw [interpret_host host 200 _ freshVM (by decide!)]
    decide!

/-- C33 (the code departs from the claim): `literal` and `variable` do not
assign `parser.currentType`, which keeps the type of an earlier literal.
After `1; nil;`, `1; true;` and `int x = 1; 2.5; x;` the type recorded for the
last expression is int, int and float.  In
`int x = 1; float y = 2.5; print x + x;` both operands of the addition have
the recorded type float, left by `2.5`: the addition is compiled to
`OP_ADD_FLOAT`, and running the program raises the runtime error of
`BINARY_OP_FLOAT`. -/
theorem C33_currentType_is_left_from_an_earlier_literal (host : Host) :
    (compile 200 (bytes "1; nil;") freshVM).stateOr.parser.currentType = .VAL_INT ∧
    (compile 200 (bytes "1; true;") freshVM).stateOr.parser.currentType = .VAL_INT ∧
    (compile 200 (bytes "int x = 1; 2.5; x;") freshVM).stateOr.parser.currentType
      = .VAL_FLOAT ∧
    compiled (compile 200 (bytes "int x = 1; float y = 2.5; print x + x;") freshVM) = true ∧
    compiledCode (compile 200 (bytes "int x = 1; float y = 2.5; print x + x;") freshVM)
      = [OpCode.OP_CONSTANT_INT.byte, 1, OpCode.OP_DEFINE_GLOBAL.byte, 0,
         OpCode.OP_CONSTANT_FLOAT.byte, 3, OpCode.OP_DEFINE_GLOBAL.byte, 2,
         OpCode.OP_GET_GLOBAL.byte, 4, OpCode.OP_GET_GLOBAL.byte, 5,
         OpCode.OP_ADD_FLOAT.byte, OpCode.OP_PRINT.byte, OpCode.OP_NIL.byte,
         OpCode.OP_RETURN.byte] ∧
    (interpret host 200 (bytes "int x = 1; float y = 2.5; print x + x;") freshVM).undefined?
      = some "read outside chunk.lines" ∧
    (interpret host 200 (bytes "int x = 1; float y = 2.5; print x + x;") freshVM).log
      = [.runtimeError "From BINARY_OP_FLOAT. Operands must be numbers." [] []] := by
  rw [interpret_host host 200 _ freshVM (by decide!)]
  decide!

/-- C34: `expression` at the text `a op1 b op2 c;` (blanks in any number
between the tokens), for all integer literals `a`, `b` and `c`, in a chunk
with room for three constants.  With enough fuel it returns and has appended
to the code: for `a + b * c` the code for a, b, c, then `OP_MULTIPLY_INT`,
then `OP_ADD_INT`; for `a * b + c` the code for a, b, `OP_MULTIPLY_INT`, the
code for c, `OP_ADD_INT`; for `a - b - c` the code for a, b,
`OP_SUBTRACT_INT`, the code for c, `OP_SUBTRACT_INT`.  The code for a literal
is `OP_CONSTANT_INT` with the index of its constant, and the three values are
appended to the constant pool in the order a, b, c. -/
theorem C34_operators_associate_left_and_bind_by_precedence (n : Nat) (gaps : Nat → Nat)
    (a b c rest : List Nat) (s : St)
    (ha : intLiteral a = true) (hb : intLiteral b = true) (hc : intLiteral c = true) :
    (atLiteral s a (infixText gaps a 43 b 42 c rest) →
      ∃ s1, expression (n + 11) s = .ok () s1 ∧
        s1.code = s.code ++ (s.constantInt 0 ++ s.constantInt 1 ++ s.constantInt 2 ++
          [OpCode.OP_MULTIPLY_INT.byte, OpCode.OP_ADD_INT.byte]) ∧
        s1.constants = s.constants ++
          [.int (strtolDigits a 0), .int (strtolDigits b 0), .int (strtolDigits c 0)]) ∧
    (atLiteral s a (infixText gaps a 42 b 43 c rest) →
      ∃ s1, expression (n + 11) s = .ok () s1 ∧
        s1.code = s.code ++ (s.constantInt 0 ++ s.constantInt 1 ++
          [OpCode.OP_MULTIPLY_INT.byte] ++ s.constantInt 2 ++ [OpCode.OP_ADD_INT.byte]) ∧
        s1.constants = s.constants ++
          [.int (strtolDigits a 0), .int (strtolDigits b 0), .int (strtolDigits c 0)]) ∧
    (atLiteral s a (infixText gaps a 45 b 45 c rest) →
      ∃ s1, expression (n + 11) s = .ok () s1 ∧
        s1.code = s.code ++ (s.constantInt 0 ++ s.constantInt 1 ++
          [OpCode.OP_SUBTRACT_INT.byte] ++ s.constantInt 2 ++ [OpCode.OP_SUBTRACT_INT.byte]) ∧
        s1.constants = s.constants ++
          [.int (strtolDigits a 0), .int (strtolDigits b 0), .int (strtolDigits c 0)]) := by
  refine ⟨?_, ?_, ?_⟩
  · intro h
    obtain ⟨hty, hmin, hmax, hv, t1, t2, t3, t4, t5, sc1, sc2, sc3, sc4, sc5, e1, p1, ty1, e2, p2,
      ty2, m2, x2, v2, e3, p3, ty3, e4, p4, ty4, m4, x4, v4, e5, p5, ty5⟩ :=
      tokens_of_infixText gaps a b c rest 43 42 s h ha hb hc (by decide) (by decide)
    simp only [if_true, reduceCtorEq, Nat.reduceEqDiff, if_false] at ty1 ty3
    obtain ⟨s1, hrun, happ, _⟩ :=
      parse_tighter_right n s t1 t2 t3 t4 t5 sc1 sc2 sc3 sc4 sc5 .OP_ADD_INT .OP_MULTIPLY_INT
        h.1 h.2.1 h.2.2.1 hty hmin hmax e1 p1 (by rw [ty1]; rfl) e2 p2 ty2 m2 x2 e3 p3
        (by rw [ty3]; rfl) e4 p4 ty4 m4 x4 e5 p5 ty5 (by rw [ty1, ty3]; decide)
    refine ⟨s1, by rw [expression]; exact hrun, ?_, ?_⟩
    · rw [happ.2.2.1]
      rfl
    · rw [happ.2.2.2.1, hv, v2, v4]
  · intro h
    obtain ⟨hty, hmin, hmax, hv, t1, t2, t3, t4, t5, sc1, sc2, sc3, sc4, sc5, e1, p1, ty1, e2, p2,
      ty2, m2, x2, v2, e3, p3, ty3, e4, p4, ty4, m4, x4, v4, e5, p5, ty5⟩ :=
      tokens_of_infixText gaps a b c rest 42 43 s h ha hb hc (by decide) (by decide)
    simp only [if_true, reduceCtorEq, Nat.reduceEqDiff, if_false] at ty1 ty3
    obtain ⟨s1, hrun, happ, _⟩ :=
      parse_left_associative (n + 3) s t1 t2 t3 t4 t5 sc1 sc2 sc3 sc4 sc5 .OP_MULTIPLY_INT
        .OP_ADD_INT
        h.1 h.2.1 h.2.2.1 hty hmin hmax e1 p1 (by rw [ty1]; rfl) e2 p2 ty2 m2 x2 e3 p3
        (by rw [ty3]; rfl) e4 p4 ty4 m4 x4 e5 p5 ty5 (by rw [ty1, ty3]; decide)
    refine ⟨s1, by rw [expression]; exact hrun, ?_, ?_⟩
    · rw [happ.2.2.1]
      rfl
    · rw [happ.2.2.2.1, hv, v2, v4]
  · intro h
    obtain ⟨hty, hmin, hmax, hv, t1, t2, t3, t4, t5, sc1, sc2, sc3, sc4, sc5, e1, p1, ty1, e2, p2,
      ty2, m2, x2, v2, e3, p3, ty3, e4, p4, ty4, m4, x4, v4, e5, p5, ty5⟩ :=
      tokens_of_infixText gaps a b c rest 45 45 s h ha hb hc (by decide) (by decide)
    simp only [if_true, reduceCtorEq, Nat.reduceEqDiff, if_false] at ty1 ty3
    obtain ⟨s1, hrun, happ, _⟩ :=
      parse_left_associative (n + 3) s t1 t2 t3 t4 t5 sc1 sc2 sc3 sc4 sc5 .OP_SUBTRACT_INT
        .OP_SUBTRACT_INT
        h.1 h.2.1 h.2.2.1 hty hmin hmax e1 p1 (by rw [ty1]; rfl) e2 p2 ty2 m2 x2 e3 p3
        (by rw [ty3]; rfl) e4 p4 ty4 m4 x4 e5 p5 ty5 (by rw [ty1, ty3])
    refine ⟨s1, by rw [expression]; exact hrun, ?_, ?_⟩
    · rw [happ.2.2.1]
      rfl
    · rw [happ.2.2.2.1, hv, v2, v4]

/-- C34, witness: the three expressions `1 + 2 * 3`, `20*3 +4` and `8 - 2 - 3`, each at
the start of a script and followed by a semicolon. -/
theorem C34_operators_associate_left_and_bind_by_precedence_witness :
    (∃ s1, expression 11 (enterScript (bytes "1 + 2 * 3;") freshVM).stateOr = .ok () s1 ∧
      s1.code = [OpCode.OP_CONSTANT_INT.byte, 0, OpCode.OP_CONSTANT_INT.byte, 1,
        OpCode.OP_CONSTANT_INT.byte, 2, OpCode.OP_MULTIPLY_INT.byte, OpCode.OP_ADD_INT.byte] ∧
      s1.constants = [.int 1, .int 2, .int 3]) ∧
    (∃ s1, expression 11 (enterScript (bytes "20*3 +4;") freshVM).stateOr = .ok () s1 ∧
      s1.code = [OpCode.OP_CONSTANT_INT.byte, 0, OpCode.OP_CONSTANT_INT.byte, 1,
        OpCode.OP_MULTIPLY_INT.byte, OpCode.OP_CONSTANT_INT.byte, 2, OpCode.OP_ADD_INT.byte] ∧
      s1.constants = [.int 20, .int 3, .int 4]) ∧
    (∃ s1, expression 11 (enterScript (bytes "8 - 2 - 3;") freshVM).stateOr = .ok () s1 ∧
      s1.code = [OpCode.OP_CONSTANT_INT.byte, 0, OpCode.OP_CONSTANT_INT.byte, 1,
        OpCode.OP_SUBTRACT_INT.byte, OpCode.OP_CONSTANT_INT.byte, 2,
        OpCode.OP_SUBTRACT_INT.byte] ∧
      s1.constants = [.int 8, .int 2, .int 3]) := by
  refine ⟨?_, ?_, ?_⟩
  · obtain ⟨s1, h1, h2, h3⟩ :=
      (C34_operators_associate_left_and_bind_by_precedence 0 (fun i => if i = 4 then 0 else 1) (bytes "1") (bytes "2")
        (bytes "3") [] (enterScript (bytes "1 + 2 * 3;") freshVM).stateOr
        (by decide) (by decide) (by decide)).1 (by decide!)
    refine ⟨s1, h1, ?_, ?_⟩
    · rw [h2]
      decide!
    · rw [h3]
      decide!
  · obtain ⟨s1, h1, h2, h3⟩ :=
      (C34_operators_associate_left_and_bind_by_precedence 0 (fun i => if i = 2 then 1 else 0)
        (bytes "20") (bytes "3") (bytes "4") []
        (enterScript (bytes "20*3 +4;") freshVM).stateOr
        (by decide) (by decide) (by decide)).2.1 (by decide!)
    refine ⟨s1, h1, ?_, ?_⟩
    · rw [h2]
      decide!
    · rw [h3]
      decide!
  · obtain ⟨s1, h1, h2, h3⟩ :=
      (C34_operators_associate_left_and_bind_by_precedence 0 (fun i => if i = 4 then 0 else 1) (bytes "8") (bytes "2")
        (bytes "3") [] (enterScript (bytes "8 - 2 - 3;") freshVM).stateOr
        (by decide) (by decide) (by decide)).2.2 (by decide!)
    refine ⟨s1, h1, ?_, ?_⟩
    · rw [h2]
      decide!
    · rw [h3]
      decide!

/-- C35: `resolveUpvalue` called for frame `k` of the chain of compilers, with
`name` a local `i` of the enclosing frame `m` and of no frame between `k` and
`m`, and with room for one more descriptor in every frame from `k` up to the
one below `m`.  It returns a position `pos k` and changes only the frames `k`
to `m`: local `i` of frame `m` is marked captured; the frame directly inside
`m` has the descriptor (index `i`, isLocal true) at its position; every frame
`j` further down to `k` has the descriptor (index `pos (j + 1)`, isLocal false)
at position `pos j`, where `pos (j + 1)` is the position of the descriptor of
the frame that encloses it.  And in any state in which no frame that encloses
`k` has `name` as a local, `resolveUpvalue` returns -1 and leaves the state as
it was. -/
theorem C35_resolveUpvalue_builds_the_chain_of_descriptors (name : Token) (n k m i : Nat)
    (s : St) (owner : Compiler) (hkm : k < m) (hm : s.compilers.get? m = some owner)
    (hloc : resolveLocal owner name = (i : Int)) (hcount : owner.localCount ≤ UINT8_COUNT)
    (hbetween : ∀ j cj, k < j → j < m → s.compilers.get? j = some cj →
      resolveLocal cj name = -1)
    (hroom : ∀ j cj, k ≤ j → j < m → s.compilers.get? j = some cj →
      cj.function.upvalueCount < UINT8_COUNT ∧ cj.function.upvalueCount ≤ cj.upvalues.length)
    (hfuel : m - k ≤ n) :
    (∃ (pos : Nat → Nat) (frames : List Compiler),
      resolveUpvalue n k name s = .ok (pos k : Int) { s with compilers := frames } ∧
      frames.length = s.compilers.length ∧
      (∀ j, j < k ∨ m < j → frames.get? j = s.compilers.get? j) ∧
      frames.get? m = some (owner.withCaptured i) ∧
      ((owner.withCaptured i).locals.get? i).map (fun l => l.isCaptured) = some true ∧
      ∀ j, k ≤ j → j < m →
        pos j < UINT8_COUNT ∧
        ∃ cj cj1, s.compilers.get? j = some cj ∧ frames.get? j = some cj1 ∧
          cj1.descriptors.get? (pos j)
            = some (if j + 1 = m then ⟨i, true⟩ else ⟨pos (j + 1), false⟩) ∧
          cj1.locals = cj.locals) ∧
    (∀ s2 : St, s2.compilers.length ≤ n + k →
      (∀ j cj, k < j → s2.compilers.get? j = some cj → resolveLocal cj name = -1) →
      resolveUpvalue n k name s2 = .ok (-1) s2) := by
  obtain ⟨d, rfl⟩ : ∃ d, m = k + d + 1 := ⟨m - k - 1, by omega⟩
  refine ⟨?_, fun s2 h2 hall => resolveUpvalue_none name n k s2 (by omega) h2 hall⟩
  obtain ⟨pos, frames, h1, h2, h3, h4, h5⟩ :=
    resolveUpvalue_found name i owner d n k s hm hloc hcount hbetween hroom (by omega)
  refine ⟨pos, frames, h1, h2, h3, h4, ?_, h5⟩
  obtain ⟨_, ⟨l, hl, _⟩, _⟩ := (resolveLocalFrom_some owner.locals name owner.localCount i).mp hloc
  rw [List.get?_eq_getElem?] at hl
  simp only [Compiler.withCaptured, List.get?_eq_getElem?, List.getElem?_modify, hl, if_true]
  rfl

/-- C35, witness: inside the body of a function declared at top level, the name
`this` is local 0 of the frame of the script, which encloses the frame of the
function. -/
theorem C35_resolveUpvalue_builds_the_chain_of_descriptors_witness :
    ∃ (pos : Nat → Nat) (frames : List Compiler),
      resolveUpvalue 1 0 (syntheticToken "this") insideFunction
        = .ok (pos 0 : Int) { insideFunction with compilers := frames } ∧
      frames.get? 1 = some ((insideFunction.frameAt 1).withCaptured 0) ∧
      ∃ c1, frames.get? 0 = some c1 ∧ c1.descriptors.get? (pos 0) = some ⟨0, true⟩ := by
  have h0 : insideFunction.compilers.get? 0 = some (insideFunction.frameAt 0) := by decide!
  obtain ⟨pos, frames, h1, _, _, h4, _, h5⟩ :=
    (C35_resolveUpvalue_builds_the_chain_of_descriptors (syntheticToken "this") 1 0 1 0
      insideFunction (insideFunction.frameAt 1)
      (by decide) (by decide!) (by decide!) (by decide!)
      (fun j cj h1 h2 _ => absurd h1 (by omega))
      (fun j cj h1 h2 hj => by
        have hj0 : j = 0 := by omega
        subst hj0
        have h2 : cj = insideFunction.frameAt 0 := Option.some.inj (hj.symm.trans h0)
        rw [h2]
        decide!)
      (by decide)).1
  obtain ⟨_, cj, cj1, _, hc, hd, _⟩ := h5 0 (Nat.le_refl 0) (by decide)
  rw [if_pos rfl] at hd
  exact ⟨pos, frames, h1, h4, cj1, hc, hd⟩

/-- C36: `addUpvalue` on a frame, with `descriptors` the first `upvalueCount`
entries of its array.  Called with a pair that is among the descriptors, it
returns the position of the first such descriptor and changes nothing.  Called
with a pair that is not among them, it appends the pair, adds one to
`upvalueCount` and returns the old `upvalueCount` (the position of the new
descriptor) when `upvalueCount` is below `UINT8_COUNT`, and reports `Too many closure variables in function.` (outside
panic mode) when `upvalueCount` is `UINT8_COUNT`.  If no two descriptors of the
frame are equal before the call, none are after it. -/
theorem C36_addUpvalue_deduplicates (k index : Nat) (isLocal : Bool) (s : St) (c : Compiler)
    (hk : s.compilers.get? k = some c) :
    (∀ p, c.descriptors.get? p = some ⟨index, isLocal⟩ →
      (∀ q, q < p → c.descriptors.get? q ≠ some ⟨index, isLocal⟩) →
      addUpvalue k index isLocal s = .ok (p : Int) s) ∧
    ((⟨index, isLocal⟩ : Upvalue) ∉ c.descriptors → c.function.upvalueCount < UINT8_COUNT →
      addUpvalue k index isLocal s = .ok (c.function.upvalueCount : Int)
        { s with compilers := s.compilers.set k (c.withUpvalue ⟨index, isLocal⟩) } ∧
      (c.withUpvalue ⟨index, isLocal⟩).descriptors = c.descriptors ++ [⟨index, isLocal⟩] ∧
      (c.withUpvalue ⟨index, isLocal⟩).function.upvalueCount = c.function.upvalueCount + 1 ∧
      (c.function.upvalueCount ≤ c.upvalues.length →
        (c.withUpvalue ⟨index, isLocal⟩).descriptors.get? c.function.upvalueCount
          = some ⟨index, isLocal⟩)) ∧
    ((⟨index, isLocal⟩ : Upvalue) ∉ c.descriptors → c.function.upvalueCount = UINT8_COUNT →
      s.parser.panicMode = false →
      addUpvalue k index isLocal s = .exit TokenType.TOKEN_ERROR.code
        { s with parser := { s.parser with panicMode := true },
                 log := s.log ++ [.error "Too many closure variables in function.",
                   .errorAt s.parser.previous.line s.parser.previous.type
                     s.parser.previous.lexeme] }) ∧
    (c.descriptors.Nodup → ∀ r s1, addUpvalue k index isLocal s = .ok r s1 →
      ∃ c1, s1.compilers.get? k = some c1 ∧ c1.descriptors.Nodup) := by
  have he := addUpvalue_eq k index isLocal s c hk
  have hlt : k < s.compilers.length := (List.get?_eq_some.mp hk).1
  refine ⟨?_, ?_, ?_, ?_⟩
  · intro p hp hq
    have hf : findUpvalue c.descriptors index isLocal 0 = some p :=
      (findUpvalue_some _ _ _ 0 p).mpr ⟨p, by omega, hp, hq⟩
    rw [he, hf]
  · intro hnot hroom
    have hf := (findUpvalue_none c.descriptors index isLocal 0).mpr hnot
    have hne : c.function.upvalueCount ≠ UINT8_COUNT := by omega
    refine ⟨?_, withUpvalue_descriptors c _, rfl, ?_⟩
    · rw [he, hf]
      simp only [hne, if_false]
    · intro hwritten
      have hlen : c.descriptors.length = c.function.upvalueCount := by
        simp only [Compiler.descriptors, List.length_take]
        omega
      rw [withUpvalue_descriptors, ← hlen]
      exact get?_append_last _ _
  · intro hnot hfull hpanic
    have hf := (findUpvalue_none c.descriptors index isLocal 0).mpr hnot
    rw [he, hf]
    simp only [hfull, if_true, error_exits _ _ hpanic]
  · intro hnd r s1 hrun
    rw [he] at hrun
    cases hf : findUpvalue c.descriptors index isLocal 0 with
    | some i =>
      rw [hf] at hrun
      injection hrun with _ hs
      subst hs
      exact ⟨c, hk, hnd⟩
    | none =>
      rw [hf] at hrun
      simp only [] at hrun
      have hnot := (findUpvalue_none c.descriptors index isLocal 0).mp hf
      by_cases hfull : c.function.upvalueCount = UINT8_COUNT
      · rw [if_pos hfull] at hrun
        cases herr : error "Too many closure variables in function." s with
        | ok u s2 =>
          rw [herr] at hrun
          injection hrun with _ hs
          subst hs
          have := error_ok_compilers _ s s2 herr
          exact ⟨c, by rw [this]; exact hk, hnd⟩
        | exit code s2 =>
          rw [herr] at hrun
          exact Res.noConfusion hrun
        | undefinedBehaviour w s2 =>
          rw [herr] at hrun
          exact Res.noConfusion hrun
        | outOfFuel =>
          rw [herr] at hrun
          exact Res.noConfusion hrun
      · rw [if_neg hfull] at hrun
        injection hrun with _ hs
        subst hs
        refine ⟨c.withUpvalue ⟨index, isLocal⟩, ?_, ?_⟩
        · show (s.compilers.set k _).get? k = _
          rw [List.get?_eq_getElem?, List.getElem?_set_self hlt]
        · rw [withUpvalue_descriptors]
          exact List.Nodup.append hnd (List.nodup_singleton _)
            (by
              intro x hx hx2
              rw [List.mem_singleton] at hx2
              exact hnot (hx2 ▸ hx))

/-- C36, witness: the pair (index 3, isLocal true) added to the frame of an empty
script, which has no descriptors. -/
theorem C36_addUpvalue_deduplicates_witness :
    emptyScript.compilers.get? 0 = some emptyScript.frame ∧
    addUpvalue 0 3 true emptyScript = .ok (emptyScript.frame.function.upvalueCount : Int)
      { emptyScript with
        compilers := emptyScript.compilers.set 0 (emptyScript.frame.withUpvalue ⟨3, true⟩) } :=
  ⟨by decide!,
   ((C36_addUpvalue_deduplicates 0 3 true emptyScript emptyScript.frame (by decide!)).2.1
      (by decide!) (by decide!)).1⟩

/-- C37: `captureUpvalue(slot)` in a state whose open-upvalue list `l` is
strictly decreasing by stack slot.  It returns an upvalue `u`; the list `l1`
afterwards is again strictly decreasing and its entries for `slot` are exactly
the one entry `u`.  When `l` already had an entry for `slot`, that entry is the
one returned and neither the state nor the list changes; otherwise `u` is a
new object and `l1` is `l` with the one entry `(u, slot)` inserted, the other
entries in their order. -/
theorem C37_captureUpvalue_keeps_the_list_decreasing (slot : Nat) (s : St)
    (l : List (Nat × Nat)) (hlist : s.openUpvalues = some l) (hs : decreasingSlots l) :
    ∃ u s1 l1, captureUpvalue slot s = .ok u s1 ∧ s1.openUpvalues = some l1 ∧
      decreasingSlots l1 ∧
      l1.filter (fun e => decide (e.2 = slot)) = [(u, slot)] ∧
      ((∃ r, (r, slot) ∈ l) → (u, slot) ∈ l ∧ s1 = s ∧ l1 = l) ∧
      ((∀ r, (r, slot) ∉ l) → u = s.vm.heap.length ∧
        ∃ before after, l = before ++ after ∧ l1 = before ++ (u, slot) :: after) := by
  obtain ⟨hlen, hseg⟩ := (openList_iff _ _ _ _).mp hlist
  obtain ⟨before, after, hl, hb, ha, hw⟩ :=
    captureWalk_split slot s l (s.vm.heap.length + 1) none s.vm.openUpvalues hseg hlen
  subst hl
  obtain ⟨mid, hseg1, hseg2⟩ := (seg_append _ _ _ _ _).mp hseg
  have hmid := seg_head _ _ _ hseg2
  subst hmid
  have hnd := seg_nodup _ _ _ _ hseg hs
  -- the case in which a new upvalue is created
  have hcreate : (∀ e ∈ after, e.2 < slot) →
      (∀ u, after.head?.map Prod.fst = some u → ∃ sl closed next, sl ≠ slot ∧
        s.vm.heap.get? u = some (.upvalue (.stack sl) closed next)) →
      ∃ u s1 l1, captureUpvalue slot s = .ok u s1 ∧ s1.openUpvalues = some l1 ∧
        decreasingSlots l1 ∧
        l1.filter (fun e => decide (e.2 = slot)) = [(u, slot)] ∧
        ((∃ r, (r, slot) ∈ before ++ after) → (u, slot) ∈ before ++ after ∧ s1 = s ∧
          l1 = before ++ after) ∧
        ((∀ r, (r, slot) ∉ before ++ after) → u = s.vm.heap.length ∧
          ∃ b a, before ++ after = b ++ a ∧ l1 = b ++ (u, slot) :: a) := by
    intro hbelow hu
    obtain ⟨s1, hrun, hlen1, hseg3⟩ :=
      captureUpvalue_create slot s before after _ hseg1 hseg2 hw hu hnd
    refine ⟨s.vm.heap.length, s1, before ++ (s.vm.heap.length, slot) :: after, hrun, ?_,
      decreasing_insert _ _ _ _ hs hb hbelow, filter_slot _ _ _ _ hb hbelow, ?_, ?_⟩
    · refine (openList_iff _ _ _ _).mpr ⟨?_, hseg3⟩
      rw [hlen1]
      simp only [List.length_append, List.length_cons] at hlen ⊢
      omega
    · rintro ⟨r, hr⟩
      rcases List.mem_append.mp hr with h | h
      · exact absurd (hb _ h) (Nat.lt_irrefl _)
      · exact absurd (hbelow _ h) (Nat.lt_irrefl _)
    · intro _
      exact ⟨rfl, before, after, rfl, rfl⟩
  cases after with
  | nil => exact hcreate (fun e he => absurd he (List.not_mem_nil _)) (fun u hu => by simp at hu)
  | cons x rest =>
    obtain ⟨u, su⟩ := x
    obtain ⟨_, closed, next, hg, _⟩ := hseg2
    have hrest := decreasing_tail_below before rest (u, su) hs
    by_cases hsu : su = slot
    · subst hsu
      refine ⟨u, s, before ++ (u, su) :: rest, captureUpvalue_found su u s _ closed next hw hg,
        hlist, hs, filter_slot _ _ _ _ hb hrest, ?_, ?_⟩
      · intro _
        exact ⟨List.mem_append_right _ (List.mem_cons_self _ _), rfl, rfl⟩
      · intro hno
        exact absurd (List.mem_append_right _ (List.mem_cons_self _ _)) (hno u)
    · have hle := ha (u, su) rfl
      simp only at hle
      refine hcreate ?_ ?_
      · intro e he
        rcases List.mem_cons.mp he with heq | hin
        · subst heq
          simp only
          omega
        · have := hrest e hin
          simp only at this
          omega
      · intro u2 hu2
        simp only [List.head?_cons, Option.map_some', Option.some.injEq] at hu2
        subst hu2
        exact ⟨su, closed, next, hsu, hg⟩

/-- C37, witness: slot 2 captured when the list holds upvalues for the slots 3
and 1. -/
theorem C37_captureUpvalue_keeps_the_list_decreasing_witness :
    (capturing [3, 1] freshVM).openUpvalues = some [(3, 3), (4, 1)] ∧
    ∃ u s1 l1, captureUpvalue 2 (capturing [3, 1] freshVM) = .ok u s1 ∧
      s1.openUpvalues = some l1 ∧ decreasingSlots l1 ∧
      l1.filter (fun e => decide (e.2 = 2)) = [(u, 2)] ∧
      ∃ before after, [(3, 3), (4, 1)] = before ++ after ∧ l1 = before ++ (u, 2) :: after := by
  refine ⟨by decide!, ?_⟩
  obtain ⟨u, s1, l1, h1, h2, h3, h4, _, h6⟩ :=
    C37_captureUpvalue_keeps_the_list_decreasing 2 (capturing [3, 1] freshVM) [(3, 3), (4, 1)]
      (by decide!) (by decide)
  exact ⟨u, s1, l1, h1, h2, h3, h4, (h6 (fun r hr => by simp at hr)).2⟩

/-- C38: `closeUpvalues(last)` in a state whose open-upvalue list `l` is
strictly decreasing by stack slot.  The list splits as `removed ++ kept`; the
list afterwards is `kept`, all of whose entries refer to slots below `last`
and are the same objects as before; every entry of `l` for a slot at or above
`last` is among `removed`, is no longer in the list, and is now a closed
upvalue whose cell holds the value its slot had when `closeUpvalues` was
called, whatever the stack holds later.  The stack itself is not changed. -/
theorem C38_closeUpvalues_closes_the_slots_from_last (last : Nat) (s : St)
    (l : List (Nat × Nat)) (hlist : s.openUpvalues = some l) (hs : decreasingSlots l) :
    ∃ s1 removed kept, closeUpvalues last s = .ok () s1 ∧ l = removed ++ kept ∧
      s1.openUpvalues = some kept ∧
      (∀ e ∈ kept, e.2 < last) ∧
      (∀ e ∈ l, last ≤ e.2 → e ∈ removed ∧ e ∉ kept ∧ ∃ next, ∀ stack : List Value,
        ({ s1 with vm := { s1.vm with stack := stack } } : St).vm.heap.get? e.1
          = some (.upvalue .closed (s.vm.slot e.2) next)) ∧
      (∀ e ∈ kept, s1.vm.heap.get? e.1 = s.vm.heap.get? e.1) ∧
      s1.vm.stack = s.vm.stack := by
  obtain ⟨hlen, hseg⟩ := (openList_iff _ _ _ _).mp hlist
  have hnd := seg_nodup _ _ _ _ hseg hs
  obtain ⟨s1, removed, kept, hrun, hl, hrem, hkept, hlen1, hseg1, hclosed, hother, hs1⟩ :=
    closeUpvaluesLoop_split last l (s.vm.heap.length + 1) s hseg hs hlen
  subst hl
  have hbelow : ∀ e ∈ kept, e.2 < last := by
    cases kept with
    | nil => exact fun e he => absurd he (List.not_mem_nil _)
    | cons x rest =>
      have hx := hkept x rfl
      have hrest := decreasing_tail_below removed rest x hs
      intro e he
      rcases List.mem_cons.mp he with heq | hin
      · subst heq
        exact hx
      · exact Nat.lt_trans (hrest e hin) hx
  refine ⟨s1, removed, kept, ?_, rfl, ?_, hbelow, ?_, ?_, ?_⟩
  · simp only [closeUpvalues, bind, M.bind, getSt]
    exact hrun
  · refine (openList_iff _ _ _ _).mpr ⟨?_, hseg1⟩
    rw [hlen1]
    simp only [List.length_append] at hlen
    omega
  · intro e he hle
    have hin : e ∈ removed := by
      rcases List.mem_append.mp he with h | h
      · exact h
      · exact absurd (hbelow e h) (by omega)
    refine ⟨hin, fun h => absurd (hbelow e h) (by omega), ?_⟩
    obtain ⟨next, hn⟩ := hclosed e hin
    exact ⟨next, fun _ => hn⟩
  · intro e he
    apply hother
    intro hin
    rw [List.map_append] at hnd
    exact (List.nodup_append.mp hnd).2.2 hin (List.mem_map_of_mem _ he)
  · rw [hs1]

/-- C38, witness: `closeUpvalues(2)` when the stack holds 10, 20, 30 in the slots
1, 2, 3 and the list holds upvalues for the slots 3, 2 and 1. -/
theorem C38_closeUpvalues_closes_the_slots_from_last_witness :
    (capturing [3, 1, 2] (afterSteps 3 (loaded [OpCode.OP_CONSTANT_INT.byte, 0,
      OpCode.OP_CONSTANT_INT.byte, 1, OpCode.OP_CONSTANT_INT.byte, 2, OpCode.OP_RETURN.byte]
      [.inl (.int 10), .inl (.int 20), .inl (.int 30)]))).openUpvalues
      = some [(5, 3), (7, 2), (6, 1)] ∧
    ∃ s1 removed kept,
      closeUpvalues 2 (capturing [3, 1, 2] (afterSteps 3 (loaded [OpCode.OP_CONSTANT_INT.byte, 0,
        OpCode.OP_CONSTANT_INT.byte, 1, OpCode.OP_CONSTANT_INT.byte, 2, OpCode.OP_RETURN.byte]
        [.inl (.int 10), .inl (.int 20), .inl (.int 30)]))) = .ok () s1 ∧
      [(5, 3), (7, 2), (6, 1)] = removed ++ kept ∧ s1.openUpvalues = some kept ∧
      (∀ e ∈ kept, e.2 < 2) ∧
      ∃ next, s1.vm.heap.get? 7 = some (.upvalue .closed (.int 20) next) := by
  refine ⟨by decide!, ?_⟩
  obtain ⟨s1, removed, kept, h1, h2, h3, h4, h5, _⟩ :=
    C38_closeUpvalues_closes_the_slots_from_last 2
      (capturing [3, 1, 2] (afterSteps 3 (loaded [OpCode.OP_CONSTANT_INT.byte, 0,
        OpCode.OP_CONSTANT_INT.byte, 1, OpCode.OP_CONSTANT_INT.byte, 2, OpCode.OP_RETURN.byte]
        [.inl (.int 10), .inl (.int 20), .inl (.int 30)])))
      [(5, 3), (7, 2), (6, 1)] (by decide!) (by decide)
  obtain ⟨_, _, next, hn⟩ := h5 (7, 2) (by simp) (Nat.le_refl 2)
  refine ⟨s1, removed, kept, h1, h2, h3, h4, next, ?_⟩
  have h20 : (capturing [3, 1, 2] (afterSteps 3 (loaded [OpCode.OP_CONSTANT_INT.byte, 0,
        OpCode.OP_CONSTANT_INT.byte, 1, OpCode.OP_CONSTANT_INT.byte, 2, OpCode.OP_RETURN.byte]
        [.inl (.int 10), .inl (.int 20), .inl (.int 30)]))).vm.slot 2 = .int 20 := by decide!
  exact h20 ▸ hn s1.vm.stack

/-- C39, counterexample: `OP_DIVIDE_INT` with the int operands -2147483648 and
-1, a divisor that is not 0, pushes nothing: the quotient 2147483648 is
outside the range of `int`, and its conversion is undefined. -/
theorem C39_counterexample :
    (runChunk plainHost 50
      [OpCode.OP_CONSTANT_INT.byte, 0, OpCode.OP_CONSTANT_INT.byte, 1,
       OpCode.OP_DIVIDE_INT.byte, OpCode.OP_PRINT.byte, OpCode.OP_NIL.byte,
       OpCode.OP_RETURN.byte] [.inl (.int INT_MIN), .inl (.int (-1))] freshVM).undefined?
      = some "conversion of a double outside the range of int" ∧
    (runChunk plainHost 50
      [OpCode.OP_CONSTANT_INT.byte, 0, OpCode.OP_CONSTANT_INT.byte, 1,
       OpCode.OP_DIVIDE_INT.byte, OpCode.OP_PRINT.byte, OpCode.OP_NIL.byte,
       OpCode.OP_RETURN.byte] [.inl (.int INT_MIN), .inl (.int (-1))] freshVM).log = [] ∧
    (interpret plainHost 200 (bytes "print (0 - 2147483647 - 1) / (0 - 1);")
      freshVM).undefined? = some "conversion of a double outside the range of int" := by
  decide!

/-- C39 (amended): with the ints `a` (below) and `b` (on top) as the two topmost
stack values, `OP_ADD_INT`, `OP_SUBTRACT_INT` and `OP_MULTIPLY_INT` replace
them by the int `a + b`, `a - b`, `a * b` whenever that number lies in the
range of `int`, and `OP_DIVIDE_INT` with `b` not 0 replaces them by the
quotient truncated toward zero whenever that quotient lies in the range of
`int` (7 / 2 is 3, -7 / 2 is -3); the stack is one value lower and the loop
goes on.  When one of the two topmost values is not an int, each of the four
raises the runtime error of `BINARY_OP_INT`: the message is written, and
`run` returns `INTERPRET_RUNTIME_ERROR` where `runtimeError` can write its
backtrace (where it cannot, what follows the message is undefined). -/
theorem C39_int_arithmetic_in_range (host : Host) (frame : Nat) (s : St) (a b : Int)
    (htop : 2 ≤ s.vm.stackTop) (hmax : s.vm.stackTop ≤ STACK_MAX)
    (ha : s.vm.slot (s.vm.stackTop - 2) = .int a)
    (hb : s.vm.slot (s.vm.stackTop - 1) = .int b) :
    (INT_MIN ≤ a + b ∧ a + b ≤ INT_MAX →
      execute host frame .OP_ADD_INT s = .ok (.inl frame) (s.withResult (.int (a + b)))) ∧
    (INT_MIN ≤ a - b ∧ a - b ≤ INT_MAX →
      execute host frame .OP_SUBTRACT_INT s = .ok (.inl frame) (s.withResult (.int (a - b)))) ∧
    (INT_MIN ≤ a * b ∧ a * b ≤ INT_MAX →
      execute host frame .OP_MULTIPLY_INT s = .ok (.inl frame) (s.withResult (.int (a * b)))) ∧
    (b ≠ 0 → INT_MIN ≤ Int.tdiv a b ∧ Int.tdiv a b ≤ INT_MAX →
      execute host frame .OP_DIVIDE_INT s
        = .ok (.inl frame) (s.withResult (.int (Int.tdiv a b)))) ∧
    Int.tdiv 7 2 = 3 ∧ Int.tdiv (-7) 2 = -3 ∧
    (∀ v, (s.withResult v).vm.stackTop = s.vm.stackTop - 1 ∧
      (s.withResult v).vm.slot (s.vm.stackTop - 2) = v ∧ (s.withResult v).log = s.log) ∧
    (∀ s2 : St, 2 ≤ s2.vm.stackTop →
      IS_INT (s2.vm.slot (s2.vm.stackTop - 1)) = false ∨
        IS_INT (s2.vm.slot (s2.vm.stackTop - 2)) = false →
      ∀ op ∈ [OpCode.OP_ADD_INT, .OP_SUBTRACT_INT, .OP_MULTIPLY_INT, .OP_DIVIDE_INT],
        execute host frame op s2
          = s2.raise "From BINARY_OP_INT. Operands must be numbers." []
              (.inr .INTERPRET_RUNTIME_ERROR)) ∧
    (∀ (s2 : St) format args,
      (s2.raise format args (Sum.inr InterpretResult.INTERPRET_RUNTIME_ERROR : Nat ⊕ InterpretResult)).log
        = s2.log ++ [.runtimeError format args (backtrace s2.vm s2.vm.liveFrames).1] ∧
      (s2.tracesBack = true →
        s2.raise format args (Sum.inr InterpretResult.INTERPRET_RUNTIME_ERROR : Nat ⊕ InterpretResult)
          = .ok (.inr .INTERPRET_RUNTIME_ERROR) (s2.afterRuntimeError format args)) ∧
      (s2.tracesBack = false →
        s2.raise format args (Sum.inr InterpretResult.INTERPRET_RUNTIME_ERROR : Nat ⊕ InterpretResult)
          = .undefinedBehaviour "read outside chunk.lines" (s2.afterMessage format args))) := by
  refine ⟨?_, ?_, ?_, ?_, by decide, by decide, ?_, ?_,
    fun s2 format args => ⟨raise_log format args _ s2, raise_cases format args _ s2⟩⟩
  · intro h
    simp only [execute, bind, M.bind,
      binaryOpInt_ints (fun a b => intOfDouble (a + b)) s a b (.int (a + b)) htop hmax
        ha hb (intOfDouble_ok (a + b) h), pure, M.pure]
  · intro h
    simp only [execute, bind, M.bind,
      binaryOpInt_ints (fun a b => intOfDouble (a - b)) s a b (.int (a - b)) htop hmax
        ha hb (intOfDouble_ok (a - b) h), pure, M.pure]
  · intro h
    simp only [execute, bind, M.bind,
      binaryOpInt_ints (fun a b => intOfDouble (a * b)) s a b (.int (a * b)) htop hmax
        ha hb (intOfDouble_ok (a * b) h), pure, M.pure]
  · intro hb0 h
    have hd : ∀ s1, divideInt a b s1 = .ok (.int (Int.tdiv a b)) s1 := by
      intro s1
      simp only [divideInt, hb0, if_false, intOfDouble_ok _ h]
    simp only [execute, bind, M.bind, binaryOpInt_ints divideInt s a b (.int (Int.tdiv a b)) htop hmax ha hb hd, pure,
      M.pure]
  · intro v
    exact ⟨rfl, storeSlot_get _ _ _, rfl⟩
  · intro s2 h2 hnot op hop
    simp only [List.mem_cons, List.mem_singleton, List.not_mem_nil, or_false] at hop
    rcases Bool.eq_false_or_eq_true s2.tracesBack with ht | ht <;>
      rcases hop with e | e | e | e <;> subst e <;>
      simp only [execute, bind, M.bind, binaryOpInt_not_ints _ s2 h2 hnot, St.raise, ht,
        if_true, Bool.false_eq_true, if_false, pure, M.pure]

/-- C39, witness: `OP_ADD_INT` on 7 and 2, the constants of a chunk, after the
two loads. -/
theorem C39_int_arithmetic_in_range_witness :
    execute plainHost 0 .OP_ADD_INT
        (afterSteps 2 (loaded [OpCode.OP_CONSTANT_INT.byte, 0, OpCode.OP_CONSTANT_INT.byte, 1,
          OpCode.OP_ADD_INT.byte, OpCode.OP_RETURN.byte] [.inl (.int 7), .inl (.int 2)]))
      = .ok (.inl 0)
        ((afterSteps 2 (loaded [OpCode.OP_CONSTANT_INT.byte, 0, OpCode.OP_CONSTANT_INT.byte, 1,
          OpCode.OP_ADD_INT.byte, OpCode.OP_RETURN.byte]
          [.inl (.int 7), .inl (.int 2)])).withResult (.int (7 + 2))) :=
  (C39_int_arithmetic_in_range plainHost 0
    (afterSteps 2 (loaded [OpCode.OP_CONSTANT_INT.byte, 0, OpCode.OP_CONSTANT_INT.byte, 1,
      OpCode.OP_ADD_INT.byte, OpCode.OP_RETURN.byte] [.inl (.int 7), .inl (.int 2)]))
    7 2 (by decide!) (by decide!) (by decide!) (by decide!)).1 (by decide)

/-- C40 (the code departs from the claim): on the source that consists of one
double quote (length 1, the terminator at offset 1) the first `scanToken`
returns the error token `Unterminated string.` and leaves `scanner.current` at
offset 2, behind the terminator: `string()` begins with an `advance()` of its
own, after `scanToken` has consumed the quote, and steps over the terminator
before the loop tests for it.  On the source `""` the same `advance()` steps
over the closing quote, and the empty string literal is reported as
unterminated. -/
theorem C40_string_steps_over_the_terminator :
    (bytes "\"").length = 1 ∧
    (scanToken (initScanner (bytes "\""))).1.type = .TOKEN_ERROR ∧
    (scanToken (initScanner (bytes "\""))).1.lexeme = bytes "Unterminated string." ∧
    (scanToken (initScanner (bytes "\""))).2.current = 2 ∧
    (scanToken (initScanner (bytes "\"\""))).1.type = .TOKEN_ERROR ∧
    (scanToken (initScanner (bytes "\"\""))).1.lexeme = bytes "Unterminated string." ∧
    (scanToken (initScanner (bytes "\"\""))).2.current = 2 := by
  decide!

end Sclox
